import Mathlib

/-!
# iSCSI target core (iscsi-scst/kernel/iscsi.c): sequence numbers and R2T flow control

A shallow embedding of the sequence-number engine (`check_cmd_sn`,
`cmnd_set_sn`, `cmnd_tx_start`, `iscsi_push_cmnd`), of the R2T engine
(`cmnd_rx_continue`, `send_r2t`, `data_out_start`, `data_out_end`,
`iscsi_cmnd_exec`), of the data-wait hash, of the response path
(`send_data_rsp`, `iscsi_set_resid`, `iscsi_xmit_response`), of the read
iovec set-up (`cmnd_prepare_recv_pdu`), of task management (`__cmnd_abort`,
`cmnd_abort`, `task_set_abort`, `execute_task_management`,
`iscsi_send_task_mgmt_resp`, `iscsi_task_mgmt_fn_done`) and of the start of
the reception of a PDU (`cmnd_rx_start`, `create_reject_rsp`,
`cmnd_read_size`) of `iscsi.c`.

Conventions.
* `u32` fields are natural numbers below `2 ^ 32`; every C operation that can
  wrap is written with an explicit `% 2 ^ 32`.
* Pointers to commands become values (in the task-management functions that
  walk the command list of a connection: addresses into a store); calls that
  leave the modelled state
  (`iscsi_cmnd_exec` seen from the reorder queue, `req_cmnd_release_force`,
  `iscsi_cmnd_init_write`, `scst_restart_cmd`) are recorded as events, in
  program order.
* `prelim_compl_flags` is a bit set with the two bits `ISCSI_CMD_ABORTED` and
  `ISCSI_CMD_PRELIM_COMPLETED`; it is kept as two booleans, and the test
  `prelim_compl_flags != 0` is their disjunction.
-/

namespace IscsiScst

/-! ## Machine arithmetic -/

/-- The modulus of `u32` arithmetic. -/
def U32_MOD : Nat := 2 ^ 32

/-- The C subtraction `a - b` on `u32` operands. -/
def sub32 (a b : Nat) : Nat := (a + (U32_MOD - b % U32_MOD)) % U32_MOD

/-- The C addition `a + b` on `u32` operands. -/
def add32 (a b : Nat) : Nat := (a + b) % U32_MOD

/-- The conversion `(s32)x` of a `u32` value: values from `2 ^ 31` on are
negative. -/
def to_s32 (x : Nat) : Int :=
  if x % U32_MOD < 2 ^ 31 then ((x % U32_MOD : Nat) : Int)
  else ((x % U32_MOD : Nat) : Int) - (U32_MOD : Int)

/-- The conversion of a C `int` to `u32` (reduction modulo `2 ^ 32`). -/
def of_int32 (x : Int) : Nat := (x % (U32_MOD : Int)).toNat

/-- Modelled from the spec: the serial-number comparison `before(seq1, seq2)`
used by `iscsi.c` comes from the kernel header `net/tcp.h`, which is not part
of the sources; it is `(__s32)(seq1 - seq2) < 0`, the 32-bit serial arithmetic
the specification refers to. -/
def before (seq1 seq2 : Nat) : Bool := decide (to_s32 (sub32 seq1 seq2) < 0)

/-! ## Protocol constants (RFC 3720 values, as listed in the specification) -/

def ISCSI_OP_IMMEDIATE : Nat := 0x40
def ISCSI_OPCODE_MASK : Nat := 0x3F
def ISCSI_OP_NOP_OUT : Nat := 0x00
def ISCSI_OP_SCSI_CMD : Nat := 0x01
def ISCSI_OP_SCSI_TASK_MGT_MSG : Nat := 0x02
def ISCSI_OP_LOGOUT_CMD : Nat := 0x06
def ISCSI_OP_SCSI_DATA_OUT : Nat := 0x05
def ISCSI_OP_NOP_IN : Nat := 0x20
def ISCSI_OP_SCSI_RSP : Nat := 0x21
def ISCSI_OP_SCSI_TASK_MGT_RSP : Nat := 0x22
def ISCSI_OP_TEXT_RSP : Nat := 0x24
def ISCSI_OP_SCSI_DATA_IN : Nat := 0x25
def ISCSI_OP_LOGOUT_RSP : Nat := 0x26
def ISCSI_OP_R2T : Nat := 0x31
def ISCSI_OP_ASYNC_MSG : Nat := 0x32
def ISCSI_OP_REJECT : Nat := 0x3f
def ISCSI_FLG_FINAL : Nat := 0x80
def ISCSI_CMD_FINAL : Nat := 0x80
def ISCSI_RESERVED_TAG : Nat := 0xffffffff
def ISCSI_REASON_PROTOCOL_ERROR : Int := 0x04
def EINVAL : Int := 22
def ISCSI_FLG_STATUS : Nat := 0x01
def ISCSI_FLG_RESIDUAL_UNDERFLOW : Nat := 0x02
def ISCSI_FLG_RESIDUAL_OVERFLOW : Nat := 0x04
def ISCSI_FLG_BIRESIDUAL_UNDERFLOW : Nat := 0x08
def ISCSI_FLG_BIRESIDUAL_OVERFLOW : Nat := 0x10
def ISCSI_CMD_WRITE : Nat := 0x20
def ISCSI_CMD_READ : Nat := 0x40
def ISCSI_RESPONSE_COMMAND_COMPLETED : Nat := 0x00
def SAM_STAT_CHECK_CONDITION : Nat := 0x02

/-! ## Data model -/

/-- The part of `struct iscsi_pdu` the engine reads: the basic header segment
fields (in CPU byte order) and `datasize`. For a SCSI command `data_length` is
the expected data transfer length; for a Data-Out PDU `buffer_offset` is used. -/
structure iscsi_pdu where
  opcode : Nat := 0
  flags : Nat := 0
  itt : Nat := 0
  sn : Nat := 0
  exp_sn : Nat := 0
  max_sn : Nat := 0
  data_length : Nat := 0
  buffer_offset : Nat := 0
  datasize : Nat := 0
  lun : Nat := 0
  function : Nat := 0
  rtt : Nat := 0
  ref_cmd_sn : Nat := 0
  deriving DecidableEq, Repr

/-- The fields of `struct iscsi_cmnd` of a request that the sequence-number
and R2T engines use. The default value is the request that
`cmnd_alloc(conn, NULL)` returns: zeroed, with `ref_cnt = 1` and
`target_task_tag = ISCSI_RESERVED_TAG`. -/
structure iscsi_cmnd where
  pdu : iscsi_pdu := {}
  aborted : Bool := false
  prelim_completed : Bool := false
  pending : Bool := false
  hashed : Bool := false
  has_scst_cmd : Bool := false
  r2t_sn : Nat := 0
  r2t_len_to_receive : Nat := 0
  r2t_len_to_send : Nat := 0
  outstanding_r2t : Nat := 0
  target_task_tag : Nat := ISCSI_RESERVED_TAG
  on_write_timeout_list : Bool := false
  read_size : Nat := 0
  bufflen : Nat := 0
  ref_cnt : Nat := 1
  deriving DecidableEq, Repr

/-- The test `cmnd->prelim_compl_flags != 0`. -/
def prelim_compl_flags_set (c : iscsi_cmnd) : Bool := c.aborted || c.prelim_completed

/-- The header accessor `cmnd_opcode`: the opcode without the immediate bit. -/
def cmnd_opcode (c : iscsi_cmnd) : Nat := c.pdu.opcode &&& ISCSI_OPCODE_MASK

/-- The test `cmnd->pdu.bhs.opcode & ISCSI_OP_IMMEDIATE`. -/
def is_immediate (c : iscsi_cmnd) : Bool := decide (c.pdu.opcode &&& ISCSI_OP_IMMEDIATE ≠ 0)

/-- A task-management response waiting in `sess->tm_rsp`: the fields of the
response and the `cmd_sn` of its parent request, which
`iscsi_is_delay_tm_resp` reads through `rsp->parent_req`. -/
structure tm_response where
  opcode : Nat := 0
  flags : Nat := 0
  itt : Nat := 0
  response : Nat := 0
  req_cmd_sn : Nat := 0
  should_close_conn : Bool := false
  should_close_all_conn : Bool := false
  deriving DecidableEq, Repr

/-- The task-management fields of `struct iscsi_session`. -/
structure tm_state where
  tm_active : Int := 0
  tm_sn : Nat := 0
  tm_rsp : Option tm_response := none
  deriving DecidableEq, Repr

/-- The negotiated parameters `sess->sess_params` used by the R2T engine. -/
structure iscsi_sess_params where
  initial_r2t : Bool := false
  immediate_data : Bool := false
  first_burst_length : Nat := 0
  max_burst_length : Nat := 0
  max_outstanding_r2t : Nat := 0
  max_xmit_data_length : Nat := 0
  max_recv_data_length : Nat := 0
  deriving DecidableEq, Repr

/-- The fields of `struct iscsi_session` used by the sequence-number and R2T
engines. The data-wait hash is kept as the list of its entries in insertion
order: entries with equal ITT fall in the same bucket and keep their relative
order, so a lookup by ITT finds the same entry. -/
structure iscsi_session where
  exp_cmd_sn : Nat := 0
  pending_list : List iscsi_cmnd := []
  tm : tm_state := {}
  active_cmds : Int := 0
  queued_cmnds : Nat := 0
  sess_params : iscsi_sess_params := {}
  next_ttt : Nat := 0
  cmnd_data_wait_hash : List iscsi_cmnd := []
  deriving DecidableEq, Repr

/-- The status sequence number of `struct iscsi_conn`. -/
structure iscsi_conn where
  stat_sn : Nat := 0
  deriving DecidableEq, Repr

/-- The three call sites of `iscsi_cmnd_exec` in `iscsi_push_cmnd`. -/
inductive exec_site where
  | immediate
  | in_order
  | aborted_original
  deriving DecidableEq, Repr

/-- What `iscsi_push_cmnd` hands to the rest of the engine, in program order. -/
inductive push_event where
  | exec (site : exec_site) (c : iscsi_cmnd)
  | release_force (c : iscsi_cmnd)
  | init_write (rsp : tm_response)
  deriving DecidableEq, Repr

/-- The command of an `iscsi_cmnd_exec` event. -/
def push_event.executed : push_event → Option iscsi_cmnd
  | .exec _ c => some c
  | _ => none

/-- The command of an `iscsi_cmnd_exec` event at the in-order call site. -/
def push_event.executed_in_order : push_event → Option iscsi_cmnd
  | .exec .in_order c => some c
  | _ => none

/-! ## Sequence-number engine -/

/-- The function `check_cmd_sn`: `0` when `(s32)(cmd_sn - exp_cmd_sn) >= 0`,
else `-ISCSI_REASON_PROTOCOL_ERROR`. -/
def check_cmd_sn (session : iscsi_session) (cmnd : iscsi_cmnd) : Int :=
  if to_s32 (sub32 cmnd.pdu.sn session.exp_cmd_sn) ≥ 0 then 0
  else -ISCSI_REASON_PROTOCOL_ERROR

/-- The effect of `__cmnd_abort` on the command: the `ISCSI_CMD_ABORTED` bit is
set (the connection flag and timer it also touches are not part of this model). -/
def cmnd_abort_mark (cmnd : iscsi_cmnd) : iscsi_cmnd := { cmnd with aborted := true }

/-- The function `iscsi_is_delay_tm_resp`: every function code takes the
`default` branch. -/
def iscsi_is_delay_tm_resp (exp_cmd_sn : Nat) (rsp : tm_response) : Bool :=
  before exp_cmd_sn rsp.req_cmd_sn

/-- The function `iscsi_check_send_delayed_tm_resp`: returns the new
task-management fields and the response put on the write list, if any. -/
def iscsi_check_send_delayed_tm_resp (exp_cmd_sn : Nat) (tm : tm_state) :
    tm_state × List push_event :=
  match tm.tm_rsp with
  | none => (tm, [])
  | some rsp =>
    if iscsi_is_delay_tm_resp exp_cmd_sn rsp then (tm, [])
    else ({ tm with tm_rsp := none, tm_active := tm.tm_active - 1 }, [.init_write rsp])

/-- One pass through the body of the `while (1)` loop of `iscsi_push_cmnd`, up
to and including `iscsi_cmnd_exec(cmnd)`: `exp_cmd_sn = ++cmd_sn`, the
task-management branch, the execution. `exec` is the effect of
`iscsi_cmnd_exec` on the task-management fields (it never writes `exp_cmd_sn`
or `pending_list`). Returns the new `cmd_sn`, the task-management fields and
the events. -/
def push_exec_one (exec : iscsi_cmnd → tm_state → tm_state) (cmnd : iscsi_cmnd) (cmd_sn : Nat)
    (tm : tm_state) : Nat × tm_state × List push_event :=
  let cmd_sn1 := add32 cmd_sn 1
  let marked := if tm.tm_active > 0 ∧ before cmd_sn1 tm.tm_sn then cmnd_abort_mark cmnd else cmnd
  let sent := if tm.tm_active > 0 then iscsi_check_send_delayed_tm_resp cmd_sn1 tm else (tm, [])
  (cmd_sn1, exec marked sent.1, sent.2 ++ [.exec .in_order marked])

/-- The `while (1)` loop of `iscsi_push_cmnd`, entered with the pending list,
the command to execute, its `cmd_sn` and the task-management fields. Returns
the last value stored in `exp_cmd_sn`, the remaining pending list, the
task-management fields and the events. -/
def push_drain (exec : iscsi_cmnd → tm_state → tm_state) :
    List iscsi_cmnd → iscsi_cmnd → Nat → tm_state →
      Nat × List iscsi_cmnd × tm_state × List push_event
  | [], cmnd, cmd_sn, tm =>
    let one := push_exec_one exec cmnd cmd_sn tm
    (one.1, [], one.2.1, one.2.2)
  | next :: rest, cmnd, cmd_sn, tm =>
    let one := push_exec_one exec cmnd cmd_sn tm
    if next.pdu.sn ≠ one.1 then (one.1, next :: rest, one.2.1, one.2.2)
    else
      let r := push_drain exec rest { next with pending := false } one.1 one.2.1
      (r.1, r.2.1, r.2.2.1, one.2.2 ++ r.2.2.2)

/-- The `list_for_each` scan and `list_add_tail` of `iscsi_push_cmnd`: the
command is put before the first queued command whose CmdSN is after `cmd_sn`. -/
def pending_insert (cmd_sn : Nat) (cmnd : iscsi_cmnd) : List iscsi_cmnd → List iscsi_cmnd
  | [] => [cmnd]
  | tmp :: rest =>
    if before cmd_sn tmp.pdu.sn then cmnd :: tmp :: rest
    else tmp :: pending_insert cmd_sn cmnd rest

/-- The TM clone of `iscsi_push_cmnd`: a fresh command of
`cmnd_alloc(cmnd->conn, NULL)` (`ref_cnt = 1`, `target_task_tag =
ISCSI_RESERVED_TAG`, every other field zero) with the `ABORTED` bit and the
PDU of the original. -/
def tm_clone_of (cmnd : iscsi_cmnd) : iscsi_cmnd := { aborted := true, pdu := cmnd.pdu }

/-- The function `iscsi_push_cmnd`: the new session and the events, in order. -/
def iscsi_push_cmnd (exec : iscsi_cmnd → tm_state → tm_state) (session : iscsi_session)
    (cmnd : iscsi_cmnd) : iscsi_session × List push_event :=
  if is_immediate cmnd then
    ({ session with tm := exec cmnd session.tm }, [.exec .immediate cmnd])
  else
    let cmd_sn := cmnd.pdu.sn
    if cmd_sn = session.exp_cmd_sn then
      let r := push_drain exec session.pending_list cmnd cmd_sn session.tm
      ({ session with exp_cmd_sn := r.1, pending_list := r.2.1, tm := r.2.2.1 }, r.2.2.2)
    else if before cmd_sn session.exp_cmd_sn then
      (session, [.release_force cmnd])
    else if cmnd.aborted then
      let tm_clone := tm_clone_of cmnd
      ({ session with
          tm := exec cmnd session.tm,
          pending_list := pending_insert cmd_sn { tm_clone with pending := true }
            session.pending_list },
        [.exec .aborted_original cmnd])
    else
      ({ session with
          pending_list := pending_insert cmd_sn { cmnd with pending := true }
            session.pending_list }, [])

/-- A sequence of `iscsi_push_cmnd` calls (one per received request, as made by
`cmnd_rx_end`), with the events of all calls in order. -/
def push_all (exec : iscsi_cmnd → tm_state → tm_state) :
    iscsi_session → List iscsi_cmnd → iscsi_session × List push_event
  | session, [] => (session, [])
  | session, cmnd :: rest =>
    let r := iscsi_push_cmnd exec session cmnd
    let r2 := push_all exec r.1 rest
    (r2.1, r.2 ++ r2.2)

/-- The commands handed to `iscsi_cmnd_exec`, in order. -/
def executed_cmnds (evs : List push_event) : List iscsi_cmnd := evs.filterMap push_event.executed

/-- The commands handed to `iscsi_cmnd_exec` from the in-order loop of
`iscsi_push_cmnd` (the commands sequenced by CmdSN), in order. -/
def in_order_cmnds (evs : List push_event) : List iscsi_cmnd :=
  evs.filterMap push_event.executed_in_order

/-- A request with the given opcode byte and CmdSN. -/
def mk_req (opcode sn : Nat) : iscsi_cmnd := { pdu := { opcode := opcode, sn := sn } }

/-- Invariant of the reorder queue, relative to the ExpCmdSN `base` at which
the queue was empty: `done` are the PDUs of the commands pushed since then and
`L` the PDUs of those already handed to `iscsi_cmnd_exec`. The executed
commands are exactly those at the offsets below `L.length`; the queued ones lie
strictly beyond the current ExpCmdSN, inside the serial-number window, in
increasing order. -/
structure sn_inv (base : Nat) (s : iscsi_session) (done L : List iscsi_pdu) : Prop where
  exp_eq : s.exp_cmd_sn = add32 base L.length
  len_le : L.length ≤ 2 ^ 31
  exec_lt : ∀ q ∈ L, q.sn < 2 ^ 32 ∧ sub32 q.sn base < L.length
  exec_all : ∀ i, i < L.length → ∃ q ∈ L, q.sn = add32 base i
  pend_rng : ∀ p ∈ s.pending_list,
    p.pdu.sn < 2 ^ 32 ∧ L.length < sub32 p.pdu.sn base ∧ sub32 p.pdu.sn base < 2 ^ 31
  pend_sorted : s.pending_list.Pairwise (fun a b => sub32 a.pdu.sn base < sub32 b.pdu.sn base)
  accounted : ∀ q, q ∈ done ↔ q ∈ L ∨ q ∈ s.pending_list.map (fun c => c.pdu)

/-! ## R2T engine -/

def ISCSI_REASON_TASK_IN_PROGRESS : Int := 0x07

/-- The header of an R2T PDU built by `send_r2t`. -/
structure iscsi_r2t_hdr where
  itt : Nat
  ttt : Nat
  r2t_sn : Nat
  buffer_offset : Nat
  data_length : Nat
  deriving DecidableEq, Repr

/-- The data direction reported by `scst_cmd_get_data_direction`. -/
inductive scst_data_direction where
  | unknown
  | write
  | read
  | bidi
  | none
  deriving DecidableEq, Repr

/-- The test `dir & SCST_DATA_WRITE`. -/
def scst_data_direction.is_write : scst_data_direction → Bool
  | .write => true
  | .bidi => true
  | _ => false

/-- The sense data that the receive side loads with `SCST_LOAD_SENSE` when it
completes a request preliminarily. -/
inductive iscsi_sense where
  | incorrect_amount_of_data
  | unexpected_unsolicited_data
  | invalid_message
  | parameter_value_invalid
  deriving DecidableEq, Repr

/-- What the receive side hands on while it processes a request. -/
inductive rx_event where
  | r2t (hdr : iscsi_r2t_hdr)
  | scst_set_cmd_error (req : iscsi_cmnd) (sense : iscsi_sense)
  | reject_rsp (req : iscsi_cmnd) (reason : Int)
  | prelim_status_rsp (req : iscsi_cmnd) (status : Nat)
  | restart (req : iscsi_cmnd)
  | release (req : iscsi_cmnd)
  | mark_conn_closed
  | nop_out_exec (req : iscsi_cmnd)
  | execute_task_management (req : iscsi_cmnd)
  | logout_exec (req : iscsi_cmnd)
  | bug
  deriving DecidableEq, Repr

/-- The R2T header of an event, if it is one. -/
def rx_event.r2t_hdr : rx_event → Option iscsi_r2t_hdr
  | .r2t hdr => some hdr
  | _ => Option.none

/-- The test `flags & ISCSI_FLG_FINAL` (`ISCSI_CMD_FINAL` is the same bit). -/
def has_final (p : iscsi_pdu) : Bool := decide (p.flags &&& ISCSI_FLG_FINAL ≠ 0)

/-- The function `get_next_ttt`. -/
def get_next_ttt (session : iscsi_session) : Nat × iscsi_session :=
  let n := if session.next_ttt = ISCSI_RESERVED_TAG then add32 session.next_ttt 1
    else session.next_ttt
  (n, { session with next_ttt := add32 n 1 })

/-- The function `__cmnd_find_data_wait_hash`. -/
def cmnd_find_data_wait_hash (session : iscsi_session) (itt : Nat) : Option iscsi_cmnd :=
  session.cmnd_data_wait_hash.find? (fun c => decide (c.pdu.itt = itt))

/-- The function `cmnd_insert_data_wait_hash`: the session, the command and the
error code (`0` on success). -/
def cmnd_insert_data_wait_hash (session : iscsi_session) (cmnd : iscsi_cmnd) :
    iscsi_session × iscsi_cmnd × Int :=
  if cmnd.hashed then (session, cmnd, 0)
  else
    let t := get_next_ttt session
    let cmnd1 := { cmnd with target_task_tag := t.1 }
    if cmnd.pdu.itt = ISCSI_RESERVED_TAG then (t.2, cmnd1, -ISCSI_REASON_PROTOCOL_ERROR)
    else
      match cmnd_find_data_wait_hash t.2 cmnd.pdu.itt with
      | Option.none =>
        let cmnd2 := { cmnd1 with hashed := true }
        ({ t.2 with cmnd_data_wait_hash := t.2.cmnd_data_wait_hash ++ [cmnd2] }, cmnd2, 0)
      | some _ => (t.2, cmnd1, -ISCSI_REASON_TASK_IN_PROGRESS)

/-- One pass through the body of the `do ... while` loop of `send_r2t`: the
request after it, the next `offset` and the R2T built. -/
def send_r2t_body (burst : Nat) (req : iscsi_cmnd) (offset : Nat) :
    iscsi_cmnd × Nat × iscsi_r2t_hdr :=
  let big := decide (req.r2t_len_to_send > burst)
  let hdr : iscsi_r2t_hdr :=
    { itt := req.pdu.itt, ttt := req.target_task_tag, r2t_sn := req.r2t_sn,
      buffer_offset := offset,
      data_length := if big then burst else req.r2t_len_to_send }
  ({ req with
      r2t_sn := add32 req.r2t_sn 1,
      r2t_len_to_send := if big then req.r2t_len_to_send - burst else 0,
      outstanding_r2t := add32 req.outstanding_r2t 1 },
    if big then add32 offset burst else offset, hdr)

/-- The `do ... while` loop of `send_r2t`. The first argument bounds the number
of further passes; `send_r2t` supplies `max_outstanding_r2t`, which the loop
cannot exceed because every pass adds one to `outstanding_r2t`. -/
def send_r2t_loop (max_outstanding_r2t burst : Nat) :
    Nat → iscsi_cmnd → Nat → iscsi_cmnd × List iscsi_r2t_hdr
  | 0, req, offset =>
    let b := send_r2t_body burst req offset
    (b.1, [b.2.2])
  | fuel + 1, req, offset =>
    let b := send_r2t_body burst req offset
    if b.1.outstanding_r2t < max_outstanding_r2t ∧ b.1.r2t_len_to_send ≠ 0 then
      let r := send_r2t_loop max_outstanding_r2t burst fuel b.1 b.2.1
      (r.1, b.2.2 :: r.2)
    else (b.1, [b.2.2])

/-- The function `send_r2t`: the request and the R2Ts put on the write list,
in order. -/
def send_r2t (sess : iscsi_sess_params) (req : iscsi_cmnd) : iscsi_cmnd × List iscsi_r2t_hdr :=
  if req.outstanding_r2t = sess.max_outstanding_r2t then (req, [])
  else
    send_r2t_loop sess.max_outstanding_r2t sess.max_burst_length sess.max_outstanding_r2t req
      (sub32 req.pdu.data_length req.r2t_len_to_send)

/-- The function `iscsi_restart_cmnd`, as far as the R2T engine is concerned:
the request leaves the write-timeout list and the data-wait hash and is handed
on (to the SCSI mid-layer, or released when it is preliminarily completed);
the hand-over is recorded as an event. -/
def iscsi_restart_cmnd (cmnd : iscsi_cmnd) : iscsi_cmnd × List rx_event :=
  ({ cmnd with on_write_timeout_list := false, hashed := false }, [.restart cmnd])

/-- The function `iscsi_set_prelim_r2t_len_to_receive`. -/
def iscsi_set_prelim_r2t_len_to_receive (session : iscsi_session) (req : iscsi_cmnd) :
    iscsi_session × iscsi_cmnd × Int × List rx_event :=
  if has_final req.pdu then (session, req, 0, [])
  else
    let ins := cmnd_insert_data_wait_hash session req
    if ins.2.2 ≠ 0 then (ins.1, ins.2.1, ins.2.2, [.mark_conn_closed])
    else
      let req1 := ins.2.1
      let req2 := if req1.outstanding_r2t = 0 then
          { req1 with outstanding_r2t := 1, on_write_timeout_list := true }
        else req1
      (ins.1, { req2 with r2t_len_to_receive := 1, r2t_len_to_send := 0 }, 0, [])

/-- The function `iscsi_preliminary_complete(req, orig_req, get_data)`, returning
the new `orig_req`; `req` is only read. The preparation of the read buffer for
rejected immediate data (`get_data`) is not modelled. -/
def iscsi_preliminary_complete (session : iscsi_session) (req orig_req : iscsi_cmnd) :
    iscsi_session × iscsi_cmnd × Int × List rx_event :=
  let set_r2t_len := !req.hashed && decide (cmnd_opcode req = ISCSI_OP_SCSI_CMD) &&
    !orig_req.prelim_completed
  let orig1 := { orig_req with prelim_completed := true }
  if set_r2t_len then iscsi_set_prelim_r2t_len_to_receive session orig1
  else (session, orig1, 0, [])

/-- The function `set_scst_preliminary_status_rsp(req, get_data, sense)`: the
sense data is loaded into the SCSI command when the request has one (otherwise
an error is already set), then the request is preliminarily completed. -/
def set_scst_preliminary_status_rsp (session : iscsi_session) (req : iscsi_cmnd)
    (sense : iscsi_sense) : iscsi_session × iscsi_cmnd × Int × List rx_event :=
  let r := iscsi_preliminary_complete session req req
  (r.1, r.2.1, r.2.2.1,
    (if req.has_scst_cmd then [rx_event.scst_set_cmd_error req sense] else []) ++ r.2.2.2)

/-- The events that are R2Ts. -/
def r2t_events (hdrs : List iscsi_r2t_hdr) : List rx_event := hdrs.map rx_event.r2t

/-- The function `check_segment_length`. -/
def check_segment_length (session : iscsi_session) (cmnd : iscsi_cmnd) : Int × List rx_event :=
  if cmnd.pdu.datasize > session.sess_params.max_recv_data_length then
    (-EINVAL, [.mark_conn_closed])
  else (0, [])

/-- The call `res = cmnd_prepare_recv_pdu(...)` seen from its callers:
`prepare_res` is the value returned, and the function returns a value other
than `0` (it is `-EINVAL`) only after it has called `mark_conn_closed`. -/
def prepare_recv_events (prepare_res : Int) : List rx_event :=
  if prepare_res ≠ 0 then [.mark_conn_closed] else []

/-- The function `cmnd_rx_continue`. `dir` and `scst_prelim_completed` are what
the SCSI mid-layer reports for the command, `prepare_res` is the result of
`cmnd_prepare_recv_pdu` for the immediate data. Returns the session, the
request, the result code and the events. -/
def cmnd_rx_continue (session : iscsi_session) (req : iscsi_cmnd) (dir : scst_data_direction)
    (scst_prelim_completed : Bool) (prepare_res : Int) :
    iscsi_session × iscsi_cmnd × Int × List rx_event :=
  if scst_prelim_completed || prelim_compl_flags_set req then
    iscsi_preliminary_complete session req req
  else if dir.is_write then
    let unsolicited_data_expected := !has_final req.pdu
    if session.sess_params.initial_r2t && unsolicited_data_expected then
      (session, req, -EINVAL, [.mark_conn_closed])
    else if !session.sess_params.immediate_data && decide (req.pdu.datasize ≠ 0) then
      (session, req, -EINVAL, [.mark_conn_closed])
    else if session.sess_params.first_burst_length < req.pdu.datasize then
      (session, req, -EINVAL, [.mark_conn_closed])
    else
      let req1 := { req with r2t_len_to_receive := sub32 req.pdu.data_length req.pdu.datasize }
      let ins := cmnd_insert_data_wait_hash session req1
      if ins.2.2 ≠ 0 then (ins.1, ins.2.1, -EINVAL, [.mark_conn_closed])
      else
        let req2 := ins.2.1
        let req3 := if unsolicited_data_expected then
            { req2 with
                outstanding_r2t := 1,
                r2t_len_to_send := req2.r2t_len_to_receive -
                  min (sub32 session.sess_params.first_burst_length req2.pdu.datasize)
                    req2.r2t_len_to_receive }
          else { req2 with r2t_len_to_send := req2.r2t_len_to_receive }
        let req4 := { req3 with on_write_timeout_list := true }
        if req4.pdu.datasize ≠ 0 then
          if prepare_res = 0 ∧ req4.r2t_len_to_send ≠ 0 then
            let r := send_r2t ins.1.sess_params req4
            (ins.1, r.1, prepare_res, prepare_recv_events prepare_res ++ r2t_events r.2)
          else (ins.1, req4, prepare_res, prepare_recv_events prepare_res)
        else (ins.1, req4, 0, [])
  else if !has_final req.pdu || decide (req.pdu.datasize ≠ 0) then
    let r := set_scst_preliminary_status_rsp session req .unexpected_unsolicited_data
    (r.1, r.2.1, 0, r.2.2.2)
  else (session, req, 0, [])

/-- The function `iscsi_cmnd_exec`, seen from the request. -/
def iscsi_cmnd_exec (sess : iscsi_sess_params) (cmnd : iscsi_cmnd) : iscsi_cmnd × List rx_event :=
  if cmnd_opcode cmnd = ISCSI_OP_SCSI_CMD then
    if cmnd.r2t_len_to_receive = 0 then iscsi_restart_cmnd cmnd
    else if cmnd.r2t_len_to_send ≠ 0 then
      let r := send_r2t sess cmnd
      (r.1, r2t_events r.2)
    else (cmnd, [])
  else if prelim_compl_flags_set cmnd then (cmnd, [.release cmnd])
  else if cmnd_opcode cmnd = ISCSI_OP_NOP_OUT then (cmnd, [.nop_out_exec cmnd])
  else if cmnd_opcode cmnd = ISCSI_OP_SCSI_TASK_MGT_MSG then
    (cmnd, [.execute_task_management cmnd])
  else if cmnd_opcode cmnd = ISCSI_OP_LOGOUT_CMD then (cmnd, [.logout_exec cmnd])
  else (cmnd, [.bug])

/-- The function `data_out_start` for the Data-Out PDU `cmnd`; `orig_req` is
the request found in the data-wait hash under the PDU's ITT and `prepare_res`
the result of `cmnd_prepare_recv_pdu`. Returns the session, the request found
(`cmnd->cmd_req`), the Data-Out command, the result code and the events. -/
def data_out_start (session : iscsi_session) (orig_req : Option iscsi_cmnd) (cmnd : iscsi_cmnd)
    (prepare_res : Int) :
    iscsi_session × Option iscsi_cmnd × iscsi_cmnd × Int × List rx_event :=
  match orig_req with
  | Option.none =>
    let r := iscsi_preliminary_complete session cmnd cmnd
    (r.1, Option.none, r.2.1, r.2.2.1, r.2.2.2)
  | some orig =>
    let c := if orig.r2t_len_to_receive < cmnd.pdu.datasize ∧ ¬ prelim_compl_flags_set orig then
        set_scst_preliminary_status_rsp session orig .incorrect_amount_of_data
      else (session, orig, 0, [])
    let orig1 := c.2.1
    let orig2 := if has_final cmnd.pdu then
        { orig1 with outstanding_r2t := sub32 orig1.outstanding_r2t 1 }
      else orig1
    if prelim_compl_flags_set orig2 then
      let r := iscsi_preliminary_complete c.1 cmnd orig2
      (r.1, some r.2.1, cmnd, r.2.2.1, c.2.2.2 ++ r.2.2.2)
    else (c.1, some orig2, cmnd, prepare_res, c.2.2.2 ++ prepare_recv_events prepare_res)

/-- The function `data_out_end` for the Data-Out PDU `cmnd` whose request
(`cmnd->cmd_req`) is `req`: the request and the events. The queueing of the PDU
for delayed data-digest verification is not modelled. -/
def data_out_end (sess : iscsi_sess_params) (req : Option iscsi_cmnd) (cmnd : iscsi_cmnd) :
    Option iscsi_cmnd × List rx_event :=
  match req with
  | Option.none => (Option.none, [])
  | some req =>
    let req1 := { req with r2t_len_to_receive := sub32 req.r2t_len_to_receive cmnd.pdu.datasize }
    let req2 := if prelim_compl_flags_set req1 then
        { req1 with r2t_len_to_receive := req1.outstanding_r2t, r2t_len_to_send := 0 }
      else req1
    if !has_final cmnd.pdu then (some req2, [])
    else if req2.r2t_len_to_receive = 0 then
      if !req2.pending then
        let r := iscsi_restart_cmnd req2
        (some r.1, r.2)
      else (some req2, [])
    else if req2.r2t_len_to_send ≠ 0 then
      let r := send_r2t sess req2
      (some r.1, r2t_events r.2)
    else (some req2, [])

/-- The R2T that `send_r2t` builds as number `i` of one call, for a request
with `r2t_len_to_send = len` on entry: `r2t_sn` continues the request's
counter, the R2T starts where the first `len - i * burst` unsolicited bytes
end and covers at most one burst. -/
def r2t_slice (req : iscsi_cmnd) (burst i : Nat) : iscsi_r2t_hdr :=
  { itt := req.pdu.itt, ttt := req.target_task_tag, r2t_sn := add32 req.r2t_sn i,
    buffer_offset := sub32 req.pdu.data_length (req.r2t_len_to_send - i * burst),
    data_length := min (req.r2t_len_to_send - i * burst) burst }

/-- The number of R2Ts one call of `send_r2t` is expected to emit, in the
words of the specification: the free slots `M - outstanding_r2t` or the number
of bursts `ceil(r2t_len_to_send / B)` still to solicit, whichever is smaller. -/
def r2t_count (sess : iscsi_sess_params) (req : iscsi_cmnd) : Nat :=
  min (sess.max_outstanding_r2t - req.outstanding_r2t)
    ((req.r2t_len_to_send + sess.max_burst_length - 1) / sess.max_burst_length)

/-! ## One write request on the receive side -/

/-- The R2Ts among the events, in emission order. -/
def emitted_r2ts (evs : List rx_event) : List iscsi_r2t_hdr := evs.filterMap rx_event.r2t_hdr

/-- The receive side's view of one write request: the session, the request, the
events so far, the R2Ts the initiator has received and not yet answered, and
the payload bytes of the Data-Out PDUs whose reception completed. -/
structure write_run where
  session : iscsi_session
  req : iscsi_cmnd
  events : List rx_event := []
  outstanding : List iscsi_r2t_hdr := []
  received : Nat := 0
  deriving DecidableEq, Repr

/-- The start of a SCSI write command that arrives in CmdSN order with a buffer
that takes its immediate data: `cmnd_rx_continue`, then (the result being `0`)
`iscsi_cmnd_exec` as called by `iscsi_push_cmnd`. -/
def start_write (session : iscsi_session) (req : iscsi_cmnd) : write_run :=
  let c := cmnd_rx_continue session req .write false 0
  if c.2.2.1 ≠ 0 then
    { session := c.1, req := c.2.1, events := c.2.2.2, outstanding := emitted_r2ts c.2.2.2 }
  else
    let x := iscsi_cmnd_exec c.1.sess_params c.2.1
    { session := c.1, req := x.1, events := c.2.2.2 ++ x.2,
      outstanding := emitted_r2ts (c.2.2.2 ++ x.2) }

/-- The Data-Out PDU with the ITT of the request, `datasize` payload bytes and
the FINAL bit as given. -/
def data_out_pdu (req : iscsi_cmnd) (datasize : Nat) (final : Bool) : iscsi_cmnd :=
  { pdu := { opcode := ISCSI_OP_SCSI_DATA_OUT, flags := if final then ISCSI_FLG_FINAL else 0,
             itt := req.pdu.itt, datasize := datasize } }

/-- Reception of one Data-Out PDU carrying the ITT of the request, as
`cmnd_rx_start` and `cmnd_rx_end` process it: `check_segment_length` (a PDU
longer than `max_recv_data_length` closes the connection and goes no further),
`data_out_start` (the data-wait hash yields the request while it is `hashed`;
`cmnd_prepare_recv_pdu` succeeds), the payload, then `data_out_end`. -/
def rx_data_out (st : write_run) (datasize : Nat) (final : Bool) : write_run :=
  let cmnd := data_out_pdu st.req datasize final
  let chk := check_segment_length st.session cmnd
  if chk.1 ≠ 0 then { st with events := st.events ++ chk.2 }
  else
    let s := data_out_start st.session (if st.req.hashed then some st.req else Option.none) cmnd 0
    if s.2.2.2.1 ≠ 0 then
      { st with session := s.1, req := s.2.1.getD st.req, events := st.events ++ s.2.2.2.2 }
    else
      let e := data_out_end s.1.sess_params s.2.1 s.2.2.1
      { session := s.1, req := e.1.getD st.req, events := st.events ++ (s.2.2.2.2 ++ e.2),
        outstanding := st.outstanding ++ emitted_r2ts e.2,
        received := st.received + (if s.2.1.isSome then datasize else 0) }

/-- Reception of a sequence of Data-Out PDUs without the FINAL bit. -/
def rx_data_outs : write_run → List Nat → write_run
  | st, [] => st
  | st, d :: rest => rx_data_outs (rx_data_out st d false) rest

/-- An initiator's answer to the outstanding R2T number `i`: Data-Out PDUs of
the sizes `split` without the FINAL bit, then one with the FINAL bit carrying
the rest of the solicited bytes. `none` when there is no such R2T, when `split`
exceeds what it solicits, or when one of the PDUs would be longer than the
negotiated `max_recv_data_length`. -/
def answer_r2t (st : write_run) (i : Nat) (split : List Nat) : Option write_run :=
  match st.outstanding.get? i with
  | Option.none => Option.none
  | some r =>
    if split.sum ≤ r.data_length ∧
        (∀ d ∈ split, d ≤ st.session.sess_params.max_recv_data_length) ∧
        r.data_length - split.sum ≤ st.session.sess_params.max_recv_data_length then
      let st1 := rx_data_outs { st with outstanding := st.outstanding.eraseIdx i } split
      some (rx_data_out st1 (r.data_length - split.sum) true)
    else Option.none

/-- A sequence of answers, each to one outstanding R2T. -/
def run_answers : write_run → List (Nat × List Nat) → Option write_run
  | st, [] => some st
  | st, a :: rest =>
    match answer_r2t st a.1 a.2 with
    | Option.none => Option.none
    | some st1 => run_answers st1 rest

/-- A write command that `cmnd_rx_continue` has accepted and `iscsi_push_cmnd`
has queued on `pending_list` because its CmdSN is ahead of ExpCmdSN: no
`iscsi_cmnd_exec` yet, hence no R2T. -/
def start_write_pending (session : iscsi_session) (req : iscsi_cmnd) : write_run :=
  let c := cmnd_rx_continue session req .write false 0
  { session := c.1, req := { c.2.1 with pending := true }, events := c.2.2.2,
    outstanding := emitted_r2ts c.2.2.2 }

/-- The SCSI write command of `len` bytes without immediate data, as
`cmnd_alloc` and the header leave it. -/
def write_cmd (itt len : Nat) : iscsi_cmnd :=
  { pdu := { opcode := ISCSI_OP_SCSI_CMD, flags := ISCSI_CMD_FINAL, itt := itt,
             data_length := len } }

/-- The hand-over to `iscsi_restart_cmnd` has happened. -/
def restarted (evs : List rx_event) : Bool :=
  evs.any (fun e => match e with | .restart _ => true | _ => false)

/-- The request `write_cmd itt len` as `cmnd_rx_continue` leaves it when it
accepts the command with no unsolicited data: all `len` bytes are still to be
solicited and received, the request is in the data-wait hash with the target
task tag `ttt`. -/
def accepted_write (itt len ttt : Nat) : iscsi_cmnd :=
  { write_cmd itt len with
      r2t_len_to_receive := len, r2t_len_to_send := len, target_task_tag := ttt,
      hashed := true, on_write_timeout_list := true }

/-- Invariant of the R2T engine for one accepted write (`req0`, session
parameters `params`) after `j` R2Ts have been answered by an initiator that
sends exactly the solicited bytes; the connection has not been marked
closed. -/
structure write_inv (params : iscsi_sess_params) (req0 : iscsi_cmnd) (j : Nat)
    (st : write_run) : Prop where
  params_eq : st.session.sess_params = params
  emitted : emitted_r2ts st.events =
    (List.range (st.outstanding.length + j)).map (r2t_slice req0 params.max_burst_length)
  count_le : (st.outstanding.length + j) * params.max_burst_length <
    req0.r2t_len_to_send + params.max_burst_length
  sn_eq : st.req.r2t_sn = st.outstanding.length + j
  to_send_eq : st.req.r2t_len_to_send =
    req0.r2t_len_to_send - (st.outstanding.length + j) * params.max_burst_length
  out_eq : st.req.outstanding_r2t = st.outstanding.length
  out_le : st.outstanding.length ≤ params.max_outstanding_r2t
  to_recv_eq : st.req.r2t_len_to_receive =
    st.req.r2t_len_to_send + (st.outstanding.map (fun r => r.data_length)).sum
  pos : ∀ r ∈ st.outstanding, 0 < r.data_length
  full : st.req.r2t_len_to_send = 0 ∨ st.outstanding.length = params.max_outstanding_r2t
  pdu_eq : st.req.pdu = req0.pdu
  ttt_eq : st.req.target_task_tag = req0.target_task_tag
  not_aborted : st.req.aborted = false
  not_prelim : st.req.prelim_completed = false
  not_pending : st.req.pending = false
  hashed : st.outstanding ≠ [] → st.req.hashed = true
  done : st.outstanding = [] → restarted st.events = true
  received_eq : st.received + st.req.r2t_len_to_receive = req0.r2t_len_to_send
  not_closed : rx_event.mark_conn_closed ∉ st.events

/-- The session parameters of the scenarios below: `max_burst_length = 10`,
`max_outstanding_r2t = 1`, `initial_r2t` negotiated, data segments of up to
8192 bytes accepted. -/
def one_r2t_session : iscsi_session :=
  { sess_params := { initial_r2t := true, max_burst_length := 10, max_outstanding_r2t := 1,
                     max_recv_data_length := 8192 } }

/-- A session that allows 65536 bytes of immediate data, with
`max_burst_length = 8192` and `max_outstanding_r2t = 1`; data segments of up
to 8192 bytes are accepted. -/
def immediate_data_session : iscsi_session :=
  { sess_params := { immediate_data := true, first_burst_length := 65536,
                     max_burst_length := 8192, max_outstanding_r2t := 1,
                     max_recv_data_length := 8192 } }

/-- A write command with the FINAL bit, expected data transfer length
`data_length` and `datasize` bytes of immediate data. -/
def write_cmd_immediate (itt data_length datasize : Nat) : iscsi_cmnd :=
  { pdu := { opcode := ISCSI_OP_SCSI_CMD, flags := ISCSI_CMD_FINAL, itt := itt,
             data_length := data_length, datasize := datasize } }

/-- The commands handed to `iscsi_restart_cmnd`, as they are at the call, in
order. -/
def restarted_cmnds (evs : List rx_event) : List iscsi_cmnd :=
  evs.filterMap (fun e => match e with | .restart c => some c | _ => none)

/-- The session of the scenario `len = 65536`, `B = 8192`, `M = 2`:
`initial_r2t` negotiated, data segments of up to 4096 bytes accepted. -/
def r2t_8192_2_session : iscsi_session :=
  { sess_params := { initial_r2t := true, max_burst_length := 8192, max_outstanding_r2t := 2,
                     max_recv_data_length := 4096 } }

/-- As `one_r2t_session`, with `max_outstanding_r2t = 2`. -/
def two_r2t_session : iscsi_session :=
  { sess_params := { initial_r2t := true, max_burst_length := 10, max_outstanding_r2t := 2,
                     max_recv_data_length := 8192 } }

/-- A write command without the FINAL bit (unsolicited Data-Out PDUs are
announced), with expected data transfer length `data_length` and `datasize`
bytes of immediate data. -/
def write_cmd_unsolicited (itt data_length datasize : Nat) : iscsi_cmnd :=
  { pdu := { opcode := ISCSI_OP_SCSI_CMD, flags := 0, itt := itt,
             data_length := data_length, datasize := datasize } }

/-! ## The data-wait hash with command identity -/

/-- The data-wait hash of a session together with the commands it links, by
address: `cmnds a` is the command at address `a`, `entries` are the addresses
on the hash chains in insertion order (commands with equal ITT are on the same
chain and keep their relative order, so a lookup by ITT is a search of this
list), `next_ttt` is the session's counter. -/
structure wait_hash where
  cmnds : Nat → iscsi_cmnd
  entries : List Nat := []
  next_ttt : Nat := 0

/-- The function `__cmnd_find_data_wait_hash`, returning the address found. -/
def wait_hash.cmnd_find_data_wait_hash (w : wait_hash) (itt : Nat) : Option Nat :=
  w.entries.find? (fun a => decide ((w.cmnds a).pdu.itt = itt))

/-- The function `get_next_ttt` on the session counter. -/
def wait_hash.get_next_ttt (w : wait_hash) : Nat × wait_hash :=
  let n := if w.next_ttt = ISCSI_RESERVED_TAG then add32 w.next_ttt 1 else w.next_ttt
  (n, { w with next_ttt := add32 n 1 })

/-- The function `cmnd_insert_data_wait_hash` for the command at address `a`:
the new state and the error code. -/
def wait_hash.cmnd_insert_data_wait_hash (w : wait_hash) (a : Nat) : wait_hash × Int :=
  if (w.cmnds a).hashed then (w, 0)
  else
    let t := w.get_next_ttt
    let w1 : wait_hash :=
      { t.2 with cmnds := Function.update w.cmnds a { w.cmnds a with target_task_tag := t.1 } }
    if (w.cmnds a).pdu.itt = ISCSI_RESERVED_TAG then (w1, -ISCSI_REASON_PROTOCOL_ERROR)
    else
      match w1.cmnd_find_data_wait_hash (w.cmnds a).pdu.itt with
      | none =>
        ({ w1 with
            cmnds := Function.update w1.cmnds a { w1.cmnds a with hashed := true },
            entries := w1.entries ++ [a] }, 0)
      | some _ => (w1, -ISCSI_REASON_TASK_IN_PROGRESS)

/-- The function `cmnd_remove_data_wait_hash` for the command at address `a`. -/
def wait_hash.cmnd_remove_data_wait_hash (w : wait_hash) (a : Nat) : wait_hash :=
  match w.cmnd_find_data_wait_hash (w.cmnds a).pdu.itt with
  | some tmp =>
    if tmp = a then
      { w with
          cmnds := Function.update w.cmnds a { w.cmnds a with hashed := false },
          entries := w.entries.erase a }
    else w
  | none => w

/-- A call of one of the two functions that change the data-wait hash. -/
inductive wait_hash_op where
  | insert (a : Nat)
  | remove (a : Nat)
  deriving DecidableEq, Repr

/-- A sequence of insertions and removals. -/
def wait_hash.run : wait_hash → List wait_hash_op → wait_hash
  | w, [] => w
  | w, .insert a :: rest => wait_hash.run (w.cmnd_insert_data_wait_hash a).1 rest
  | w, .remove a :: rest => wait_hash.run (w.cmnd_remove_data_wait_hash a) rest

/-- Invariant of the data-wait hash: the commands with `hashed` set are those
on the chains, and the entries have pairwise different ITTs. -/
structure wait_hash_inv (w : wait_hash) : Prop where
  hashed_iff : ∀ a, (w.cmnds a).hashed = true ↔ a ∈ w.entries
  distinct : w.entries.Pairwise (fun a b => (w.cmnds a).pdu.itt ≠ (w.cmnds b).pdu.itt)

/-- Three zeroed commands with the ITTs 5, 5 and 9 at the addresses 0, 1 and 2
(and zeroed commands elsewhere), none in the hash. -/
def three_cmnds : wait_hash :=
  { cmnds := fun a => if a = 0 ∨ a = 1 then { pdu := { itt := 5 } }
      else if a = 2 then { pdu := { itt := 9 } } else {} }

/-! ## Stamping of sequence numbers on transmitted PDUs -/

/-- The C `int` result of an `int` expression whose exact value is `x`
(two's-complement wrap-around). -/
def wrap_int (x : Int) : Int := to_s32 (of_int32 x)

/-- The function `iscsi_get_allowed_cmds`:
`max(-1, (int)queued_cmnds - active_cmds - 1)`. -/
def iscsi_get_allowed_cmds (sess : iscsi_session) : Int :=
  max (-1) (wrap_int (to_s32 sess.queued_cmnds - sess.active_cmds - 1))

/-- The function `cmnd_set_sn`: the stamped command, the connection and the
value returned (the connection's `stat_sn` after the call). -/
def cmnd_set_sn (sess : iscsi_session) (conn : iscsi_conn) (cmnd : iscsi_cmnd)
    (set_stat_sn : Bool) : iscsi_cmnd × iscsi_conn × Nat :=
  let stamped := if set_stat_sn then { cmnd with pdu := { cmnd.pdu with sn := conn.stat_sn } } else cmnd
  let conn1 := if set_stat_sn then { conn with stat_sn := add32 conn.stat_sn 1 } else conn
  let stamped2 := { stamped with pdu := { stamped.pdu with
    exp_sn := sess.exp_cmd_sn,
    max_sn := of_int32 ((sess.exp_cmd_sn : Int) + iscsi_get_allowed_cmds sess) } }
  (stamped2, conn1, conn1.stat_sn)

/-- The argument `set_stat_sn` that the `switch` of `cmnd_tx_start` passes to
`cmnd_set_sn` for this PDU; `none` in the `default` branch, which does not
call it. -/
def tx_set_stat_sn (cmnd : iscsi_cmnd) : Option Bool :=
  let op := cmnd_opcode cmnd
  if op = ISCSI_OP_NOP_IN then
    (if cmnd.pdu.itt = ISCSI_RESERVED_TAG then some false else some true)
  else if op = ISCSI_OP_SCSI_RSP then some true
  else if op = ISCSI_OP_SCSI_TASK_MGT_RSP then some true
  else if op = ISCSI_OP_TEXT_RSP then some true
  else if op = ISCSI_OP_SCSI_DATA_IN then
    some (decide (cmnd.pdu.flags &&& ISCSI_FLG_FINAL ≠ 0))
  else if op = ISCSI_OP_LOGOUT_RSP then some true
  else if op = ISCSI_OP_R2T then some false
  else if op = ISCSI_OP_ASYNC_MSG then some true
  else if op = ISCSI_OP_REJECT then some true
  else none

/-- The sequence-number part of `cmnd_tx_start` (the set-up of the write iovec
is not modelled): the `switch` on the opcode. For a NOP-In with the reserved
ITT and for an R2T the header `sn` receives the value returned by
`cmnd_set_sn(cmnd, 0)`. -/
def cmnd_tx_start (sess : iscsi_session) (conn : iscsi_conn) (cmnd : iscsi_cmnd) :
    iscsi_cmnd × iscsi_conn :=
  let op := cmnd_opcode cmnd
  match tx_set_stat_sn cmnd with
  | none => (cmnd, conn)
  | some true =>
    let r := cmnd_set_sn sess conn cmnd true
    (r.1, r.2.1)
  | some false =>
    let r := cmnd_set_sn sess conn cmnd false
    if op = ISCSI_OP_SCSI_DATA_IN then (r.1, r.2.1)
    else ({ r.1 with pdu := { r.1.pdu with sn := r.2.2 } }, r.2.1)

/-- A run of the write thread of one connection: each PDU is stamped by
`cmnd_tx_start` against the session state of that moment. Returns the stamped
PDUs in order and the final connection. -/
def tx_all : iscsi_conn → List (iscsi_session × iscsi_cmnd) → List iscsi_cmnd × iscsi_conn
  | conn, [] => ([], conn)
  | conn, (sess, cmnd) :: rest =>
    let r := cmnd_tx_start sess conn cmnd
    let r2 := tx_all r.2 rest
    (r.1 :: r2.1, r2.2)

/-- The StatSN values of the stamped PDUs that bear a status sequence number
(those sent through `cmnd_set_sn(cmnd, 1)`), in transmission order. -/
def stat_sns (stamped : List iscsi_cmnd) : List Nat :=
  (stamped.filter (fun c => tx_set_stat_sn c = some true)).map (fun c => c.pdu.sn)

/-! ## Responses: Data-In chains, status and residuals -/

/-- The header fields of a response PDU (Data-In or SCSI Response) that the
response path fills, with `datasize` and `bufflen` of the response command.
The default value is the zeroed response of `iscsi_alloc_rsp`. The data segment
of a SCSI Response (sense header and sense data) is kept as `sense`, the number
of sense bytes when the sense is valid; `datasize` and `bufflen` are its size
in bytes. -/
structure iscsi_rsp where
  opcode : Nat := 0
  flags : Nat := 0
  itt : Nat := 0
  ttt : Nat := 0
  buffer_offset : Nat := 0
  data_sn : Nat := 0
  response : Nat := 0
  cmd_status : Nat := 0
  residual_count : Nat := 0
  bi_residual_count : Nat := 0
  datasize : Nat := 0
  bufflen : Nat := 0
  sense : Option Nat := none
  deriving DecidableEq, Repr

/-- The test `flags & bit`. -/
def has_flag (flags bit : Nat) : Bool := decide (flags &&& bit ≠ 0)

/-- The part of a Data-In PDU that `send_data_rsp` fills for every PDU of the
chain. -/
def data_in_rsp (req : iscsi_cmnd) (offset sn datasize : Nat) : iscsi_rsp :=
  { opcode := ISCSI_OP_SCSI_DATA_IN, itt := req.pdu.itt, ttt := ISCSI_RESERVED_TAG,
    buffer_offset := offset, data_sn := sn, datasize := datasize, bufflen := req.bufflen }

/-- The last PDU of the chain of `send_data_rsp` (the branch
`size <= pdusize`): with `send_status` it carries FINAL, STATUS, the status and
the residual computed from `req->bufflen` and `req->read_size`. -/
def send_data_rsp_last (req : iscsi_cmnd) (status : Nat) (send_status : Bool)
    (offset sn size : Nat) : iscsi_rsp :=
  let rsp := data_in_rsp req offset sn size
  if send_status then
    if req.bufflen < req.read_size then
      { rsp with
          flags := (ISCSI_FLG_FINAL ||| ISCSI_FLG_STATUS) ||| ISCSI_FLG_RESIDUAL_UNDERFLOW,
          cmd_status := status % 256,
          residual_count := sub32 req.read_size req.bufflen }
    else if req.bufflen > req.read_size then
      { rsp with
          flags := (ISCSI_FLG_FINAL ||| ISCSI_FLG_STATUS) ||| ISCSI_FLG_RESIDUAL_OVERFLOW,
          cmd_status := status % 256,
          residual_count := sub32 req.bufflen req.read_size }
    else
      { rsp with
          flags := ISCSI_FLG_FINAL ||| ISCSI_FLG_STATUS,
          cmd_status := status % 256,
          residual_count := 0 }
  else rsp

/-- The `while (1)` loop of `send_data_rsp`, entered with `size`, `offset` and
`sn`. The first argument bounds the number of passes; `none` stands for a loop
that does not end within it (with `pdusize = 0` and `size > 0` the C loop never
ends). -/
def send_data_rsp_loop (req : iscsi_cmnd) (pdusize status : Nat) (send_status : Bool) :
    Nat → Nat → Nat → Nat → Option (List iscsi_rsp)
  | 0, _, _, _ => none
  | fuel + 1, size, offset, sn =>
    if size ≤ pdusize then some [send_data_rsp_last req status send_status offset sn size]
    else
      (send_data_rsp_loop req pdusize status send_status fuel (size - pdusize)
        (add32 offset pdusize) (add32 sn 1)).map
        (fun l => data_in_rsp req offset sn pdusize :: l)

/-- The function `send_data_rsp(req, status, send_status)`: the Data-In PDUs
put on the write list, in order. Every pass but the last takes `pdusize > 0`
bytes off `size`, so `size + 1` passes are enough when the loop ends at all. -/
def send_data_rsp (sess : iscsi_sess_params) (req : iscsi_cmnd) (status : Nat)
    (send_status : Bool) : Option (List iscsi_rsp) :=
  send_data_rsp_loop req sess.max_xmit_data_length status send_status
    (min req.read_size req.bufflen + 1) (min req.read_size req.bufflen) 0 0

/-- What `iscsi_xmit_response` and `iscsi_set_resid` read from the SCSI command
of the mid-layer: `sense` is the length of the sense data when
`SCST_SENSE_VALID` holds, `in_bufflen` the value of `scst_cmd_get_in_bufflen`. -/
structure scst_cmd where
  atomic : Bool := false
  aborted : Bool := false
  is_send_status : Bool := false
  status : Nat := 0
  sense : Option Nat := none
  resp_data_len : Nat := 0
  in_bufflen : Nat := 0
  deriving DecidableEq, Repr

/-- One step `resid > 0` / `resid < 0` of `iscsi_set_resid` for the C `int`
value `resid`: the flag set and the count stored, if any. -/
def resid_flags (resid : Int) (underflow overflow : Nat) : Option (Nat × Nat) :=
  if resid > 0 then some (underflow, of_int32 resid)
  else if resid < 0 then some (overflow, of_int32 (wrap_int (-resid)))
  else none

/-- The function `iscsi_set_resid(rsp, bufflen_set)` for the response `rsp` of
the request `req`; `in_bufflen` is what `scst_cmd_get_in_bufflen` returns for
the request's SCSI command. `resid`, `resp_len` and `in_resp_len` are C `int`s. -/
def iscsi_set_resid (req : iscsi_cmnd) (in_bufflen : Nat) (rsp : iscsi_rsp)
    (bufflen_set : Bool) : iscsi_rsp :=
  if has_flag req.pdu.flags ISCSI_CMD_READ && has_flag req.pdu.flags ISCSI_CMD_WRITE then
    let resp_len : Int := if bufflen_set then to_s32 req.bufflen else 0
    let in_resp_len : Int :=
      if bufflen_set then (if req.has_scst_cmd then to_s32 in_bufflen else 0) else 0
    let rsp1 :=
      match resid_flags (wrap_int ((req.pdu.data_length : Int) - in_resp_len))
          ISCSI_FLG_RESIDUAL_UNDERFLOW ISCSI_FLG_RESIDUAL_OVERFLOW with
      | some (flag, count) => { rsp with flags := rsp.flags ||| flag, residual_count := count }
      | none => rsp
    match resid_flags (wrap_int ((req.read_size : Int) - resp_len))
        ISCSI_FLG_BIRESIDUAL_UNDERFLOW ISCSI_FLG_BIRESIDUAL_OVERFLOW with
    | some (flag, count) => { rsp1 with flags := rsp1.flags ||| flag, bi_residual_count := count }
    | none => rsp1
  else
    let resp_len : Int := if bufflen_set then to_s32 req.bufflen else 0
    match resid_flags (wrap_int ((req.read_size : Int) - resp_len))
        ISCSI_FLG_RESIDUAL_UNDERFLOW ISCSI_FLG_RESIDUAL_OVERFLOW with
    | some (flag, count) => { rsp with flags := rsp.flags ||| flag, residual_count := count }
    | none => rsp

/-- Modelled from the spec: `struct iscsi_sense_data`, the type of
`rsp->sense_hdr`, is declared in `iscsi_hdr.h`, which is not among the
sources; `sizeof(rsp->sense_hdr)` is the two-byte SenseLength field that
`rsp->sense_hdr.length = cpu_to_be16(sense_len)` fills and that precedes the
sense data in the data segment of the SCSI Response carrying the sense
(RFC 3720). -/
def sizeof_sense_hdr : Nat := 2

/-- The functions `create_status_rsp` and `iscsi_init_status_rsp`: the SCSI
Response for `req` with the given status and sense (`sense` is `sense_len`
when `SCST_SENSE_VALID(sense_buf)` holds). With valid sense the data segment
is the sense header and the sense bytes, `datasize = bufflen =
sizeof(sense_hdr) + sense_len`; without, both are `0`. -/
def create_status_rsp (req : iscsi_cmnd) (in_bufflen : Nat) (status : Nat) (sense : Option Nat)
    (bufflen_set : Bool) : iscsi_rsp :=
  let size :=
    match sense with
    | some sense_len => add32 sizeof_sense_hdr sense_len
    | Option.none => 0
  iscsi_set_resid req in_bufflen
    { opcode := ISCSI_OP_SCSI_RSP, flags := ISCSI_FLG_FINAL,
      response := ISCSI_RESPONSE_COMMAND_COMPLETED, cmd_status := status % 256,
      itt := req.pdu.itt, sense := sense, datasize := size, bufflen := size }
    bufflen_set

/-- The results of `iscsi_xmit_response`. -/
inductive scst_tgt_res where
  | SCST_TGT_RES_SUCCESS
  | SCST_TGT_RES_NEED_THREAD_CTX
  deriving DecidableEq, Repr

/-- What `iscsi_xmit_response` hands on, in program order: `init_write` is one
call of `iscsi_cmnds_init_write` or `iscsi_cmnd_init_write` with the PDUs it
puts on the write list. -/
inductive xmit_event where
  | set_delivery_status_aborted
  | release_force (req : iscsi_cmnd)
  | check_convert_sense
  | init_write (pdus : List iscsi_rsp)
  | release (req : iscsi_cmnd)
  | bug
  deriving DecidableEq, Repr

/-- The PDUs put on the write list, in order. -/
def queued_pdus (evs : List xmit_event) : List iscsi_rsp :=
  (evs.map (fun e => match e with | .init_write pdus => pdus | _ => [])).flatten

/-- The function `iscsi_xmit_response` for the request `req` and its SCSI
command: the result, the request and the events; `none` when `send_data_rsp`
does not return. The scatterlist bookkeeping and the assertions of
`CONFIG_SCST_EXTRACHECKS` are not modelled; `sBUG()` ends the run. -/
def iscsi_xmit_response (sess : iscsi_sess_params) (req : iscsi_cmnd) (cmd : scst_cmd) :
    Option (scst_tgt_res × iscsi_cmnd × List xmit_event) :=
  if cmd.atomic then some (.SCST_TGT_RES_NEED_THREAD_CTX, req, [])
  else
    let req1 := if cmd.aborted then { req with aborted := true } else req
    if req1.aborted then
      some (.SCST_TGT_RES_SUCCESS, req1, [.set_delivery_status_aborted, .release_force req1])
    else
      let pre : List xmit_event := if req1.prelim_completed then [.check_convert_sense] else []
      let req2 := { req1 with bufflen := cmd.resp_data_len }
      if req2.bufflen ≠ 0 ∧ cmd.is_send_status = false then
        some (.SCST_TGT_RES_SUCCESS, req2, pre ++ [.bug])
      else if req2.bufflen ≠ 0 then
        if cmd.status ≠ SAM_STAT_CHECK_CONDITION ∧
            req2.pdu.flags &&& (ISCSI_CMD_WRITE ||| ISCSI_CMD_READ) ≠
              (ISCSI_CMD_WRITE ||| ISCSI_CMD_READ) then
          (send_data_rsp sess req2 cmd.status cmd.is_send_status).map
            (fun pdus => (.SCST_TGT_RES_SUCCESS, req2, pre ++ [.init_write pdus, .release req2]))
        else
          (send_data_rsp sess req2 0 false).map
            (fun pdus => (.SCST_TGT_RES_SUCCESS, req2,
              pre ++ [.init_write pdus] ++
                (if cmd.is_send_status then
                  [.init_write [create_status_rsp req2 cmd.in_bufflen cmd.status cmd.sense true]]
                else []) ++ [.release req2]))
      else if cmd.is_send_status then
        some (.SCST_TGT_RES_SUCCESS, req2,
          pre ++ [.init_write [create_status_rsp req2 cmd.in_bufflen cmd.status cmd.sense false],
            .release req2])
      else some (.SCST_TGT_RES_SUCCESS, req2, pre ++ [.release req2])

/-- A read command (READ and FINAL bits) with expected data transfer length
`read_size`, restarted and processed by the SCSI mid-layer. -/
def read_cmd (itt read_size : Nat) : iscsi_cmnd :=
  { pdu := { opcode := ISCSI_OP_SCSI_CMD, flags := ISCSI_CMD_FINAL ||| ISCSI_CMD_READ, itt := itt,
             data_length := read_size },
    has_scst_cmd := true, read_size := read_size }

/-- A bidirectional command (READ, WRITE and FINAL bits) with expected write
length `data_length` and expected read length `read_size`. -/
def bidi_cmd (itt data_length read_size : Nat) : iscsi_cmnd :=
  { pdu := { opcode := ISCSI_OP_SCSI_CMD,
             flags := (ISCSI_CMD_FINAL ||| ISCSI_CMD_READ) ||| ISCSI_CMD_WRITE, itt := itt,
             data_length := data_length },
    has_scst_cmd := true, read_size := read_size }

/-- The session parameters of the read scenarios: `max_xmit_data_length = 8192`. -/
def xmit_8192 : iscsi_sess_params := { max_xmit_data_length := 8192 }

/-- A SCSI command that returns 500 bytes with status CHECK_CONDITION and 18
bytes of sense. -/
def check_condition_500 : scst_cmd :=
  { is_send_status := true, status := SAM_STAT_CHECK_CONDITION, sense := some 18,
    resp_data_len := 500 }

/-! ## The read iovec for received data -/

/-- One entry of a scatterlist: `sg_virt` of the entry is the address of its
page plus `offset`; `length` bytes belong to it. -/
structure scatterlist where
  offset : Nat := 0
  length : Nat := 0
  deriving DecidableEq, Repr

/-- The scatterlist entry an iovec points into: entry `idx` of the command's
scatterlist, or the one entry of `dummy_sg` (the discard page). -/
inductive iov_target where
  | sg (idx : Nat)
  | dummy
  deriving DecidableEq, Repr

/-- One `struct iovec` of `conn->read_iov`: `iov_base` is `sg_virt` of the
target plus `base_offset`. -/
structure iovec where
  target : iov_target
  base_offset : Nat
  iov_len : Nat
  deriving DecidableEq, Repr

/-- The fields of the connection that `cmnd_prepare_recv_pdu` writes. -/
structure conn_read where
  read_iov : List iovec := []
  msg_iovlen : Nat := 0
  read_size : Nat := 0
  deriving DecidableEq, Repr

/-- The result of `cmnd_prepare_recv_pdu`: the result code, the connection
fields and whether `mark_conn_closed` was called. -/
structure prepare_recv_result where
  res : Int
  conn : conn_read
  closed : Bool
  deriving DecidableEq, Repr

/-- The entry `sg[idx]` read by one pass of the loop of `cmnd_prepare_recv_pdu`:
the entry of `dummy_sg` (one page at offset 0) once `buff_offs >= bufflen` has
been seen, else the entry of the command's scatterlist; `none` stands for an
index beyond the array. -/
def recv_sg_entry (page_size : Nat) (sg : List scatterlist) (on_dummy : Bool) (idx : Nat) :
    Option scatterlist :=
  if on_dummy then (if idx = 0 then some { offset := 0, length := page_size } else none)
  else sg.get? idx

/-- The `while (1)` loop of `cmnd_prepare_recv_pdu`. `iov` holds the entries
`read_iov[0 .. i - 1]` written so far (`i = iov.length`); the first argument is
`ISCSI_CONN_IOV_MAX - i`, the number of entries the loop may still start after
this one. -/
def cmnd_prepare_recv_pdu_loop (page_size iov_max bufflen : Nat) (sg : List scatterlist)
    (conn : conn_read) :
    Nat → Bool → Nat → Nat → Nat → Nat → List iovec → Option prepare_recv_result
  | fuel, on_dummy, idx, offset, size, buff_offs, iov =>
    let overflow := decide (buff_offs ≥ bufflen)
    let on_dummy1 := on_dummy || overflow
    let idx1 := if overflow then 0 else idx
    let offset1 := if overflow then 0 else offset
    match recv_sg_entry page_size sg on_dummy1 idx1 with
    | none => none
    | some e =>
      let sg_len := sub32 e.length offset1
      let target := if on_dummy1 then iov_target.dummy else iov_target.sg idx1
      if size ≤ sg_len then
        some { res := 0,
               conn := { conn with
                 read_iov := iov ++ [{ target := target, base_offset := e.offset + offset1,
                                       iov_len := size }] ++ conn.read_iov.drop (iov.length + 1),
                 msg_iovlen := iov.length },
               closed := false }
      else
        let iov1 := iov ++ [{ target := target, base_offset := e.offset + offset1,
                              iov_len := sg_len }]
        match fuel with
        | 0 =>
          some { res := -EINVAL,
                 conn := { conn with read_iov := iov1 ++ conn.read_iov.drop iov1.length },
                 closed := true }
        | fuel1 + 1 =>
          if iov1.length ≥ iov_max then
            some { res := -EINVAL,
                   conn := { conn with read_iov := iov1 ++ conn.read_iov.drop iov1.length },
                   closed := true }
          else
            cmnd_prepare_recv_pdu_loop page_size iov_max bufflen sg conn fuel1 on_dummy1
              (add32 idx1 1) 0 (size - sg_len) (add32 buff_offs sg_len) iov1

/-- The function `cmnd_prepare_recv_pdu(conn, cmd, offset, size)` for a command
with scatterlist `sg` and buffer length `bufflen`. `page_shift` is
`PAGE_SHIFT` and `iov_max` is `ISCSI_CONN_IOV_MAX`, both defined outside
`iscsi.c`. `none` stands for a read beyond the scatterlist array. -/
def cmnd_prepare_recv_pdu (page_shift iov_max : Nat) (conn : conn_read) (sg : List scatterlist)
    (bufflen offset size : Nat) : Option prepare_recv_result :=
  match sg.get? 0 with
  | none => none
  | some sg0 =>
    cmnd_prepare_recv_pdu_loop (2 ^ page_shift) iov_max bufflen sg
      { conn with read_size := size } iov_max false
      (add32 offset sg0.offset / 2 ^ page_shift) (offset % 2 ^ page_shift) size offset []

/-- The sum of the `iov_len` of the first `msg_iovlen` entries of `read_iov`. -/
def iov_bytes (conn : conn_read) : Nat :=
  ((conn.read_iov.take conn.msg_iovlen).map (fun v => v.iov_len)).sum


/-! ## Task management -/

def ISCSI_RESPONSE_FUNCTION_COMPLETE : Nat := 0
def ISCSI_RESPONSE_UNKNOWN_TASK : Nat := 1
def ISCSI_RESPONSE_ALLEGIANCE_REASSIGNMENT_UNSUPPORTED : Nat := 4
def ISCSI_RESPONSE_FUNCTION_REJECTED : Nat := 255
def ISCSI_FUNCTION_MASK : Nat := 0x7f
def ISCSI_FUNCTION_ABORT_TASK : Nat := 1
def ISCSI_FUNCTION_ABORT_TASK_SET : Nat := 2
def ISCSI_FUNCTION_CLEAR_ACA : Nat := 3
def ISCSI_FUNCTION_CLEAR_TASK_SET : Nat := 4
def ISCSI_FUNCTION_LOGICAL_UNIT_RESET : Nat := 5
def ISCSI_FUNCTION_TARGET_WARM_RESET : Nat := 6
def ISCSI_FUNCTION_TARGET_COLD_RESET : Nat := 7
def ISCSI_FUNCTION_TASK_REASSIGN : Nat := 8

/-- Modelled from the spec: the window test `between(seq1, seq2, seq3)` used by
`cmnd_abort` comes from the kernel header `net/tcp.h`, which is not part of the
sources; it is `seq3 - seq2 >= seq1 - seq2` on 32-bit unsigned values, the
membership of `seq1` in the serial-number window from `seq2` to `seq3` that
the specification writes `[CmdSN−128, CmdSN)` together with the guard
`RefCmdSN < CmdSN`. -/
def between (seq1 seq2 seq3 : Nat) : Bool := decide (sub32 seq3 seq2 ≥ sub32 seq1 seq2)

/-- Modelled from the spec: `cmnd_get_check` is defined in `iscsi.h`, which is
not part of the sources; it is the try-get that fails (returns non-zero) when
the reference count is already zero, and takes a reference otherwise. -/
def cmnd_get_check (cmnd : iscsi_cmnd) : Bool := decide (cmnd.ref_cnt = 0)

/-- The function `cmnd_find_itt_get` on the connection's `cmd_list`, a list of
command addresses into the store `cmnds`: the first command with the given ITT
that is not being destroyed. The reference it takes is dropped again by the
`cmnd_put` of `cmnd_abort`, its only caller, so `ref_cnt` is left as it is. -/
def cmnd_find_itt_get (cmnds : Nat → iscsi_cmnd) (cmd_list : List Nat) (itt : Nat) : Option Nat :=
  cmd_list.find? (fun a => decide ((cmnds a).pdu.itt = itt) && !cmnd_get_check (cmnds a))

/-- The function `cmnd_abort` for the task-management request at address `req`;
`status` is the value of `*status` on entry. Returns the store, the result and
`*status`. -/
def cmnd_abort (cmnds : Nat → iscsi_cmnd) (cmd_list : List Nat) (req : Nat) (status : Nat) :
    (Nat → iscsi_cmnd) × Int × Nat :=
  let req_hdr := (cmnds req).pdu
  if !before req_hdr.ref_cmd_sn req_hdr.sn then (cmnds, -1, ISCSI_RESPONSE_UNKNOWN_TASK)
  else
    match cmnd_find_itt_get cmnds cmd_list req_hdr.rtt with
    | some cmnd =>
      let hdr := (cmnds cmnd).pdu
      if req_hdr.lun ≠ hdr.lun then (cmnds, -1, ISCSI_RESPONSE_FUNCTION_REJECTED)
      else if is_immediate (cmnds cmnd) ∧ req_hdr.ref_cmd_sn ≠ req_hdr.sn then
        (cmnds, -1, ISCSI_RESPONSE_FUNCTION_REJECTED)
      else if ¬ is_immediate (cmnds cmnd) ∧ req_hdr.ref_cmd_sn ≠ hdr.sn then
        (cmnds, -1, ISCSI_RESPONSE_FUNCTION_REJECTED)
      else if before req_hdr.sn hdr.sn ∨ req_hdr.sn = hdr.sn then
        (cmnds, -1, ISCSI_RESPONSE_FUNCTION_REJECTED)
      else (Function.update cmnds cmnd (cmnd_abort_mark (cmnds cmnd)), 0, status)
    | Option.none =>
      if between req_hdr.ref_cmd_sn (sub32 req_hdr.sn 128) req_hdr.sn then
        (cmnds, 0, ISCSI_RESPONSE_FUNCTION_COMPLETE)
      else (cmnds, -1, ISCSI_RESPONSE_UNKNOWN_TASK)

/-- The function `task_set_abort` on the `cmd_list` of the request's
connection (a session has one connection: MC/S is not supported). -/
def task_set_abort (cmnds : Nat → iscsi_cmnd) (cmd_list : List Nat) (req : Nat) :
    Nat → iscsi_cmnd :=
  cmd_list.foldl (fun m cmnd =>
    if cmnd = req then m
    else if (m req).pdu.lun ≠ (m cmnd).pdu.lun then m
    else if before (m req).pdu.sn (m cmnd).pdu.sn ∨ (m req).pdu.sn = (m cmnd).pdu.sn then m
    else Function.update m cmnd (cmnd_abort_mark (m cmnd))) cmnds

/-- The function `target_abort` on the `cmd_list` of the request's connection;
the other sessions of the target are not part of this model. -/
def target_abort (cmnds : Nat → iscsi_cmnd) (cmd_list : List Nat) (req : Nat) (all : Bool) :
    Nat → iscsi_cmnd :=
  cmd_list.foldl (fun m cmnd =>
    if cmnd = req then m
    else if all then Function.update m cmnd (cmnd_abort_mark (m cmnd))
    else if (m req).pdu.lun = (m cmnd).pdu.lun then
      Function.update m cmnd (cmnd_abort_mark (m cmnd))
    else m) cmnds

/-- The function codes of the SCSI mid-layer: those that
`execute_task_management` passes in `params.fn`, and the two internal ones
that `iscsi_task_mgmt_fn_done` tells apart. -/
inductive scst_mgmt_fn where
  | SCST_ABORT_TASK
  | SCST_ABORT_TASK_SET
  | SCST_CLEAR_TASK_SET
  | SCST_CLEAR_ACA
  | SCST_TARGET_RESET
  | SCST_LUN_RESET
  | SCST_NEXUS_LOSS_SESS
  | SCST_ABORT_ALL_TASKS_SESS
  deriving DecidableEq, Repr

/-- What the task-management code hands on, in program order:
`rsp_cmnd_release` of a dropped response, `iscsi_cmnd_init_write` of a
response, `req_cmnd_release` of the request, and the call `scst_rx_mgmt_fn`
that forwards the function to the SCSI mid-layer. -/
inductive tm_event where
  | rsp_cmnd_release (rsp : tm_response)
  | init_write (rsp : tm_response)
  | req_cmnd_release (req : iscsi_cmnd)
  | scst_rx_mgmt_fn (fn : scst_mgmt_fn) (req : iscsi_cmnd)
  deriving DecidableEq, Repr

/-- The response that `iscsi_send_task_mgmt_resp(req, status)` allocates and
fills in before it decides whether to delay it. -/
def task_mgmt_rsp (req : iscsi_cmnd) (status : Nat) : tm_response :=
  let cold := decide (req.pdu.function &&& ISCSI_FUNCTION_MASK = ISCSI_FUNCTION_TARGET_COLD_RESET)
  { opcode := ISCSI_OP_SCSI_TASK_MGT_RSP, flags := ISCSI_FLG_FINAL, itt := req.pdu.itt,
    response := status, req_cmd_sn := req.pdu.sn,
    should_close_conn := cold, should_close_all_conn := cold }

/-- The function `iscsi_send_task_mgmt_resp(req, status)`: the session and the
events; `none` when one of its `sBUG_ON` assertions fires. -/
def iscsi_send_task_mgmt_resp (session : iscsi_session) (req : iscsi_cmnd) (status : Nat) :
    Option (iscsi_session × List tm_event) :=
  let rsp := task_mgmt_rsp req status
  if session.tm.tm_rsp ≠ Option.none then Option.none
  else if iscsi_is_delay_tm_resp session.exp_cmd_sn rsp then
    some ({ session with tm := { session.tm with tm_rsp := some rsp } }, [.req_cmnd_release req])
  else if session.tm.tm_active - 1 < 0 then Option.none
  else
    some ({ session with tm := { session.tm with tm_active := session.tm.tm_active - 1 } },
      [.init_write rsp, .req_cmnd_release req])

/-- The head of `execute_task_management`, under `sn_lock`: the new function is
counted in `tm_active`, its CmdSN is stored in `tm_sn`, and a response still
queued in `tm_rsp` is dropped; `none` when the `sBUG_ON` fires. -/
def execute_task_management_start (tm : tm_state) (cmd_sn : Nat) :
    Option (tm_state × List tm_event) :=
  let tm1 : tm_state := { tm with tm_active := tm.tm_active + 1, tm_sn := cmd_sn }
  match tm1.tm_rsp with
  | some tm_rsp =>
    if tm1.tm_active - 1 < 0 then Option.none
    else some ({ tm1 with tm_rsp := Option.none, tm_active := tm1.tm_active - 1 },
      [.rsp_cmnd_release tm_rsp])
  | Option.none => some (tm1, [])

/-- The RTT check and the `switch (function)` of `execute_task_management`:
the store, `rc`, `status` and the events. `scst_rc` is the value that
`scst_rx_mgmt_fn` returns when it is called. -/
def execute_task_management_switch (cmnds : Nat → iscsi_cmnd) (cmd_list : List Nat) (req : Nat)
    (scst_rc : Int) : (Nat → iscsi_cmnd) × Int × Nat × List tm_event :=
  let req_hdr := (cmnds req).pdu
  let function := req_hdr.function &&& ISCSI_FUNCTION_MASK
  if function ≠ ISCSI_FUNCTION_ABORT_TASK ∧ req_hdr.rtt ≠ ISCSI_RESERVED_TAG then
    (cmnds, -1, ISCSI_RESPONSE_FUNCTION_REJECTED, [])
  else if function = ISCSI_FUNCTION_ABORT_TASK then
    let r := cmnd_abort cmnds cmd_list req ISCSI_RESPONSE_FUNCTION_REJECTED
    if r.2.1 = 0 then
      (r.1, scst_rc, ISCSI_RESPONSE_FUNCTION_REJECTED,
        [.scst_rx_mgmt_fn .SCST_ABORT_TASK (r.1 req)])
    else (r.1, r.2.1, r.2.2, [])
  else if function = ISCSI_FUNCTION_ABORT_TASK_SET then
    let m := task_set_abort cmnds cmd_list req
    (m, scst_rc, ISCSI_RESPONSE_FUNCTION_REJECTED, [.scst_rx_mgmt_fn .SCST_ABORT_TASK_SET (m req)])
  else if function = ISCSI_FUNCTION_CLEAR_TASK_SET then
    let m := task_set_abort cmnds cmd_list req
    (m, scst_rc, ISCSI_RESPONSE_FUNCTION_REJECTED, [.scst_rx_mgmt_fn .SCST_CLEAR_TASK_SET (m req)])
  else if function = ISCSI_FUNCTION_CLEAR_ACA then
    (cmnds, scst_rc, ISCSI_RESPONSE_FUNCTION_REJECTED,
      [.scst_rx_mgmt_fn .SCST_CLEAR_ACA (cmnds req)])
  else if function = ISCSI_FUNCTION_TARGET_COLD_RESET ∨
      function = ISCSI_FUNCTION_TARGET_WARM_RESET then
    let m := target_abort cmnds cmd_list req true
    (m, scst_rc, ISCSI_RESPONSE_FUNCTION_REJECTED, [.scst_rx_mgmt_fn .SCST_TARGET_RESET (m req)])
  else if function = ISCSI_FUNCTION_LOGICAL_UNIT_RESET then
    let m := target_abort cmnds cmd_list req false
    (m, scst_rc, ISCSI_RESPONSE_FUNCTION_REJECTED, [.scst_rx_mgmt_fn .SCST_LUN_RESET (m req)])
  else if function = ISCSI_FUNCTION_TASK_REASSIGN then
    (cmnds, -1, ISCSI_RESPONSE_ALLEGIANCE_REASSIGNMENT_UNSUPPORTED, [])
  else (cmnds, -1, ISCSI_RESPONSE_FUNCTION_REJECTED, [])

/-- The function `execute_task_management` for the request at address `req`:
the session, the store and the events; `none` when an `sBUG_ON` fires. -/
def execute_task_management (session : iscsi_session) (cmnds : Nat → iscsi_cmnd)
    (cmd_list : List Nat) (req : Nat) (scst_rc : Int) :
    Option (iscsi_session × (Nat → iscsi_cmnd) × List tm_event) :=
  match execute_task_management_start session.tm (cmnds req).pdu.sn with
  | Option.none => Option.none
  | some (tm1, evs) =>
    let sess : iscsi_session := { session with tm := tm1 }
    let sw := execute_task_management_switch cmnds cmd_list req scst_rc
    if sw.2.1 ≠ 0 then
      match iscsi_send_task_mgmt_resp sess (sw.1 req) sw.2.2.1 with
      | Option.none => Option.none
      | some (sess1, evs1) => some (sess1, sw.1, evs ++ sw.2.2.2 ++ evs1)
    else some (sess, sw.1, evs ++ sw.2.2.2)

/-- The write-list events (`iscsi_cmnd_init_write`) among task-management
events. -/
def tm_written (evs : List tm_event) : List tm_response :=
  evs.filterMap (fun e => match e with | .init_write rsp => some rsp | _ => Option.none)

/-- The functions forwarded to the SCSI mid-layer among task-management
events. -/
def tm_forwarded (evs : List tm_event) : List scst_mgmt_fn :=
  evs.filterMap (fun e => match e with | .scst_rx_mgmt_fn fn _ => some fn | _ => Option.none)

/-- A task-management request PDU. -/
def tm_req (function itt rtt lun cmd_sn ref_cmd_sn : Nat) (immediate : Bool) : iscsi_cmnd :=
  { pdu := { opcode := ISCSI_OP_SCSI_TASK_MGT_MSG ||| (if immediate then ISCSI_OP_IMMEDIATE else 0),
             flags := ISCSI_FLG_FINAL, itt := itt, sn := cmd_sn, lun := lun,
             function := function, rtt := rtt, ref_cmd_sn := ref_cmd_sn } }

/-- A connection with the ABORT TASK request `req` at address `0` and one SCSI
command with ITT `7`, LUN `1` and CmdSN `50` at address `1`. -/
def abort_task_store (req : iscsi_cmnd) : Nat → iscsi_cmnd :=
  fun a => if a = 0 then req
    else { pdu := { opcode := ISCSI_OP_SCSI_CMD, flags := ISCSI_CMD_FINAL, itt := 7, sn := 50,
                    lun := 1 } }

/-- A session in which the task-management function with CmdSN `55` (ITT `9`)
was executed at ExpCmdSN `50` and its response is delayed in `tm_rsp`. -/
def tm_55_session : iscsi_session :=
  { exp_cmd_sn := 50,
    tm := { tm_active := 1, tm_sn := 55,
            tm_rsp := some (task_mgmt_rsp (tm_req ISCSI_FUNCTION_ABORT_TASK_SET 9
              ISCSI_RESERVED_TAG 0 55 0 true) ISCSI_RESPONSE_FUNCTION_COMPLETE) } }

/-- The SCSI commands with CmdSN `first`, ..., `first + n - 1`. -/
def scsi_cmds (first n : Nat) : List iscsi_cmnd :=
  (List.range n).map (fun i => mk_req ISCSI_OP_SCSI_CMD (first + i))

/-- The responses put on the write list by `iscsi_push_cmnd`. -/
def push_written (evs : List push_event) : List tm_response :=
  evs.filterMap (fun e => match e with | .init_write rsp => some rsp | _ => Option.none)

/-- A SCSI command with CmdSN `12` that is already handed to the SCSI
mid-layer and marked `ABORTED` when it is pushed. -/
def aborted_cmd_12 : iscsi_cmnd :=
  { pdu := { opcode := ISCSI_OP_SCSI_CMD, flags := ISCSI_CMD_FINAL, itt := 3, sn := 12 },
    aborted := true, has_scst_cmd := true }

/-! ## Start of the reception of a PDU -/

/-- The function `cmnd_read_size`; `rlength` is the read length of the
`RLENGTH` AHS, if the PDU has one. -/
def cmnd_read_size (cmnd : iscsi_cmnd) (rlength : Option Nat) : Int :=
  if has_flag cmnd.pdu.flags ISCSI_CMD_READ then
    if !has_flag cmnd.pdu.flags ISCSI_CMD_WRITE then to_s32 cmnd.pdu.data_length
    else
      match rlength with
      | some n => to_s32 n
      | Option.none => -1
  else 0

/-- Whether the events hold `mark_conn_closed`. -/
def conn_closed (evs : List rx_event) : Bool := evs.contains .mark_conn_closed

/-- The C subtraction `a - b` on `unsigned long` operands of `bits` bits. -/
def ulong_sub (bits a b : Nat) : Nat := (a + (2 ^ bits - b % 2 ^ bits)) % 2 ^ bits

/-- The conversion `(long)x` of an `unsigned long` value of `bits` bits. -/
def to_long (bits x : Nat) : Int :=
  if x % 2 ^ bits < 2 ^ (bits - 1) then ((x % 2 ^ bits : Nat) : Int)
  else ((x % 2 ^ bits : Nat) : Int) - ((2 ^ bits : Nat) : Int)

/-- Modelled from the spec: the comparison `time_after(a, b)` of jiffies values
comes from the kernel header `linux/jiffies.h`, which is not part of the
sources; it is `(long)(b - a) < 0`, "`a` is later than `b`" in the wrapping
arithmetic of the tick counter, the order in which the specification says
"no later than". -/
def time_after (bits a b : Nat) : Bool := decide (to_long bits (ulong_sub bits b a) < 0)

/-- The part of `struct timer_list` that `__cmnd_abort` reads and writes:
whether the timer is pending (`timer_pending`) and its expiry in jiffies. -/
structure timer_list where
  pending : Bool := false
  expires : Nat := 0
  deriving DecidableEq, Repr

/-- Modelled from the spec: the kernel function `mod_timer(timer, expires)` is
not part of the sources; it arms the timer, which is pending afterwards with
the given expiry whether or not it was pending before. -/
def mod_timer (_timer : timer_list) (expires : Nat) : timer_list :=
  { pending := true, expires := expires }

/-- The fields of `struct iscsi_conn` that `__cmnd_abort` writes. -/
structure conn_tm where
  conn_tm_active : Nat := 0
  rsp_timer : timer_list := {}
  deriving DecidableEq, Repr

/-- The function `__cmnd_abort` for a command and its connection. `bits` is
the width of `unsigned long`, `jiffies` the tick counter at the call, and the
two timeouts are the values of `ISCSI_TM_DATA_WAIT_TIMEOUT` and
`ISCSI_ADD_SCHED_TIME` (defined in `iscsi.h`, not part of the sources).
Returns the command and the connection fields. -/
def __cmnd_abort (bits tm_data_wait_timeout add_sched_time jiffies : Nat) (cmnd : iscsi_cmnd)
    (conn : conn_tm) : iscsi_cmnd × conn_tm :=
  let timeout_time := (jiffies + tm_data_wait_timeout + add_sched_time) % 2 ^ bits
  let cmnd1 := cmnd_abort_mark cmnd
  let conn1 := { conn with conn_tm_active := 1 }
  if !conn1.rsp_timer.pending || time_after bits conn1.rsp_timer.expires timeout_time then
    (cmnd1, { conn1 with rsp_timer := mod_timer conn1.rsp_timer timeout_time })
  else (cmnd1, conn1)

/-- The function `task_set_abort` over all connections of the session:
`conn_list` holds the `cmd_list` of each connection, in the order of
`session->conn_list`; `task_set_abort` above is the pass over one of them. -/
def task_set_abort_session (cmnds : Nat → iscsi_cmnd) (conn_list : List (List Nat)) (req : Nat) :
    Nat → iscsi_cmnd :=
  conn_list.foldl (fun m cmd_list => task_set_abort m cmd_list req) cmnds

/-- A session with two connections: the ABORT TASK SET request with CmdSN `55`
for LUN `1` at address `0`, and SCSI commands at the addresses `1` to `4` with
(LUN, CmdSN) `(1, 50)`, `(2, 51)`, `(1, 55)` and `(1, 54)`. -/
def task_set_store : Nat → iscsi_cmnd :=
  fun a =>
    if a = 0 then tm_req ISCSI_FUNCTION_ABORT_TASK_SET 9 ISCSI_RESERVED_TAG 1 55 0 true
    else if a = 1 then { pdu := { opcode := ISCSI_OP_SCSI_CMD, itt := 1, sn := 50, lun := 1 } }
    else if a = 2 then { pdu := { opcode := ISCSI_OP_SCSI_CMD, itt := 2, sn := 51, lun := 2 } }
    else if a = 3 then { pdu := { opcode := ISCSI_OP_SCSI_CMD, itt := 3, sn := 55, lun := 1 } }
    else { pdu := { opcode := ISCSI_OP_SCSI_CMD, itt := 4, sn := 54, lun := 1 } }

/-- A connection with the ABORT TASK request `req` at address `0` and one
immediate NOP-Out with ITT `7`, LUN `1` and CmdSN `55` at address `1`. -/
def immediate_target_store (req : iscsi_cmnd) : Nat → iscsi_cmnd :=
  fun a => if a = 0 then req
    else { pdu := { opcode := ISCSI_OP_NOP_OUT ||| ISCSI_OP_IMMEDIATE, flags := ISCSI_FLG_FINAL,
                    itt := 7, sn := 55, lun := 1 } }

/-! ## The read size of a command -/

/-- The fields of `struct iscsi_ahs_hdr` that `cmnd_read_size` reads at a byte
position of the AHS buffer (in CPU byte order), together with the
`read_length` that `struct iscsi_rlength_ahdr` has at the same position. -/
structure iscsi_ahs_hdr where
  ahslength : Nat := 0
  ahstype : Nat := 0
  read_length : Nat := 0
  deriving DecidableEq, Repr

/-- The `do ... while (size < cmnd->pdu.ahssize)` loop of `cmnd_read_size`,
entered with the position `p` in the AHS buffer and the counter `size`
(`unsigned int`). `ahs p` is the header read at byte position `p`;
`rlength_type` is the constant `ISCSI_AHSTYPE_RLENGTH`. The step is
`s = 3 + be16_to_cpu(ahslength)`, then `s = (s + 3) & -4` (the two low bits
cleared). `none` when the fuel runs out. -/
def cmnd_read_size_loop (rlength_type : Nat) (ahs : Nat → iscsi_ahs_hdr) (ahssize : Nat) :
    Nat → Nat → Nat → Option Int
  | 0, _, _ => Option.none
  | fuel + 1, p, size =>
    let ahdr := ahs p
    if ahdr.ahstype = rlength_type then some (to_s32 ahdr.read_length)
    else
      let s := 3 + ahdr.ahslength % 2 ^ 16
      let s1 := (s + 3) - (s + 3) % 4
      let size1 := (size + s1) % U32_MOD
      if size1 < ahssize then cmnd_read_size_loop rlength_type ahs ahssize fuel (p + s1) size1
      else some (-1)

/-- The function `cmnd_read_size` with the walk over the AHS buffer in full:
`ahs` is `cmnd->pdu.ahs` (`none` for a NULL pointer), `ahssize` is
`cmnd->pdu.ahssize`. `none` when the fuel of the loop runs out. -/
def cmnd_read_size_ahs (rlength_type : Nat) (cmnd : iscsi_cmnd)
    (ahs : Option (Nat → iscsi_ahs_hdr)) (ahssize fuel : Nat) : Option Int :=
  if has_flag cmnd.pdu.flags ISCSI_CMD_READ then
    if !has_flag cmnd.pdu.flags ISCSI_CMD_WRITE then some (to_s32 cmnd.pdu.data_length)
    else
      match ahs with
      | some buf => cmnd_read_size_loop rlength_type buf ahssize fuel 0 0
      | Option.none => some (-1)
  else some 0

/-- The length of one step along the AHS chain in the specification's words:
`3 + ahslength` rounded up to a multiple of 4. -/
def ahs_step (h : iscsi_ahs_hdr) : Nat := 4 * ((3 + h.ahslength % 2 ^ 16 + 3) / 4)

/-- The byte position of the `k`-th header of the AHS chain: the first header
is at position `0`, each next one a step further. -/
def ahs_offset (ahs : Nat → iscsi_ahs_hdr) : Nat → Nat
  | 0 => 0
  | k + 1 => ahs_offset ahs k + ahs_step (ahs (ahs_offset ahs k))

/-- An AHS buffer of 16 bytes: an extended-CDB header (`ahstype = 1`,
`ahslength = 5`) at position `0` and a read-length header (`ahstype = 2`,
`ahslength = 5`, `read_length = 4096`) at position `8`. -/
def bidi_ahs : Nat → iscsi_ahs_hdr :=
  fun p => if p = 0 then { ahslength := 5, ahstype := 1 }
    else if p = 8 then { ahslength := 5, ahstype := 2, read_length := 4096 }
    else {}

/-! ## Completion of a task-management function -/

def ISCSI_RESPONSE_UNKNOWN_LUN : Nat := 2
def ISCSI_RESPONSE_FUNCTION_UNSUPPORTED : Nat := 5

/-- The status values of the SCSI mid-layer that `iscsi_get_mgmt_response`
tells apart (`SCST_MGMT_STATUS_...`); `other` is any value that falls to the
`default` label. -/
inductive scst_mgmt_status where
  | SUCCESS
  | TASK_NOT_EXIST
  | LUN_NOT_EXIST
  | FN_NOT_SUPPORTED
  | REJECTED
  | FAILED
  | other
  deriving DecidableEq, Repr

/-- The function `iscsi_get_mgmt_response`. -/
def iscsi_get_mgmt_response (status : scst_mgmt_status) : Nat :=
  match status with
  | .SUCCESS => ISCSI_RESPONSE_FUNCTION_COMPLETE
  | .TASK_NOT_EXIST => ISCSI_RESPONSE_UNKNOWN_TASK
  | .LUN_NOT_EXIST => ISCSI_RESPONSE_UNKNOWN_LUN
  | .FN_NOT_SUPPORTED => ISCSI_RESPONSE_FUNCTION_UNSUPPORTED
  | _ => ISCSI_RESPONSE_FUNCTION_REJECTED

/-- The function `iscsi_task_mgmt_fn_done`, the completion callback of the
SCSI mid-layer for the function `fn` that was forwarded for the request `req`:
the session and the events; `none` when an `sBUG_ON` of
`iscsi_send_task_mgmt_resp` fires. -/
def iscsi_task_mgmt_fn_done (session : iscsi_session) (fn : scst_mgmt_fn) (req : iscsi_cmnd)
    (scst_status : scst_mgmt_status) : Option (iscsi_session × List tm_event) :=
  let status0 := iscsi_get_mgmt_response scst_status
  let status :=
    if status0 = ISCSI_RESPONSE_UNKNOWN_TASK ∧ fn = .SCST_ABORT_TASK then
      ISCSI_RESPONSE_FUNCTION_COMPLETE
    else status0
  match fn with
  | .SCST_NEXUS_LOSS_SESS => some (session, [])
  | .SCST_ABORT_ALL_TASKS_SESS => some (session, [])
  | _ => iscsi_send_task_mgmt_resp session req status

/-- One step of the task-management traffic of a session: a request that the
read thread executes (`scst_rc` is what `scst_rx_mgmt_fn` returns if it is
called), or the completion of a forwarded function by the SCSI mid-layer. -/
inductive tm_op where
  | request (req : Nat) (scst_rc : Int)
  | done (fn : scst_mgmt_fn) (req : Nat) (scst_status : scst_mgmt_status)
  deriving DecidableEq, Repr

/-- One step: `execute_task_management` for a request,
`iscsi_task_mgmt_fn_done` for a completion; `none` when an `sBUG_ON` fires. -/
def tm_step (cmd_list : List Nat) (st : iscsi_session × (Nat → iscsi_cmnd)) (op : tm_op) :
    Option ((iscsi_session × (Nat → iscsi_cmnd)) × List tm_event) :=
  match op with
  | .request req scst_rc =>
    (execute_task_management st.1 st.2 cmd_list req scst_rc).map
      (fun r => ((r.1, r.2.1), r.2.2))
  | .done fn req scst_status =>
    (iscsi_task_mgmt_fn_done st.1 fn (st.2 req) scst_status).map (fun r => ((r.1, st.2), r.2))

/-- A sequence of steps, with the events of all steps in order; `none` when an
`sBUG_ON` fires in one of them. -/
def tm_run (cmd_list : List Nat) :
    iscsi_session × (Nat → iscsi_cmnd) → List tm_op →
      Option ((iscsi_session × (Nat → iscsi_cmnd)) × List tm_event)
  | st, [] => some (st, [])
  | st, op :: rest =>
    match tm_step cmd_list st op with
    | Option.none => Option.none
    | some (st1, evs) =>
      match tm_run cmd_list st1 rest with
      | Option.none => Option.none
      | some (st2, evs2) => some (st2, evs ++ evs2)

/-- A connection with two immediate task-management requests with CmdSN `55`:
ABORT TASK SET for LUN `0` with ITT `9` at address `0`, and (with ITT `10`)
at address `1` the function `fn2`. -/
def two_tm_store (fn2 : Nat) : Nat → iscsi_cmnd :=
  fun a =>
    if a = 0 then tm_req ISCSI_FUNCTION_ABORT_TASK_SET 9 ISCSI_RESERVED_TAG 0 55 0 true
    else tm_req fn2 10 ISCSI_RESERVED_TAG 0 55 0 true

/-- Invariant of the reorder queue relative to the current ExpCmdSN: every
queued command lies strictly beyond `exp_cmd_sn`, less than `2 ^ 31` ahead of
it, its CmdSN is one of `done` (the CmdSNs pushed so far), and the queue is in
strictly increasing order of the distance from `exp_cmd_sn`. -/
def pend_ok (s : iscsi_session) (done : List Nat) : Prop :=
  s.exp_cmd_sn < 2 ^ 32 ∧
  (∀ p ∈ s.pending_list,
    p.pdu.sn < 2 ^ 32 ∧ 0 < sub32 p.pdu.sn s.exp_cmd_sn ∧
      sub32 p.pdu.sn s.exp_cmd_sn < 2 ^ 31 ∧ p.pdu.sn ∈ done) ∧
  s.pending_list.Pairwise
    (fun a b => sub32 a.pdu.sn s.exp_cmd_sn < sub32 b.pdu.sn s.exp_cmd_sn)

/-! ## Arithmetic of serial numbers -/

theorem sub32_lt (a b : Nat) : sub32 a b < 2 ^ 32 := by
  unfold sub32 U32_MOD
  omega

theorem add32_lt (a b : Nat) : add32 a b < 2 ^ 32 := by
  unfold add32 U32_MOD
  omega

theorem before_iff (a b : Nat) : before a b = true ↔ 2 ^ 31 ≤ sub32 a b := by
  have h := sub32_lt a b
  unfold before to_s32
  simp only [decide_eq_true_eq, U32_MOD]
  split_ifs with h1 <;> omega

theorem before_eq_false_iff (a b : Nat) : before a b = false ↔ sub32 a b < 2 ^ 31 := by
  rw [← Bool.not_eq_true, before_iff]
  omega

theorem sub32_add32 (base k : Nat) (hk : k < 2 ^ 32) :
    sub32 (add32 base k) base = k := by
  unfold sub32 add32 U32_MOD
  omega

theorem add32_sub32 (x base : Nat) (hx : x < 2 ^ 32) :
    add32 base (sub32 x base) = x := by
  unfold sub32 add32 U32_MOD
  omega

theorem sub32_of_offsets (a b base : Nat) (hle : sub32 b base ≤ sub32 a base) :
    sub32 a b = sub32 a base - sub32 b base := by
  unfold sub32 U32_MOD at *
  omega

theorem sub32_of_offsets_gt (a b base : Nat) (hlt : sub32 a base < sub32 b base) :
    sub32 a b = 2 ^ 32 - (sub32 b base - sub32 a base) := by
  unfold sub32 U32_MOD at *
  omega

theorem add32_add32 (base i j : Nat) : add32 (add32 base i) j = add32 base (i + j) := by
  unfold add32 U32_MOD
  omega


theorem before_irrefl (a : Nat) : before a a = false := by
  rw [before_eq_false_iff]
  unfold sub32 U32_MOD
  omega

theorem before_succ (a : Nat) : before a (add32 a 1) = true := by
  rw [before_iff]
  unfold sub32 add32 U32_MOD
  omega

theorem wrap_int_of_range (x : Int) (hlo : -(2 ^ 31) ≤ x) (hhi : x < 2 ^ 31) :
    wrap_int x = x := by
  unfold wrap_int to_s32 of_int32 U32_MOD
  have h1 : ((x % ((2 ^ 32 : Nat) : Int)).toNat : Int) = x % ((2 ^ 32 : Nat) : Int) :=
    Int.toNat_of_nonneg (Int.emod_nonneg _ (by norm_num))
  have h2 : (x % ((2 ^ 32 : Nat) : Int)).toNat % 2 ^ 32 = (x % ((2 ^ 32 : Nat) : Int)).toNat := by
    apply Nat.mod_eq_of_lt
    have : x % ((2 ^ 32 : Nat) : Int) < ((2 ^ 32 : Nat) : Int) := Int.emod_lt_of_pos _ (by norm_num)
    omega
  rw [h2]
  split_ifs with h <;> push_cast at * <;> omega

/-! ## Out-of-window and immediate commands -/

/-- Claim C2. A command whose CmdSN is before the session's ExpCmdSN in 32-bit
serial arithmetic makes `check_cmd_sn` return `-ISCSI_REASON_PROTOCOL_ERROR`
(every other CmdSN gives `0`), and when it is not immediate `iscsi_push_cmnd`
only force-releases it: no execution, no queueing, the session unchanged. -/
theorem check_cmd_sn_before_and_push_drops (exec : iscsi_cmnd → tm_state → tm_state)
    (session : iscsi_session) (cmnd : iscsi_cmnd) :
    (before cmnd.pdu.sn session.exp_cmd_sn = true →
      check_cmd_sn session cmnd = -ISCSI_REASON_PROTOCOL_ERROR) ∧
    (before cmnd.pdu.sn session.exp_cmd_sn = false → check_cmd_sn session cmnd = 0) ∧
    (is_immediate cmnd = false → before cmnd.pdu.sn session.exp_cmd_sn = true →
      iscsi_push_cmnd exec session cmnd = (session, [.release_force cmnd]) ∧
      executed_cmnds (iscsi_push_cmnd exec session cmnd).2 = [] ∧
      (iscsi_push_cmnd exec session cmnd).1.exp_cmd_sn = session.exp_cmd_sn ∧
      (iscsi_push_cmnd exec session cmnd).1.pending_list = session.pending_list) := by
  refine ⟨?_, ?_, ?_⟩
  · intro h
    unfold before at h
    simp only [decide_eq_true_eq] at h
    unfold check_cmd_sn
    rw [if_neg (by omega)]
  · intro h
    unfold before at h
    simp only [decide_eq_false_iff_not] at h
    unfold check_cmd_sn
    rw [if_pos (by omega)]
  · intro himm hbef
    have hne : cmnd.pdu.sn ≠ session.exp_cmd_sn := by
      intro heq
      rw [heq, before_irrefl] at hbef
      exact Bool.false_ne_true hbef
    have hpush : iscsi_push_cmnd exec session cmnd = (session, [.release_force cmnd]) := by
      unfold iscsi_push_cmnd
      simp [himm, hne, hbef]
    rw [hpush]
    exact ⟨rfl, rfl, rfl, rfl⟩

theorem check_cmd_sn_before_and_push_drops_witness :
    check_cmd_sn { exp_cmd_sn := 10 } (mk_req 1 5) = -ISCSI_REASON_PROTOCOL_ERROR ∧
    check_cmd_sn { exp_cmd_sn := 10 } (mk_req 1 10) = 0 ∧
    iscsi_push_cmnd (fun _ t => t) { exp_cmd_sn := 10, pending_list := [mk_req 1 12] } (mk_req 1 5) =
      ({ exp_cmd_sn := 10, pending_list := [mk_req 1 12] }, [.release_force (mk_req 1 5)]) :=
  ⟨(check_cmd_sn_before_and_push_drops (fun _ t => t) { exp_cmd_sn := 10 } (mk_req 1 5)).1
      (by decide),
   (check_cmd_sn_before_and_push_drops (fun _ t => t) { exp_cmd_sn := 10 } (mk_req 1 10)).2.1
      (by decide),
   ((check_cmd_sn_before_and_push_drops (fun _ t => t)
      { exp_cmd_sn := 10, pending_list := [mk_req 1 12] } (mk_req 1 5)).2.2
      (by decide) (by decide)).1⟩

/-- Claim C3. A command with the IMMEDIATE bit in its opcode is handed to
`iscsi_cmnd_exec` at once, whatever its CmdSN, and `iscsi_push_cmnd` leaves
`exp_cmd_sn` and `pending_list` as they were. -/
theorem push_immediate_bypasses_reorder (exec : iscsi_cmnd → tm_state → tm_state)
    (session : iscsi_session) (cmnd : iscsi_cmnd) (himm : is_immediate cmnd = true) :
    (iscsi_push_cmnd exec session cmnd).2 = [.exec .immediate cmnd] ∧
    executed_cmnds (iscsi_push_cmnd exec session cmnd).2 = [cmnd] ∧
    (iscsi_push_cmnd exec session cmnd).1.exp_cmd_sn = session.exp_cmd_sn ∧
    (iscsi_push_cmnd exec session cmnd).1.pending_list = session.pending_list := by
  unfold iscsi_push_cmnd
  rw [if_pos himm]
  exact ⟨rfl, rfl, rfl, rfl⟩

theorem push_immediate_bypasses_reorder_witness :
    executed_cmnds (iscsi_push_cmnd (fun _ t => t) { exp_cmd_sn := 10 } (mk_req 0x41 15)).2 =
      [mk_req 0x41 15] ∧
    (iscsi_push_cmnd (fun _ t => t) { exp_cmd_sn := 10 } (mk_req 0x41 15)).1.exp_cmd_sn = 10 :=
  ⟨(push_immediate_bypasses_reorder (fun _ t => t) { exp_cmd_sn := 10 } (mk_req 0x41 15)
      (by decide)).2.1,
   (push_immediate_bypasses_reorder (fun _ t => t) { exp_cmd_sn := 10 } (mk_req 0x41 15)
      (by decide)).2.2.1⟩


/-! ## ExpCmdSN, MaxCmdSN and StatSN on transmitted PDUs -/

theorem allowed_cmds_exact (sess : iscsi_session) (hq : sess.queued_cmnds < 2 ^ 31)
    (ha0 : 0 ≤ sess.active_cmds) (ha1 : sess.active_cmds < 2 ^ 31) :
    iscsi_get_allowed_cmds sess =
      max (-1) ((sess.queued_cmnds : Int) - sess.active_cmds - 1) := by
  unfold iscsi_get_allowed_cmds
  have hs : to_s32 sess.queued_cmnds = (sess.queued_cmnds : Int) := by
    unfold to_s32 U32_MOD
    have : sess.queued_cmnds % 2 ^ 32 = sess.queued_cmnds := Nat.mod_eq_of_lt (by omega)
    rw [this, if_pos hq]
  rw [hs, wrap_int_of_range _ (by omega) (by omega)]

/-- Claim C5. The function `cmnd_set_sn` stamps ExpCmdSN with the session's
`exp_cmd_sn` and MaxCmdSN with
`exp_cmd_sn + max(-1, queued_cmnds - active_cmds - 1)` reduced modulo `2 ^ 32`
(the counters being in the range of a C `int`); when `active_cmds` has reached
`queued_cmnds` the stamped MaxCmdSN is `exp_cmd_sn - 1` in 32-bit arithmetic. -/
theorem cmnd_set_sn_stamps_exp_and_max (sess : iscsi_session) (conn : iscsi_conn)
    (cmnd : iscsi_cmnd) (set_stat_sn : Bool) (hq : sess.queued_cmnds < 2 ^ 31)
    (ha0 : 0 ≤ sess.active_cmds) (ha1 : sess.active_cmds < 2 ^ 31) :
    (cmnd_set_sn sess conn cmnd set_stat_sn).1.pdu.exp_sn = sess.exp_cmd_sn ∧
    ((cmnd_set_sn sess conn cmnd set_stat_sn).1.pdu.max_sn : Int) =
      ((sess.exp_cmd_sn : Int) + max (-1) ((sess.queued_cmnds : Int) - sess.active_cmds - 1))
        % (2 ^ 32 : Int) ∧
    ((sess.queued_cmnds : Int) ≤ sess.active_cmds →
      (cmnd_set_sn sess conn cmnd set_stat_sn).1.pdu.max_sn = sub32 sess.exp_cmd_sn 1) := by
  have hallowed := allowed_cmds_exact sess hq ha0 ha1
  have hmax : (cmnd_set_sn sess conn cmnd set_stat_sn).1.pdu.max_sn =
      of_int32 ((sess.exp_cmd_sn : Int) + iscsi_get_allowed_cmds sess) := by
    unfold cmnd_set_sn
    rfl
  refine ⟨?_, ?_, ?_⟩
  · unfold cmnd_set_sn
    rfl
  · rw [hmax, hallowed]
    unfold of_int32 U32_MOD
    rw [Int.toNat_of_nonneg (Int.emod_nonneg _ (by norm_num))]
    norm_num
  · intro hle
    rw [hmax, hallowed, max_eq_left (by omega)]
    unfold of_int32 sub32 U32_MOD
    have h2 : (2 ^ 32 - 1 % 2 ^ 32 : Nat) = 4294967295 := by norm_num
    rw [h2]
    have h3 : ((sess.exp_cmd_sn : Int) + -1) % ((2 ^ 32 : Nat) : Int) =
        (((sess.exp_cmd_sn + 4294967295) % 2 ^ 32 : Nat) : Int) := by
      push_cast
      omega
    rw [h3, Int.toNat_ofNat]

theorem cmnd_set_sn_stamps_exp_and_max_witness :
    (cmnd_set_sn { exp_cmd_sn := 100, queued_cmnds := 32, active_cmds := 32 } { stat_sn := 7 }
      { pdu := { opcode := 0x21 } } true).1.pdu.max_sn = sub32 100 1 :=
  (cmnd_set_sn_stamps_exp_and_max { exp_cmd_sn := 100, queued_cmnds := 32, active_cmds := 32 }
    { stat_sn := 7 } { pdu := { opcode := 0x21 } } true (by decide) (by decide) (by decide)).2.2
    (by decide)


theorem tx_set_stat_sn_congr (a b : iscsi_cmnd) (hop : a.pdu.opcode = b.pdu.opcode)
    (hitt : a.pdu.itt = b.pdu.itt) (hfl : a.pdu.flags = b.pdu.flags) :
    tx_set_stat_sn a = tx_set_stat_sn b := by
  unfold tx_set_stat_sn cmnd_opcode
  rw [hop, hitt, hfl]

theorem cmnd_tx_start_kind (sess : iscsi_session) (conn : iscsi_conn) (cmnd : iscsi_cmnd) :
    tx_set_stat_sn (cmnd_tx_start sess conn cmnd).1 = tx_set_stat_sn cmnd := by
  apply tx_set_stat_sn_congr <;>
  · unfold cmnd_tx_start cmnd_set_sn
    rcases tx_set_stat_sn cmnd with _ | b
    · rfl
    · cases b
      · simp only [Bool.false_eq_true, if_false]
        split_ifs <;> rfl
      · rfl

theorem cmnd_tx_start_status (sess : iscsi_session) (conn : iscsi_conn) (cmnd : iscsi_cmnd)
    (h : tx_set_stat_sn cmnd = some true) :
    (cmnd_tx_start sess conn cmnd).1.pdu.sn = conn.stat_sn ∧
    (cmnd_tx_start sess conn cmnd).2.stat_sn = add32 conn.stat_sn 1 := by
  unfold cmnd_tx_start
  rw [h]
  exact ⟨rfl, rfl⟩

theorem cmnd_tx_start_no_status (sess : iscsi_session) (conn : iscsi_conn) (cmnd : iscsi_cmnd)
    (h : tx_set_stat_sn cmnd ≠ some true) : (cmnd_tx_start sess conn cmnd).2 = conn := by
  unfold cmnd_tx_start cmnd_set_sn
  rcases hk : tx_set_stat_sn cmnd with _ | b
  · rfl
  · cases b
    · simp only [Bool.false_eq_true, if_false]
      split_ifs <;> rfl
    · exact absurd hk h

theorem tx_all_stat_sns (pdus : List (iscsi_session × iscsi_cmnd)) :
    ∀ conn : iscsi_conn,
      stat_sns (tx_all conn pdus).1 =
        List.iterate (fun a => add32 a 1) conn.stat_sn (stat_sns (tx_all conn pdus).1).length ∧
      (tx_all conn pdus).2.stat_sn =
        Nat.iterate (fun a => add32 a 1) (stat_sns (tx_all conn pdus).1).length conn.stat_sn := by
  induction pdus with
  | nil =>
    intro conn
    exact ⟨rfl, rfl⟩
  | cons p rest ih =>
    intro conn
    obtain ⟨sess, cmnd⟩ := p
    have ih1 := ih (cmnd_tx_start sess conn cmnd).2
    by_cases hk : tx_set_stat_sn cmnd = some true
    · have hs := cmnd_tx_start_status sess conn cmnd hk
      have hkind : tx_set_stat_sn (cmnd_tx_start sess conn cmnd).1 = some true := by
        rw [cmnd_tx_start_kind]; exact hk
      have hcons : stat_sns (tx_all conn ((sess, cmnd) :: rest)).1 =
          conn.stat_sn :: stat_sns (tx_all (cmnd_tx_start sess conn cmnd).2 rest).1 := by
        simp only [tx_all, stat_sns, List.filter_cons, hkind, decide_True, if_true, List.map_cons,
          hs.1]
      have hfin : (tx_all conn ((sess, cmnd) :: rest)).2 =
          (tx_all (cmnd_tx_start sess conn cmnd).2 rest).2 := rfl
      rw [hcons, hfin]
      refine ⟨?_, ?_⟩
      · rw [List.length_cons, List.iterate, ← hs.2]
        exact congrArg _ ih1.1
      · rw [List.length_cons, Function.iterate_succ_apply, ← hs.2]
        exact ih1.2
    · have hs := cmnd_tx_start_no_status sess conn cmnd hk
      have hkind : ¬ tx_set_stat_sn (cmnd_tx_start sess conn cmnd).1 = some true := by
        rw [cmnd_tx_start_kind]; exact hk
      have hcons : stat_sns (tx_all conn ((sess, cmnd) :: rest)).1 =
          stat_sns (tx_all (cmnd_tx_start sess conn cmnd).2 rest).1 := by
        simp only [tx_all, stat_sns, List.filter_cons, hkind, decide_False, Bool.false_eq_true,
          if_false]
      have hfin : (tx_all conn ((sess, cmnd) :: rest)).2 =
          (tx_all (cmnd_tx_start sess conn cmnd).2 rest).2 := rfl
      rw [hcons, hfin, hs]
      exact ih conn

theorem iterate_chain_before (n : Nat) :
    ∀ a : Nat, List.Chain' (fun x y => y = add32 x 1 ∧ before x y = true)
      (List.iterate (fun a => add32 a 1) a n) := by
  induction n with
  | zero => intro a; exact List.chain'_nil
  | succ n ih =>
    intro a
    rw [List.iterate]
    cases n with
    | zero => exact List.chain'_singleton _
    | succ m =>
      have := ih (add32 a 1)
      rw [List.iterate] at this ⊢
      exact List.Chain'.cons ⟨rfl, before_succ a⟩ this

/-- Claim C6. On one connection the StatSN values stamped on successive
status-bearing PDUs are `stat_sn, stat_sn + 1, ...` modulo `2 ^ 32`, each
strictly before the next in serial-number order: `cmnd_set_sn` with
`set_stat_sn` stamps the current `stat_sn` and advances it by one, and a PDU
stamped without it (R2T, Data-In without FINAL, NOP-In with the reserved ITT)
leaves `stat_sn` unchanged. -/
theorem stat_sn_strictly_increasing (conn : iscsi_conn)
    (pdus : List (iscsi_session × iscsi_cmnd)) (sess : iscsi_session) (cmnd : iscsi_cmnd) :
    List.Chain' (fun x y => y = add32 x 1 ∧ before x y = true) (stat_sns (tx_all conn pdus).1) ∧
    stat_sns (tx_all conn pdus).1 =
      List.iterate (fun a => add32 a 1) conn.stat_sn (stat_sns (tx_all conn pdus).1).length ∧
    ((cmnd_set_sn sess conn cmnd true).1.pdu.sn = conn.stat_sn ∧
      (cmnd_set_sn sess conn cmnd true).2.1.stat_sn = add32 conn.stat_sn 1) ∧
    (cmnd_set_sn sess conn cmnd false).2.1 = conn ∧
    (tx_set_stat_sn cmnd = some true →
      (cmnd_tx_start sess conn cmnd).1.pdu.sn = conn.stat_sn ∧
      (cmnd_tx_start sess conn cmnd).2.stat_sn = add32 conn.stat_sn 1) ∧
    ((cmnd_opcode cmnd = ISCSI_OP_R2T ∨
        (cmnd_opcode cmnd = ISCSI_OP_SCSI_DATA_IN ∧ cmnd.pdu.flags &&& ISCSI_FLG_FINAL = 0) ∨
        (cmnd_opcode cmnd = ISCSI_OP_NOP_IN ∧ cmnd.pdu.itt = ISCSI_RESERVED_TAG)) →
      (cmnd_tx_start sess conn cmnd).2 = conn) := by
  have h := tx_all_stat_sns pdus conn
  refine ⟨?_, h.1, ⟨rfl, rfl⟩, rfl, cmnd_tx_start_status sess conn cmnd, ?_⟩
  · rw [h.1]
    exact iterate_chain_before _ _
  · intro hk
    apply cmnd_tx_start_no_status
    unfold tx_set_stat_sn
    rcases hk with hk | ⟨hk, hf⟩ | ⟨hk, hi⟩
    · simp [hk, ISCSI_OP_R2T, ISCSI_OP_NOP_IN, ISCSI_OP_SCSI_RSP, ISCSI_OP_SCSI_TASK_MGT_RSP,
        ISCSI_OP_TEXT_RSP, ISCSI_OP_SCSI_DATA_IN, ISCSI_OP_LOGOUT_RSP]
    · simp [hk, hf, ISCSI_OP_NOP_IN, ISCSI_OP_SCSI_RSP, ISCSI_OP_SCSI_TASK_MGT_RSP,
        ISCSI_OP_TEXT_RSP, ISCSI_OP_SCSI_DATA_IN]
    · simp [hk, hi]

theorem stat_sn_strictly_increasing_witness :
    (cmnd_tx_start {} { stat_sn := 5 } { pdu := { opcode := 0x21 } }).2.stat_sn = add32 5 1 ∧
    (cmnd_tx_start {} { stat_sn := 5 } { pdu := { opcode := 0x31 } }).2 = { stat_sn := 5 } :=
  ⟨((stat_sn_strictly_increasing { stat_sn := 5 } [] {} { pdu := { opcode := 0x21 } }).2.2.2.2.1
      (by decide)).2,
   (stat_sn_strictly_increasing { stat_sn := 5 } [] {} { pdu := { opcode := 0x31 } }).2.2.2.2.2
      (Or.inl (by decide))⟩


/-! ## The reorder queue: execution in CmdSN order -/

theorem executed_cmnds_append (a b : List push_event) :
    executed_cmnds (a ++ b) = executed_cmnds a ++ executed_cmnds b := by
  unfold executed_cmnds
  exact List.filterMap_append _ _ _

theorem delayed_tm_resp_executes_nothing (exp_cmd_sn : Nat) (tm : tm_state) :
    executed_cmnds (iscsi_check_send_delayed_tm_resp exp_cmd_sn tm).2 = [] := by
  unfold iscsi_check_send_delayed_tm_resp
  rcases tm.tm_rsp with _ | rsp
  · rfl
  · simp only
    split_ifs <;> rfl

theorem push_exec_one_fst (exec : iscsi_cmnd → tm_state → tm_state) (cmnd : iscsi_cmnd)
    (cmd_sn : Nat) (tm : tm_state) : (push_exec_one exec cmnd cmd_sn tm).1 = add32 cmd_sn 1 := rfl

theorem push_exec_one_executed (exec : iscsi_cmnd → tm_state → tm_state) (cmnd : iscsi_cmnd)
    (cmd_sn : Nat) (tm : tm_state) :
    ∃ marked : iscsi_cmnd, marked.pdu = cmnd.pdu ∧
      executed_cmnds (push_exec_one exec cmnd cmd_sn tm).2.2 = [marked] := by
  unfold push_exec_one
  simp only
  rw [executed_cmnds_append]
  have hsent : executed_cmnds (if tm.tm_active > 0 then
      iscsi_check_send_delayed_tm_resp (add32 cmd_sn 1) tm else (tm, [])).2 = [] := by
    split_ifs
    · exact delayed_tm_resp_executes_nothing _ _
    · rfl
  rw [hsent]
  refine ⟨_, ?_, rfl⟩
  split_ifs <;> rfl

theorem push_drain_nil (exec : iscsi_cmnd → tm_state → tm_state) (cmnd : iscsi_cmnd)
    (cmd_sn : Nat) (tm : tm_state) :
    push_drain exec [] cmnd cmd_sn tm =
      (add32 cmd_sn 1, [], (push_exec_one exec cmnd cmd_sn tm).2.1,
        (push_exec_one exec cmnd cmd_sn tm).2.2) := rfl

theorem push_drain_cons_ne (exec : iscsi_cmnd → tm_state → tm_state) (next : iscsi_cmnd)
    (rest : List iscsi_cmnd) (cmnd : iscsi_cmnd) (cmd_sn : Nat) (tm : tm_state)
    (h : next.pdu.sn ≠ add32 cmd_sn 1) :
    push_drain exec (next :: rest) cmnd cmd_sn tm =
      (add32 cmd_sn 1, next :: rest, (push_exec_one exec cmnd cmd_sn tm).2.1,
        (push_exec_one exec cmnd cmd_sn tm).2.2) := by
  rw [push_drain]
  simp only [push_exec_one_fst]
  rw [if_pos h]

theorem push_drain_cons_eq (exec : iscsi_cmnd → tm_state → tm_state) (next : iscsi_cmnd)
    (rest : List iscsi_cmnd) (cmnd : iscsi_cmnd) (cmd_sn : Nat) (tm : tm_state)
    (h : next.pdu.sn = add32 cmd_sn 1) :
    push_drain exec (next :: rest) cmnd cmd_sn tm =
      ((push_drain exec rest { next with pending := false } (add32 cmd_sn 1)
          (push_exec_one exec cmnd cmd_sn tm).2.1).1,
       (push_drain exec rest { next with pending := false } (add32 cmd_sn 1)
          (push_exec_one exec cmnd cmd_sn tm).2.1).2.1,
       (push_drain exec rest { next with pending := false } (add32 cmd_sn 1)
          (push_exec_one exec cmnd cmd_sn tm).2.1).2.2.1,
       (push_exec_one exec cmnd cmd_sn tm).2.2 ++
         (push_drain exec rest { next with pending := false } (add32 cmd_sn 1)
          (push_exec_one exec cmnd cmd_sn tm).2.1).2.2.2) := by
  rw [push_drain]
  simp only [push_exec_one_fst]
  rw [if_neg (not_not.mpr h)]

theorem push_drain_sns (exec : iscsi_cmnd → tm_state → tm_state) :
    ∀ (pending : List iscsi_cmnd) (cmnd : iscsi_cmnd) (cmd_sn : Nat) (tm : tm_state),
      cmnd.pdu.sn = cmd_sn →
      (executed_cmnds (push_drain exec pending cmnd cmd_sn tm).2.2.2).map (fun c => c.pdu.sn) =
        List.iterate (fun a => add32 a 1) cmd_sn
          (executed_cmnds (push_drain exec pending cmnd cmd_sn tm).2.2.2).length ∧
      (push_drain exec pending cmnd cmd_sn tm).1 =
        Nat.iterate (fun a => add32 a 1)
          (executed_cmnds (push_drain exec pending cmnd cmd_sn tm).2.2.2).length cmd_sn := by
  intro pending
  induction pending with
  | nil =>
    intro cmnd cmd_sn tm hsn
    obtain ⟨marked, hpdu, hex⟩ := push_exec_one_executed exec cmnd cmd_sn tm
    rw [push_drain_nil]
    simp only [hex, List.map_cons, List.map_nil, List.length_singleton, hpdu, hsn]
    exact ⟨rfl, rfl⟩
  | cons next rest ih =>
    intro cmnd cmd_sn tm hsn
    obtain ⟨marked, hpdu, hex⟩ := push_exec_one_executed exec cmnd cmd_sn tm
    by_cases h : next.pdu.sn = add32 cmd_sn 1
    · have ih1 := ih { next with pending := false } (add32 cmd_sn 1)
        (push_exec_one exec cmnd cmd_sn tm).2.1 h
      rw [push_drain_cons_eq exec next rest cmnd cmd_sn tm h]
      simp only [executed_cmnds_append, hex, List.singleton_append, List.map_cons,
        List.length_cons, hpdu, hsn]
      refine ⟨?_, ?_⟩
      · rw [List.iterate]
        exact congrArg _ ih1.1
      · rw [Function.iterate_succ_apply]
        exact ih1.2
    · rw [push_drain_cons_ne exec next rest cmnd cmd_sn tm h]
      simp only [hex, List.map_cons, List.map_nil, List.length_singleton, hpdu, hsn]
      exact ⟨rfl, rfl⟩

theorem push_cmnd_sns (exec : iscsi_cmnd → tm_state → tm_state) (s : iscsi_session)
    (c : iscsi_cmnd) (himm : is_immediate c = false) (hab : c.aborted = false) :
    (executed_cmnds (iscsi_push_cmnd exec s c).2).map (fun x => x.pdu.sn) =
      List.iterate (fun a => add32 a 1) s.exp_cmd_sn
        (executed_cmnds (iscsi_push_cmnd exec s c).2).length ∧
    (iscsi_push_cmnd exec s c).1.exp_cmd_sn =
      Nat.iterate (fun a => add32 a 1) (executed_cmnds (iscsi_push_cmnd exec s c).2).length
        s.exp_cmd_sn := by
  unfold iscsi_push_cmnd
  rw [if_neg (by simp [himm])]
  simp only
  by_cases heq : c.pdu.sn = s.exp_cmd_sn
  · rw [if_pos heq]
    have h := push_drain_sns exec s.pending_list c c.pdu.sn s.tm rfl
    rw [heq] at h
    rw [heq]
    exact h
  · rw [if_neg heq]
    by_cases hb : before c.pdu.sn s.exp_cmd_sn = true
    · rw [if_pos hb]
      exact ⟨rfl, rfl⟩
    · rw [if_neg hb, if_neg (by simp [hab])]
      exact ⟨rfl, rfl⟩

theorem push_all_sns (exec : iscsi_cmnd → tm_state → tm_state) (cmds : List iscsi_cmnd) :
    ∀ s : iscsi_session, (∀ c ∈ cmds, is_immediate c = false ∧ c.aborted = false) →
      (executed_cmnds (push_all exec s cmds).2).map (fun x => x.pdu.sn) =
        List.iterate (fun a => add32 a 1) s.exp_cmd_sn
          (executed_cmnds (push_all exec s cmds).2).length ∧
      (push_all exec s cmds).1.exp_cmd_sn =
        Nat.iterate (fun a => add32 a 1) (executed_cmnds (push_all exec s cmds).2).length
          s.exp_cmd_sn := by
  induction cmds with
  | nil =>
    intro s _
    exact ⟨rfl, rfl⟩
  | cons c rest ih =>
    intro s h
    have hc := h c (List.mem_cons_self _ _)
    have h1 := push_cmnd_sns exec s c hc.1 hc.2
    have h2 := ih (iscsi_push_cmnd exec s c).1 (fun x hx => h x (List.mem_cons_of_mem _ hx))
    have hlog : (push_all exec s (c :: rest)).2 =
        (iscsi_push_cmnd exec s c).2 ++ (push_all exec (iscsi_push_cmnd exec s c).1 rest).2 := rfl
    have hst : (push_all exec s (c :: rest)).1 =
        (push_all exec (iscsi_push_cmnd exec s c).1 rest).1 := rfl
    rw [hlog, hst, executed_cmnds_append, List.map_append, List.length_append, h1.1, h2.1,
      h2.2, h1.2, List.iterate_add]
    refine ⟨rfl, ?_⟩
    rw [add_comm, Function.iterate_add_apply]


theorem before_iff_offset_lt (a b base : Nat) (ha : sub32 a base < 2 ^ 31)
    (hb : sub32 b base < 2 ^ 31) : before a b = true ↔ sub32 a base < sub32 b base := by
  rw [before_iff]
  unfold sub32 U32_MOD at *
  omega

theorem mem_pending_insert (sn : Nat) (c : iscsi_cmnd) :
    ∀ (l : List iscsi_cmnd) (x : iscsi_cmnd), x ∈ pending_insert sn c l ↔ x = c ∨ x ∈ l := by
  intro l
  induction l with
  | nil =>
    intro x
    simp [pending_insert]
  | cons tmp rest ih =>
    intro x
    unfold pending_insert
    split_ifs
    · simp
    · rw [List.mem_cons, ih, List.mem_cons]
      tauto

theorem pending_insert_sorted (base : Nat) (x : iscsi_cmnd)
    (hx : sub32 x.pdu.sn base < 2 ^ 31) :
    ∀ l : List iscsi_cmnd,
      l.Pairwise (fun a b => sub32 a.pdu.sn base < sub32 b.pdu.sn base) →
      (∀ p ∈ l, sub32 p.pdu.sn base < 2 ^ 31 ∧ sub32 p.pdu.sn base ≠ sub32 x.pdu.sn base) →
      (pending_insert x.pdu.sn x l).Pairwise
        (fun a b => sub32 a.pdu.sn base < sub32 b.pdu.sn base) := by
  intro l
  induction l with
  | nil =>
    intro _ _
    simp [pending_insert]
  | cons tmp rest ih =>
    intro hs hl
    have htmp := hl tmp (List.mem_cons_self _ _)
    rw [List.pairwise_cons] at hs
    unfold pending_insert
    by_cases hb : before x.pdu.sn tmp.pdu.sn = true
    · rw [if_pos hb]
      have hlt := (before_iff_offset_lt _ _ base hx htmp.1).mp hb
      rw [List.pairwise_cons, List.pairwise_cons]
      refine ⟨?_, hs⟩
      intro y hy
      rcases List.mem_cons.mp hy with rfl | hy
      · exact hlt
      · exact lt_trans hlt (hs.1 y hy)
    · rw [if_neg hb]
      have hnlt : ¬ sub32 x.pdu.sn base < sub32 tmp.pdu.sn base :=
        fun h => hb ((before_iff_offset_lt _ _ base hx htmp.1).mpr h)
      rw [List.pairwise_cons]
      refine ⟨?_, ih hs.2 (fun p hp => hl p (List.mem_cons_of_mem _ hp))⟩
      intro y hy
      rcases (mem_pending_insert _ _ _ _).mp hy with rfl | hy
      · have := htmp.2
        omega
      · exact hs.1 y hy

theorem push_drain_inv (exec : iscsi_cmnd → tm_state → tm_state) (base : Nat) :
    ∀ (pending : List iscsi_cmnd) (cmnd : iscsi_cmnd) (e : Nat) (tm : tm_state),
      e < 2 ^ 31 →
      (∀ p ∈ pending,
        p.pdu.sn < 2 ^ 32 ∧ e < sub32 p.pdu.sn base ∧ sub32 p.pdu.sn base < 2 ^ 31) →
      pending.Pairwise (fun a b => sub32 a.pdu.sn base < sub32 b.pdu.sn base) →
      ∃ taken : List iscsi_cmnd,
        pending = taken ++ (push_drain exec pending cmnd (add32 base e) tm).2.1 ∧
        (executed_cmnds (push_drain exec pending cmnd (add32 base e) tm).2.2.2).map
            (fun c => c.pdu) = cmnd.pdu :: taken.map (fun c => c.pdu) ∧
        (push_drain exec pending cmnd (add32 base e) tm).1 =
          add32 base (e + 1 + taken.length) ∧
        e + 1 + taken.length ≤ 2 ^ 31 ∧
        (∀ p ∈ taken, sub32 p.pdu.sn base < e + 1 + taken.length) ∧
        (∀ i, e + 1 ≤ i → i < e + 1 + taken.length → ∃ p ∈ taken, p.pdu.sn = add32 base i) ∧
        (∀ p ∈ (push_drain exec pending cmnd (add32 base e) tm).2.1,
          e + 1 + taken.length < sub32 p.pdu.sn base) := by
  intro pending
  induction pending with
  | nil =>
    intro cmnd e tm he _ _
    obtain ⟨marked, hpdu, hex⟩ := push_exec_one_executed exec cmnd (add32 base e) tm
    refine ⟨[], ?_, ?_, ?_, ?_, ?_, ?_, ?_⟩
    · rfl
    · rw [push_drain_nil]
      simp only [hex, List.map_cons, List.map_nil, hpdu]
    · rw [push_drain_nil]
      simp only [List.length_nil, add_zero, add32_add32]
    · simp only [List.length_nil]
      omega
    · intro p hp
      cases hp
    · intro i h1 h2
      simp only [List.length_nil] at h2
      omega
    · intro p hp
      rw [push_drain_nil] at hp
      cases hp
  | cons next rest ih =>
    intro cmnd e tm he hrng hsorted
    obtain ⟨marked, hpdu, hex⟩ := push_exec_one_executed exec cmnd (add32 base e) tm
    have hnext := hrng next (List.mem_cons_self _ _)
    rw [List.pairwise_cons] at hsorted
    have hnext_sn : next.pdu.sn = add32 base (sub32 next.pdu.sn base) :=
      (add32_sub32 _ _ hnext.1).symm
    by_cases h : next.pdu.sn = add32 (add32 base e) 1
    · have hoff : sub32 next.pdu.sn base = e + 1 := by
        rw [h, add32_add32, sub32_add32 _ _ (by omega)]
      have hrest : ∀ p ∈ rest,
          p.pdu.sn < 2 ^ 32 ∧ e + 1 < sub32 p.pdu.sn base ∧ sub32 p.pdu.sn base < 2 ^ 31 := by
        intro p hp
        have h1 := hrng p (List.mem_cons_of_mem _ hp)
        have h2 := hsorted.1 p hp
        exact ⟨h1.1, by omega, h1.2.2⟩
      have he1 : e + 1 < 2 ^ 31 := by omega
      obtain ⟨taken, ht1, ht2, ht3, ht4, ht5, ht6, ht7⟩ :=
        ih { next with pending := false } (e + 1) (push_exec_one exec cmnd (add32 base e) tm).2.1
          he1 hrest hsorted.2
      rw [push_drain_cons_eq exec next rest cmnd (add32 base e) tm h]
      rw [add32_add32] at *
      refine ⟨next :: taken, ?_, ?_, ?_, ?_, ?_, ?_, ?_⟩
      · simp only [List.cons_append]
        exact congrArg _ ht1
      · simp only [executed_cmnds_append, hex, List.singleton_append, List.map_cons, hpdu]
        exact congrArg _ ht2
      · simp only [List.length_cons]
        rw [ht3]
        congr 1
        omega
      · simp only [List.length_cons]
        omega
      · intro p hp
        simp only [List.length_cons]
        rcases List.mem_cons.mp hp with rfl | hp
        · omega
        · have := ht5 p hp
          omega
      · intro i h1 h2
        simp only [List.length_cons] at h2
        by_cases hi : i = e + 1
        · exact ⟨next, List.mem_cons_self _ _, by rw [hi, ← hoff]; exact hnext_sn⟩
        · obtain ⟨p, hp, hps⟩ := ht6 i (by omega) (by omega)
          exact ⟨p, List.mem_cons_of_mem _ hp, hps⟩
      · intro p hp
        simp only [List.length_cons]
        have := ht7 p hp
        omega
    · have hoff : sub32 next.pdu.sn base ≠ e + 1 := by
        intro hc
        apply h
        rw [add32_add32, ← hc]
        exact hnext_sn
      rw [push_drain_cons_ne exec next rest cmnd (add32 base e) tm h]
      refine ⟨[], ?_, ?_, ?_, ?_, ?_, ?_, ?_⟩
      · rfl
      · simp only [hex, List.map_cons, List.map_nil, hpdu]
      · simp only [List.length_nil, add_zero, add32_add32]
      · simp only [List.length_nil]
        omega
      · intro p hp
        cases hp
      · intro i h1 h2
        simp only [List.length_nil] at h2
        omega
      · intro p hp
        simp only [List.length_nil, add_zero]
        rcases List.mem_cons.mp hp with rfl | hp
        · omega
        · have := hsorted.1 p hp
          omega


theorem push_cmnd_inv (exec : iscsi_cmnd → tm_state → tm_state) (base : Nat)
    (s : iscsi_session) (done L : List iscsi_pdu) (c : iscsi_cmnd)
    (hinv : sn_inv base s done L) (himm : is_immediate c = false) (hab : c.aborted = false)
    (hsn : c.pdu.sn < 2 ^ 32) (hoff : sub32 c.pdu.sn base < 2 ^ 31)
    (hnew : ∀ q ∈ done, q.sn ≠ c.pdu.sn) :
    sn_inv base (iscsi_push_cmnd exec s c).1 (done ++ [c.pdu])
      (L ++ (executed_cmnds (iscsi_push_cmnd exec s c).2).map (fun x => x.pdu)) := by
  have hk : c.pdu.sn = add32 base (sub32 c.pdu.sn base) := (add32_sub32 _ _ hsn).symm
  have hlen := hinv.len_le
  have hke : L.length ≤ sub32 c.pdu.sn base := by
    by_contra hlt
    obtain ⟨q, hq, hqs⟩ := hinv.exec_all (sub32 c.pdu.sn base) (by omega)
    exact hnew q ((hinv.accounted q).mpr (Or.inl hq)) (by rw [hqs, ← hk])
  unfold iscsi_push_cmnd
  rw [if_neg (by simp [himm])]
  simp only
  by_cases heq : sub32 c.pdu.sn base = L.length
  · have hcexp : c.pdu.sn = s.exp_cmd_sn := by rw [hinv.exp_eq, ← heq]; exact hk
    rw [if_pos hcexp]
    have hce : c.pdu.sn = add32 base L.length := by rw [← heq]; exact hk
    obtain ⟨taken, ht1, ht2, ht3, ht4, ht5, ht6, ht7⟩ :=
      push_drain_inv exec base s.pending_list c L.length s.tm (by omega) hinv.pend_rng
        hinv.pend_sorted
    rw [hce, ht2]
    have hlen2 : (L ++ c.pdu :: taken.map (fun c => c.pdu)).length =
        L.length + 1 + taken.length := by
      simp only [List.length_append, List.length_cons, List.length_map]
      omega
    have hsorted := hinv.pend_sorted
    rw [ht1, List.pairwise_append] at hsorted
    refine ⟨?_, ?_, ?_, ?_, ?_, ?_, ?_⟩
    · rw [hlen2]
      exact ht3
    · rw [hlen2]
      exact ht4
    · intro q hq
      rw [hlen2]
      rcases List.mem_append.mp hq with hq | hq
      · have := hinv.exec_lt q hq
        exact ⟨this.1, by omega⟩
      · rcases List.mem_cons.mp hq with rfl | hq
        · exact ⟨hsn, by omega⟩
        · obtain ⟨p, hp, rfl⟩ := List.mem_map.mp hq
          have hp2 : p ∈ s.pending_list := by
            rw [ht1]
            exact List.mem_append_left _ hp
          exact ⟨(hinv.pend_rng p hp2).1, ht5 p hp⟩
    · intro i hi
      rw [hlen2] at hi
      by_cases h1 : i < L.length
      · obtain ⟨q, hq, hqs⟩ := hinv.exec_all i h1
        exact ⟨q, List.mem_append_left _ hq, hqs⟩
      · by_cases h2 : i = L.length
        · exact ⟨c.pdu, List.mem_append_right _ (List.mem_cons_self _ _), by rw [h2]; exact hce⟩
        · obtain ⟨p, hp, hps⟩ := ht6 i (by omega) hi
          exact ⟨p.pdu, List.mem_append_right _
            (List.mem_cons_of_mem _ (List.mem_map_of_mem _ hp)), hps⟩
    · intro p hp
      rw [hlen2]
      have hp2 : p ∈ s.pending_list := by
        rw [ht1]
        exact List.mem_append_right _ hp
      have := hinv.pend_rng p hp2
      exact ⟨this.1, ht7 p hp, this.2.2⟩
    · exact hsorted.2.1
    · intro q
      have hacc := hinv.accounted q
      have hsplit : q ∈ s.pending_list.map (fun c => c.pdu) ↔
          q ∈ taken.map (fun c => c.pdu) ∨
          q ∈ (push_drain exec s.pending_list c (add32 base L.length) s.tm).2.1.map
            (fun c => c.pdu) := by
        conv_lhs => rw [ht1]
        rw [List.map_append, List.mem_append]
      simp only [List.mem_append, List.mem_cons, List.mem_singleton, List.not_mem_nil, or_false]
      rw [hacc, hsplit]
      tauto
  · have hgt : L.length < sub32 c.pdu.sn base := by omega
    have hexp_off : sub32 s.exp_cmd_sn base = L.length := by
      rw [hinv.exp_eq, sub32_add32 _ _ (by omega)]
    have hne : c.pdu.sn ≠ s.exp_cmd_sn := by
      intro h
      rw [h] at heq
      exact heq hexp_off
    have hnb : ¬ before c.pdu.sn s.exp_cmd_sn = true := by
      rw [before_iff_offset_lt _ _ base hoff (by omega), hexp_off]
      omega
    rw [if_neg hne, if_neg hnb, if_neg (by simp [hab])]
    simp only [executed_cmnds, List.filterMap_nil, List.map_nil, List.append_nil]
    refine ⟨hinv.exp_eq, hinv.len_le, hinv.exec_lt, hinv.exec_all, ?_, ?_, ?_⟩
    · intro p hp
      rcases (mem_pending_insert _ _ _ _).mp hp with rfl | hp
      · exact ⟨hsn, hgt, hoff⟩
      · exact hinv.pend_rng p hp
    · apply pending_insert_sorted base { c with pending := true } hoff _ hinv.pend_sorted
      intro p hp
      have hr := hinv.pend_rng p hp
      refine ⟨hr.2.2, ?_⟩
      intro hsame
      apply hnew p.pdu ((hinv.accounted _).mpr (Or.inr (List.mem_map_of_mem _ hp)))
      rw [← add32_sub32 p.pdu.sn base hr.1, hsame]
      exact hk.symm
    · intro q
      have hacc := hinv.accounted q
      simp only [List.mem_append, List.mem_singleton, List.mem_map, mem_pending_insert] at hacc ⊢
      rw [hacc]
      constructor
      · rintro (h | h)
        · rcases h with h | ⟨a, ha, rfl⟩
          · exact Or.inl h
          · exact Or.inr ⟨a, Or.inr ha, rfl⟩
        · exact Or.inr ⟨{ c with pending := true }, Or.inl rfl, h.symm⟩
      · rintro (h | ⟨a, ha | ha, rfl⟩)
        · exact Or.inl (Or.inl h)
        · rw [ha]
          exact Or.inr rfl
        · exact Or.inl (Or.inr ⟨a, ha, rfl⟩)

theorem push_all_inv (exec : iscsi_cmnd → tm_state → tm_state) (base : Nat)
    (cmds : List iscsi_cmnd) :
    ∀ (s : iscsi_session) (done L : List iscsi_pdu),
      sn_inv base s done L →
      (∀ c ∈ cmds, is_immediate c = false ∧ c.aborted = false ∧ c.pdu.sn < 2 ^ 32 ∧
        sub32 c.pdu.sn base < 2 ^ 31) →
      cmds.Pairwise (fun a b => a.pdu.sn ≠ b.pdu.sn) →
      (∀ c ∈ cmds, ∀ q ∈ done, q.sn ≠ c.pdu.sn) →
      sn_inv base (push_all exec s cmds).1 (done ++ cmds.map (fun c => c.pdu))
        (L ++ (executed_cmnds (push_all exec s cmds).2).map (fun x => x.pdu)) := by
  induction cmds with
  | nil =>
    intro s done L hinv _ _ _
    simpa [push_all, executed_cmnds] using hinv
  | cons c rest ih =>
    intro s done L hinv hc hd hnew
    have hc0 := hc c (List.mem_cons_self _ _)
    rw [List.pairwise_cons] at hd
    have h1 := push_cmnd_inv exec base s done L c hinv hc0.1 hc0.2.1 hc0.2.2.1 hc0.2.2.2
      (hnew c (List.mem_cons_self _ _))
    have h2 := ih (iscsi_push_cmnd exec s c).1 (done ++ [c.pdu])
      (L ++ (executed_cmnds (iscsi_push_cmnd exec s c).2).map (fun x => x.pdu)) h1
      (fun x hx => hc x (List.mem_cons_of_mem _ hx)) hd.2
      (by
        intro x hx q hq
        rcases List.mem_append.mp hq with hq | hq
        · exact hnew x (List.mem_cons_of_mem _ hx) q hq
        · rw [List.mem_singleton.mp hq]
          exact hd.1 x hx)
    have hlog : (push_all exec s (c :: rest)).2 =
        (iscsi_push_cmnd exec s c).2 ++ (push_all exec (iscsi_push_cmnd exec s c).1 rest).2 := rfl
    have hst : (push_all exec s (c :: rest)).1 =
        (push_all exec (iscsi_push_cmnd exec s c).1 rest).1 := rfl
    rw [hlog, hst, executed_cmnds_append, List.map_append, List.map_cons, ← List.append_assoc]
    simpa [List.append_assoc] using h2


theorem iterate_add32_succ (a : Nat) :
    ∀ m : Nat, Nat.iterate (fun x => add32 x 1) m (add32 a 1) = add32 a (m + 1) := by
  intro m
  induction m with
  | zero => rfl
  | succ m ih =>
    rw [Function.iterate_succ_apply', ih, add32_add32]

theorem iterate_pairwise_before (n : Nat) :
    ∀ a : Nat, n ≤ 2 ^ 31 →
      (List.iterate (fun x => add32 x 1) a n).Pairwise (fun x y => before x y = true) := by
  induction n with
  | zero =>
    intro a _
    exact List.Pairwise.nil
  | succ n ih =>
    intro a hn
    rw [List.iterate, List.pairwise_cons]
    refine ⟨?_, ih _ (by omega)⟩
    intro y hy
    obtain ⟨m, hm, rfl⟩ := List.mem_iterate.mp hy
    rw [iterate_add32_succ, before_iff]
    unfold sub32 add32 U32_MOD
    omega

theorem sn_inv_init (s : iscsi_session) (hexp : s.exp_cmd_sn < 2 ^ 32)
    (hpend : s.pending_list = []) : sn_inv s.exp_cmd_sn s [] [] := by
  refine ⟨?_, by simp, by simp, by simp, by simp [hpend], by simp [hpend], by simp [hpend]⟩
  unfold add32 U32_MOD
  simp only [List.length_nil, add_zero]
  omega

/-- Claim C1. Non-immediate commands, none marked ABORTED, with pairwise
distinct CmdSNs none of which is before ExpCmdSN, pushed in any order: the
commands handed to `iscsi_cmnd_exec` carry the CmdSNs ExpCmdSN, ExpCmdSN + 1,
... (modulo `2 ^ 32`) in that order, from every session state; and from an
empty reorder queue every executed command is before every later one in serial
order, and a command has been executed exactly when every CmdSN from the
initial ExpCmdSN up to its own has arrived. -/
theorem push_all_executes_in_cmd_sn_order (exec : iscsi_cmnd → tm_state → tm_state)
    (s : iscsi_session) (cmds : List iscsi_cmnd) (hexp : s.exp_cmd_sn < 2 ^ 32)
    (hcmds : ∀ c ∈ cmds, is_immediate c = false ∧ c.aborted = false ∧ c.pdu.sn < 2 ^ 32 ∧
      before c.pdu.sn s.exp_cmd_sn = false)
    (hdist : cmds.Pairwise (fun a b => a.pdu.sn ≠ b.pdu.sn)) :
    (executed_cmnds (push_all exec s cmds).2).map (fun x => x.pdu.sn) =
      List.iterate (fun a => add32 a 1) s.exp_cmd_sn
        (executed_cmnds (push_all exec s cmds).2).length ∧
    (s.pending_list = [] →
      (executed_cmnds (push_all exec s cmds).2).Pairwise
        (fun a b => before a.pdu.sn b.pdu.sn = true) ∧
      (∀ x ∈ executed_cmnds (push_all exec s cmds).2, ∃ c ∈ cmds, c.pdu = x.pdu) ∧
      (∀ c ∈ cmds,
        (c.pdu ∈ (executed_cmnds (push_all exec s cmds).2).map (fun x => x.pdu) ↔
          ∀ j, j ≤ sub32 c.pdu.sn s.exp_cmd_sn →
            ∃ d ∈ cmds, d.pdu.sn = add32 s.exp_cmd_sn j))) := by
  have hA := (push_all_sns exec cmds s (fun c hc => ⟨(hcmds c hc).1, (hcmds c hc).2.1⟩)).1
  refine ⟨hA, ?_⟩
  intro hpend
  have hinv := push_all_inv exec s.exp_cmd_sn cmds s [] [] (sn_inv_init s hexp hpend)
    (fun c hc => ⟨(hcmds c hc).1, (hcmds c hc).2.1, (hcmds c hc).2.2.1,
      (before_eq_false_iff _ _).mp (hcmds c hc).2.2.2⟩) hdist
    (fun _ _ q hq => absurd hq (List.not_mem_nil q))
  simp only [List.nil_append] at hinv
  have hlen := hinv.len_le
  rw [List.length_map] at hlen
  refine ⟨?_, ?_, ?_⟩
  · have hp := iterate_pairwise_before (executed_cmnds (push_all exec s cmds).2).length
      s.exp_cmd_sn hlen
    rw [← hA, List.pairwise_map] at hp
    exact hp
  · intro x hx
    have hmem : x.pdu ∈ cmds.map (fun c => c.pdu) :=
      (hinv.accounted x.pdu).mpr (Or.inl (List.mem_map_of_mem _ hx))
    obtain ⟨c, hc, hcx⟩ := List.mem_map.mp hmem
    exact ⟨c, hc, hcx⟩
  · intro c hc
    constructor
    · intro hex j hj
      have hlt := (hinv.exec_lt c.pdu hex).2
      obtain ⟨q, hq, hqs⟩ := hinv.exec_all j (by omega)
      obtain ⟨d, hd, hdq⟩ := List.mem_map.mp ((hinv.accounted q).mpr (Or.inl hq))
      exact ⟨d, hd, by rw [hdq]; exact hqs⟩
    · intro hall
      by_contra hnot
      have hcd : c.pdu ∈ cmds.map (fun c => c.pdu) := List.mem_map_of_mem _ hc
      rcases (hinv.accounted c.pdu).mp hcd with h | h
      · exact hnot h
      · obtain ⟨p, hp, hpc⟩ := List.mem_map.mp h
        have hr := hinv.pend_rng p hp
        simp only [hpc, List.length_map] at hr
        obtain ⟨d, hd, hds⟩ := hall _ (le_of_lt hr.2.1)
        have hoffd : sub32 d.pdu.sn s.exp_cmd_sn =
            (executed_cmnds (push_all exec s cmds).2).length := by
          rw [hds, sub32_add32 _ _ (by omega)]
        rcases (hinv.accounted d.pdu).mp (List.mem_map_of_mem _ hd) with h2 | h2
        · have := (hinv.exec_lt d.pdu h2).2
          rw [List.length_map] at this
          omega
        · obtain ⟨p2, hp2, hpd⟩ := List.mem_map.mp h2
          have hr2 := hinv.pend_rng p2 hp2
          simp only [hpd, List.length_map] at hr2
          omega

theorem push_all_executes_in_cmd_sn_order_witness :
    (executed_cmnds (push_all (fun _ t => t) { exp_cmd_sn := 7 }
        [mk_req 1 7, mk_req 1 9, mk_req 1 8]).2).map (fun x => x.pdu.sn) =
      List.iterate (fun a => add32 a 1) 7
        (executed_cmnds (push_all (fun _ t => t) { exp_cmd_sn := 7 }
          [mk_req 1 7, mk_req 1 9, mk_req 1 8]).2).length :=
  (push_all_executes_in_cmd_sn_order (fun _ t => t) { exp_cmd_sn := 7 }
    [mk_req 1 7, mk_req 1 9, mk_req 1 8] (by decide) (by decide) (by decide)).1

/-- The scenario of claim C1 evaluated: arrivals 7, 9, 8 at ExpCmdSN 7 are
executed as 7, 8, 9, the queue ends empty and ExpCmdSN is 10. -/
theorem push_7_9_8_executes_7_8_9 :
    (executed_cmnds (push_all (fun _ t => t) { exp_cmd_sn := 7 }
        [mk_req 1 7, mk_req 1 9, mk_req 1 8]).2).map (fun x => x.pdu.sn) = [7, 8, 9] ∧
    (push_all (fun _ t => t) { exp_cmd_sn := 7 }
        [mk_req 1 7, mk_req 1 9, mk_req 1 8]).1.pending_list = [] ∧
    (push_all (fun _ t => t) { exp_cmd_sn := 7 }
        [mk_req 1 7, mk_req 1 9, mk_req 1 8]).1.exp_cmd_sn = 10 := by
  decide


/-! ## ExpCmdSN across a sequence of pushes -/

theorem in_order_cmnds_append (a b : List push_event) :
    in_order_cmnds (a ++ b) = in_order_cmnds a ++ in_order_cmnds b := by
  unfold in_order_cmnds
  exact List.filterMap_append _ _ _

theorem delayed_tm_resp_in_order_nothing (exp_cmd_sn : Nat) (tm : tm_state) :
    in_order_cmnds (iscsi_check_send_delayed_tm_resp exp_cmd_sn tm).2 = [] := by
  unfold iscsi_check_send_delayed_tm_resp
  rcases tm.tm_rsp with _ | rsp
  · rfl
  · simp only
    split_ifs <;> rfl

theorem push_exec_one_in_order (exec : iscsi_cmnd → tm_state → tm_state) (cmnd : iscsi_cmnd)
    (cmd_sn : Nat) (tm : tm_state) :
    in_order_cmnds (push_exec_one exec cmnd cmd_sn tm).2.2 =
      executed_cmnds (push_exec_one exec cmnd cmd_sn tm).2.2 := by
  unfold push_exec_one
  simp only
  rw [executed_cmnds_append, in_order_cmnds_append]
  have h1 : executed_cmnds (if tm.tm_active > 0 then
      iscsi_check_send_delayed_tm_resp (add32 cmd_sn 1) tm else (tm, [])).2 = [] := by
    split_ifs
    · exact delayed_tm_resp_executes_nothing _ _
    · rfl
  have h2 : in_order_cmnds (if tm.tm_active > 0 then
      iscsi_check_send_delayed_tm_resp (add32 cmd_sn 1) tm else (tm, [])).2 = [] := by
    split_ifs
    · exact delayed_tm_resp_in_order_nothing _ _
    · rfl
  rw [h1, h2]
  rfl

theorem push_drain_in_order (exec : iscsi_cmnd → tm_state → tm_state) :
    ∀ (pending : List iscsi_cmnd) (cmnd : iscsi_cmnd) (cmd_sn : Nat) (tm : tm_state),
      in_order_cmnds (push_drain exec pending cmnd cmd_sn tm).2.2.2 =
        executed_cmnds (push_drain exec pending cmnd cmd_sn tm).2.2.2 ∧
      (executed_cmnds (push_drain exec pending cmnd cmd_sn tm).2.2.2).length ≤
        pending.length + 1 := by
  intro pending
  induction pending with
  | nil =>
    intro cmnd cmd_sn tm
    obtain ⟨marked, _, hex⟩ := push_exec_one_executed exec cmnd cmd_sn tm
    rw [push_drain_nil]
    simp only [push_exec_one_in_order, hex, List.length_singleton, List.length_nil]
    exact ⟨trivial, le_refl _⟩
  | cons next rest ih =>
    intro cmnd cmd_sn tm
    obtain ⟨marked, _, hex⟩ := push_exec_one_executed exec cmnd cmd_sn tm
    by_cases h : next.pdu.sn = add32 cmd_sn 1
    · have ih1 := ih { next with pending := false } (add32 cmd_sn 1)
        (push_exec_one exec cmnd cmd_sn tm).2.1
      rw [push_drain_cons_eq exec next rest cmnd cmd_sn tm h]
      simp only [executed_cmnds_append, in_order_cmnds_append, push_exec_one_in_order, ih1.1,
        hex, List.length_append, List.length_singleton, List.length_cons, List.length_nil]
      have := ih1.2
      exact ⟨trivial, by omega⟩
    · rw [push_drain_cons_ne exec next rest cmnd cmd_sn tm h]
      simp only [push_exec_one_in_order, hex, List.length_singleton, List.length_cons,
        List.length_nil]
      exact ⟨trivial, by omega⟩

theorem push_cmnd_in_order_sns (exec : iscsi_cmnd → tm_state → tm_state) (s : iscsi_session)
    (c : iscsi_cmnd) :
    (in_order_cmnds (iscsi_push_cmnd exec s c).2).map (fun x => x.pdu.sn) =
      List.iterate (fun a => add32 a 1) s.exp_cmd_sn
        (in_order_cmnds (iscsi_push_cmnd exec s c).2).length ∧
    (iscsi_push_cmnd exec s c).1.exp_cmd_sn =
      Nat.iterate (fun a => add32 a 1) (in_order_cmnds (iscsi_push_cmnd exec s c).2).length
        s.exp_cmd_sn ∧
    (in_order_cmnds (iscsi_push_cmnd exec s c).2).length ≤ s.pending_list.length + 1 := by
  unfold iscsi_push_cmnd
  by_cases himm : is_immediate c = true
  · rw [if_pos himm]
    exact ⟨rfl, rfl, Nat.zero_le _⟩
  · rw [if_neg himm]
    simp only
    by_cases heq : c.pdu.sn = s.exp_cmd_sn
    · rw [if_pos heq]
      have h := push_drain_sns exec s.pending_list c c.pdu.sn s.tm rfl
      have h2 := push_drain_in_order exec s.pending_list c c.pdu.sn s.tm
      rw [heq] at h h2
      simp only [heq, h2.1]
      exact ⟨h.1, h.2, h2.2⟩
    · rw [if_neg heq]
      by_cases hb : before c.pdu.sn s.exp_cmd_sn = true
      · rw [if_pos hb]
        exact ⟨rfl, rfl, Nat.zero_le _⟩
      · rw [if_neg hb]
        by_cases hab : c.aborted = true
        · rw [if_pos hab]
          exact ⟨rfl, rfl, Nat.zero_le _⟩
        · rw [if_neg hab]
          exact ⟨rfl, rfl, Nat.zero_le _⟩

theorem push_all_in_order_sns (exec : iscsi_cmnd → tm_state → tm_state)
    (cmds : List iscsi_cmnd) :
    ∀ s : iscsi_session,
      (in_order_cmnds (push_all exec s cmds).2).map (fun x => x.pdu.sn) =
        List.iterate (fun a => add32 a 1) s.exp_cmd_sn
          (in_order_cmnds (push_all exec s cmds).2).length ∧
      (push_all exec s cmds).1.exp_cmd_sn =
        Nat.iterate (fun a => add32 a 1) (in_order_cmnds (push_all exec s cmds).2).length
          s.exp_cmd_sn := by
  induction cmds with
  | nil =>
    intro s
    exact ⟨rfl, rfl⟩
  | cons c rest ih =>
    intro s
    have h1 := push_cmnd_in_order_sns exec s c
    have h2 := ih (iscsi_push_cmnd exec s c).1
    have hlog : (push_all exec s (c :: rest)).2 =
        (iscsi_push_cmnd exec s c).2 ++ (push_all exec (iscsi_push_cmnd exec s c).1 rest).2 := rfl
    have hst : (push_all exec s (c :: rest)).1 =
        (push_all exec (iscsi_push_cmnd exec s c).1 rest).1 := rfl
    rw [hlog, hst, in_order_cmnds_append, List.map_append, List.length_append, h1.1, h2.1,
      h2.2, h1.2.1, List.iterate_add]
    refine ⟨rfl, ?_⟩
    rw [add_comm, Function.iterate_add_apply]

theorem iterate_add32_eq (a : Nat) (n : Nat) (hn : 0 < n) :
    Nat.iterate (fun x => add32 x 1) n a = add32 a n := by
  obtain ⟨m, rfl⟩ : ∃ m, n = m + 1 := ⟨n - 1, by omega⟩
  rw [Function.iterate_succ_apply]
  exact iterate_add32_succ a m

theorem iterate_getLast (a : Nat) (n : Nat) (x : Nat)
    (h : (List.iterate (fun x => add32 x 1) a n).getLast? = some x) :
    Nat.iterate (fun x => add32 x 1) n a = add32 x 1 := by
  cases n with
  | zero => simp at h
  | succ m =>
    rw [List.getLast?_eq_getElem?, List.length_iterate,
      List.getElem?_iterate _ _ _ _ (by omega)] at h
    simp only [Nat.add_sub_cancel, Option.some.injEq] at h
    rw [Function.iterate_succ_apply', h]


/-- Claim C4, as stated, fails: a non-immediate command that arrives out of
order already marked ABORTED (CmdSN 9 at ExpCmdSN 7) is handed to
`iscsi_cmnd_exec` at once, and ExpCmdSN stays 7 instead of becoming 10. -/
theorem exp_cmd_sn_not_one_past_aborted_execution :
    executed_cmnds (iscsi_push_cmnd (fun _ t => t) { exp_cmd_sn := 7 }
      { mk_req 1 9 with aborted := true }).2 = [{ mk_req 1 9 with aborted := true }] ∧
    is_immediate { mk_req 1 9 with aborted := true } = false ∧
    (iscsi_push_cmnd (fun _ t => t) { exp_cmd_sn := 7 }
      { mk_req 1 9 with aborted := true }).1.exp_cmd_sn = 7 ∧
    (iscsi_push_cmnd (fun _ t => t) { exp_cmd_sn := 7 }
      { mk_req 1 9 with aborted := true }).1.exp_cmd_sn ≠ add32 9 1 := by
  decide

/-- Claim C4, amended. Over every sequence of `iscsi_push_cmnd` calls, from
every session state and for commands of every kind: one call moves ExpCmdSN
forward by the number of commands it executes in CmdSN order, so ExpCmdSN does
not decrease in serial-number order (fewer than `2 ^ 31` commands being
queued); the commands executed in CmdSN order carry ExpCmdSN, ExpCmdSN + 1, ...
and once one has been executed ExpCmdSN is 1 + the CmdSN of the last of them,
which is the largest in serial order. A command that arrives out of order
already marked ABORTED is executed at once and does not count. -/
theorem exp_cmd_sn_follows_in_order_execution (exec : iscsi_cmnd → tm_state → tm_state)
    (s : iscsi_session) (cmds : List iscsi_cmnd) (c : iscsi_cmnd) :
    (s.pending_list.length + 1 < 2 ^ 31 →
      before (iscsi_push_cmnd exec s c).1.exp_cmd_sn s.exp_cmd_sn = false) ∧
    (in_order_cmnds (push_all exec s cmds).2).map (fun x => x.pdu.sn) =
      List.iterate (fun a => add32 a 1) s.exp_cmd_sn
        (in_order_cmnds (push_all exec s cmds).2).length ∧
    (∀ x, (in_order_cmnds (push_all exec s cmds).2).getLast? = some x →
      (push_all exec s cmds).1.exp_cmd_sn = add32 x.pdu.sn 1) ∧
    (in_order_cmnds (push_all exec s cmds).2 = [] →
      (push_all exec s cmds).1.exp_cmd_sn = s.exp_cmd_sn) ∧
    ((in_order_cmnds (push_all exec s cmds).2).length ≤ 2 ^ 31 →
      (in_order_cmnds (push_all exec s cmds).2).Pairwise
        (fun a b => before a.pdu.sn b.pdu.sn = true)) := by
  have hall := push_all_in_order_sns exec cmds s
  refine ⟨?_, hall.1, ?_, ?_, ?_⟩
  · intro hlen
    have h := push_cmnd_in_order_sns exec s c
    rw [h.2.1]
    rcases Nat.eq_zero_or_pos (in_order_cmnds (iscsi_push_cmnd exec s c).2).length with h0 | h0
    · rw [h0]
      exact before_irrefl _
    · rw [iterate_add32_eq _ _ h0, before_eq_false_iff]
      have := h.2.2
      unfold sub32 add32 U32_MOD
      omega
  · intro x hx
    rw [hall.2]
    apply iterate_getLast
    rw [← hall.1, List.getLast?_map, hx]
    rfl
  · intro hnil
    rw [hall.2, hnil]
    rfl
  · intro hlen
    have hp := iterate_pairwise_before _ s.exp_cmd_sn hlen
    rw [← hall.1, List.pairwise_map] at hp
    exact hp

theorem exp_cmd_sn_follows_in_order_execution_witness :
    before (iscsi_push_cmnd (fun _ t => t) { exp_cmd_sn := 7, pending_list := [mk_req 1 8] }
      (mk_req 1 7)).1.exp_cmd_sn 7 = false ∧
    (push_all (fun _ t => t) { exp_cmd_sn := 7 }
      [{ mk_req 1 9 with aborted := true }, mk_req 1 7, mk_req 0x41 20, mk_req 1 8]).1.exp_cmd_sn =
      add32 9 1 :=
  ⟨(exp_cmd_sn_follows_in_order_execution (fun _ t => t)
      { exp_cmd_sn := 7, pending_list := [mk_req 1 8] } [] (mk_req 1 7)).1 (by decide),
   (exp_cmd_sn_follows_in_order_execution (fun _ t => t) { exp_cmd_sn := 7 }
      [{ mk_req 1 9 with aborted := true }, mk_req 1 7, mk_req 0x41 20, mk_req 1 8]
      (mk_req 1 7)).2.2.1 { tm_clone_of (mk_req 1 9) with pending := false } (by decide)⟩


/-! ## R2T slicing -/

theorem ceil_div_pos (L B : Nat) (hB : 0 < B) (hL : 0 < L) : 1 ≤ (L + B - 1) / B := by
  rw [Nat.le_div_iff_mul_le hB]
  omega

theorem ceil_div_step (L B : Nat) (hB : 0 < B) (hL : B < L) :
    (L + B - 1) / B = (L - B + B - 1) / B + 1 := by
  have h : L + B - 1 = (L - B + B - 1) + B := by omega
  rw [h, Nat.add_div_right _ hB]

theorem ceil_div_le_one (L B : Nat) (hL : 0 < L) (hLB : L ≤ B) :
    (L + B - 1) / B = 1 := by
  apply Nat.div_eq_of_lt_le <;> omega

theorem send_r2t_loop_spec (M B : Nat) (hB : 0 < B) (hM : M < 2 ^ 32) :
    ∀ (fuel : Nat) (req : iscsi_cmnd) (offset : Nat),
      req.outstanding_r2t < M → M - req.outstanding_r2t ≤ fuel + 1 → 0 < req.r2t_len_to_send →
      req.r2t_sn < 2 ^ 32 → offset < 2 ^ 32 →
      (send_r2t_loop M B fuel req offset).2 =
        (List.range (min (M - req.outstanding_r2t) ((req.r2t_len_to_send + B - 1) / B))).map
          (fun i => ({ itt := req.pdu.itt, ttt := req.target_task_tag,
                       r2t_sn := add32 req.r2t_sn i,
                       buffer_offset := add32 offset (i * B),
                       data_length := min (req.r2t_len_to_send - i * B) B } : iscsi_r2t_hdr)) ∧
      (send_r2t_loop M B fuel req offset).1 =
        { req with
            r2t_sn := add32 req.r2t_sn
              (min (M - req.outstanding_r2t) ((req.r2t_len_to_send + B - 1) / B)),
            r2t_len_to_send := req.r2t_len_to_send -
              min (M - req.outstanding_r2t) ((req.r2t_len_to_send + B - 1) / B) * B,
            outstanding_r2t := req.outstanding_r2t +
              min (M - req.outstanding_r2t) ((req.r2t_len_to_send + B - 1) / B) } := by
  intro fuel
  induction fuel with
  | zero =>
    intro req offset hout hfuel hlen hsn hoff
    have hceil := ceil_div_pos req.r2t_len_to_send B hB hlen
    have hk : min (M - req.outstanding_r2t) ((req.r2t_len_to_send + B - 1) / B) = 1 := by
      omega
    rw [hk]
    have h0 : add32 req.r2t_sn 0 = req.r2t_sn := by unfold add32 U32_MOD; omega
    have h1 : add32 offset 0 = offset := by unfold add32 U32_MOD; omega
    have h2 : add32 req.outstanding_r2t 1 = req.outstanding_r2t + 1 := by
      unfold add32 U32_MOD; omega
    simp only [send_r2t_loop, send_r2t_body, List.range_succ, List.range_zero, List.nil_append,
      List.map_cons, List.map_nil, zero_mul, Nat.sub_zero, one_mul, decide_eq_true_eq, h0, h1, h2]
    refine ⟨?_, ?_⟩
    · congr 2
      split_ifs <;> omega
    · congr 1
      split_ifs <;> omega
  | succ n ih =>
    intro req offset hout hfuel hlen hsn hoff
    have hceil := ceil_div_pos req.r2t_len_to_send B hB hlen
    have h0 : add32 req.r2t_sn 0 = req.r2t_sn := by unfold add32 U32_MOD; omega
    have h1 : add32 offset 0 = offset := by unfold add32 U32_MOD; omega
    have h2 : add32 req.outstanding_r2t 1 = req.outstanding_r2t + 1 := by
      unfold add32 U32_MOD; omega
    rw [send_r2t_loop]
    by_cases hcont : req.outstanding_r2t + 1 < M ∧ B < req.r2t_len_to_send
    · have hcond : (send_r2t_body B req offset).1.outstanding_r2t < M ∧
          (send_r2t_body B req offset).1.r2t_len_to_send ≠ 0 := by
        simp only [send_r2t_body, h2, decide_eq_true_eq, if_pos hcont.2]
        omega
      simp only [if_pos hcond]
      have ih1 := ih (send_r2t_body B req offset).1 (send_r2t_body B req offset).2.1
        (by simp only [send_r2t_body, h2]; omega)
        (by simp only [send_r2t_body, h2]; omega)
        (by simp only [send_r2t_body, decide_eq_true_eq, if_pos hcont.2]; omega)
        (by simp only [send_r2t_body]; exact add32_lt _ _)
        (by simp only [send_r2t_body, decide_eq_true_eq, if_pos hcont.2]; exact add32_lt _ _)
      rw [ih1.1, ih1.2]
      have hk : min (M - req.outstanding_r2t) ((req.r2t_len_to_send + B - 1) / B) =
          min (M - (req.outstanding_r2t + 1)) ((req.r2t_len_to_send - B + B - 1) / B) + 1 := by
        rw [ceil_div_step _ _ hB hcont.2]
        omega
      rw [hk]
      simp only [send_r2t_body, h2, decide_eq_true_eq, if_pos hcont.2, add32_add32]
      refine ⟨?_, ?_⟩
      · rw [List.range_succ_eq_map, List.map_cons, List.map_map]
        simp only [zero_mul, Nat.sub_zero, h0, h1, Function.comp_def]
        congr 1
        · congr 1
          omega
        · apply List.map_congr_left
          intro i _
          congr 1
          · congr 1
            omega
          · congr 1
            rw [Nat.succ_mul]
            omega
          · rw [Nat.succ_mul]
            omega
      · congr 1
        · congr 1
          omega
        · rw [Nat.add_mul, one_mul]
          omega
        · omega
    · have hcond : ¬ ((send_r2t_body B req offset).1.outstanding_r2t < M ∧
          (send_r2t_body B req offset).1.r2t_len_to_send ≠ 0) := by
        simp only [send_r2t_body, h2, decide_eq_true_eq]
        split_ifs <;> omega
      simp only [if_neg hcond]
      have hk : min (M - req.outstanding_r2t) ((req.r2t_len_to_send + B - 1) / B) = 1 := by
        by_cases hlb : B < req.r2t_len_to_send
        · omega
        · rw [ceil_div_le_one _ _ hlen (by omega)]
          omega
      rw [hk]
      simp only [send_r2t_body, List.range_succ, List.range_zero, List.nil_append,
        List.map_cons, List.map_nil, zero_mul, Nat.sub_zero, one_mul, decide_eq_true_eq, h0, h1, h2]
      refine ⟨?_, ?_⟩
      · congr 2
        split_ifs <;> omega
      · congr 1
        split_ifs <;> omega


theorem lt_ceil_div (L B i : Nat) (hB : 0 < B) (hi : i < (L + B - 1) / B) : i * B < L := by
  have h : (i + 1) * B ≤ L + B - 1 := (Nat.le_div_iff_mul_le hB).mp hi
  rw [Nat.add_mul, one_mul] at h
  omega

theorem sum_slices (L B : Nat) (hB : 0 < B) :
    ∀ k, k ≤ (L + B - 1) / B →
      ((List.range k).map (fun i => min (L - i * B) B)).sum = min L (k * B) := by
  intro k
  induction k with
  | zero => intro _; simp
  | succ k ih =>
    intro hk
    have hlt := lt_ceil_div L B k hB (by omega)
    rw [List.range_succ, List.map_append, List.sum_append, ih (by omega)]
    simp only [List.map_cons, List.map_nil, List.sum_cons, List.sum_nil, add_zero]
    rw [Nat.add_mul, one_mul]
    omega

theorem send_r2t_spec (sess : iscsi_sess_params) (req : iscsi_cmnd)
    (hlen : 0 < req.r2t_len_to_send)
    (hout : req.outstanding_r2t < sess.max_outstanding_r2t)
    (hB : 0 < sess.max_burst_length) (hM : sess.max_outstanding_r2t < 2 ^ 32)
    (hsn : req.r2t_sn < 2 ^ 32) :
    (send_r2t sess req).2 =
      (List.range (r2t_count sess req)).map (r2t_slice req sess.max_burst_length) ∧
    (send_r2t sess req).1 =
      { req with
          r2t_sn := add32 req.r2t_sn (r2t_count sess req),
          r2t_len_to_send := req.r2t_len_to_send - r2t_count sess req * sess.max_burst_length,
          outstanding_r2t := req.outstanding_r2t + r2t_count sess req } ∧
    ((send_r2t sess req).2.map (fun h => h.data_length)).sum =
      min req.r2t_len_to_send (r2t_count sess req * sess.max_burst_length) := by
  have hspec := send_r2t_loop_spec sess.max_outstanding_r2t sess.max_burst_length hB hM
    sess.max_outstanding_r2t req (sub32 req.pdu.data_length req.r2t_len_to_send) hout
    (by omega) hlen hsn (sub32_lt _ _)
  have hsend : send_r2t sess req =
      send_r2t_loop sess.max_outstanding_r2t sess.max_burst_length sess.max_outstanding_r2t req
        (sub32 req.pdu.data_length req.r2t_len_to_send) := by
    unfold send_r2t
    rw [if_neg (by omega)]
  have hkle : r2t_count sess req ≤
      (req.r2t_len_to_send + sess.max_burst_length - 1) / sess.max_burst_length :=
    Nat.min_le_right _ _
  have hlist : (send_r2t sess req).2 =
      (List.range (r2t_count sess req)).map (r2t_slice req sess.max_burst_length) := by
    rw [hsend, hspec.1]
    apply List.map_congr_left
    intro i hi
    have hi2 : i < r2t_count sess req := List.mem_range.mp hi
    have hlt := lt_ceil_div _ _ i hB (lt_of_lt_of_le hi2 hkle)
    unfold r2t_slice
    congr 1
    unfold sub32 add32 U32_MOD
    omega
  refine ⟨hlist, ?_, ?_⟩
  · rw [hsend, hspec.2]
    rfl
  · rw [hlist, List.map_map]
    exact sum_slices _ _ hB _ hkle

/-- The scenario of claim C8 evaluated: `data_length = 65536`, `B = 8192`,
`M = 2` gives the R2Ts `(0, 8192, 0)` and `(8192, 8192, 1)` as
(offset, length, r2t_sn), leaving 49152 bytes to solicit and two R2Ts
outstanding. -/
theorem send_r2t_65536_8192_2 :
    (send_r2t { max_burst_length := 8192, max_outstanding_r2t := 2 }
      { pdu := { opcode := 1, data_length := 65536 }, r2t_len_to_send := 65536,
        r2t_len_to_receive := 65536 }).2.map
      (fun h => (h.buffer_offset, h.data_length, h.r2t_sn)) = [(0, 8192, 0), (8192, 8192, 1)] ∧
    (send_r2t { max_burst_length := 8192, max_outstanding_r2t := 2 }
      { pdu := { opcode := 1, data_length := 65536 }, r2t_len_to_send := 65536,
        r2t_len_to_receive := 65536 }).1.r2t_len_to_send = 49152 ∧
    (send_r2t { max_burst_length := 8192, max_outstanding_r2t := 2 }
      { pdu := { opcode := 1, data_length := 65536 }, r2t_len_to_send := 65536,
        r2t_len_to_receive := 65536 }).1.outstanding_r2t = 2 := by
  decide



/-! ## A write served by R2Ts -/

theorem emitted_r2ts_r2t_events (hdrs : List iscsi_r2t_hdr) :
    emitted_r2ts (r2t_events hdrs) = hdrs := by
  unfold emitted_r2ts r2t_events
  induction hdrs with
  | nil => rfl
  | cons h t ih =>
    simp only [List.map_cons, List.filterMap_cons, rx_event.r2t_hdr]
    exact congrArg _ ih

theorem emitted_r2ts_append (a b : List rx_event) :
    emitted_r2ts (a ++ b) = emitted_r2ts a ++ emitted_r2ts b := by
  unfold emitted_r2ts
  exact List.filterMap_append _ _ _

theorem restarted_r2t_events (hdrs : List iscsi_r2t_hdr) : restarted (r2t_events hdrs) = false := by
  unfold restarted r2t_events
  induction hdrs with
  | nil => rfl
  | cons h t ih =>
    simp only [List.map_cons, List.any_cons, Bool.false_or]
    exact ih

theorem start_write_accepted (s : iscsi_session) (itt len : Nat)
    (hlen : 0 < len) (hlen2 : len < 2 ^ 32)
    (hitt : itt ≠ ISCSI_RESERVED_TAG) (hfresh : cmnd_find_data_wait_hash s itt = none) :
    ∃ s1 : iscsi_session, s1.sess_params = s.sess_params ∧
      start_write s (write_cmd itt len) =
        { session := s1,
          req := (send_r2t s.sess_params (accepted_write itt len (get_next_ttt s).1)).1,
          events :=
            r2t_events (send_r2t s.sess_params (accepted_write itt len (get_next_ttt s).1)).2,
          outstanding := (send_r2t s.sess_params (accepted_write itt len (get_next_ttt s).1)).2 } := by
  have hfin : has_final (write_cmd itt len).pdu = true := by
    simp [has_final, write_cmd, ISCSI_CMD_FINAL, ISCSI_FLG_FINAL]
  have hsub : sub32 len 0 = len := by unfold sub32 U32_MOD; omega
  have hfind : cmnd_find_data_wait_hash (get_next_ttt s).2 itt = none := hfresh
  obtain ⟨s1, hs1, hins⟩ : ∃ s1 : iscsi_session, s1.sess_params = s.sess_params ∧
      cmnd_insert_data_wait_hash s { write_cmd itt len with r2t_len_to_receive := len } =
        (s1, { write_cmd itt len with
                r2t_len_to_receive := len, target_task_tag := (get_next_ttt s).1,
                hashed := true }, 0) := by
    unfold cmnd_insert_data_wait_hash
    simp only [write_cmd, Bool.false_eq_true, if_false, if_neg hitt, hfind]
    refine ⟨_, ?_, rfl⟩
    rfl
  have hcont : cmnd_rx_continue s (write_cmd itt len) .write false 0 =
      (s1, accepted_write itt len (get_next_ttt s).1, 0, []) := by
    unfold cmnd_rx_continue
    have hpf : prelim_compl_flags_set (write_cmd itt len) = false := rfl
    have hds : (write_cmd itt len).pdu.datasize = 0 := rfl
    have hdl : (write_cmd itt len).pdu.data_length = len := rfl
    simp only [hpf, Bool.or_self, Bool.false_eq_true, if_false, scst_data_direction.is_write,
      if_true, hfin, Bool.not_true, Bool.and_false, hds, ne_eq, not_true_eq_false, decide_False,
      Nat.not_lt_zero, hdl, hsub, hins, not_false_eq_true]
    rfl
  refine ⟨s1, hs1, ?_⟩
  have hexec : iscsi_cmnd_exec s1.sess_params (accepted_write itt len (get_next_ttt s).1) =
      ((send_r2t s.sess_params (accepted_write itt len (get_next_ttt s).1)).1,
        r2t_events (send_r2t s.sess_params (accepted_write itt len (get_next_ttt s).1)).2) := by
    unfold iscsi_cmnd_exec
    have hop : cmnd_opcode (accepted_write itt len (get_next_ttt s).1) = ISCSI_OP_SCSI_CMD := by
      simp [cmnd_opcode, accepted_write, write_cmd, ISCSI_OP_SCSI_CMD, ISCSI_OPCODE_MASK]
    have h1 : (accepted_write itt len (get_next_ttt s).1).r2t_len_to_receive = len := rfl
    have h2 : (accepted_write itt len (get_next_ttt s).1).r2t_len_to_send = len := rfl
    rw [if_pos hop, h1, h2, if_neg (by omega), if_pos (by omega), hs1]
  unfold start_write
  simp only [hcont, hexec, ne_eq, not_true_eq_false, if_false, List.nil_append,
    emitted_r2ts_r2t_events]


theorem ceil_div_mul_ge (L B : Nat) (hB : 0 < B) : L ≤ (L + B - 1) / B * B := by
  have h := Nat.div_add_mod (L + B - 1) B
  have h2 := Nat.mod_lt (L + B - 1) hB
  rw [Nat.mul_comm] at h
  omega

theorem not_closed_r2t_events (hdrs : List iscsi_r2t_hdr) :
    rx_event.mark_conn_closed ∉ r2t_events hdrs := by
  unfold r2t_events
  simp

theorem write_inv_start (s : iscsi_session) (itt len : Nat)
    (hB : 0 < s.sess_params.max_burst_length) (hM1 : 1 ≤ s.sess_params.max_outstanding_r2t)
    (hM2 : s.sess_params.max_outstanding_r2t < 2 ^ 32) (hlen : 0 < len) (hlen2 : len < 2 ^ 32)
    (hitt : itt ≠ ISCSI_RESERVED_TAG) (hfresh : cmnd_find_data_wait_hash s itt = none) :
    write_inv s.sess_params (accepted_write itt len (get_next_ttt s).1) 0
      (start_write s (write_cmd itt len)) := by
  obtain ⟨s1, hs1, hstart⟩ := start_write_accepted s itt len hlen hlen2 hitt hfresh
  have hL : (accepted_write itt len (get_next_ttt s).1).r2t_len_to_send = len := rfl
  have hR : (accepted_write itt len (get_next_ttt s).1).r2t_len_to_receive = len := rfl
  have hS : (accepted_write itt len (get_next_ttt s).1).r2t_sn = 0 := rfl
  have hO : (accepted_write itt len (get_next_ttt s).1).outstanding_r2t = 0 := rfl
  have hA : (accepted_write itt len (get_next_ttt s).1).aborted = false := rfl
  have hP : (accepted_write itt len (get_next_ttt s).1).prelim_completed = false := rfl
  have hQ : (accepted_write itt len (get_next_ttt s).1).pending = false := rfl
  have hH : (accepted_write itt len (get_next_ttt s).1).hashed = true := rfl
  have hk : r2t_count s.sess_params (accepted_write itt len (get_next_ttt s).1) =
      min s.sess_params.max_outstanding_r2t
        ((len + s.sess_params.max_burst_length - 1) / s.sess_params.max_burst_length) := rfl
  generalize accepted_write itt len (get_next_ttt s).1 = req0 at *
  obtain ⟨hlist, hreq, hsum⟩ := send_r2t_spec s.sess_params req0 (by omega) (by omega) hB hM2
    (by omega)
  have hceil := ceil_div_pos len _ hB hlen
  have hceil2 := ceil_div_mul_ge len _ hB
  have hlen_out : (send_r2t s.sess_params req0).2.length = r2t_count s.sess_params req0 := by
    rw [hlist, List.length_map, List.length_range]
  have e1 : (send_r2t s.sess_params req0).1.r2t_sn =
      add32 req0.r2t_sn (r2t_count s.sess_params req0) := by rw [hreq]
  have e2 : (send_r2t s.sess_params req0).1.r2t_len_to_send =
      req0.r2t_len_to_send - r2t_count s.sess_params req0 * s.sess_params.max_burst_length := by
    rw [hreq]
  have e3 : (send_r2t s.sess_params req0).1.outstanding_r2t =
      req0.outstanding_r2t + r2t_count s.sess_params req0 := by rw [hreq]
  have e4 : (send_r2t s.sess_params req0).1.r2t_len_to_receive = req0.r2t_len_to_receive := by
    rw [hreq]
  have e5 : (send_r2t s.sess_params req0).1.pdu = req0.pdu := by rw [hreq]
  have e6 : (send_r2t s.sess_params req0).1.target_task_tag = req0.target_task_tag := by rw [hreq]
  have e7 : (send_r2t s.sess_params req0).1.aborted = req0.aborted := by rw [hreq]
  have e8 : (send_r2t s.sess_params req0).1.prelim_completed = req0.prelim_completed := by
    rw [hreq]
  have e9 : (send_r2t s.sess_params req0).1.pending = req0.pending := by rw [hreq]
  have e10 : (send_r2t s.sess_params req0).1.hashed = req0.hashed := by rw [hreq]
  generalize r2t_count s.sess_params req0 = k at *
  generalize (send_r2t s.sess_params req0).1 = req1 at *
  generalize (send_r2t s.sess_params req0).2 = hdrs at *
  generalize s.sess_params = p at *
  have hk1 : 1 ≤ k := by omega
  have hklt := lt_ceil_div len p.max_burst_length (k - 1) hB (by omega)
  rw [Nat.sub_mul, one_mul] at hklt
  have hkB : p.max_burst_length ≤ k * p.max_burst_length :=
    Nat.le_mul_of_pos_left p.max_burst_length (by omega)
  have hfull : len ≤ k * p.max_burst_length ∨ k = p.max_outstanding_r2t := by
    rcases Nat.le_total p.max_outstanding_r2t
      ((len + p.max_burst_length - 1) / p.max_burst_length) with h | h
    · right
      omega
    · left
      have : k = (len + p.max_burst_length - 1) / p.max_burst_length := by omega
      rw [this]
      exact hceil2
  rw [hstart]
  refine ⟨hs1, ?_, ?_, ?_, ?_, ?_, ?_, ?_, ?_, ?_, ?_, ?_, ?_, ?_, ?_, ?_, ?_, ?_,
    not_closed_r2t_events _⟩
  · simp only [emitted_r2ts_r2t_events, add_zero, hlen_out]
    exact hlist
  · simp only [add_zero, hlen_out, hL]
    omega
  · simp only [add_zero, hlen_out, e1, hS]
    unfold add32 U32_MOD
    omega
  · simp only [add_zero, hlen_out, e2]
  · simp only [hlen_out, e3, hO]
    omega
  · simp only [hlen_out]
    omega
  · simp only [hsum, e2, e4, hL, hR]
    rw [hL] at hsum
    omega
  · intro r hr
    simp only [hlist, List.mem_map, List.mem_range] at hr
    obtain ⟨i, hi, rfl⟩ := hr
    have := lt_ceil_div len p.max_burst_length i hB (by omega)
    simp only [r2t_slice, hL]
    omega
  · simp only [hlen_out, e2, hL]
    omega
  · exact e5
  · exact e6
  · simp only [e7, hA]
  · simp only [e8, hP]
  · simp only [e9, hQ]
  · intro _
    simp only [e10, hH]
  · intro h
    simp only at h
    rw [← List.length_eq_zero, hlen_out] at h
    omega
  · simp only [e4, hR]
    omega


theorem has_final_data_out_pdu (req : iscsi_cmnd) (d : Nat) (final : Bool) :
    has_final (data_out_pdu req d final).pdu = final := by
  cases final <;> simp [has_final, data_out_pdu, ISCSI_FLG_FINAL]

theorem datasize_data_out_pdu (req : iscsi_cmnd) (d : Nat) (final : Bool) :
    (data_out_pdu req d final).pdu.datasize = d := rfl

theorem prepare_recv_events_zero : prepare_recv_events 0 = [] := rfl

theorem check_segment_length_ok (session : iscsi_session) (cmnd : iscsi_cmnd)
    (h : cmnd.pdu.datasize ≤ session.sess_params.max_recv_data_length) :
    check_segment_length session cmnd = (0, []) := by
  unfold check_segment_length
  rw [if_neg (not_lt.mpr h)]

/-- A Data-Out PDU within `max_recv_data_length` passes `check_segment_length`
and goes on to `data_out_start` and `data_out_end`. -/
theorem rx_data_out_of_le (st : write_run) (d : Nat) (final : Bool)
    (hm : d ≤ st.session.sess_params.max_recv_data_length) :
    rx_data_out st d final =
      (let cmnd := data_out_pdu st.req d final
       let s := data_out_start st.session
         (if st.req.hashed then some st.req else Option.none) cmnd 0
       if s.2.2.2.1 ≠ 0 then
         { st with session := s.1, req := s.2.1.getD st.req, events := st.events ++ s.2.2.2.2 }
       else
         let e := data_out_end s.1.sess_params s.2.1 s.2.2.1
         { session := s.1, req := e.1.getD st.req, events := st.events ++ (s.2.2.2.2 ++ e.2),
           outstanding := st.outstanding ++ emitted_r2ts e.2,
           received := st.received + (if s.2.1.isSome then d else 0) }) := by
  unfold rx_data_out
  dsimp only
  rw [check_segment_length_ok st.session (data_out_pdu st.req d final) hm,
    if_neg (show ¬ ((0 : Int), ([] : List rx_event)).1 ≠ 0 from by decide)]

theorem prelim_flags_of_fields (a b : iscsi_cmnd) (h1 : a.aborted = b.aborted)
    (h2 : a.prelim_completed = b.prelim_completed) :
    prelim_compl_flags_set a = prelim_compl_flags_set b := by
  unfold prelim_compl_flags_set
  rw [h1, h2]

theorem data_out_start_ok (session : iscsi_session) (req : iscsi_cmnd) (d : Nat) (final : Bool)
    (ha : req.aborted = false) (hp : req.prelim_completed = false)
    (hd : d ≤ req.r2t_len_to_receive) :
    data_out_start session (some req) (data_out_pdu req d final) 0 =
      (session,
        some (if final then { req with outstanding_r2t := sub32 req.outstanding_r2t 1 } else req),
        data_out_pdu req d final, 0, []) := by
  have hflags : prelim_compl_flags_set req = false := by
    unfold prelim_compl_flags_set
    rw [ha, hp]
    rfl
  unfold data_out_start
  simp only [datasize_data_out_pdu, if_neg (show ¬ (req.r2t_len_to_receive < d ∧
    ¬ prelim_compl_flags_set req = true) from fun h => absurd h.1 (not_lt.mpr hd)),
    has_final_data_out_pdu]
  cases final
  · simp only [Bool.false_eq_true, if_false, hflags, prepare_recv_events_zero, List.append_nil]
  · have hflags2 : prelim_compl_flags_set
        { req with outstanding_r2t := sub32 req.outstanding_r2t 1 } = false := by
      unfold prelim_compl_flags_set
      simp only [ha, hp, Bool.or_self]
    simp only [if_true, hflags2, Bool.false_eq_true, if_false, prepare_recv_events_zero,
      List.append_nil]

theorem rx_data_out_not_final (st : write_run) (d : Nat) (hh : st.req.hashed = true)
    (ha : st.req.aborted = false) (hp : st.req.prelim_completed = false)
    (hd : d ≤ st.req.r2t_len_to_receive) (hr : st.req.r2t_len_to_receive < 2 ^ 32)
    (hm : d ≤ st.session.sess_params.max_recv_data_length) :
    rx_data_out st d false =
      { st with
          req := { st.req with r2t_len_to_receive := st.req.r2t_len_to_receive - d },
          received := st.received + d } := by
  have hsub : sub32 st.req.r2t_len_to_receive d = st.req.r2t_len_to_receive - d := by
    unfold sub32 U32_MOD
    omega
  have hflags : prelim_compl_flags_set st.req = false := by
    unfold prelim_compl_flags_set
    rw [ha, hp]
    rfl
  have hflags2 : prelim_compl_flags_set
      { st.req with r2t_len_to_receive := st.req.r2t_len_to_receive - d } = false :=
    (prelim_flags_of_fields _ _ rfl rfl).trans hflags
  rw [rx_data_out_of_le st d false hm]
  simp only [hh, if_true, data_out_start_ok st.session st.req d false ha hp hd, ne_eq,
    not_true_eq_false, if_false, Bool.false_eq_true]
  unfold data_out_end
  simp only [datasize_data_out_pdu, hsub, hflags2, has_final_data_out_pdu, Bool.false_eq_true,
    if_false, Bool.not_false, if_true, Option.getD_some, List.append_nil, Option.isSome_some,
    emitted_r2ts, List.filterMap_nil]
  rw [hh]


theorem rx_data_outs_spec (split : List Nat) :
    ∀ st : write_run, st.req.hashed = true → st.req.aborted = false →
      st.req.prelim_completed = false → split.sum ≤ st.req.r2t_len_to_receive →
      st.req.r2t_len_to_receive < 2 ^ 32 →
      (∀ d ∈ split, d ≤ st.session.sess_params.max_recv_data_length) →
      rx_data_outs st split =
        { st with
            req := { st.req with r2t_len_to_receive := st.req.r2t_len_to_receive - split.sum },
            received := st.received + split.sum } := by
  induction split with
  | nil =>
    intro st _ _ _ _ _ _
    simp only [rx_data_outs, List.sum_nil, Nat.sub_zero, add_zero]
  | cons d rest ih =>
    intro st hh ha hp hd hr hm
    rw [List.sum_cons] at hd
    rw [rx_data_outs, rx_data_out_not_final st d hh ha hp (by omega) hr
      (hm d (List.mem_cons_self _ _)), ih]
    · simp only [List.sum_cons, Nat.sub_sub, Nat.add_assoc]
    · exact hh
    · exact ha
    · exact hp
    · simp only
      omega
    · simp only
      omega
    · intro x hx
      exact hm x (List.mem_cons_of_mem _ hx)

theorem rx_data_out_final (st : write_run) (d : Nat) (hh : st.req.hashed = true)
    (ha : st.req.aborted = false) (hp : st.req.prelim_completed = false)
    (hq : st.req.pending = false)
    (hd : d ≤ st.req.r2t_len_to_receive) (hr : st.req.r2t_len_to_receive < 2 ^ 32)
    (ho1 : 1 ≤ st.req.outstanding_r2t) (ho2 : st.req.outstanding_r2t < 2 ^ 32)
    (hm : d ≤ st.session.sess_params.max_recv_data_length) :
    (st.req.r2t_len_to_receive - d = 0 →
      rx_data_out st d true =
        { st with
            req := { st.req with
              outstanding_r2t := st.req.outstanding_r2t - 1,
              r2t_len_to_receive := 0,
              on_write_timeout_list := false, hashed := false },
            events := st.events ++ [.restart { st.req with
              outstanding_r2t := st.req.outstanding_r2t - 1,
              r2t_len_to_receive := 0 }],
            received := st.received + d }) ∧
    (st.req.r2t_len_to_receive - d ≠ 0 → st.req.r2t_len_to_send ≠ 0 →
      rx_data_out st d true =
        { st with
            req := (send_r2t st.session.sess_params { st.req with
              outstanding_r2t := st.req.outstanding_r2t - 1,
              r2t_len_to_receive := st.req.r2t_len_to_receive - d }).1,
            events := st.events ++ r2t_events (send_r2t st.session.sess_params { st.req with
              outstanding_r2t := st.req.outstanding_r2t - 1,
              r2t_len_to_receive := st.req.r2t_len_to_receive - d }).2,
            outstanding := st.outstanding ++ (send_r2t st.session.sess_params { st.req with
              outstanding_r2t := st.req.outstanding_r2t - 1,
              r2t_len_to_receive := st.req.r2t_len_to_receive - d }).2,
            received := st.received + d }) ∧
    (st.req.r2t_len_to_receive - d ≠ 0 → st.req.r2t_len_to_send = 0 →
      rx_data_out st d true =
        { st with
            req := { st.req with
              outstanding_r2t := st.req.outstanding_r2t - 1,
              r2t_len_to_receive := st.req.r2t_len_to_receive - d },
            received := st.received + d }) := by
  have hsub : sub32 st.req.r2t_len_to_receive d = st.req.r2t_len_to_receive - d := by
    unfold sub32 U32_MOD
    omega
  have hsub1 : sub32 st.req.outstanding_r2t 1 = st.req.outstanding_r2t - 1 := by
    unfold sub32 U32_MOD
    omega
  have hstart := data_out_start_ok st.session st.req d true ha hp hd
  simp only [if_true, hsub1] at hstart
  have hrx : rx_data_out st d true =
      { session := st.session,
        req := (data_out_end st.session.sess_params
          (some { st.req with outstanding_r2t := st.req.outstanding_r2t - 1 })
          (data_out_pdu st.req d true)).1.getD st.req,
        events := st.events ++ (data_out_end st.session.sess_params
          (some { st.req with outstanding_r2t := st.req.outstanding_r2t - 1 })
          (data_out_pdu st.req d true)).2,
        outstanding := st.outstanding ++ emitted_r2ts (data_out_end st.session.sess_params
          (some { st.req with outstanding_r2t := st.req.outstanding_r2t - 1 })
          (data_out_pdu st.req d true)).2,
        received := st.received + d } := by
    rw [rx_data_out_of_le st d true hm]
    simp only [hh, if_true, hstart, ne_eq, not_true_eq_false, if_false, List.nil_append,
      Option.isSome_some]
  rw [hrx]
  unfold data_out_end
  simp only [datasize_data_out_pdu, hsub, prelim_compl_flags_set, ha, hp, Bool.or_self,
    Bool.false_eq_true, if_false, has_final_data_out_pdu, Bool.not_true, hq, Bool.not_false,
    if_true]
  refine ⟨?_, ?_, ?_⟩
  · intro h0
    simp only [h0, if_true, iscsi_restart_cmnd, Option.getD_some, emitted_r2ts,
      List.filterMap_cons, List.filterMap_nil, rx_event.r2t_hdr, List.append_nil]
  · intro h0 h1
    simp only [h0, if_false, ne_eq, h1, not_false_eq_true, if_true, Option.getD_some,
      emitted_r2ts_r2t_events]
  · intro h0 h1
    simp only [h0, if_false, ne_eq, h1, not_true_eq_false, Option.getD_some, emitted_r2ts,
      List.filterMap_nil, List.append_nil]

theorem get_eraseIdx_facts (f : iscsi_r2t_hdr → Nat) :
    ∀ (l : List iscsi_r2t_hdr) (i : Nat) (r : iscsi_r2t_hdr), l.get? i = some r →
      (l.map f).sum = f r + ((l.eraseIdx i).map f).sum ∧
      (l.eraseIdx i).length + 1 = l.length ∧ r ∈ l := by
  intro l
  induction l with
  | nil =>
    intro i r h
    simp at h
  | cons a t ih =>
    intro i r h
    cases i with
    | zero =>
      simp only [List.get?_cons_zero, Option.some.injEq] at h
      subst h
      simp
    | succ n =>
      simp only [List.get?_cons_succ] at h
      obtain ⟨h1, h2, h3⟩ := ih n r h
      simp only [List.eraseIdx_cons_succ, List.map_cons, List.sum_cons, List.length_cons,
        List.mem_cons]
      refine ⟨by omega, by omega, Or.inr h3⟩


theorem count_bound (e B L : Nat) (hB : 0 < B) (h : e * B < L + B) : e ≤ L := by
  cases e with
  | zero => exact Nat.zero_le _
  | succ n =>
    rw [Nat.succ_mul] at h
    have := Nat.le_mul_of_pos_right n hB
    omega

theorem sum_pos_of_ne_nil (f : iscsi_r2t_hdr → Nat) (l : List iscsi_r2t_hdr) (hne : l ≠ [])
    (hpos : ∀ x ∈ l, 0 < f x) : 0 < (l.map f).sum := by
  cases l with
  | nil => exact absurd rfl hne
  | cons a t =>
    have := hpos a (List.mem_cons_self _ _)
    simp only [List.map_cons, List.sum_cons]
    omega

theorem restarted_append_restart (evs : List rx_event) (c : iscsi_cmnd) :
    restarted (evs ++ [.restart c]) = true := by
  unfold restarted
  simp

theorem answer_r2t_inv (p : iscsi_sess_params) (req0 : iscsi_cmnd) (j : Nat)
    (st st2 : write_run) (i : Nat) (split : List Nat)
    (hB : 0 < p.max_burst_length) (hM2 : p.max_outstanding_r2t < 2 ^ 32)
    (hlen2 : req0.r2t_len_to_send < 2 ^ 32) (hsn0 : req0.r2t_sn = 0)
    (hinv : write_inv p req0 j st) (hans : answer_r2t st i split = some st2) :
    write_inv p req0 (j + 1) st2 := by
  unfold answer_r2t at hans
  rcases hget : st.outstanding.get? i with _ | r
  · rw [hget] at hans
    cases hans
  rw [hget] at hans
  simp only at hans
  by_cases hlegal : split.sum ≤ r.data_length ∧
      (∀ d ∈ split, d ≤ st.session.sess_params.max_recv_data_length) ∧
      r.data_length - split.sum ≤ st.session.sess_params.max_recv_data_length
  swap
  · rw [if_neg hlegal] at hans
    cases hans
  rw [if_pos hlegal] at hans
  obtain ⟨hsplit, hmsplit, hmlast⟩ := hlegal
  obtain ⟨hsum, hlenE, hmem⟩ := get_eraseIdx_facts (fun r => r.data_length) st.outstanding i r hget
  have hne : st.outstanding ≠ [] := List.ne_nil_of_mem hmem
  have hh := hinv.hashed hne
  have ha := hinv.not_aborted
  have hp := hinv.not_prelim
  have hq := hinv.not_pending
  have hrecv := hinv.received_eq
  have htr := hinv.to_recv_eq
  have hts := hinv.to_send_eq
  have hout := hinv.out_eq
  have hle := hinv.out_le
  have hcnt := hinv.count_le
  have hsn := hinv.sn_eq
  have hfull := hinv.full
  have hebound := count_bound _ _ _ hB hcnt
  have hst1 := rx_data_outs_spec split { st with outstanding := st.outstanding.eraseIdx i }
    hh ha hp (by show split.sum ≤ st.req.r2t_len_to_receive; omega)
    (by show st.req.r2t_len_to_receive < 2 ^ 32; omega) hmsplit
  rw [hst1] at hans
  obtain ⟨hA, hBc, hC⟩ := rx_data_out_final
    { session := st.session,
      req := { st.req with r2t_len_to_receive := st.req.r2t_len_to_receive - split.sum },
      events := st.events, outstanding := st.outstanding.eraseIdx i,
      received := st.received + split.sum }
    (r.data_length - split.sum) hh ha hp hq
    (by show r.data_length - split.sum ≤ st.req.r2t_len_to_receive - split.sum; omega)
    (by show st.req.r2t_len_to_receive - split.sum < 2 ^ 32; omega)
    (by show 1 ≤ st.req.outstanding_r2t; omega)
    (by show st.req.outstanding_r2t < 2 ^ 32; omega) hmlast
  simp only at hA hBc hC
  have hd0 : st.req.r2t_len_to_receive - split.sum - (r.data_length - split.sum) =
      st.req.r2t_len_to_receive - r.data_length := by omega
  rw [hd0] at hA hBc hC
  by_cases h0 : st.req.r2t_len_to_receive - r.data_length = 0
  · -- all the data has arrived: the command is restarted
    rw [hA h0] at hans
    have hS0 : ((st.outstanding.eraseIdx i).map (fun r => r.data_length)).sum = 0 := by omega
    have hnil : st.outstanding.eraseIdx i = [] := by
      by_contra hne2
      have := sum_pos_of_ne_nil (fun r => r.data_length) _ hne2
        (fun x hx => hinv.pos x (List.mem_of_mem_eraseIdx hx))
      omega
    have hlen1 : st.outstanding.length = 1 := by
      rw [hnil] at hlenE
      simpa using hlenE.symm
    have hts0 : st.req.r2t_len_to_send = 0 := by omega
    cases hans
    refine ⟨hinv.params_eq, ?_, ?_, ?_, ?_, ?_, ?_, ?_, ?_, ?_, hinv.pdu_eq, hinv.ttt_eq, ha, hp,
      hq, ?_, ?_, ?_, ?_⟩
    · show emitted_r2ts (st.events ++ [_]) =
        (List.range ((st.outstanding.eraseIdx i).length + (j + 1))).map _
      rw [emitted_r2ts_append, hinv.emitted, hnil, hlen1]
      simp only [emitted_r2ts, List.filterMap_cons, List.filterMap_nil, rx_event.r2t_hdr,
        List.append_nil, List.length_nil]
      rw [Nat.add_comm 1 j, Nat.zero_add]
    · show ((st.outstanding.eraseIdx i).length + (j + 1)) * _ < _
      rw [hnil]
      rw [hlen1] at hcnt
      simpa [Nat.add_comm] using hcnt
    · show st.req.r2t_sn = (st.outstanding.eraseIdx i).length + (j + 1)
      rw [hnil]
      simp only [List.length_nil]
      omega
    · show st.req.r2t_len_to_send = _ - ((st.outstanding.eraseIdx i).length + (j + 1)) * _
      rw [hnil, hts]
      simp only [List.length_nil, hlen1]
      rw [Nat.add_comm 1 j, Nat.zero_add]
    · show st.req.outstanding_r2t - 1 = (st.outstanding.eraseIdx i).length
      rw [hnil]
      simp only [List.length_nil]
      omega
    · show (st.outstanding.eraseIdx i).length ≤ _
      rw [hnil]
      exact Nat.zero_le _
    · show 0 = st.req.r2t_len_to_send + ((st.outstanding.eraseIdx i).map _).sum
      omega
    · intro x hx
      exact hinv.pos x (List.mem_of_mem_eraseIdx hx)
    · exact Or.inl hts0
    · intro hcontra
      exact absurd hnil hcontra
    · intro _
      exact restarted_append_restart _ _
    · show st.received + split.sum + (r.data_length - split.sum) + 0 = _
      omega
    · show rx_event.mark_conn_closed ∉ st.events ++ [_]
      simp [hinv.not_closed]
  · by_cases h1 : st.req.r2t_len_to_send = 0
    · -- nothing left to solicit
      rw [hC h0 h1] at hans
      cases hans
      refine ⟨hinv.params_eq, ?_, ?_, ?_, ?_, ?_, ?_, ?_, ?_, Or.inl h1, hinv.pdu_eq,
        hinv.ttt_eq, ha, hp, hq, fun _ => hh, ?_, ?_, hinv.not_closed⟩
      · show emitted_r2ts st.events =
          (List.range ((st.outstanding.eraseIdx i).length + (j + 1))).map _
        rw [hinv.emitted]
        congr 2
        omega
      · show ((st.outstanding.eraseIdx i).length + (j + 1)) * _ < _
        have : (st.outstanding.eraseIdx i).length + (j + 1) = st.outstanding.length + j := by
          omega
        rw [this]
        exact hcnt
      · show st.req.r2t_sn = (st.outstanding.eraseIdx i).length + (j + 1)
        omega
      · show st.req.r2t_len_to_send = _ - ((st.outstanding.eraseIdx i).length + (j + 1)) * _
        have : (st.outstanding.eraseIdx i).length + (j + 1) = st.outstanding.length + j := by
          omega
        rw [this]
        exact hts
      · show st.req.outstanding_r2t - 1 = (st.outstanding.eraseIdx i).length
        omega
      · show (st.outstanding.eraseIdx i).length ≤ _
        omega
      · show st.req.r2t_len_to_receive - r.data_length =
          st.req.r2t_len_to_send + ((st.outstanding.eraseIdx i).map _).sum
        omega
      · intro x hx
        exact hinv.pos x (List.mem_of_mem_eraseIdx hx)
      · intro hnil
        exfalso
        have hnil2 : st.outstanding.eraseIdx i = [] := hnil
        rw [hnil2] at hsum
        simp only [List.map_nil, List.sum_nil] at hsum
        omega
      · show st.received + split.sum + (r.data_length - split.sum) +
          (st.req.r2t_len_to_receive - r.data_length) = _
        omega
    · -- one more R2T is sent
      have hpar := hinv.params_eq
      have hfullM : st.outstanding.length = p.max_outstanding_r2t := by
        rcases hfull with hf | hf
        · exact absurd hf h1
        · exact hf
      obtain ⟨reqN, hdrs, hsend⟩ : ∃ reqN hdrs, send_r2t st.session.sess_params
          { st.req with
              outstanding_r2t := st.req.outstanding_r2t - 1,
              r2t_len_to_receive := st.req.r2t_len_to_receive - r.data_length } =
          (reqN, hdrs) := ⟨_, _, rfl⟩
      have hform := hBc h0 h1
      rw [hsend] at hform
      simp only at hform
      rw [hform] at hans
      have hspec := send_r2t_spec st.session.sess_params
        { st.req with
            outstanding_r2t := st.req.outstanding_r2t - 1,
            r2t_len_to_receive := st.req.r2t_len_to_receive - r.data_length }
        (by show 0 < st.req.r2t_len_to_send; omega)
        (by rw [hpar]; show st.req.outstanding_r2t - 1 < _; omega)
        (by rw [hpar]; exact hB) (by rw [hpar]; exact hM2)
        (by show st.req.r2t_sn < 2 ^ 32; omega)
      have hk1 : r2t_count st.session.sess_params
          { st.req with
              outstanding_r2t := st.req.outstanding_r2t - 1,
              r2t_len_to_receive := st.req.r2t_len_to_receive - r.data_length } = 1 := by
        show min (st.session.sess_params.max_outstanding_r2t - (st.req.outstanding_r2t - 1))
          ((st.req.r2t_len_to_send + st.session.sess_params.max_burst_length - 1) /
            st.session.sess_params.max_burst_length) = 1
        have := ceil_div_pos st.req.r2t_len_to_send st.session.sess_params.max_burst_length
          (by rw [hpar]; exact hB) (by omega)
        rw [hpar] at this ⊢
        omega
      rw [hsend, hk1] at hspec
      simp only [List.range_succ, List.range_zero, List.nil_append, List.map_cons, List.map_nil,
        one_mul, List.sum_cons, List.sum_nil, add_zero] at hspec
      obtain ⟨hlist, hreq, hsumk⟩ := hspec
      have hslice : r2t_slice
          { st.req with
              outstanding_r2t := st.req.outstanding_r2t - 1,
              r2t_len_to_receive := st.req.r2t_len_to_receive - r.data_length }
          st.session.sess_params.max_burst_length 0 =
          r2t_slice req0 p.max_burst_length (st.outstanding.length + j) := by
        unfold r2t_slice
        simp only [zero_mul, Nat.sub_zero, hinv.pdu_eq, hinv.ttt_eq, hsn0, hsn, hts, hpar]
        congr 1
        unfold add32 U32_MOD
        omega
      rw [hslice] at hlist
      have hdlen : (r2t_slice req0 p.max_burst_length (st.outstanding.length + j)).data_length =
          min st.req.r2t_len_to_send p.max_burst_length := by
        unfold r2t_slice
        simp only [hts]
      have e1 : reqN.r2t_sn = add32 st.req.r2t_sn 1 := by rw [hreq]
      have e2 : reqN.r2t_len_to_send = st.req.r2t_len_to_send - p.max_burst_length := by
        rw [hreq, hpar]
      have e3 : reqN.outstanding_r2t = st.req.outstanding_r2t - 1 + 1 := by rw [hreq]
      have e4 : reqN.r2t_len_to_receive = st.req.r2t_len_to_receive - r.data_length := by
        rw [hreq]
      have e5 : reqN.pdu = st.req.pdu := by rw [hreq]
      have e6 : reqN.target_task_tag = st.req.target_task_tag := by rw [hreq]
      have e7 : reqN.aborted = st.req.aborted := by rw [hreq]
      have e8 : reqN.prelim_completed = st.req.prelim_completed := by rw [hreq]
      have e9 : reqN.pending = st.req.pending := by rw [hreq]
      have e10 : reqN.hashed = st.req.hashed := by rw [hreq]
      have hemul := Nat.le_mul_of_pos_right (st.outstanding.length + j) hB
      have hmulB : (st.outstanding.length + j + 1) * p.max_burst_length =
          (st.outstanding.length + j) * p.max_burst_length + p.max_burst_length := by
        rw [Nat.add_mul, one_mul]
      have hcount : (st.outstanding.eraseIdx i ++ hdrs).length + (j + 1) =
          st.outstanding.length + j + 1 := by
        rw [hlist]
        simp only [List.length_append, List.length_singleton]
        omega
      cases hans
      refine ⟨hpar, ?_, ?_, ?_, ?_, ?_, ?_, ?_, ?_, ?_, ?_, ?_, ?_, ?_, ?_, ?_, ?_, ?_, ?_⟩
      · show emitted_r2ts (st.events ++ r2t_events hdrs) =
          (List.range ((st.outstanding.eraseIdx i ++ hdrs).length + (j + 1))).map _
        rw [hcount, emitted_r2ts_append, emitted_r2ts_r2t_events, hinv.emitted, hlist,
          List.range_succ, List.map_append]
        rfl
      · show ((st.outstanding.eraseIdx i ++ hdrs).length + (j + 1)) * _ < _
        rw [hcount, hmulB]
        clear * - hts h1
        omega
      · show reqN.r2t_sn = (st.outstanding.eraseIdx i ++ hdrs).length + (j + 1)
        rw [hcount, e1]
        unfold add32 U32_MOD
        clear * - hsn hemul hts h1 hlen2
        omega
      · show reqN.r2t_len_to_send = _ - ((st.outstanding.eraseIdx i ++ hdrs).length + (j + 1)) * _
        rw [hcount, hmulB, e2]
        clear * - hts
        omega
      · show reqN.outstanding_r2t = (st.outstanding.eraseIdx i ++ hdrs).length
        rw [e3, hlist]
        simp only [List.length_append, List.length_singleton]
        clear * - hout hlenE
        omega
      · show (st.outstanding.eraseIdx i ++ hdrs).length ≤ _
        rw [hlist]
        simp only [List.length_append, List.length_singleton]
        clear * - hlenE hle
        omega
      · show reqN.r2t_len_to_receive =
          reqN.r2t_len_to_send + ((st.outstanding.eraseIdx i ++ hdrs).map _).sum
        rw [e4, e2, hlist]
        simp only [List.map_append, List.sum_append, List.map_cons, List.map_nil, List.sum_cons,
          List.sum_nil, hdlen]
        clear * - htr hsum
        omega
      · intro x hx
        rcases List.mem_append.mp hx with hx | hx
        · exact hinv.pos x (List.mem_of_mem_eraseIdx hx)
        · rw [hlist, List.mem_singleton] at hx
          rw [hx, hdlen]
          clear * - h1 hB
          omega
      · right
        show (st.outstanding.eraseIdx i ++ hdrs).length = _
        rw [hlist]
        simp only [List.length_append, List.length_singleton]
        clear * - hlenE hfullM
        omega
      · show reqN.pdu = _
        rw [e5]
        exact hinv.pdu_eq
      · show reqN.target_task_tag = _
        rw [e6]
        exact hinv.ttt_eq
      · show reqN.aborted = false
        rw [e7]
        exact ha
      · show reqN.prelim_completed = false
        rw [e8]
        exact hp
      · show reqN.pending = false
        rw [e9]
        exact hq
      · intro _
        show reqN.hashed = true
        rw [e10]
        exact hh
      · intro hnil
        exfalso
        have hnil2 : st.outstanding.eraseIdx i ++ hdrs = [] := hnil
        rw [hlist] at hnil2
        simp at hnil2
      · show st.received + split.sum + (r.data_length - split.sum) + reqN.r2t_len_to_receive = _
        rw [e4]
        clear * - hrecv hsplit htr hsum
        omega
      · show rx_event.mark_conn_closed ∉ st.events ++ r2t_events hdrs
        intro hmem
        rcases List.mem_append.mp hmem with hm1 | hm1
        · exact hinv.not_closed hm1
        · exact not_closed_r2t_events hdrs hm1


theorem run_answers_inv (p : iscsi_sess_params) (req0 : iscsi_cmnd)
    (hB : 0 < p.max_burst_length) (hM2 : p.max_outstanding_r2t < 2 ^ 32)
    (hlen2 : req0.r2t_len_to_send < 2 ^ 32) (hsn0 : req0.r2t_sn = 0)
    (sched : List (Nat × List Nat)) :
    ∀ (j : Nat) (st st2 : write_run), write_inv p req0 j st →
      run_answers st sched = some st2 → write_inv p req0 (j + sched.length) st2 := by
  induction sched with
  | nil =>
    intro j st st2 hinv hrun
    simp only [run_answers, Option.some.injEq] at hrun
    rw [← hrun]
    exact hinv
  | cons a rest ih =>
    intro j st st2 hinv hrun
    rw [run_answers] at hrun
    rcases hans : answer_r2t st a.1 a.2 with _ | st1
    · rw [hans] at hrun
      cases hrun
    · rw [hans] at hrun
      have h1 := answer_r2t_inv p req0 j st st1 a.1 a.2 hB hM2 hlen2 hsn0 hinv hans
      have h2 := ih (j + 1) st1 st2 h1 hrun
      rw [List.length_cons]
      rw [Nat.add_assoc, Nat.add_comm 1] at h2
      exact h2

theorem run_answers_append (a b : List (Nat × List Nat)) :
    ∀ st : write_run,
      run_answers st (a ++ b) = (run_answers st a).bind (fun st1 => run_answers st1 b) := by
  induction a with
  | nil =>
    intro st
    rfl
  | cons x rest ih =>
    intro st
    rw [List.cons_append, run_answers, run_answers]
    rcases answer_r2t st x.1 x.2 with _ | st1
    · rfl
    · exact ih st1

theorem write_inv_count (p : iscsi_sess_params) (req0 : iscsi_cmnd) (j : Nat) (st : write_run)
    (hB : 0 < p.max_burst_length) (hM1 : 1 ≤ p.max_outstanding_r2t)
    (hinv : write_inv p req0 j st) :
    st.outstanding.length + j =
      min ((req0.r2t_len_to_send + p.max_burst_length - 1) / p.max_burst_length)
        (p.max_outstanding_r2t + j) ∧
    (st.outstanding = [] →
      j = (req0.r2t_len_to_send + p.max_burst_length - 1) / p.max_burst_length ∧
      st.req.r2t_len_to_receive = 0) := by
  have hcnt := hinv.count_le
  have hts := hinv.to_send_eq
  have hle := hinv.out_le
  have hfull := hinv.full
  have htr := hinv.to_recv_eq
  have hup : st.outstanding.length + j ≤
      (req0.r2t_len_to_send + p.max_burst_length - 1) / p.max_burst_length := by
    rw [Nat.le_div_iff_mul_le hB]
    omega
  have hdown : st.req.r2t_len_to_send = 0 →
      (req0.r2t_len_to_send + p.max_burst_length - 1) / p.max_burst_length ≤
        st.outstanding.length + j := by
    intro h0
    apply Nat.le_of_lt_succ
    rw [Nat.div_lt_iff_lt_mul hB, Nat.succ_mul]
    omega
  refine ⟨?_, ?_⟩
  · rcases hfull with hf | hf
    · have := hdown hf
      omega
    · omega
  · intro hnil
    rw [hnil] at hfull hup hdown htr
    simp only [List.length_nil, List.map_nil, List.sum_nil] at hfull hup hdown htr
    have h0 : st.req.r2t_len_to_send = 0 := by
      rcases hfull with hf | hf
      · exact hf
      · omega
    have := hdown h0
    omega

/-- The split of `d` solicited bytes into Data-Out PDUs of `R` bytes, all but
the last: the last PDU, with the FINAL bit, carries the rest (at most `R`). -/
theorem split_replicate (d R : Nat) (hR : 0 < R) :
    (List.replicate ((d - 1) / R) R).sum ≤ d ∧
    (∀ x ∈ List.replicate ((d - 1) / R) R, x ≤ R) ∧
    d - (List.replicate ((d - 1) / R) R).sum ≤ R := by
  have hsum : (List.replicate ((d - 1) / R) R).sum = (d - 1) / R * R := by
    rw [List.sum_replicate, smul_eq_mul]
  have hle : (d - 1) / R * R ≤ d - 1 := Nat.div_mul_le_self _ _
  have hlt : d - 1 < ((d - 1) / R + 1) * R := by
    have := Nat.lt_succ_self ((d - 1) / R)
    exact (Nat.div_lt_iff_lt_mul hR).mp this
  rw [hsum]
  refine ⟨by omega, ?_, ?_⟩
  · intro x hx
    rw [(List.mem_replicate.mp hx).2]
  · rw [Nat.add_mul, Nat.one_mul] at hlt
    omega

theorem run_answers_canonical (p : iscsi_sess_params) (req0 : iscsi_cmnd)
    (hB : 0 < p.max_burst_length) (hM1 : 1 ≤ p.max_outstanding_r2t)
    (hM2 : p.max_outstanding_r2t < 2 ^ 32) (hR : 0 < p.max_recv_data_length)
    (hlen2 : req0.r2t_len_to_send < 2 ^ 32) (hsn0 : req0.r2t_sn = 0)
    (st0 : write_run) (hinv0 : write_inv p req0 0 st0) :
    ∀ n, n ≤ (req0.r2t_len_to_send + p.max_burst_length - 1) / p.max_burst_length →
      ∃ (sched : List (Nat × List Nat)) (st : write_run), sched.length = n ∧
        run_answers st0 sched = some st ∧ write_inv p req0 n st := by
  intro n
  induction n with
  | zero =>
    intro _
    exact ⟨[], st0, rfl, rfl, hinv0⟩
  | succ n ih =>
    intro hn
    obtain ⟨sched, st, hlen, hrun, hinv⟩ := ih (by omega)
    have hne : st.outstanding ≠ [] := by
      intro hnil
      have := (write_inv_count p req0 n st hB hM1 hinv).2 hnil
      omega
    obtain ⟨r, t, hrt⟩ := List.exists_cons_of_ne_nil hne
    have hRs : 0 < st.session.sess_params.max_recv_data_length := by
      rw [hinv.params_eq]
      exact hR
    obtain ⟨hs1, hs2, hs3⟩ := split_replicate r.data_length
      st.session.sess_params.max_recv_data_length hRs
    have hans : ∃ st1, answer_r2t st 0
        (List.replicate ((r.data_length - 1) / st.session.sess_params.max_recv_data_length)
          st.session.sess_params.max_recv_data_length) = some st1 := by
      unfold answer_r2t
      rw [hrt]
      simp only [List.get?_cons_zero]
      rw [if_pos ⟨hs1, hs2, hs3⟩]
      exact ⟨_, rfl⟩
    obtain ⟨st1, hst1⟩ := hans
    refine ⟨sched ++ [(0, List.replicate
        ((r.data_length - 1) / st.session.sess_params.max_recv_data_length)
        st.session.sess_params.max_recv_data_length)], st1, ?_, ?_,
      answer_r2t_inv p req0 n st st1 0 _ hB hM2 hlen2 hsn0 hinv hst1⟩
    · rw [List.length_append, hlen]
      rfl
    · rw [run_answers_append, hrun]
      simp only [Option.bind, run_answers, hst1]


theorem slices_r2t_sn (req0 : iscsi_cmnd) (B : Nat) (hsn0 : req0.r2t_sn = 0) :
    ∀ e, e ≤ 2 ^ 32 →
      ((List.range e).map (r2t_slice req0 B)).map (fun h => h.r2t_sn) = List.range e := by
  intro e he
  rw [List.map_map]
  conv_rhs => rw [← List.map_id (List.range e)]
  apply List.map_congr_left
  intro i hi
  have := List.mem_range.mp hi
  simp only [Function.comp, r2t_slice, hsn0, id]
  unfold add32 U32_MOD
  omega

/-- Claim C7. A write of `len > 0` bytes that arrives with the FINAL bit and no
immediate data (what a negotiated `initial_r2t` requires), with
`max_burst_length = B > 0` and `max_outstanding_r2t = M ≥ 1`: whatever R2T the
initiator answers next and however it splits the solicited bytes into Data-Out
PDUs (the last one with the FINAL bit, none longer than the negotiated
`max_recv_data_length > 0`; every PDU passes through `check_segment_length`,
`data_out_start` and `data_out_end`), after `n` answers the engine has
emitted `min(ceil(len / B), M + n)` R2Ts, numbered `r2t_sn = 0, 1, 2, ...` in
emission order, each covering the next burst; when every R2T has been answered
it has emitted exactly `ceil(len / B)`, has received `len` bytes and has handed
the command on; and an initiator that answers every R2T reaches that state,
with `ceil(len / B)` answers. -/
theorem write_emits_ceil_r2ts (s : iscsi_session) (itt len : Nat)
    (hB : 0 < s.sess_params.max_burst_length) (hM1 : 1 ≤ s.sess_params.max_outstanding_r2t)
    (hM2 : s.sess_params.max_outstanding_r2t < 2 ^ 32)
    (hR : 0 < s.sess_params.max_recv_data_length) (hlen : 0 < len) (hlen2 : len < 2 ^ 32)
    (hitt : itt ≠ ISCSI_RESERVED_TAG) (hfresh : cmnd_find_data_wait_hash s itt = none) :
    (∀ (sched : List (Nat × List Nat)) (st : write_run),
      run_answers (start_write s (write_cmd itt len)) sched = some st →
        (emitted_r2ts st.events).length =
          min ((len + s.sess_params.max_burst_length - 1) / s.sess_params.max_burst_length)
            (s.sess_params.max_outstanding_r2t + sched.length) ∧
        (emitted_r2ts st.events).map (fun h => h.r2t_sn) =
          List.range (emitted_r2ts st.events).length ∧
        emitted_r2ts st.events =
          (List.range (emitted_r2ts st.events).length).map
            (r2t_slice (accepted_write itt len (get_next_ttt s).1)
              s.sess_params.max_burst_length) ∧
        st.req.outstanding_r2t ≤ s.sess_params.max_outstanding_r2t ∧
        rx_event.mark_conn_closed ∉ st.events ∧
        (st.outstanding = [] →
          (emitted_r2ts st.events).length =
            (len + s.sess_params.max_burst_length - 1) / s.sess_params.max_burst_length ∧
          sched.length =
            (len + s.sess_params.max_burst_length - 1) / s.sess_params.max_burst_length ∧
          restarted st.events = true ∧ st.received = len)) ∧
    (∃ (sched : List (Nat × List Nat)) (st : write_run),
      sched.length =
        (len + s.sess_params.max_burst_length - 1) / s.sess_params.max_burst_length ∧
      run_answers (start_write s (write_cmd itt len)) sched = some st ∧
      st.outstanding = []) := by
  have hinv0 := write_inv_start s itt len hB hM1 hM2 hlen hlen2 hitt hfresh
  have hL : (accepted_write itt len (get_next_ttt s).1).r2t_len_to_send = len := rfl
  have hS : (accepted_write itt len (get_next_ttt s).1).r2t_sn = 0 := rfl
  refine ⟨?_, ?_⟩
  · intro sched st hrun
    have hinv := run_answers_inv s.sess_params _ hB hM2 (by rw [hL]; exact hlen2) hS sched 0
      _ st hinv0 hrun
    rw [Nat.zero_add] at hinv
    obtain ⟨hc1, hc2⟩ := write_inv_count _ _ _ st hB hM1 hinv
    rw [hL] at hc1 hc2
    have hem := hinv.emitted
    have hemlen : (emitted_r2ts st.events).length = st.outstanding.length + sched.length := by
      rw [hem, List.length_map, List.length_range]
    have hbound := count_bound _ _ _ hB hinv.count_le
    rw [hL] at hbound
    refine ⟨by rw [hemlen]; exact hc1, ?_, ?_, ?_, hinv.not_closed, ?_⟩
    · rw [hemlen, hem]
      exact slices_r2t_sn _ _ hS _ (by omega)
    · rw [hemlen]
      exact hem
    · rw [hinv.out_eq]
      exact hinv.out_le
    · intro hnil
      obtain ⟨h1, h2⟩ := hc2 hnil
      have hr := hinv.received_eq
      rw [hL, h2] at hr
      refine ⟨?_, h1, hinv.done hnil, by omega⟩
      rw [hemlen, hnil]
      simp only [List.length_nil, Nat.zero_add]
      exact h1
  · obtain ⟨sched, st, hslen, hrun, hinv⟩ := run_answers_canonical s.sess_params _ hB hM1 hM2
      hR (by rw [hL]; exact hlen2) hS _ hinv0
      ((len + s.sess_params.max_burst_length - 1) / s.sess_params.max_burst_length)
      (by rw [hL])
    refine ⟨sched, st, hslen, hrun, ?_⟩
    have hc := (write_inv_count _ _ _ st hB hM1 hinv).1
    rw [hL] at hc
    apply List.eq_nil_of_length_eq_zero
    omega

/-- Claim C7 at the scenario of the claim, on a session that accepts data
segments of up to 4096 bytes, so that every burst of 8192 bytes takes at least
two Data-Out PDUs: an initiator that answers every R2T reaches the end with 8
answers. -/
theorem write_emits_ceil_r2ts_witness :
    ∃ (sched : List (Nat × List Nat)) (st : write_run),
      sched.length = (65536 + 8192 - 1) / 8192 ∧
      run_answers (start_write r2t_8192_2_session (write_cmd 1 65536)) sched = some st ∧
      st.outstanding = [] :=
  (write_emits_ceil_r2ts r2t_8192_2_session 1 65536
    (by decide) (by decide) (by decide) (by decide) (by decide) (by decide) (by decide)
    (by decide)).2

/-- The scenario of claim C7 evaluated: `len = 65536`, `B = 8192`, `M = 2`,
the R2Ts answered in a mixed order, each in several Data-Out PDUs of at most
4096 bytes. Eight R2Ts are emitted in all, with `r2t_sn` 0 to 7 and contiguous
offsets, and the command is handed on with 65536 bytes received and the
connection open. -/
theorem write_65536_8192_2_emits_8_r2ts :
    (run_answers (start_write r2t_8192_2_session (write_cmd 1 65536))
      [(0, [4096]), (1, [100, 200, 3796]), (0, [4096]), (0, [4096, 4096]), (1, [4000, 100]),
        (0, [4096]), (0, [1, 4095]), (0, [4096])]).map
      (fun st => ((emitted_r2ts st.events).map (fun h => (h.buffer_offset, h.data_length, h.r2t_sn)),
        restarted st.events, st.received, conn_closed st.events)) =
    some ([(0, 8192, 0), (8192, 8192, 1), (16384, 8192, 2), (24576, 8192, 3), (32768, 8192, 4),
           (40960, 8192, 5), (49152, 8192, 6), (57344, 8192, 7)], true, 65536, false) := by
  decide


/-! ## Initiators that do not follow the R2Ts -/

/-- Claim C9, evaluated at two failing inputs (`max_outstanding_r2t = 1`).
First: a 10-byte write is solicited by one R2T and the initiator sends two
Data-Out PDUs of one byte, both with the FINAL bit; the second decrement in
`data_out_start` takes `outstanding_r2t` from 0 to `2 ^ 32 - 1`. Second: a
100-byte write waits on `pending_list`, so no R2T has been sent, and the
initiator sends a one-byte Data-Out with the FINAL bit; `outstanding_r2t` wraps
in `data_out_start` and `send_r2t`, called from `data_out_end`, then emits two
R2Ts, one more than negotiated. -/
theorem outstanding_r2t_exceeds_max_after_extra_final :
    (start_write one_r2t_session (write_cmd 1 10)).req.outstanding_r2t = 1 ∧
    (rx_data_out (start_write one_r2t_session (write_cmd 1 10)) 1 true).req.outstanding_r2t = 0 ∧
    (rx_data_out (rx_data_out (start_write one_r2t_session (write_cmd 1 10)) 1 true)
      1 true).req.outstanding_r2t = 4294967295 ∧
    ¬ (rx_data_out (rx_data_out (start_write one_r2t_session (write_cmd 1 10)) 1 true)
      1 true).req.outstanding_r2t ≤ one_r2t_session.sess_params.max_outstanding_r2t ∧
    (data_out_start (start_write_pending one_r2t_session (write_cmd 1 100)).session
      (some (start_write_pending one_r2t_session (write_cmd 1 100)).req)
      (data_out_pdu (write_cmd 1 100) 1 true) 0).2.1.map (fun c => c.outstanding_r2t) =
      some 4294967295 ∧
    (emitted_r2ts (rx_data_out (start_write_pending one_r2t_session (write_cmd 1 100))
      1 true).events).length = 2 := by
  decide

/-- Claim C10, evaluated at a failing input: a write command with expected
data transfer length 50 that carries 100 bytes of immediate data (allowed by
`immediate_data` and `first_burst_length`) is accepted by `cmnd_rx_continue`
(result `0`, not preliminarily completed) with `r2t_len_to_receive` equal to
`2 ^ 32 - 50`, so that `r2t_len_to_receive + 0 + 100` is not 50; an R2T for
8192 bytes at offset 100 is sent at once. -/
theorem r2t_len_to_receive_wraps_on_long_immediate_data :
    (cmnd_rx_continue immediate_data_session (write_cmd_immediate 1 50 100)
      .write false 0).2.2.1 = 0 ∧
    prelim_compl_flags_set (cmnd_rx_continue immediate_data_session
      (write_cmd_immediate 1 50 100) .write false 0).2.1 = false ∧
    (cmnd_rx_continue immediate_data_session (write_cmd_immediate 1 50 100)
      .write false 0).2.1.r2t_len_to_receive = 4294967246 ∧
    (cmnd_rx_continue immediate_data_session (write_cmd_immediate 1 50 100)
      .write false 0).2.1.r2t_len_to_receive + 0 + 100 ≠ 50 ∧
    (emitted_r2ts (cmnd_rx_continue immediate_data_session (write_cmd_immediate 1 50 100)
      .write false 0).2.2.2).map (fun h => (h.buffer_offset, h.data_length)) = [(100, 8192)] := by
  decide

/-- Claim C11, evaluated at three failing inputs. First and second: a 100-byte
write with `max_burst_length = 10` has one (two) R2Ts of 10 bytes outstanding
and the initiator sends all 100 bytes in one Data-Out with the FINAL bit;
`data_out_end` finds `r2t_len_to_receive = 0` and calls `iscsi_restart_cmnd`
with `r2t_len_to_send = 90` (with `r2t_len_to_send = 80` and
`outstanding_r2t = 1`). Third: a write command without the FINAL bit whose 50
bytes all arrive as immediate data is restarted by `iscsi_cmnd_exec` with
`outstanding_r2t = 1`. The triples are (`r2t_len_to_receive`,
`r2t_len_to_send`, `outstanding_r2t`) at the call. -/
theorem restart_with_r2t_len_to_send_or_outstanding_r2t_left :
    (restarted_cmnds (rx_data_out (start_write one_r2t_session (write_cmd 1 100))
      100 true).events).map
      (fun c => (c.r2t_len_to_receive, c.r2t_len_to_send, c.outstanding_r2t)) = [(0, 90, 0)] ∧
    (restarted_cmnds (rx_data_out (start_write two_r2t_session (write_cmd 1 100))
      100 true).events).map
      (fun c => (c.r2t_len_to_receive, c.r2t_len_to_send, c.outstanding_r2t)) = [(0, 80, 1)] ∧
    (restarted_cmnds (start_write immediate_data_session
      (write_cmd_unsolicited 1 50 50)).events).map
      (fun c => (c.r2t_len_to_receive, c.r2t_len_to_send, c.outstanding_r2t)) = [(0, 0, 1)] ∧
    prelim_compl_flags_set (rx_data_out (start_write one_r2t_session (write_cmd 1 100))
      100 true).req = false := by
  decide

/-! ## Validation on the receive side and the data-wait hash -/

theorem insert_data_wait_hash_cases (session : iscsi_session) (cmnd : iscsi_cmnd)
    (hh : cmnd.hashed = false) :
    (cmnd.pdu.itt = ISCSI_RESERVED_TAG →
      cmnd_insert_data_wait_hash session cmnd =
        ((get_next_ttt session).2,
          { cmnd with target_task_tag := (get_next_ttt session).1 },
          -ISCSI_REASON_PROTOCOL_ERROR)) ∧
    (cmnd.pdu.itt ≠ ISCSI_RESERVED_TAG → cmnd_find_data_wait_hash session cmnd.pdu.itt ≠ none →
      cmnd_insert_data_wait_hash session cmnd =
        ((get_next_ttt session).2,
          { cmnd with target_task_tag := (get_next_ttt session).1 },
          -ISCSI_REASON_TASK_IN_PROGRESS)) ∧
    (cmnd.pdu.itt ≠ ISCSI_RESERVED_TAG → cmnd_find_data_wait_hash session cmnd.pdu.itt = none →
      cmnd_insert_data_wait_hash session cmnd =
        ({ (get_next_ttt session).2 with
            cmnd_data_wait_hash := session.cmnd_data_wait_hash ++
              [{ cmnd with target_task_tag := (get_next_ttt session).1, hashed := true }] },
          { cmnd with target_task_tag := (get_next_ttt session).1, hashed := true }, 0)) := by
  have hfind : cmnd_find_data_wait_hash (get_next_ttt session).2 cmnd.pdu.itt =
      cmnd_find_data_wait_hash session cmnd.pdu.itt := rfl
  refine ⟨?_, ?_, ?_⟩
  · intro hitt
    unfold cmnd_insert_data_wait_hash
    simp only [hh, Bool.false_eq_true, if_false, hitt, if_true]
  · intro hitt hf
    unfold cmnd_insert_data_wait_hash
    simp only [hh, Bool.false_eq_true, if_false, hitt, hfind]
    rcases hc : cmnd_find_data_wait_hash session cmnd.pdu.itt with _ | x
    · exact absurd hc hf
    · rfl
  · intro hitt hf
    unfold cmnd_insert_data_wait_hash
    simp only [hh, Bool.false_eq_true, if_false, hitt, hfind, hf]
    rfl

theorem insert_data_wait_hash_code (session : iscsi_session) (cmnd : iscsi_cmnd)
    (hh : cmnd.hashed = false) :
    ((cmnd_insert_data_wait_hash session cmnd).2.2 ≠ 0 ↔
      (cmnd.pdu.itt = ISCSI_RESERVED_TAG ∨
        cmnd_find_data_wait_hash session cmnd.pdu.itt ≠ none)) ∧
    ((cmnd_insert_data_wait_hash session cmnd).2.2 ≠ 0 →
      (cmnd_insert_data_wait_hash session cmnd).1.cmnd_data_wait_hash =
        session.cmnd_data_wait_hash ∧
      (cmnd_insert_data_wait_hash session cmnd).2.1.hashed = false) ∧
    ((cmnd_insert_data_wait_hash session cmnd).2.2 = 0 →
      (cmnd_insert_data_wait_hash session cmnd).1.cmnd_data_wait_hash =
        session.cmnd_data_wait_hash ++ [(cmnd_insert_data_wait_hash session cmnd).2.1] ∧
      (cmnd_insert_data_wait_hash session cmnd).2.1.hashed = true) := by
  obtain ⟨h1, h2, h3⟩ := insert_data_wait_hash_cases session cmnd hh
  by_cases hitt : cmnd.pdu.itt = ISCSI_RESERVED_TAG
  · rw [h1 hitt]
    simp [hitt, hh, ISCSI_REASON_PROTOCOL_ERROR, get_next_ttt]
  · by_cases hf : cmnd_find_data_wait_hash session cmnd.pdu.itt = none
    · rw [h3 hitt hf]
      simp [hitt, hf]
    · rw [h2 hitt hf]
      simp [hitt, hf, hh, ISCSI_REASON_TASK_IN_PROGRESS, get_next_ttt]

/-- Claim C12, as stated, fails in the direction from the closing of the
connection to the three conditions: a write command with the FINAL bit and no
immediate data whose ITT is the reserved tag, or equal to the ITT of a request
already in the data-wait hash, makes `cmnd_rx_continue` mark the connection
closed and return `-EINVAL` without inserting the command, although none of
(a), (b), (c) holds. -/
theorem cmnd_rx_continue_closes_on_failed_hash_insert :
    (cmnd_rx_continue one_r2t_session (write_cmd ISCSI_RESERVED_TAG 10) .write false 0).2.2 =
      (-EINVAL, [.mark_conn_closed]) ∧
    (cmnd_rx_continue one_r2t_session (write_cmd ISCSI_RESERVED_TAG 10)
      .write false 0).1.cmnd_data_wait_hash = one_r2t_session.cmnd_data_wait_hash ∧
    (cmnd_rx_continue (start_write one_r2t_session (write_cmd 1 10)).session (write_cmd 1 10)
      .write false 0).2.2 = (-EINVAL, [.mark_conn_closed]) ∧
    (cmnd_rx_continue (start_write one_r2t_session (write_cmd 1 10)).session (write_cmd 1 10)
      .write false 0).1.cmnd_data_wait_hash =
      (start_write one_r2t_session (write_cmd 1 10)).session.cmnd_data_wait_hash ∧
    prelim_compl_flags_set (write_cmd ISCSI_RESERVED_TAG 10) = false ∧
    has_final (write_cmd ISCSI_RESERVED_TAG 10).pdu = true ∧
    (write_cmd ISCSI_RESERVED_TAG 10).pdu.datasize = 0 ∧
    prelim_compl_flags_set (write_cmd 1 10) = false ∧
    has_final (write_cmd 1 10).pdu = true ∧
    (write_cmd 1 10).pdu.datasize = 0 := by
  decide

/-- The function `cmnd_insert_data_wait_hash` leaves the PDU and the
preliminary-completion flag of the command as they are. -/
theorem insert_data_wait_hash_keeps (session : iscsi_session) (cmnd : iscsi_cmnd) :
    (cmnd_insert_data_wait_hash session cmnd).2.1.pdu = cmnd.pdu ∧
    (cmnd_insert_data_wait_hash session cmnd).2.1.prelim_completed = cmnd.prelim_completed := by
  unfold cmnd_insert_data_wait_hash
  by_cases hh : cmnd.hashed = true
  · simp only [hh, if_true, and_self]
  · simp only [hh, Bool.false_eq_true, if_false]
    by_cases hitt : cmnd.pdu.itt = ISCSI_RESERVED_TAG
    · simp only [hitt, if_true, and_self]
    · simp only [hitt, if_false]
      cases cmnd_find_data_wait_hash (get_next_ttt session).2 cmnd.pdu.itt with
      | none => exact ⟨rfl, rfl⟩
      | some x => exact ⟨rfl, rfl⟩

theorem send_r2t_body_hashed (burst : Nat) (req : iscsi_cmnd) (offset : Nat) :
    (send_r2t_body burst req offset).1.hashed = req.hashed := rfl

theorem send_r2t_loop_hashed (m burst : Nat) (fuel : Nat) (req : iscsi_cmnd) (offset : Nat) :
    (send_r2t_loop m burst fuel req offset).1.hashed = req.hashed := by
  induction fuel generalizing req offset with
  | zero => rfl
  | succ fuel ih =>
    unfold send_r2t_loop
    dsimp only
    split_ifs
    · rw [ih]
      rfl
    · rfl

theorem send_r2t_hashed (sess : iscsi_sess_params) (req : iscsi_cmnd) :
    (send_r2t sess req).1.hashed = req.hashed := by
  unfold send_r2t
  split_ifs
  · rfl
  · exact send_r2t_loop_hashed _ _ _ _ _

theorem mem_prepare_recv_events (prepare_res : Int) :
    rx_event.mark_conn_closed ∈ prepare_recv_events prepare_res ↔ prepare_res ≠ 0 := by
  unfold prepare_recv_events
  split_ifs with h
  · simp [h]
  · simp [h]

/-- The end of `cmnd_rx_continue` for an accepted write command: the read
buffer for the immediate data is set up when there is any, and `send_r2t` runs
when that succeeded and something is left to solicit. The connection is marked
closed exactly when `cmnd_prepare_recv_pdu` was called and failed. -/
theorem rx_continue_tail_spec (sess : iscsi_session) (req4 : iscsi_cmnd) (prepare_res : Int)
    (r : iscsi_session × iscsi_cmnd × Int × List rx_event)
    (hr : r = (if req4.pdu.datasize ≠ 0 then
        (if prepare_res = 0 ∧ req4.r2t_len_to_send ≠ 0 then
          (sess, (send_r2t sess.sess_params req4).1, prepare_res,
            prepare_recv_events prepare_res ++ r2t_events (send_r2t sess.sess_params req4).2)
        else (sess, req4, prepare_res, prepare_recv_events prepare_res))
      else (sess, req4, 0, []))) :
    r.1 = sess ∧ r.2.1.hashed = req4.hashed ∧
    (rx_event.mark_conn_closed ∈ r.2.2.2 ↔ (req4.pdu.datasize ≠ 0 ∧ prepare_res ≠ 0)) ∧
    (req4.pdu.datasize ≠ 0 → r.2.2.1 = prepare_res) ∧
    (req4.pdu.datasize = 0 → r.2.2.1 = 0) := by
  by_cases hds : req4.pdu.datasize ≠ 0
  · rw [if_pos hds] at hr
    by_cases hx : prepare_res = 0 ∧ req4.r2t_len_to_send ≠ 0
    · rw [if_pos hx] at hr
      rw [hr]
      refine ⟨rfl, send_r2t_hashed _ _, ⟨fun h => ?_, fun h => absurd hx.1 h.2⟩, fun _ => rfl,
        fun h => absurd h hds⟩
      exfalso
      have h : rx_event.mark_conn_closed ∈
          prepare_recv_events prepare_res ++ r2t_events (send_r2t sess.sess_params req4).2 := h
      rw [hx.1, prepare_recv_events_zero, List.nil_append] at h
      exact not_closed_r2t_events _ h
    · rw [if_neg hx] at hr
      rw [hr]
      refine ⟨rfl, rfl, ⟨fun h => ⟨hds, (mem_prepare_recv_events prepare_res).mp h⟩,
        fun h => (mem_prepare_recv_events prepare_res).mpr h.2⟩, fun _ => rfl,
        fun h => absurd h hds⟩
  · rw [if_neg hds] at hr
    rw [hr]
    exact ⟨rfl, rfl, ⟨fun h => absurd h (List.not_mem_nil _), fun h => absurd h.1 hds⟩,
      fun h => absurd h hds, fun _ => rfl⟩

/-- The function `cmnd_rx_continue` on a write command that fails one of its
checks or cannot be inserted into the data-wait hash: `out_close`. -/
theorem cmnd_rx_continue_rejected (session : iscsi_session) (req : iscsi_cmnd)
    (dir : scst_data_direction) (prepare_res : Int)
    (hdir : dir.is_write = true) (hflags : prelim_compl_flags_set req = false)
    (hh : req.hashed = false)
    (hD : (session.sess_params.initial_r2t = true ∧ has_final req.pdu = false) ∨
        (session.sess_params.immediate_data = false ∧ req.pdu.datasize ≠ 0) ∨
        session.sess_params.first_burst_length < req.pdu.datasize ∨
        req.pdu.itt = ISCSI_RESERVED_TAG ∨
        cmnd_find_data_wait_hash session req.pdu.itt ≠ none) :
    (cmnd_rx_continue session req dir false prepare_res).2.2.1 = -EINVAL ∧
    (cmnd_rx_continue session req dir false prepare_res).2.2.2 = [.mark_conn_closed] ∧
    (cmnd_rx_continue session req dir false prepare_res).2.1.hashed = false ∧
    (cmnd_rx_continue session req dir false prepare_res).1.cmnd_data_wait_hash =
      session.cmnd_data_wait_hash := by
  have hins := insert_data_wait_hash_code session
    { req with r2t_len_to_receive := sub32 req.pdu.data_length req.pdu.datasize } hh
  simp only at hins
  obtain ⟨hi1, hi2, _⟩ := hins
  unfold cmnd_rx_continue
  rw [if_neg (by simp [hflags]), if_pos hdir]
  dsimp only
  by_cases ha : session.sess_params.initial_r2t = true ∧ has_final req.pdu = false
  · rw [if_pos (by simp [ha.1, ha.2])]
    exact ⟨rfl, rfl, hh, rfl⟩
  rw [if_neg (by
    intro hc
    apply ha
    simpa using hc)]
  by_cases hb : session.sess_params.immediate_data = false ∧ req.pdu.datasize ≠ 0
  · rw [if_pos (by simp [hb.1, hb.2])]
    exact ⟨rfl, rfl, hh, rfl⟩
  rw [if_neg (by
    intro hc
    apply hb
    simpa using hc)]
  by_cases hc : session.sess_params.first_burst_length < req.pdu.datasize
  · rw [if_pos hc]
    exact ⟨rfl, rfl, hh, rfl⟩
  rw [if_neg hc]
  have hd : req.pdu.itt = ISCSI_RESERVED_TAG ∨
      cmnd_find_data_wait_hash session req.pdu.itt ≠ none := by
    rcases hD with h | h | h | h
    · exact absurd h ha
    · exact absurd h hb
    · exact absurd h hc
    · exact h
  have hcode := hi1.mpr hd
  obtain ⟨hk1, hk2⟩ := hi2 hcode
  rw [if_pos hcode]
  exact ⟨rfl, rfl, hk2, hk1⟩

/-- The function `cmnd_rx_continue` on a write command that passes its checks:
the command is inserted into the data-wait hash (as the last entry) and the
function ends as described by `rx_continue_tail_spec`. -/
theorem cmnd_rx_continue_accepted (session : iscsi_session) (req : iscsi_cmnd)
    (dir : scst_data_direction) (prepare_res : Int)
    (hdir : dir.is_write = true) (hflags : prelim_compl_flags_set req = false)
    (hh : req.hashed = false)
    (hD : ¬ ((session.sess_params.initial_r2t = true ∧ has_final req.pdu = false) ∨
        (session.sess_params.immediate_data = false ∧ req.pdu.datasize ≠ 0) ∨
        session.sess_params.first_burst_length < req.pdu.datasize ∨
        req.pdu.itt = ISCSI_RESERVED_TAG ∨
        cmnd_find_data_wait_hash session req.pdu.itt ≠ none)) :
    ∃ (sess1 : iscsi_session) (req4 c : iscsi_cmnd),
      req4.pdu = req.pdu ∧ req4.hashed = true ∧ c.pdu = req.pdu ∧
      sess1.cmnd_data_wait_hash = session.cmnd_data_wait_hash ++ [c] ∧
      cmnd_rx_continue session req dir false prepare_res =
        (if req4.pdu.datasize ≠ 0 then
          (if prepare_res = 0 ∧ req4.r2t_len_to_send ≠ 0 then
            (sess1, (send_r2t sess1.sess_params req4).1, prepare_res,
              prepare_recv_events prepare_res ++
                r2t_events (send_r2t sess1.sess_params req4).2)
          else (sess1, req4, prepare_res, prepare_recv_events prepare_res))
        else (sess1, req4, 0, [])) := by
  have hins := insert_data_wait_hash_code session
    { req with r2t_len_to_receive := sub32 req.pdu.data_length req.pdu.datasize } hh
  have hkeep := (insert_data_wait_hash_keeps session
    { req with r2t_len_to_receive := sub32 req.pdu.data_length req.pdu.datasize }).1
  simp only at hins
  obtain ⟨hi1, _, hi3⟩ := hins
  have ha : ¬ (session.sess_params.initial_r2t = true ∧ has_final req.pdu = false) :=
    fun h => hD (Or.inl h)
  have hb : ¬ (session.sess_params.immediate_data = false ∧ req.pdu.datasize ≠ 0) :=
    fun h => hD (Or.inr (Or.inl h))
  have hc : ¬ session.sess_params.first_burst_length < req.pdu.datasize :=
    fun h => hD (Or.inr (Or.inr (Or.inl h)))
  have hcode : ¬ (cmnd_insert_data_wait_hash session
      { req with r2t_len_to_receive := sub32 req.pdu.data_length req.pdu.datasize }).2.2 ≠ 0 :=
    fun h => hD (Or.inr (Or.inr (Or.inr (hi1.mp h))))
  obtain ⟨hk1, hk2⟩ := hi3 (not_not.mp hcode)
  unfold cmnd_rx_continue
  rw [if_neg (by simp [hflags]), if_pos hdir]
  dsimp only
  rw [if_neg (by
    intro hx
    apply ha
    simpa using hx), if_neg (by
    intro hx
    apply hb
    simpa using hx), if_neg hc, if_neg hcode]
  generalize cmnd_insert_data_wait_hash session
    { req with r2t_len_to_receive := sub32 req.pdu.data_length req.pdu.datasize } = ins
    at hk1 hk2 hkeep
  have hkeep : ins.2.1.pdu = req.pdu := hkeep
  by_cases hfin : (!has_final req.pdu) = true
  · rw [if_pos hfin]
    exact ⟨ins.1,
      { ins.2.1 with
          outstanding_r2t := 1,
          r2t_len_to_send := ins.2.1.r2t_len_to_receive -
            min (sub32 session.sess_params.first_burst_length ins.2.1.pdu.datasize)
              ins.2.1.r2t_len_to_receive,
          on_write_timeout_list := true },
      ins.2.1, hkeep, hk2, hkeep, hk1, rfl⟩
  · rw [if_neg hfin]
    exact ⟨ins.1,
      { ins.2.1 with
          r2t_len_to_send := ins.2.1.r2t_len_to_receive,
          on_write_timeout_list := true },
      ins.2.1, hkeep, hk2, hkeep, hk1, rfl⟩

/-- Claim C12, amended. For a write command that is not preliminarily
completed (and not yet in the data-wait hash), `cmnd_rx_continue` marks the
connection closed and returns an error without inserting the command into the
data-wait hash exactly when (a) `initial_r2t` is negotiated and the command
lacks the FINAL bit, or (b) it carries immediate data although `immediate_data`
is not negotiated, or (c) the immediate data is longer than
`first_burst_length`, or (d) its ITT is the reserved tag or the ITT of a
request already in the data-wait hash; the error is then `-EINVAL`, the only
event is `mark_conn_closed` and the command is not hashed. In every other case
the command is inserted into the data-wait hash, and the connection is marked
closed exactly when the command carries immediate data and
`cmnd_prepare_recv_pdu` fails for it; the result is then what
`cmnd_prepare_recv_pdu` returned. -/
theorem cmnd_rx_continue_closes_iff (session : iscsi_session) (req : iscsi_cmnd)
    (dir : scst_data_direction) (prepare_res : Int)
    (hdir : dir.is_write = true) (hflags : prelim_compl_flags_set req = false)
    (hh : req.hashed = false) :
    ((rx_event.mark_conn_closed ∈ (cmnd_rx_continue session req dir false prepare_res).2.2.2 ∧
        (cmnd_rx_continue session req dir false prepare_res).2.2.1 ≠ 0 ∧
        (cmnd_rx_continue session req dir false prepare_res).1.cmnd_data_wait_hash =
          session.cmnd_data_wait_hash) ↔
      ((session.sess_params.initial_r2t = true ∧ has_final req.pdu = false) ∨
        (session.sess_params.immediate_data = false ∧ req.pdu.datasize ≠ 0) ∨
        session.sess_params.first_burst_length < req.pdu.datasize ∨
        req.pdu.itt = ISCSI_RESERVED_TAG ∨
        cmnd_find_data_wait_hash session req.pdu.itt ≠ none)) ∧
    (((session.sess_params.initial_r2t = true ∧ has_final req.pdu = false) ∨
        (session.sess_params.immediate_data = false ∧ req.pdu.datasize ≠ 0) ∨
        session.sess_params.first_burst_length < req.pdu.datasize ∨
        req.pdu.itt = ISCSI_RESERVED_TAG ∨
        cmnd_find_data_wait_hash session req.pdu.itt ≠ none) →
      (cmnd_rx_continue session req dir false prepare_res).2.2.1 = -EINVAL ∧
      (cmnd_rx_continue session req dir false prepare_res).2.2.2 = [.mark_conn_closed] ∧
      (cmnd_rx_continue session req dir false prepare_res).2.1.hashed = false ∧
      (cmnd_rx_continue session req dir false prepare_res).1.cmnd_data_wait_hash =
        session.cmnd_data_wait_hash) ∧
    (¬ ((session.sess_params.initial_r2t = true ∧ has_final req.pdu = false) ∨
        (session.sess_params.immediate_data = false ∧ req.pdu.datasize ≠ 0) ∨
        session.sess_params.first_burst_length < req.pdu.datasize ∨
        req.pdu.itt = ISCSI_RESERVED_TAG ∨
        cmnd_find_data_wait_hash session req.pdu.itt ≠ none) →
      (rx_event.mark_conn_closed ∈
          (cmnd_rx_continue session req dir false prepare_res).2.2.2 ↔
        (req.pdu.datasize ≠ 0 ∧ prepare_res ≠ 0)) ∧
      (req.pdu.datasize ≠ 0 →
        (cmnd_rx_continue session req dir false prepare_res).2.2.1 = prepare_res) ∧
      (req.pdu.datasize = 0 →
        (cmnd_rx_continue session req dir false prepare_res).2.2.1 = 0) ∧
      (cmnd_rx_continue session req dir false prepare_res).2.1.hashed = true ∧
      (cmnd_rx_continue session req dir false prepare_res).1.cmnd_data_wait_hash ≠
        session.cmnd_data_wait_hash ∧
      ∃ c : iscsi_cmnd, c.pdu = req.pdu ∧
        (cmnd_rx_continue session req dir false prepare_res).1.cmnd_data_wait_hash =
          session.cmnd_data_wait_hash ++ [c]) := by
  by_cases hD : (session.sess_params.initial_r2t = true ∧ has_final req.pdu = false) ∨
      (session.sess_params.immediate_data = false ∧ req.pdu.datasize ≠ 0) ∨
      session.sess_params.first_burst_length < req.pdu.datasize ∨
      req.pdu.itt = ISCSI_RESERVED_TAG ∨
      cmnd_find_data_wait_hash session req.pdu.itt ≠ none
  · obtain ⟨h1, h2, h3, h4⟩ :=
      cmnd_rx_continue_rejected session req dir prepare_res hdir hflags hh hD
    refine ⟨⟨fun _ => hD, fun _ => ⟨?_, ?_, h4⟩⟩, fun _ => ⟨h1, h2, h3, h4⟩,
      fun hn => absurd hD hn⟩
    · rw [h2]
      exact List.mem_singleton_self _
    · rw [h1]
      decide
  · obtain ⟨sess1, req4, c, hp4, hh4, hpc, hhash, heq⟩ :=
      cmnd_rx_continue_accepted session req dir prepare_res hdir hflags hh hD
    obtain ⟨t1, t2, t3, t4, t5⟩ := rx_continue_tail_spec sess1 req4 prepare_res _ heq
    rw [hp4] at t3 t4 t5
    have hne : (cmnd_rx_continue session req dir false prepare_res).1.cmnd_data_wait_hash ≠
        session.cmnd_data_wait_hash := by
      rw [t1, hhash]
      intro h
      have := congrArg List.length h
      simp at this
    refine ⟨⟨fun h => absurd h.2.2 hne, fun h => absurd h hD⟩, fun h => absurd h hD,
      fun _ => ⟨t3, t4, t5, ?_, hne, c, hpc, ?_⟩⟩
    · rw [t2]
      exact hh4
    · rw [t1]
      exact hhash

/-- Claim C12 (amended) at concrete inputs: a write command without the FINAL
bit on a session with `initial_r2t` closes the connection without being
inserted; a write command with 100 bytes of immediate data for which
`cmnd_prepare_recv_pdu` fails closes the connection after it has been
inserted. -/
theorem cmnd_rx_continue_closes_iff_witness :
    (rx_event.mark_conn_closed ∈
        (cmnd_rx_continue one_r2t_session (write_cmd_unsolicited 1 10 0) .write false 0).2.2.2 ∧
      (cmnd_rx_continue one_r2t_session (write_cmd_unsolicited 1 10 0) .write false 0).2.2.1 ≠
        0 ∧
      (cmnd_rx_continue one_r2t_session (write_cmd_unsolicited 1 10 0)
        .write false 0).1.cmnd_data_wait_hash = one_r2t_session.cmnd_data_wait_hash) ∧
    rx_event.mark_conn_closed ∈
      (cmnd_rx_continue immediate_data_session (write_cmd_immediate 1 200 100) .write false
        (-EINVAL)).2.2.2 ∧
    (cmnd_rx_continue immediate_data_session (write_cmd_immediate 1 200 100) .write false
        (-EINVAL)).2.1.hashed = true :=
  ⟨(cmnd_rx_continue_closes_iff one_r2t_session (write_cmd_unsolicited 1 10 0) .write 0
      (by decide) (by decide) (by decide)).1.mpr (Or.inl ⟨by decide, by decide⟩),
    ((cmnd_rx_continue_closes_iff immediate_data_session (write_cmd_immediate 1 200 100) .write
      (-EINVAL) (by decide) (by decide) (by decide)).2.2 (by decide)).1.mpr
        ⟨by decide, by decide⟩,
    ((cmnd_rx_continue_closes_iff immediate_data_session (write_cmd_immediate 1 200 100) .write
      (-EINVAL) (by decide) (by decide) (by decide)).2.2 (by decide)).2.2.2.1⟩

theorem find_data_wait_hash_eq_none (session : iscsi_session) (itt : Nat) :
    cmnd_find_data_wait_hash session itt = none ↔
      ∀ c ∈ session.cmnd_data_wait_hash, c.pdu.itt ≠ itt := by
  unfold cmnd_find_data_wait_hash
  simp [List.find?_eq_none]

/-- Claim C14. For a command that is not yet hashed, `cmnd_insert_data_wait_hash`
returns `-ISCSI_REASON_PROTOCOL_ERROR` when the ITT is the reserved tag and
`-ISCSI_REASON_TASK_IN_PROGRESS` when (the ITT not being reserved) the hash
holds an entry with the same ITT, in both cases with the hash unchanged and the
command not hashed; otherwise it returns `0`, the command is marked hashed and
appended to the hash, where a lookup of its ITT finds it. -/
theorem insert_data_wait_hash_results (session : iscsi_session) (cmnd : iscsi_cmnd)
    (hh : cmnd.hashed = false) :
    (cmnd.pdu.itt = ISCSI_RESERVED_TAG →
      (cmnd_insert_data_wait_hash session cmnd).2.2 = -ISCSI_REASON_PROTOCOL_ERROR ∧
      (cmnd_insert_data_wait_hash session cmnd).1.cmnd_data_wait_hash =
        session.cmnd_data_wait_hash ∧
      (cmnd_insert_data_wait_hash session cmnd).2.1.hashed = false) ∧
    (cmnd.pdu.itt ≠ ISCSI_RESERVED_TAG →
      (∃ c ∈ session.cmnd_data_wait_hash, c.pdu.itt = cmnd.pdu.itt) →
      (cmnd_insert_data_wait_hash session cmnd).2.2 = -ISCSI_REASON_TASK_IN_PROGRESS ∧
      (cmnd_insert_data_wait_hash session cmnd).1.cmnd_data_wait_hash =
        session.cmnd_data_wait_hash ∧
      (cmnd_insert_data_wait_hash session cmnd).2.1.hashed = false) ∧
    (cmnd.pdu.itt ≠ ISCSI_RESERVED_TAG →
      (∀ c ∈ session.cmnd_data_wait_hash, c.pdu.itt ≠ cmnd.pdu.itt) →
      (cmnd_insert_data_wait_hash session cmnd).2.2 = 0 ∧
      (cmnd_insert_data_wait_hash session cmnd).1.cmnd_data_wait_hash =
        session.cmnd_data_wait_hash ++ [(cmnd_insert_data_wait_hash session cmnd).2.1] ∧
      (cmnd_insert_data_wait_hash session cmnd).2.1.hashed = true ∧
      (cmnd_insert_data_wait_hash session cmnd).2.1.pdu = cmnd.pdu ∧
      cmnd_find_data_wait_hash (cmnd_insert_data_wait_hash session cmnd).1 cmnd.pdu.itt =
        some (cmnd_insert_data_wait_hash session cmnd).2.1) := by
  obtain ⟨h1, h2, h3⟩ := insert_data_wait_hash_cases session cmnd hh
  refine ⟨?_, ?_, ?_⟩
  · intro hitt
    rw [h1 hitt]
    exact ⟨rfl, rfl, hh⟩
  · intro hitt hex
    have hf : cmnd_find_data_wait_hash session cmnd.pdu.itt ≠ none := by
      rw [ne_eq, find_data_wait_hash_eq_none]
      intro hall
      obtain ⟨c, hc, hci⟩ := hex
      exact hall c hc hci
    rw [h2 hitt hf]
    exact ⟨rfl, rfl, hh⟩
  · intro hitt hall
    have hf := (find_data_wait_hash_eq_none session cmnd.pdu.itt).mpr hall
    rw [h3 hitt hf]
    refine ⟨rfl, rfl, rfl, rfl, ?_⟩
    unfold cmnd_find_data_wait_hash at hf ⊢
    simp only [List.find?_append, hf, Option.none_or]
    simp

theorem insert_data_wait_hash_results_witness :
    (cmnd_insert_data_wait_hash one_r2t_session (write_cmd ISCSI_RESERVED_TAG 10)).2.2 =
        -ISCSI_REASON_PROTOCOL_ERROR ∧
      (cmnd_insert_data_wait_hash one_r2t_session
        (write_cmd ISCSI_RESERVED_TAG 10)).1.cmnd_data_wait_hash =
        one_r2t_session.cmnd_data_wait_hash ∧
      (cmnd_insert_data_wait_hash one_r2t_session
        (write_cmd ISCSI_RESERVED_TAG 10)).2.1.hashed = false :=
  (insert_data_wait_hash_results one_r2t_session (write_cmd ISCSI_RESERVED_TAG 10)
    (by decide)).1 (by decide)

/-! ## The data-wait hash: `hashed` and lookup -/

theorem find_eq_some_iff_mem (f : Nat → Nat) (a : Nat) :
    ∀ l : List Nat, l.Pairwise (fun x y => f x ≠ f y) →
      (l.find? (fun x => decide (f x = f a)) = some a ↔ a ∈ l) := by
  intro l
  induction l with
  | nil => intro _; simp
  | cons x t ih =>
    intro hp
    rw [List.pairwise_cons] at hp
    by_cases hxa : x = a
    · subst hxa
      simp
    · by_cases hf : f x = f a
      · have hnot : a ∉ t := fun hmem => hp.1 a hmem hf
        simp [List.find?_cons, hf, hxa, hnot, Ne.symm hxa]
      · simp [List.find?_cons, hf, ih hp.2, Ne.symm hxa]

theorem wait_hash_inv_found (w : wait_hash) (hinv : wait_hash_inv w) (a : Nat) :
    (w.cmnds a).hashed = true ↔ w.cmnd_find_data_wait_hash (w.cmnds a).pdu.itt = some a := by
  rw [hinv.hashed_iff]
  unfold wait_hash.cmnd_find_data_wait_hash
  exact (find_eq_some_iff_mem (fun x => (w.cmnds x).pdu.itt) a w.entries hinv.distinct).symm

theorem update_cmnd_itt (f : Nat → iscsi_cmnd) (a : Nat) (c : iscsi_cmnd)
    (hc : c.pdu = (f a).pdu) (b : Nat) :
    ((Function.update f a c) b).pdu.itt = (f b).pdu.itt := by
  by_cases hb : b = a
  · subst hb
    simp [hc]
  · simp [Function.update_noteq hb]

theorem update_cmnd_hashed (f : Nat → iscsi_cmnd) (a : Nat) (c : iscsi_cmnd) (b : Nat) :
    ((Function.update f a c) b).hashed = if b = a then c.hashed else (f b).hashed := by
  by_cases hb : b = a
  · subst hb
    simp
  · simp [Function.update_noteq hb, hb]

theorem wait_hash_inv_of_same (w w1 : wait_hash) (hinv : wait_hash_inv w)
    (he : w1.entries = w.entries)
    (hi : ∀ b, (w1.cmnds b).pdu.itt = (w.cmnds b).pdu.itt)
    (hh : ∀ b, (w1.cmnds b).hashed = (w.cmnds b).hashed) : wait_hash_inv w1 := by
  refine ⟨?_, ?_⟩
  · intro b
    rw [hh b, he]
    exact hinv.hashed_iff b
  · rw [he]
    simp only [hi]
    exact hinv.distinct

theorem wait_hash_inv_append (w w2 : wait_hash) (a : Nat) (hinv : wait_hash_inv w)
    (hna : (w.cmnds a).hashed = false)
    (hfree : ∀ e ∈ w.entries, (w.cmnds e).pdu.itt ≠ (w.cmnds a).pdu.itt)
    (he : w2.entries = w.entries ++ [a])
    (hi : ∀ b, (w2.cmnds b).pdu.itt = (w.cmnds b).pdu.itt)
    (hh : ∀ b, (w2.cmnds b).hashed = if b = a then true else (w.cmnds b).hashed) :
    wait_hash_inv w2 := by
  refine ⟨?_, ?_⟩
  · intro b
    rw [hh b, he, List.mem_append, List.mem_singleton]
    by_cases hb : b = a
    · simp [hb]
    · simp [hb, hinv.hashed_iff b]
  · rw [he, List.pairwise_append]
    simp only [hi]
    refine ⟨hinv.distinct, List.pairwise_singleton _ _, ?_⟩
    intro x hx y hy
    rw [List.mem_singleton] at hy
    subst hy
    exact hfree x hx

theorem wait_hash_inv_erase (w w2 : wait_hash) (a : Nat) (hinv : wait_hash_inv w)
    (he : w2.entries = w.entries.erase a)
    (hi : ∀ b, (w2.cmnds b).pdu.itt = (w.cmnds b).pdu.itt)
    (hh : ∀ b, (w2.cmnds b).hashed = if b = a then false else (w.cmnds b).hashed) :
    wait_hash_inv w2 := by
  have hnodup : w.entries.Nodup := by
    refine List.Pairwise.imp ?_ hinv.distinct
    intro x y hxy hEq
    exact hxy (by rw [hEq])
  refine ⟨?_, ?_⟩
  · intro b
    rw [hh b, he]
    by_cases hb : b = a
    · subst hb
      simp [hnodup.mem_erase_iff]
    · simp [hb, hnodup.mem_erase_iff, hinv.hashed_iff b]
  · rw [he]
    simp only [hi]
    exact hinv.distinct.sublist (List.erase_sublist a w.entries)

theorem wait_hash_insert_inv (w : wait_hash) (a : Nat) (hinv : wait_hash_inv w) :
    wait_hash_inv (w.cmnd_insert_data_wait_hash a).1 := by
  unfold wait_hash.cmnd_insert_data_wait_hash
  by_cases hh : (w.cmnds a).hashed = true
  · simp only [hh, if_true]
    exact hinv
  · have hh1 : (w.cmnds a).hashed = false := by simpa using hh
    rw [if_neg hh]
    dsimp only
    have hkeep : wait_hash_inv { w.get_next_ttt.2 with
        cmnds := Function.update w.cmnds a
          { w.cmnds a with target_task_tag := w.get_next_ttt.1 } } := by
      refine wait_hash_inv_of_same w _ hinv ?_ ?_ ?_
      · rfl
      · intro b
        exact update_cmnd_itt _ _ _ (by rfl) b
      · intro b
        dsimp only
        rw [update_cmnd_hashed]
        by_cases hb : b = a
        · subst hb
          simp
        · simp [hb]
    split_ifs with hres
    · exact hkeep
    · split
      · rename_i hfind
        refine wait_hash_inv_append w _ a hinv hh1 ?_ ?_ ?_ ?_
        · intro e he
          unfold wait_hash.cmnd_find_data_wait_hash at hfind
          rw [List.find?_eq_none] at hfind
          have := hfind e he
          simp only [decide_eq_true_eq] at this
          rw [update_cmnd_itt _ _ _ (by rfl) e] at this
          exact this
        · rfl
        · intro b
          rw [update_cmnd_itt _ _ _ (by simp)]
          exact update_cmnd_itt _ _ _ (by rfl) b
        · intro b
          dsimp only
          rw [update_cmnd_hashed]
          by_cases hb : b = a
          · simp [hb]
          · simp only [hb, if_false]
            rw [update_cmnd_hashed]
            simp [hb]
      · exact hkeep

theorem wait_hash_remove_inv (w : wait_hash) (a : Nat) (hinv : wait_hash_inv w) :
    wait_hash_inv (w.cmnd_remove_data_wait_hash a) := by
  unfold wait_hash.cmnd_remove_data_wait_hash
  split
  · split_ifs with htmp
    · refine wait_hash_inv_erase w _ a hinv ?_ ?_ ?_
      · rfl
      · intro b
        exact update_cmnd_itt _ _ _ (by rfl) b
      · intro b
        dsimp only
        rw [update_cmnd_hashed]
    · exact hinv
  · exact hinv

theorem wait_hash_run_inv (ops : List wait_hash_op) :
    ∀ w : wait_hash, wait_hash_inv w → wait_hash_inv (w.run ops) := by
  induction ops with
  | nil => intro w h; exact h
  | cons op rest ih =>
    intro w h
    cases op with
    | insert a => exact ih _ (wait_hash_insert_inv w a h)
    | remove a => exact ih _ (wait_hash_remove_inv w a h)

/-- Claim C15. From an empty data-wait hash and commands none of which is
marked `hashed`, after every sequence of `cmnd_insert_data_wait_hash` and
`cmnd_remove_data_wait_hash` calls a command has `hashed` set exactly when the
lookup of its ITT returns this very command (its address), and no two entries
of the hash have the same ITT. -/
theorem wait_hash_hashed_iff_found (w0 : wait_hash) (ops : List wait_hash_op)
    (hempty : w0.entries = []) (hzero : ∀ a, (w0.cmnds a).hashed = false) :
    (∀ a, ((w0.run ops).cmnds a).hashed = true ↔
      (w0.run ops).cmnd_find_data_wait_hash ((w0.run ops).cmnds a).pdu.itt = some a) ∧
    (w0.run ops).entries.Pairwise
      (fun a b => ((w0.run ops).cmnds a).pdu.itt ≠ ((w0.run ops).cmnds b).pdu.itt) := by
  have h0 : wait_hash_inv w0 := by
    refine ⟨?_, ?_⟩
    · intro a
      rw [hzero a, hempty]
      simp
    · rw [hempty]
      exact List.Pairwise.nil
  have hinv := wait_hash_run_inv ops w0 h0
  exact ⟨fun a => wait_hash_inv_found _ hinv a, hinv.distinct⟩

theorem wait_hash_hashed_iff_found_witness :
    (three_cmnds.run [.insert 0, .insert 1, .insert 2, .remove 1, .remove 0]).entries.Pairwise
      (fun a b =>
        ((three_cmnds.run [.insert 0, .insert 1, .insert 2, .remove 1, .remove 0]).cmnds
          a).pdu.itt ≠
        ((three_cmnds.run [.insert 0, .insert 1, .insert 2, .remove 1, .remove 0]).cmnds
          b).pdu.itt) :=
  (wait_hash_hashed_iff_found three_cmnds
    [.insert 0, .insert 1, .insert 2, .remove 1, .remove 0] rfl
    (fun a => by unfold three_cmnds; simp only; split_ifs <;> rfl)).2

/-- Two commands with ITT 5 and one with ITT 9: the second insertion with ITT 5
fails with `-ISCSI_REASON_TASK_IN_PROGRESS`, the removal of the command that is
not in the hash changes nothing, and after the removal of the first command
only the command with ITT 9 is left. -/
theorem wait_hash_three_cmnds :
    ((three_cmnds.cmnd_insert_data_wait_hash 0).1.cmnd_insert_data_wait_hash 1).2 =
      -ISCSI_REASON_TASK_IN_PROGRESS ∧
    (three_cmnds.run [.insert 0, .insert 1, .insert 2]).entries = [0, 2] ∧
    (three_cmnds.run [.insert 0, .insert 1, .insert 2, .remove 1]).entries = [0, 2] ∧
    (three_cmnds.run [.insert 0, .insert 1, .insert 2, .remove 1, .remove 0]).entries = [2] ∧
    ((three_cmnds.run [.insert 0, .insert 1, .insert 2, .remove 1, .remove 0]).cmnds
      0).hashed = false := by
  decide

/-! ## Data-In chains -/

theorem pred_div_of_le (size L : Nat) (hL : 0 < L) (h : size ≤ L) : (size - 1) / L = 0 := by
  apply Nat.div_eq_of_lt
  omega

theorem pred_div_step (size L : Nat) (hL : 0 < L) (h : L < size) :
    (size - 1) / L = (size - L - 1) / L + 1 := by
  have h1 : size - 1 = size - L - 1 + L := by omega
  rw [h1, Nat.add_div_right _ hL]

theorem pred_div_mul_lt (size L : Nat) (h : 0 < size) :
    (size - 1) / L * L < size := by
  have := Nat.div_mul_le_self (size - 1) L
  omega

theorem send_data_rsp_loop_spec (req : iscsi_cmnd) (L status : Nat) (send_status : Bool)
    (hL : 0 < L) :
    ∀ (fuel size offset sn : Nat), (size - 1) / L < fuel → offset < 2 ^ 32 → sn < 2 ^ 32 →
      send_data_rsp_loop req L status send_status fuel size offset sn =
        some ((List.range ((size - 1) / L)).map
            (fun i => data_in_rsp req (add32 offset (i * L)) (add32 sn i) L) ++
          [send_data_rsp_last req status send_status (add32 offset ((size - 1) / L * L))
            (add32 sn ((size - 1) / L)) (size - (size - 1) / L * L)]) := by
  intro fuel
  induction fuel with
  | zero =>
    intro size offset sn hf _ _
    exact absurd hf (Nat.not_lt_zero _)
  | succ fuel ih =>
    intro size offset sn hf hoff hsn
    have ho0 : add32 offset 0 = offset := by unfold add32 U32_MOD; omega
    have hs0 : add32 sn 0 = sn := by unfold add32 U32_MOD; omega
    unfold send_data_rsp_loop
    by_cases hle : size ≤ L
    · rw [if_pos hle, pred_div_of_le size L hL hle]
      simp only [List.range_zero, List.map_nil, List.nil_append, zero_mul, Nat.sub_zero, ho0, hs0]
    · have hlt : L < size := by omega
      rw [if_neg hle, ih (size - L) (add32 offset L) (add32 sn 1)
        (by rw [pred_div_step size L hL hlt] at hf; omega) (add32_lt _ _) (add32_lt _ _)]
      rw [pred_div_step size L hL hlt]
      simp only [Option.map_some', List.range_succ_eq_map, List.map_cons, List.map_map,
        List.cons_append, zero_mul, ho0, hs0, add32_add32]
      have e1 : ∀ i, L + i * L = (i + 1) * L := by intro i; rw [Nat.add_mul, one_mul, Nat.add_comm]
      have e2 : ∀ i, 1 + i = i + 1 := fun i => Nat.add_comm 1 i
      have e3 : size - L - (size - L - 1) / L * L = size - ((size - L - 1) / L + 1) * L := by
        rw [Nat.add_mul, one_mul]
        omega
      simp only [e1, e2, e3, Function.comp_def, Nat.succ_eq_add_one]

theorem send_data_rsp_spec (sess : iscsi_sess_params) (req : iscsi_cmnd) (status : Nat)
    (send_status : Bool) (hL : 0 < sess.max_xmit_data_length)
    (hsize : min req.read_size req.bufflen < 2 ^ 32) :
    send_data_rsp sess req status send_status =
      some ((List.range ((min req.read_size req.bufflen - 1) / sess.max_xmit_data_length)).map
          (fun i => data_in_rsp req (i * sess.max_xmit_data_length) i
            sess.max_xmit_data_length) ++
        [send_data_rsp_last req status send_status
          ((min req.read_size req.bufflen - 1) / sess.max_xmit_data_length *
            sess.max_xmit_data_length)
          ((min req.read_size req.bufflen - 1) / sess.max_xmit_data_length)
          (min req.read_size req.bufflen -
            (min req.read_size req.bufflen - 1) / sess.max_xmit_data_length *
              sess.max_xmit_data_length)]) := by
  unfold send_data_rsp
  generalize min req.read_size req.bufflen = size at *
  generalize sess.max_xmit_data_length = L at *
  have hdiv : (size - 1) / L ≤ size - 1 := Nat.div_le_self _ _
  have hmul : (size - 1) / L * L ≤ size - 1 := Nat.div_mul_le_self _ _
  rw [send_data_rsp_loop_spec req L status send_status hL (size + 1) size 0 0
    (by omega) (by omega) (by omega)]
  have hz : ∀ k, k ≤ size - 1 → add32 0 k = k := by
    intro k hk
    unfold add32 U32_MOD
    omega
  rw [hz _ hmul, hz _ hdiv]
  congr 2
  apply List.map_congr_left
  intro i hi
  rw [List.mem_range] at hi
  have hiL : i * L ≤ (size - 1) / L * L := Nat.mul_le_mul_right L (by omega)
  rw [hz (i * L) (by omega), hz i (by omega)]

theorem pred_div_of_pos_rem (K L r : Nat) (hr : 0 < r) (hrL : r ≤ L) :
    (K * L + r - 1) / L = K := by
  have hL : 0 < L := by omega
  have h1 : K * L + r - 1 = r - 1 + K * L := by omega
  rw [h1, Nat.add_mul_div_right _ _ hL, Nat.div_eq_of_lt (by omega), Nat.zero_add]

theorem send_data_rsp_last_flags (req : iscsi_cmnd) (status offset sn size : Nat)
    (hr : req.read_size < 2 ^ 32) (hb : req.bufflen < 2 ^ 32) :
    has_flag (send_data_rsp_last req status true offset sn size).flags ISCSI_FLG_FINAL = true ∧
    has_flag (send_data_rsp_last req status true offset sn size).flags ISCSI_FLG_STATUS = true ∧
    (send_data_rsp_last req status true offset sn size).cmd_status = status % 256 ∧
    (send_data_rsp_last req status true offset sn size).datasize = size ∧
    (has_flag (send_data_rsp_last req status true offset sn size).flags
        ISCSI_FLG_RESIDUAL_UNDERFLOW = true ↔ req.bufflen < req.read_size) ∧
    (has_flag (send_data_rsp_last req status true offset sn size).flags
        ISCSI_FLG_RESIDUAL_OVERFLOW = true ↔ req.read_size < req.bufflen) ∧
    (req.bufflen < req.read_size →
      (send_data_rsp_last req status true offset sn size).residual_count =
        req.read_size - req.bufflen) ∧
    (req.read_size < req.bufflen →
      (send_data_rsp_last req status true offset sn size).residual_count =
        req.bufflen - req.read_size) ∧
    (req.bufflen = req.read_size →
      (send_data_rsp_last req status true offset sn size).residual_count = 0) := by
  have hsub : ∀ a b : Nat, b ≤ a → a < 2 ^ 32 → sub32 a b = a - b := by
    intro a b hab ha
    unfold sub32 U32_MOD
    omega
  unfold send_data_rsp_last
  rcases Nat.lt_trichotomy req.bufflen req.read_size with h | h | h
  · have h2 : ¬ req.read_size < req.bufflen := by omega
    have h3 : req.bufflen ≠ req.read_size := by omega
    simp only [if_true, h, hsub _ _ (Nat.le_of_lt h) hr, data_in_rsp]
    simp [has_flag, ISCSI_FLG_FINAL, ISCSI_FLG_STATUS, ISCSI_FLG_RESIDUAL_UNDERFLOW,
      ISCSI_FLG_RESIDUAL_OVERFLOW, h2, h3]
    decide
  · have h1 : ¬ req.read_size < req.read_size := by omega
    simp only [if_true, h, h1, gt_iff_lt, if_false, data_in_rsp]
    simp [has_flag, ISCSI_FLG_FINAL, ISCSI_FLG_STATUS, ISCSI_FLG_RESIDUAL_UNDERFLOW,
      ISCSI_FLG_RESIDUAL_OVERFLOW]
    decide
  · have h1 : ¬ req.bufflen < req.read_size := by omega
    have h3 : req.bufflen ≠ req.read_size := by omega
    simp only [if_true, h1, h, gt_iff_lt, if_false, hsub _ _ (Nat.le_of_lt h) hb, data_in_rsp]
    simp [has_flag, ISCSI_FLG_FINAL, ISCSI_FLG_STATUS, ISCSI_FLG_RESIDUAL_UNDERFLOW,
      ISCSI_FLG_RESIDUAL_OVERFLOW, h3]
    decide

/-- Claim C16, as stated, fails when the transmitted size is a positive
multiple of `max_xmit_data_length`: for `L = 8192` and a read of
`16384 = 2 * 8192 + 0` bytes `send_data_rsp` emits two PDUs of 8192 bytes, the
second being the last one (with FINAL), and no PDU of length 0. -/
theorem send_data_rsp_no_empty_last_pdu :
    (send_data_rsp { max_xmit_data_length := 8192 } { read_cmd 1 16384 with bufflen := 16384 }
      0 true).map (fun l => l.map (fun p => (p.datasize, has_flag p.flags ISCSI_FLG_FINAL))) =
      some [(8192, false), (8192, true)] ∧
    min (read_cmd 1 16384).read_size 16384 = 2 * 8192 + 0 ∧
    (send_data_rsp { max_xmit_data_length := 8192 } { read_cmd 1 16384 with bufflen := 16384 }
      0 true).map (fun l => l.map (fun p => p.datasize)) ≠
      some (List.replicate 2 8192 ++ [0]) := by
  decide

/-- Claim C16, amended. For `L = max_xmit_data_length > 0` and a transmitted
size `min(read_size, bufflen) = K * L + r` with `0 ≤ r < L`: when `r > 0` or
`K = 0`, `send_data_rsp` returns and emits `K` PDUs of data length `L` followed
by a last PDU of data length `r`; when `r = 0` and `K ≥ 1` it emits `K - 1`
PDUs of data length `L` followed by a last PDU of data length `L`. The offsets
and DataSNs are `i * L` and `i`. When `bufflen = read_size` and the status is
piggybacked, the last PDU has `residual_count = 0` and no residual flag. -/
theorem send_data_rsp_chain (sess : iscsi_sess_params) (req : iscsi_cmnd) (status : Nat)
    (send_status : Bool) (K r : Nat) (hL : 0 < sess.max_xmit_data_length)
    (hsz : min req.read_size req.bufflen = K * sess.max_xmit_data_length + r)
    (hr : r < sess.max_xmit_data_length) (h32 : min req.read_size req.bufflen < 2 ^ 32) :
    ((0 < r ∨ K = 0) →
      send_data_rsp sess req status send_status =
        some ((List.range K).map
            (fun i => data_in_rsp req (i * sess.max_xmit_data_length) i
              sess.max_xmit_data_length) ++
          [send_data_rsp_last req status send_status (K * sess.max_xmit_data_length) K r])) ∧
    (r = 0 → 0 < K →
      send_data_rsp sess req status send_status =
        some ((List.range (K - 1)).map
            (fun i => data_in_rsp req (i * sess.max_xmit_data_length) i
              sess.max_xmit_data_length) ++
          [send_data_rsp_last req status send_status ((K - 1) * sess.max_xmit_data_length)
            (K - 1) sess.max_xmit_data_length])) ∧
    (req.bufflen = req.read_size → send_status = true →
      ∃ l p, send_data_rsp sess req status send_status = some l ∧ l.getLast? = some p ∧
        p.residual_count = 0 ∧
        has_flag p.flags ISCSI_FLG_RESIDUAL_UNDERFLOW = false ∧
        has_flag p.flags ISCSI_FLG_RESIDUAL_OVERFLOW = false) := by
  have hspec := send_data_rsp_spec sess req status send_status hL h32
  refine ⟨?_, ?_, ?_⟩
  · intro h
    rw [hspec, hsz]
    rcases h with h | h
    · rw [pred_div_of_pos_rem K _ r h (Nat.le_of_lt hr), Nat.add_sub_cancel_left]
    · subst h
      have hn : (0 * sess.max_xmit_data_length + r - 1) / sess.max_xmit_data_length = 0 := by
        apply Nat.div_eq_of_lt
        omega
      rw [hn]
      simp
  · intro h0 hK
    subst h0
    have hsz2 : K * sess.max_xmit_data_length + 0 =
        (K - 1) * sess.max_xmit_data_length + sess.max_xmit_data_length := by
      rw [Nat.add_zero, Nat.sub_mul, one_mul]
      have := Nat.le_mul_of_pos_left sess.max_xmit_data_length hK
      omega
    rw [hspec, hsz, hsz2, pred_div_of_pos_rem (K - 1) _ _ hL (Nat.le_refl _),
      Nat.add_sub_cancel_left]
  · intro hb hs
    subst hs
    have hmin : req.read_size < 2 ^ 32 := by
      rw [hb, Nat.min_self] at h32
      exact h32
    have hf := send_data_rsp_last_flags req status
      ((min req.read_size req.bufflen - 1) / sess.max_xmit_data_length *
        sess.max_xmit_data_length)
      ((min req.read_size req.bufflen - 1) / sess.max_xmit_data_length)
      (min req.read_size req.bufflen -
        (min req.read_size req.bufflen - 1) / sess.max_xmit_data_length *
          sess.max_xmit_data_length) hmin (by rw [hb]; exact hmin)
    refine ⟨_, _, hspec, List.getLast?_concat _, hf.2.2.2.2.2.2.2.2 hb, ?_, ?_⟩
    · exact Bool.eq_false_iff.mpr (fun hx => absurd (hf.2.2.2.2.1.mp hx) (by omega))
    · exact Bool.eq_false_iff.mpr (fun hx => absurd (hf.2.2.2.2.2.1.mp hx) (by omega))

theorem send_data_rsp_chain_witness :
    send_data_rsp { max_xmit_data_length := 8192 } { read_cmd 1 20000 with bufflen := 20000 }
        0 true =
      some ((List.range 2).map
          (fun i => data_in_rsp { read_cmd 1 20000 with bufflen := 20000 } (i * 8192) i 8192) ++
        [send_data_rsp_last { read_cmd 1 20000 with bufflen := 20000 } 0 true (2 * 8192) 2
          3616]) :=
  (send_data_rsp_chain { max_xmit_data_length := 8192 } { read_cmd 1 20000 with bufflen := 20000 }
    0 true 2 3616 (by decide) (by decide) (by decide) (by decide)).1 (Or.inl (by decide))

/-- Claim C18. For `max_xmit_data_length > 0` and a status `status` (a `u8`)
piggybacked, `send_data_rsp` returns a chain `front ++ [last]` in which no PDU
of `front` carries FINAL or STATUS, and `last` carries FINAL, STATUS and the
status, with RESIDUAL_UNDERFLOW and `residual_count = read_size - bufflen`
exactly when `bufflen < read_size`, RESIDUAL_OVERFLOW and
`residual_count = bufflen - read_size` exactly when `bufflen > read_size`, and
neither flag and `residual_count = 0` exactly when they are equal. -/
theorem send_data_rsp_status_and_residual (sess : iscsi_sess_params) (req : iscsi_cmnd)
    (status : Nat) (hL : 0 < sess.max_xmit_data_length) (hs : status < 256)
    (hr : req.read_size < 2 ^ 32) (hb : req.bufflen < 2 ^ 32) :
    ∃ front last, send_data_rsp sess req status true = some (front ++ [last]) ∧
      (∀ p ∈ front, has_flag p.flags ISCSI_FLG_FINAL = false ∧
        has_flag p.flags ISCSI_FLG_STATUS = false) ∧
      has_flag last.flags ISCSI_FLG_FINAL = true ∧
      has_flag last.flags ISCSI_FLG_STATUS = true ∧
      last.cmd_status = status ∧
      (has_flag last.flags ISCSI_FLG_RESIDUAL_UNDERFLOW = true ↔ req.bufflen < req.read_size) ∧
      (has_flag last.flags ISCSI_FLG_RESIDUAL_OVERFLOW = true ↔ req.read_size < req.bufflen) ∧
      (req.bufflen < req.read_size → last.residual_count = req.read_size - req.bufflen) ∧
      (req.read_size < req.bufflen → last.residual_count = req.bufflen - req.read_size) ∧
      ((has_flag last.flags ISCSI_FLG_RESIDUAL_UNDERFLOW = false ∧
          has_flag last.flags ISCSI_FLG_RESIDUAL_OVERFLOW = false ∧ last.residual_count = 0) ↔
        req.bufflen = req.read_size) := by
  have hspec := send_data_rsp_spec sess req status true hL
    (lt_of_le_of_lt (Nat.min_le_left _ _) hr)
  have hf := send_data_rsp_last_flags req status
      ((min req.read_size req.bufflen - 1) / sess.max_xmit_data_length *
        sess.max_xmit_data_length)
      ((min req.read_size req.bufflen - 1) / sess.max_xmit_data_length)
      (min req.read_size req.bufflen -
        (min req.read_size req.bufflen - 1) / sess.max_xmit_data_length *
          sess.max_xmit_data_length) hr hb
  obtain ⟨h1, h2, h3, _, h5, h6, h7, h8, h9⟩ := hf
  refine ⟨_, _, hspec, ?_, h1, h2, ?_, h5, h6, h7, h8, ?_⟩
  · intro p hp
    obtain ⟨i, _, hi⟩ := List.mem_map.mp hp
    rw [← hi]
    have hz : (data_in_rsp req (i * sess.max_xmit_data_length) i
        sess.max_xmit_data_length).flags = 0 := rfl
    rw [hz]
    exact ⟨by decide, by decide⟩
  · rw [h3]
    exact Nat.mod_eq_of_lt hs
  · constructor
    · rintro ⟨hu, ho, _⟩
      have hu2 : ¬ req.bufflen < req.read_size := fun hlt => by
        rw [h5.mpr hlt] at hu
        exact absurd hu (by decide)
      have ho2 : ¬ req.read_size < req.bufflen := fun hlt => by
        rw [h6.mpr hlt] at ho
        exact absurd ho (by decide)
      omega
    · intro he
      exact ⟨Bool.eq_false_iff.mpr (fun hx => absurd (h5.mp hx) (by omega)),
        Bool.eq_false_iff.mpr (fun hx => absurd (h6.mp hx) (by omega)), h9 he⟩

theorem send_data_rsp_status_and_residual_witness :
    ∃ front last, send_data_rsp { max_xmit_data_length := 8192 }
        { read_cmd 1 512 with bufflen := 500 } 0 true = some (front ++ [last]) ∧
      (∀ p ∈ front, has_flag p.flags ISCSI_FLG_FINAL = false ∧
        has_flag p.flags ISCSI_FLG_STATUS = false) ∧
      has_flag last.flags ISCSI_FLG_FINAL = true ∧
      has_flag last.flags ISCSI_FLG_STATUS = true ∧
      last.cmd_status = 0 ∧
      (has_flag last.flags ISCSI_FLG_RESIDUAL_UNDERFLOW = true ↔
        ({ read_cmd 1 512 with bufflen := 500 } : iscsi_cmnd).bufflen <
          ({ read_cmd 1 512 with bufflen := 500 } : iscsi_cmnd).read_size) ∧
      (has_flag last.flags ISCSI_FLG_RESIDUAL_OVERFLOW = true ↔
        ({ read_cmd 1 512 with bufflen := 500 } : iscsi_cmnd).read_size <
          ({ read_cmd 1 512 with bufflen := 500 } : iscsi_cmnd).bufflen) ∧
      (({ read_cmd 1 512 with bufflen := 500 } : iscsi_cmnd).bufflen <
          ({ read_cmd 1 512 with bufflen := 500 } : iscsi_cmnd).read_size →
        last.residual_count = ({ read_cmd 1 512 with bufflen := 500 } : iscsi_cmnd).read_size -
          ({ read_cmd 1 512 with bufflen := 500 } : iscsi_cmnd).bufflen) ∧
      (({ read_cmd 1 512 with bufflen := 500 } : iscsi_cmnd).read_size <
          ({ read_cmd 1 512 with bufflen := 500 } : iscsi_cmnd).bufflen →
        last.residual_count = ({ read_cmd 1 512 with bufflen := 500 } : iscsi_cmnd).bufflen -
          ({ read_cmd 1 512 with bufflen := 500 } : iscsi_cmnd).read_size) ∧
      ((has_flag last.flags ISCSI_FLG_RESIDUAL_UNDERFLOW = false ∧
          has_flag last.flags ISCSI_FLG_RESIDUAL_OVERFLOW = false ∧ last.residual_count = 0) ↔
        ({ read_cmd 1 512 with bufflen := 500 } : iscsi_cmnd).bufflen =
          ({ read_cmd 1 512 with bufflen := 500 } : iscsi_cmnd).read_size) :=
  send_data_rsp_status_and_residual { max_xmit_data_length := 8192 }
    { read_cmd 1 512 with bufflen := 500 } 0 (by decide) (by decide) (by decide) (by decide)

/-- The read of 512 bytes answered with 500 bytes and status GOOD piggybacked:
one Data-In PDU with FINAL, STATUS and RESIDUAL_UNDERFLOW (`0x83`) and
`residual_count = 12`. -/
theorem send_data_rsp_500_of_512 :
    (send_data_rsp { max_xmit_data_length := 8192 } { read_cmd 1 512 with bufflen := 500 }
      0 true).map (fun l => l.map (fun p => (p.datasize, p.flags, p.cmd_status,
        p.residual_count))) = some [(500, 0x83, 0, 12)] := by
  decide
/-! ## Residual counts in the SCSI Response -/

theorem to_s32_of_lt (b : Nat) (hb : b < 2 ^ 31) : to_s32 b = (b : Int) := by
  unfold to_s32 U32_MOD
  have h1 : b % 2 ^ 32 = b := Nat.mod_eq_of_lt (by omega)
  rw [h1, if_pos hb]

theorem of_int32_natCast (n : Nat) (hn : n < 2 ^ 32) : of_int32 (n : Int) = n := by
  unfold of_int32 U32_MOD
  have h : ((n : Int) % ((2 ^ 32 : Nat) : Int)) = (n : Int) := by
    apply Int.emod_eq_of_lt
    · omega
    · push_cast
      omega
  rw [h]
  simp

theorem resid_flags_in_range (a b underflow overflow : Nat) (ha : a < 2 ^ 31) (hb : b < 2 ^ 31) :
    resid_flags (wrap_int ((a : Int) - (b : Int))) underflow overflow =
      if b < a then some (underflow, a - b)
      else if a < b then some (overflow, b - a) else none := by
  rw [wrap_int_of_range _ (by omega) (by omega)]
  unfold resid_flags
  by_cases h1 : b < a
  · have hpos : (a : Int) - (b : Int) > 0 := by omega
    have hcast : (a : Int) - (b : Int) = ((a - b : Nat) : Int) := by omega
    rw [if_pos hpos, if_pos h1, hcast, of_int32_natCast _ (by omega)]
  · by_cases h2 : a < b
    · have hnpos : ¬ (a : Int) - (b : Int) > 0 := by omega
      have hneg : (a : Int) - (b : Int) < 0 := by omega
      have hcast : -((a : Int) - (b : Int)) = ((b - a : Nat) : Int) := by omega
      rw [if_neg hnpos, if_pos hneg, if_neg h1, if_pos h2, wrap_int_of_range _ (by omega) (by omega),
        hcast, of_int32_natCast _ (by omega)]
    · have hnpos : ¬ (a : Int) - (b : Int) > 0 := by omega
      have hnneg : ¬ (a : Int) - (b : Int) < 0 := by omega
      rw [if_neg hnpos, if_neg hnneg, if_neg h1, if_neg h2]

/-- Within the range of a C `int`, `iscsi_set_resid` on a unidirectional
command compares `read_size` with the response length (`bufflen`, or 0 when
`bufflen_set` is off). -/
theorem iscsi_set_resid_unidirectional (req : iscsi_cmnd) (in_bufflen : Nat) (rsp : iscsi_rsp)
    (bufflen_set : Bool)
    (huni : (has_flag req.pdu.flags ISCSI_CMD_READ && has_flag req.pdu.flags ISCSI_CMD_WRITE) =
      false)
    (hr : req.read_size < 2 ^ 31) (hb : req.bufflen < 2 ^ 31) :
    iscsi_set_resid req in_bufflen rsp bufflen_set =
      if (if bufflen_set then req.bufflen else 0) < req.read_size then
        { rsp with
            flags := rsp.flags ||| ISCSI_FLG_RESIDUAL_UNDERFLOW,
            residual_count := req.read_size - (if bufflen_set then req.bufflen else 0) }
      else if req.read_size < (if bufflen_set then req.bufflen else 0) then
        { rsp with
            flags := rsp.flags ||| ISCSI_FLG_RESIDUAL_OVERFLOW,
            residual_count := (if bufflen_set then req.bufflen else 0) - req.read_size }
      else rsp := by
  unfold iscsi_set_resid
  simp only [huni, Bool.false_eq_true, if_false]
  have hresp : (if bufflen_set = true then to_s32 req.bufflen else 0) =
      (((if bufflen_set = true then req.bufflen else 0 : Nat)) : Int) := by
    cases bufflen_set
    · simp
    · simp [to_s32_of_lt _ hb]
  have hlen : (if bufflen_set = true then req.bufflen else 0) < 2 ^ 31 := by
    cases bufflen_set
    · simp
    · simpa using hb
  rw [hresp, resid_flags_in_range _ _ _ _ hr hlen]
  split_ifs <;> rfl

/-- Within the range of a C `int`, `iscsi_set_resid` on a bidirectional command
compares `data_length` with the write buffer length for `residual_count` and
`read_size` with the response length for `bi_residual_count`. -/
theorem iscsi_set_resid_bidirectional (req : iscsi_cmnd) (in_bufflen : Nat) (rsp : iscsi_rsp)
    (hbidi : (has_flag req.pdu.flags ISCSI_CMD_READ && has_flag req.pdu.flags ISCSI_CMD_WRITE) =
      true)
    (hscst : req.has_scst_cmd = true)
    (hd : req.pdu.data_length < 2 ^ 31) (hi : in_bufflen < 2 ^ 31)
    (hr : req.read_size < 2 ^ 31) (hb : req.bufflen < 2 ^ 31) :
    (iscsi_set_resid req in_bufflen rsp true).residual_count =
      (if in_bufflen < req.pdu.data_length then req.pdu.data_length - in_bufflen
        else if req.pdu.data_length < in_bufflen then in_bufflen - req.pdu.data_length
        else rsp.residual_count) ∧
    (iscsi_set_resid req in_bufflen rsp true).bi_residual_count =
      (if req.bufflen < req.read_size then req.read_size - req.bufflen
        else if req.read_size < req.bufflen then req.bufflen - req.read_size
        else rsp.bi_residual_count) ∧
    (iscsi_set_resid req in_bufflen rsp true).flags =
      (rsp.flags |||
        (if in_bufflen < req.pdu.data_length then ISCSI_FLG_RESIDUAL_UNDERFLOW
          else if req.pdu.data_length < in_bufflen then ISCSI_FLG_RESIDUAL_OVERFLOW else 0)) |||
        (if req.bufflen < req.read_size then ISCSI_FLG_BIRESIDUAL_UNDERFLOW
          else if req.read_size < req.bufflen then ISCSI_FLG_BIRESIDUAL_OVERFLOW else 0) := by
  unfold iscsi_set_resid
  simp only [hbidi, if_true, hscst, to_s32_of_lt _ hi, to_s32_of_lt _ hb,
    resid_flags_in_range _ _ _ _ hd hi, resid_flags_in_range _ _ _ _ hr hb]
  split_ifs <;> simp

/-- Claim C19, evaluated at failing inputs. A unidirectional read with expected
length 3000000000 answered without data (`bufflen_set` off): the difference
`read_size - 0` is positive, yet `iscsi_set_resid` sets RESIDUAL_OVERFLOW and
`residual_count = 1294967296`, because the C `int` `resid` holds
`3000000000 - 2 ^ 32`. The same happens to both counts of a bidirectional
command. With 512 expected and 500 sent the flag is RESIDUAL_UNDERFLOW and the
count 12. -/
theorem iscsi_set_resid_wraps_above_int_max :
    (iscsi_set_resid (read_cmd 1 3000000000) 0 { flags := ISCSI_FLG_FINAL } false).flags =
      ISCSI_FLG_FINAL ||| ISCSI_FLG_RESIDUAL_OVERFLOW ∧
    (iscsi_set_resid (read_cmd 1 3000000000) 0 { flags := ISCSI_FLG_FINAL } false).residual_count =
      1294967296 ∧
    has_flag (iscsi_set_resid (read_cmd 1 3000000000) 0 { flags := ISCSI_FLG_FINAL } false).flags
      ISCSI_FLG_RESIDUAL_UNDERFLOW = false ∧
    (iscsi_set_resid (bidi_cmd 1 3000000000 3000000000) 0 { flags := ISCSI_FLG_FINAL }
      false).flags =
      (ISCSI_FLG_FINAL ||| ISCSI_FLG_RESIDUAL_OVERFLOW) ||| ISCSI_FLG_BIRESIDUAL_OVERFLOW ∧
    (iscsi_set_resid (bidi_cmd 1 3000000000 3000000000) 0 { flags := ISCSI_FLG_FINAL }
      false).residual_count = 1294967296 ∧
    (iscsi_set_resid (bidi_cmd 1 3000000000 3000000000) 0 { flags := ISCSI_FLG_FINAL }
      false).bi_residual_count = 1294967296 ∧
    (iscsi_set_resid { read_cmd 1 512 with bufflen := 500 } 0 { flags := ISCSI_FLG_FINAL }
      true).flags = ISCSI_FLG_FINAL ||| ISCSI_FLG_RESIDUAL_UNDERFLOW ∧
    (iscsi_set_resid { read_cmd 1 512 with bufflen := 500 } 0 { flags := ISCSI_FLG_FINAL }
      true).residual_count = 12 := by
  decide

/-! ## Status after a Data-In chain -/

/-- Claim C17, as stated, fails: for the read of 512 bytes answered with 500
bytes and status CHECK_CONDITION, `iscsi_xmit_response` queues one Data-In PDU
of 500 bytes without FINAL, STATUS or residual (flags 0) and then a SCSI
Response with FINAL and RESIDUAL_UNDERFLOW (`0x82`), status 2 and
`residual_count = 12`, whose data segment of 20 bytes holds the sense header
and the 18 bytes of sense. The tuples are (opcode, datasize, flags, status,
residual count). -/
theorem xmit_response_check_condition_status_after_data_in :
    (iscsi_xmit_response { max_xmit_data_length := 8192 } (read_cmd 1 512)
      { is_send_status := true, status := SAM_STAT_CHECK_CONDITION, sense := some 18,
        resp_data_len := 500 }).map
      (fun r => (queued_pdus r.2.2).map
        (fun p => (p.opcode, p.datasize, p.flags, p.cmd_status, p.residual_count))) =
      some [(ISCSI_OP_SCSI_DATA_IN, 500, 0, 0, 0), (ISCSI_OP_SCSI_RSP, 20, 0x82, 2, 12)] ∧
    (iscsi_xmit_response { max_xmit_data_length := 8192 } (read_cmd 1 512)
      { is_send_status := true, status := SAM_STAT_CHECK_CONDITION, sense := some 18,
        resp_data_len := 500 }).map
      (fun r => ((queued_pdus r.2.2).filter
        (fun p => decide (p.opcode = ISCSI_OP_SCSI_DATA_IN))).getLast?.map
          (fun p => (has_flag p.flags ISCSI_FLG_FINAL, has_flag p.flags ISCSI_FLG_STATUS,
            has_flag p.flags ISCSI_FLG_RESIDUAL_UNDERFLOW, p.residual_count))) =
      some (some (false, false, false, 0)) := by
  decide

/-- Claim C17, amended. For a unidirectional read whose response has a data
length `bufflen` that is not 0 and smaller than the expected size (itself below
`2 ^ 31`), with status CHECK_CONDITION to be sent, `iscsi_xmit_response` queues
the Data-In chain of `send_data_rsp(req, 0, 0)`, none of whose PDUs carries a
flag, a status or a residual count, and after it one SCSI Response with FINAL
and RESIDUAL_UNDERFLOW set, RESIDUAL_OVERFLOW clear, status CHECK_CONDITION and
`residual_count = expected size - bufflen`; its data segment is the sense
header and the sense bytes when the sense is valid, and empty otherwise. -/
theorem xmit_response_check_condition (sess : iscsi_sess_params) (req : iscsi_cmnd)
    (cmd : scst_cmd) (hL : 0 < sess.max_xmit_data_length)
    (hat : cmd.atomic = false) (hab : cmd.aborted = false) (hra : req.aborted = false)
    (hss : cmd.is_send_status = true) (hst : cmd.status = SAM_STAT_CHECK_CONDITION)
    (hlen : 0 < cmd.resp_data_len) (hlt : cmd.resp_data_len < req.read_size)
    (hrs : req.read_size < 2 ^ 31)
    (huni : (has_flag req.pdu.flags ISCSI_CMD_READ && has_flag req.pdu.flags ISCSI_CMD_WRITE) =
      false) :
    ∃ chain rsp,
      (iscsi_xmit_response sess req cmd).map (fun r => queued_pdus r.2.2) =
        some (chain ++ [rsp]) ∧
      send_data_rsp sess { req with bufflen := cmd.resp_data_len } 0 false = some chain ∧
      (∀ p ∈ chain, p.opcode = ISCSI_OP_SCSI_DATA_IN ∧ p.flags = 0 ∧ p.cmd_status = 0 ∧
        p.residual_count = 0) ∧
      rsp.opcode = ISCSI_OP_SCSI_RSP ∧
      has_flag rsp.flags ISCSI_FLG_FINAL = true ∧
      has_flag rsp.flags ISCSI_FLG_RESIDUAL_UNDERFLOW = true ∧
      has_flag rsp.flags ISCSI_FLG_RESIDUAL_OVERFLOW = false ∧
      rsp.cmd_status = SAM_STAT_CHECK_CONDITION ∧
      rsp.residual_count = req.read_size - cmd.resp_data_len ∧
      rsp.datasize =
        (match cmd.sense with
          | some sense_len => add32 sizeof_sense_hdr sense_len
          | Option.none => 0) := by
  have hspec := send_data_rsp_spec sess { req with bufflen := cmd.resp_data_len } 0 false hL
    (lt_of_le_of_lt (Nat.min_le_left _ _) (by show req.read_size < 2 ^ 32; omega))
  have hresid : ∀ rsp0 : iscsi_rsp,
      iscsi_set_resid { req with bufflen := cmd.resp_data_len } cmd.in_bufflen rsp0 true =
        { rsp0 with
            flags := rsp0.flags ||| ISCSI_FLG_RESIDUAL_UNDERFLOW,
            residual_count := req.read_size - cmd.resp_data_len } := by
    intro rsp0
    have h := iscsi_set_resid_unidirectional { req with bufflen := cmd.resp_data_len }
      cmd.in_bufflen rsp0 true huni hrs (by show cmd.resp_data_len < 2 ^ 31; omega)
    simp only [if_true] at h
    rw [if_pos (show cmd.resp_data_len < req.read_size from hlt)] at h
    exact h
  refine ⟨_, create_status_rsp { req with bufflen := cmd.resp_data_len } cmd.in_bufflen
    cmd.status cmd.sense true, ?_, hspec, ?_, ?_⟩
  · unfold iscsi_xmit_response
    have hne : cmd.resp_data_len ≠ 0 := by omega
    simp only [hat, hab, Bool.false_eq_true, if_false]
    rw [if_neg (by rw [hra]; decide)]
    simp only [hss, hst, hne, Bool.true_eq_false, ne_eq, not_false_eq_true, not_true_eq_false,
      and_false, false_and, if_false, if_true, hspec, Option.map_some', Option.some.injEq]
    simp [queued_pdus]
  · intro p hp
    rcases List.mem_append.mp hp with hp | hp
    · obtain ⟨i, _, hi⟩ := List.mem_map.mp hp
      rw [← hi]
      exact ⟨rfl, rfl, rfl, rfl⟩
    · rw [List.mem_singleton] at hp
      rw [hp]
      exact ⟨rfl, rfl, rfl, rfl⟩
  · unfold create_status_rsp
    dsimp only
    rw [hresid, hst]
    refine ⟨rfl, ?_, ?_, ?_, ?_, rfl, rfl⟩
    · show has_flag (ISCSI_FLG_FINAL ||| ISCSI_FLG_RESIDUAL_UNDERFLOW) ISCSI_FLG_FINAL = true
      decide
    · show has_flag (ISCSI_FLG_FINAL ||| ISCSI_FLG_RESIDUAL_UNDERFLOW)
        ISCSI_FLG_RESIDUAL_UNDERFLOW = true
      decide
    · show has_flag (ISCSI_FLG_FINAL ||| ISCSI_FLG_RESIDUAL_UNDERFLOW)
        ISCSI_FLG_RESIDUAL_OVERFLOW = false
      decide
    · show SAM_STAT_CHECK_CONDITION % 256 = SAM_STAT_CHECK_CONDITION
      decide

theorem xmit_response_check_condition_witness :
    ∃ chain rsp,
      (iscsi_xmit_response xmit_8192 (read_cmd 1 512) check_condition_500).map
          (fun r => queued_pdus r.2.2) = some (chain ++ [rsp]) ∧
      send_data_rsp xmit_8192 { read_cmd 1 512 with bufflen := check_condition_500.resp_data_len }
        0 false = some chain ∧
      (∀ p ∈ chain, p.opcode = ISCSI_OP_SCSI_DATA_IN ∧ p.flags = 0 ∧ p.cmd_status = 0 ∧
        p.residual_count = 0) ∧
      rsp.opcode = ISCSI_OP_SCSI_RSP ∧
      has_flag rsp.flags ISCSI_FLG_FINAL = true ∧
      has_flag rsp.flags ISCSI_FLG_RESIDUAL_UNDERFLOW = true ∧
      has_flag rsp.flags ISCSI_FLG_RESIDUAL_OVERFLOW = false ∧
      rsp.cmd_status = SAM_STAT_CHECK_CONDITION ∧
      rsp.residual_count = (read_cmd 1 512).read_size - check_condition_500.resp_data_len ∧
      rsp.datasize =
        (match check_condition_500.sense with
          | some sense_len => add32 sizeof_sense_hdr sense_len
          | Option.none => 0) :=
  xmit_response_check_condition xmit_8192 (read_cmd 1 512) check_condition_500 (by decide) rfl rfl
    rfl rfl rfl (by decide) (by decide) (by decide) (by decide)

/-! ## The read iovec for received data -/

/-- Claim C20, evaluated at two failing inputs (`PAGE_SHIFT = 12`,
`ISCSI_CONN_IOV_MAX = 256`). First: one page, `bufflen = 4096`, offset 0, size
100: the call succeeds with `read_iov[0]` covering the 100 bytes and
`read_size = 100`, but `msg_iovlen = 0`, so the first `msg_iovlen` entries
cover 0 bytes. Second: two pages, offset 100, size 5000: two entries of 3996
and 1004 bytes are written and `msg_iovlen = 1`, so the announced entries cover
3996 bytes. The tuples are (result, entries as (target, offset, length),
`msg_iovlen`, `read_size`, bytes in the first `msg_iovlen` entries). -/
theorem prepare_recv_pdu_msg_iovlen_one_short :
    (cmnd_prepare_recv_pdu 12 256 {} [{ offset := 0, length := 4096 }] 4096 0 100).map
      (fun r => (r.res, r.conn.read_iov.map (fun v => (v.target, v.base_offset, v.iov_len)),
        r.conn.msg_iovlen, r.conn.read_size, iov_bytes r.conn)) =
      some (0, [(iov_target.sg 0, 0, 100)], 0, 100, 0) ∧
    (cmnd_prepare_recv_pdu 12 256 {}
      [{ offset := 0, length := 4096 }, { offset := 0, length := 4096 }] 8192 100 5000).map
      (fun r => (r.res, r.conn.read_iov.map (fun v => (v.target, v.base_offset, v.iov_len)),
        r.conn.msg_iovlen, r.conn.read_size, iov_bytes r.conn)) =
      some (0, [(iov_target.sg 0, 100, 3996), (iov_target.sg 1, 0, 1004)], 1, 5000, 3996) :=
  ⟨by decide, by decide⟩

/-! ## Task management: ABORT TASK -/

/-- The command that `cmnd_find_itt_get` returns is on the list, carries the
ITT and is not being destroyed. -/
theorem cmnd_find_itt_get_some (cmnds : Nat → iscsi_cmnd) (cmd_list : List Nat) (itt a : Nat)
    (h : cmnd_find_itt_get cmnds cmd_list itt = some a) :
    a ∈ cmd_list ∧ (cmnds a).pdu.itt = itt ∧ (cmnds a).ref_cnt ≠ 0 := by
  unfold cmnd_find_itt_get at h
  have hm := List.mem_of_find?_eq_some h
  have hp := List.find?_some h
  simp [cmnd_get_check] at hp
  exact ⟨hm, hp.1, hp.2⟩

/-- The test `before(a, b) || a == b` of `cmnd_abort` and `task_set_abort`
fails exactly when `(s32)(a - b) > 0`. -/
theorem not_before_or_eq_iff (a b : Nat) (ha : a < 2 ^ 32) (hb : b < 2 ^ 32) :
    ¬ (before a b = true ∨ a = b) ↔ 0 < to_s32 (sub32 a b) := by
  rw [before_iff]
  unfold to_s32 sub32 U32_MOD
  norm_num at ha hb ⊢
  split_ifs with h <;> constructor <;> intro h1 <;> omega

/-- C21: when the Referenced Task Tag of an ABORT TASK identifies a command on
the connection and RefCmdSN is before the request's CmdSN, `cmnd_abort` sets
the `ABORTED` bit of that command and returns `0` if the LUNs are equal,
RefCmdSN equals the request's CmdSN for an immediate target command and the
target command's CmdSN otherwise, and the request's CmdSN is strictly after the
target command's CmdSN, `(s32)(CmdSN - target CmdSN) > 0`; in every other case
it returns `-1` with `ISCSI_RESPONSE_FUNCTION_REJECTED` and leaves every
command as it was. -/
theorem cmnd_abort_found (cmnds : Nat → iscsi_cmnd) (cmd_list : List Nat) (req status cmnd : Nat)
    (hreq : (cmnds req).pdu.sn < 2 ^ 32) (hcmd : (cmnds cmnd).pdu.sn < 2 ^ 32)
    (hbefore : before (cmnds req).pdu.ref_cmd_sn (cmnds req).pdu.sn = true)
    (hfound : cmnd_find_itt_get cmnds cmd_list (cmnds req).pdu.rtt = some cmnd) :
    ((cmnds req).pdu.lun = (cmnds cmnd).pdu.lun ∧
        (cmnds req).pdu.ref_cmd_sn =
          (if is_immediate (cmnds cmnd) then (cmnds req).pdu.sn else (cmnds cmnd).pdu.sn) ∧
        0 < to_s32 (sub32 (cmnds req).pdu.sn (cmnds cmnd).pdu.sn) →
      cmnd_abort cmnds cmd_list req status =
        (Function.update cmnds cmnd (cmnd_abort_mark (cmnds cmnd)), 0, status)) ∧
    (¬ ((cmnds req).pdu.lun = (cmnds cmnd).pdu.lun ∧
        (cmnds req).pdu.ref_cmd_sn =
          (if is_immediate (cmnds cmnd) then (cmnds req).pdu.sn else (cmnds cmnd).pdu.sn) ∧
        0 < to_s32 (sub32 (cmnds req).pdu.sn (cmnds cmnd).pdu.sn)) →
      cmnd_abort cmnds cmd_list req status = (cmnds, -1, ISCSI_RESPONSE_FUNCTION_REJECTED)) := by
  have hsn := not_before_or_eq_iff _ _ hreq hcmd
  unfold cmnd_abort
  simp only [hbefore, hfound, Bool.not_true, Bool.false_eq_true, if_false]
  constructor
  · rintro ⟨hlun, href, hafter⟩
    have hnb := hsn.mpr hafter
    rw [if_neg (by simpa using hlun)]
    by_cases himm : is_immediate (cmnds cmnd) = true
    · rw [if_pos himm] at href
      rw [if_neg (by simp [href]), if_neg (by simp [himm]), if_neg hnb]
    · rw [if_neg himm] at href
      rw [if_neg (by simp [himm]), if_neg (by simp [href]), if_neg hnb]
  · intro hno
    by_cases hlun : (cmnds req).pdu.lun = (cmnds cmnd).pdu.lun
    · rw [if_neg (by simpa using hlun)]
      by_cases himm : is_immediate (cmnds cmnd) = true
      · by_cases href : (cmnds req).pdu.ref_cmd_sn = (cmnds req).pdu.sn
        · rw [if_neg (by simp [href]), if_neg (by simp [himm])]
          have : ¬ 0 < to_s32 (sub32 (cmnds req).pdu.sn (cmnds cmnd).pdu.sn) := by
            intro h
            exact hno ⟨hlun, by rw [if_pos himm]; exact href, h⟩
          rw [if_pos (by
            by_contra hc
            exact this (hsn.mp hc))]
        · rw [if_pos ⟨himm, href⟩]
      · by_cases href : (cmnds req).pdu.ref_cmd_sn = (cmnds cmnd).pdu.sn
        · rw [if_neg (by simp [himm]), if_neg (by simp [href])]
          have : ¬ 0 < to_s32 (sub32 (cmnds req).pdu.sn (cmnds cmnd).pdu.sn) := by
            intro h
            exact hno ⟨hlun, by rw [if_neg himm]; exact href, h⟩
          rw [if_pos (by
            by_contra hc
            exact this (hsn.mp hc))]
        · rw [if_neg (by simp [himm]), if_pos ⟨himm, href⟩]
    · rw [if_pos hlun]
/-- The ABORT TASK request with CmdSN `55` and RefCmdSN `50` for the command
with ITT `7` on LUN `1` aborts it. -/
theorem cmnd_abort_found_witness :
    (cmnd_abort (abort_task_store (tm_req ISCSI_FUNCTION_ABORT_TASK 9 7 1 55 50 true)) [1, 0] 0
        ISCSI_RESPONSE_FUNCTION_REJECTED).2 = (0, ISCSI_RESPONSE_FUNCTION_REJECTED) ∧
      ((cmnd_abort (abort_task_store (tm_req ISCSI_FUNCTION_ABORT_TASK 9 7 1 55 50 true)) [1, 0] 0
        ISCSI_RESPONSE_FUNCTION_REJECTED).1 1).aborted = true := by
  have h := (cmnd_abort_found (abort_task_store (tm_req ISCSI_FUNCTION_ABORT_TASK 9 7 1 55 50 true))
    [1, 0] 0 ISCSI_RESPONSE_FUNCTION_REJECTED 1 (by decide) (by decide) (by decide)
    (by decide)).1 ⟨by decide, by decide, by decide⟩
  rw [h]
  exact ⟨rfl, by simp [cmnd_abort_mark]⟩

/-- The window test of `cmnd_abort`: `between(RefCmdSN, CmdSN - 128, CmdSN)`
holds exactly when CmdSN is at most 128 after RefCmdSN; the guard of
`cmnd_abort` has excluded RefCmdSN = CmdSN before. -/
theorem between_window_iff (ref_cmd_sn cmd_sn : Nat) :
    between ref_cmd_sn (sub32 cmd_sn 128) cmd_sn = true ↔ sub32 cmd_sn ref_cmd_sn ≤ 128 := by
  unfold between
  rw [decide_eq_true_iff]
  unfold sub32 U32_MOD
  norm_num
  omega

/-- A RefCmdSN among the 128 values before CmdSN is before CmdSN. -/
theorem before_of_window (ref_cmd_sn cmd_sn : Nat) (hpos : 1 ≤ sub32 cmd_sn ref_cmd_sn)
    (hle : sub32 cmd_sn ref_cmd_sn ≤ 128) : before ref_cmd_sn cmd_sn = true := by
  rw [before_iff]
  unfold sub32 U32_MOD at *
  norm_num at hpos hle ⊢
  omega

/-- With RefCmdSN before CmdSN, CmdSN is at least one after RefCmdSN. -/
theorem window_pos_of_before (ref_cmd_sn cmd_sn : Nat)
    (hbefore : before ref_cmd_sn cmd_sn = true) : 1 ≤ sub32 cmd_sn ref_cmd_sn := by
  rw [before_iff] at hbefore
  unfold sub32 U32_MOD at *
  norm_num at hbefore ⊢
  omega

/-- C22: when the Referenced Task Tag of an ABORT TASK matches no command on
the connection, `cmnd_abort` returns `0` with
`ISCSI_RESPONSE_FUNCTION_COMPLETE` if RefCmdSN lies in `[CmdSN - 128, CmdSN)`
(CmdSN is between 1 and 128 after RefCmdSN in 32-bit arithmetic), and `-1`
with `ISCSI_RESPONSE_UNKNOWN_TASK` otherwise; whenever RefCmdSN is not before
CmdSN it returns `-1` with `ISCSI_RESPONSE_UNKNOWN_TASK` whatever the command
list holds. No command is changed. With CmdSN `200`, RefCmdSN `180` gives
`FUNCTION_COMPLETE` and RefCmdSN `50` gives `UNKNOWN_TASK`. -/
theorem cmnd_abort_not_found (cmnds : Nat → iscsi_cmnd) (cmd_list : List Nat)
    (req status : Nat) :
    (cmnd_find_itt_get cmnds cmd_list (cmnds req).pdu.rtt = none →
      (1 ≤ sub32 (cmnds req).pdu.sn (cmnds req).pdu.ref_cmd_sn ∧
          sub32 (cmnds req).pdu.sn (cmnds req).pdu.ref_cmd_sn ≤ 128 →
        cmnd_abort cmnds cmd_list req status = (cmnds, 0, ISCSI_RESPONSE_FUNCTION_COMPLETE)) ∧
      (¬ (1 ≤ sub32 (cmnds req).pdu.sn (cmnds req).pdu.ref_cmd_sn ∧
          sub32 (cmnds req).pdu.sn (cmnds req).pdu.ref_cmd_sn ≤ 128) →
        cmnd_abort cmnds cmd_list req status = (cmnds, -1, ISCSI_RESPONSE_UNKNOWN_TASK))) ∧
    (before (cmnds req).pdu.ref_cmd_sn (cmnds req).pdu.sn = false →
      cmnd_abort cmnds cmd_list req status = (cmnds, -1, ISCSI_RESPONSE_UNKNOWN_TASK)) ∧
    cmnd_abort (abort_task_store (tm_req ISCSI_FUNCTION_ABORT_TASK 9 8 1 200 180 true)) [1, 0] 0
        ISCSI_RESPONSE_FUNCTION_REJECTED =
      (abort_task_store (tm_req ISCSI_FUNCTION_ABORT_TASK 9 8 1 200 180 true), 0,
        ISCSI_RESPONSE_FUNCTION_COMPLETE) ∧
    cmnd_abort (abort_task_store (tm_req ISCSI_FUNCTION_ABORT_TASK 9 8 1 200 50 true)) [1, 0] 0
        ISCSI_RESPONSE_FUNCTION_REJECTED =
      (abort_task_store (tm_req ISCSI_FUNCTION_ABORT_TASK 9 8 1 200 50 true), -1,
        ISCSI_RESPONSE_UNKNOWN_TASK) := by
  have hguard : before (cmnds req).pdu.ref_cmd_sn (cmnds req).pdu.sn = false →
      cmnd_abort cmnds cmd_list req status = (cmnds, -1, ISCSI_RESPONSE_UNKNOWN_TASK) := by
    intro hb
    unfold cmnd_abort
    simp only [hb, Bool.not_false, if_true]
  have hgen : ∀ (cmnds : Nat → iscsi_cmnd) (cmd_list : List Nat) (req status : Nat),
      cmnd_find_itt_get cmnds cmd_list (cmnds req).pdu.rtt = none →
      (1 ≤ sub32 (cmnds req).pdu.sn (cmnds req).pdu.ref_cmd_sn ∧
          sub32 (cmnds req).pdu.sn (cmnds req).pdu.ref_cmd_sn ≤ 128 →
        cmnd_abort cmnds cmd_list req status = (cmnds, 0, ISCSI_RESPONSE_FUNCTION_COMPLETE)) ∧
      (¬ (1 ≤ sub32 (cmnds req).pdu.sn (cmnds req).pdu.ref_cmd_sn ∧
          sub32 (cmnds req).pdu.sn (cmnds req).pdu.ref_cmd_sn ≤ 128) →
        cmnd_abort cmnds cmd_list req status = (cmnds, -1, ISCSI_RESPONSE_UNKNOWN_TASK)) := by
    intro cmnds cmd_list req status hnone
    constructor
    · rintro ⟨hpos, hle⟩
      have hb := before_of_window _ _ hpos hle
      unfold cmnd_abort
      simp only [hb, hnone, Bool.not_true, Bool.false_eq_true, if_false]
      rw [if_pos ((between_window_iff _ _).mpr hle)]
    · intro hno
      by_cases hb : before (cmnds req).pdu.ref_cmd_sn (cmnds req).pdu.sn = true
      · unfold cmnd_abort
        simp only [hb, hnone, Bool.not_true, Bool.false_eq_true, if_false]
        rw [if_neg]
        intro hw
        exact hno ⟨window_pos_of_before _ _ hb, (between_window_iff _ _).mp hw⟩
      · unfold cmnd_abort
        simp only [Bool.not_eq_true] at hb
        simp only [hb, Bool.not_false, if_true]
  refine ⟨hgen cmnds cmd_list req status, hguard, ?_, ?_⟩
  · exact (hgen _ [1, 0] 0 _ (by decide)).1 ⟨by decide, by decide⟩
  · exact (hgen _ [1, 0] 0 _ (by decide)).2 (by decide)

/-- An ABORT TASK with CmdSN `200` and RefCmdSN `180` for an unknown task is
answered `FUNCTION_COMPLETE`; with RefCmdSN `200` it is answered
`UNKNOWN_TASK`. -/
theorem cmnd_abort_not_found_witness :
    (cmnd_abort (abort_task_store (tm_req ISCSI_FUNCTION_ABORT_TASK 9 8 1 200 180 true)) [1, 0] 0
        ISCSI_RESPONSE_FUNCTION_REJECTED).2 = (0, ISCSI_RESPONSE_FUNCTION_COMPLETE) ∧
      (cmnd_abort (abort_task_store (tm_req ISCSI_FUNCTION_ABORT_TASK 9 8 1 200 200 true)) [1, 0] 0
        ISCSI_RESPONSE_FUNCTION_REJECTED).2 = (-1, ISCSI_RESPONSE_UNKNOWN_TASK) := by
  have h := cmnd_abort_not_found
    (abort_task_store (tm_req ISCSI_FUNCTION_ABORT_TASK 9 8 1 200 180 true)) [1, 0] 0
    ISCSI_RESPONSE_FUNCTION_REJECTED
  have h2 := cmnd_abort_not_found
    (abort_task_store (tm_req ISCSI_FUNCTION_ABORT_TASK 9 8 1 200 200 true)) [1, 0] 0
    ISCSI_RESPONSE_FUNCTION_REJECTED
  rw [(h.1 (by decide)).1 ⟨by decide, by decide⟩, h2.2.1 (by decide)]
  exact ⟨rfl, rfl⟩
/-! ## Task management: the delayed response -/

/-- C23: `iscsi_send_task_mgmt_resp`, called for an active task-management
function with no response queued, puts the response on the write list at once
(and counts the function out of `tm_active`) if ExpCmdSN is not before the
request's CmdSN, `(s32)(ExpCmdSN - CmdSN) >= 0`; otherwise it stores the
response in `tm_rsp`, writes nothing and leaves `tm_active` as it is. In both
cases the request is released. -/
theorem send_task_mgmt_resp_delays_before_cmd_sn (session : iscsi_session) (req : iscsi_cmnd)
    (status : Nat) (hrsp : session.tm.tm_rsp = none) (hact : 0 < session.tm.tm_active) :
    (0 ≤ to_s32 (sub32 session.exp_cmd_sn req.pdu.sn) →
      iscsi_send_task_mgmt_resp session req status =
        some ({ session with tm := { session.tm with tm_active := session.tm.tm_active - 1 } },
          [.init_write (task_mgmt_rsp req status), .req_cmnd_release req])) ∧
    (to_s32 (sub32 session.exp_cmd_sn req.pdu.sn) < 0 →
      iscsi_send_task_mgmt_resp session req status =
        some ({ session with tm := { session.tm with tm_rsp := some (task_mgmt_rsp req status) } },
          [.req_cmnd_release req])) := by
  have hsn : (task_mgmt_rsp req status).req_cmd_sn = req.pdu.sn := rfl
  constructor
  · intro h
    unfold iscsi_send_task_mgmt_resp iscsi_is_delay_tm_resp before
    simp only [hsn, hrsp, ne_eq, not_true_eq_false, if_false]
    rw [if_neg (by simpa using h), if_neg (by omega)]
  · intro h
    unfold iscsi_send_task_mgmt_resp iscsi_is_delay_tm_resp before
    simp only [hsn, hrsp, ne_eq, not_true_eq_false, if_false]
    rw [if_pos (by simpa using h)]

/-- The response to a function with CmdSN `55` is written at ExpCmdSN `55` and
delayed at ExpCmdSN `50`. -/
theorem send_task_mgmt_resp_delays_before_cmd_sn_witness :
    (iscsi_send_task_mgmt_resp { exp_cmd_sn := 55, tm := { tm_active := 1, tm_sn := 55 } }
        (tm_req ISCSI_FUNCTION_CLEAR_ACA 9 ISCSI_RESERVED_TAG 0 55 0 true) 0).map
        (fun r => (r.1.tm.tm_active, r.1.tm.tm_rsp, tm_written r.2)) =
      some (0, none, [task_mgmt_rsp (tm_req ISCSI_FUNCTION_CLEAR_ACA 9 ISCSI_RESERVED_TAG 0 55 0 true)
        0]) ∧
    (iscsi_send_task_mgmt_resp { exp_cmd_sn := 50, tm := { tm_active := 1, tm_sn := 55 } }
        (tm_req ISCSI_FUNCTION_CLEAR_ACA 9 ISCSI_RESERVED_TAG 0 55 0 true) 0).map
        (fun r => (r.1.tm.tm_active, r.1.tm.tm_rsp, tm_written r.2)) =
      some (1, some (task_mgmt_rsp (tm_req ISCSI_FUNCTION_CLEAR_ACA 9 ISCSI_RESERVED_TAG 0 55 0 true)
        0), []) := by
  rw [(send_task_mgmt_resp_delays_before_cmd_sn
      { exp_cmd_sn := 55, tm := { tm_active := 1, tm_sn := 55 } }
      (tm_req ISCSI_FUNCTION_CLEAR_ACA 9 ISCSI_RESERVED_TAG 0 55 0 true) 0 rfl (by decide)).1
      (by decide),
    (send_task_mgmt_resp_delays_before_cmd_sn
      { exp_cmd_sn := 50, tm := { tm_active := 1, tm_sn := 55 } }
      (tm_req ISCSI_FUNCTION_CLEAR_ACA 9 ISCSI_RESERVED_TAG 0 55 0 true) 0 rfl (by decide)).2
      (by decide)]
  exact ⟨rfl, rfl⟩

/-- C24: when an in-order command advances ExpCmdSN in the loop of
`iscsi_push_cmnd` while a task-management function is active and its response
is delayed in `tm_rsp`, the response is put on the write list, `tm_rsp` is
cleared and `tm_active` is decremented by one if the new ExpCmdSN is not
before the function's CmdSN; otherwise the response stays in `tm_rsp` and
nothing is written. With CmdSN `55` delayed at ExpCmdSN `50`, the commands
`50` to `53` leave the response queued and the command `54`, which makes
ExpCmdSN `55`, releases it. -/
theorem push_releases_delayed_tm_rsp (exec : iscsi_cmnd → tm_state → tm_state)
    (cmnd : iscsi_cmnd) (cmd_sn : Nat) (tm : tm_state) (rsp : tm_response)
    (hrsp : tm.tm_rsp = some rsp) (hact : 0 < tm.tm_active) :
    (before (add32 cmd_sn 1) rsp.req_cmd_sn = false →
      push_exec_one exec cmnd cmd_sn tm =
        (add32 cmd_sn 1,
          exec (if before (add32 cmd_sn 1) tm.tm_sn then cmnd_abort_mark cmnd else cmnd)
            { tm with tm_rsp := none, tm_active := tm.tm_active - 1 },
          [.init_write rsp, .exec .in_order
            (if before (add32 cmd_sn 1) tm.tm_sn then cmnd_abort_mark cmnd else cmnd)])) ∧
    (before (add32 cmd_sn 1) rsp.req_cmd_sn = true →
      push_exec_one exec cmnd cmd_sn tm =
        (add32 cmd_sn 1,
          exec (if before (add32 cmd_sn 1) tm.tm_sn then cmnd_abort_mark cmnd else cmnd) tm,
          [.exec .in_order
            (if before (add32 cmd_sn 1) tm.tm_sn then cmnd_abort_mark cmnd else cmnd)])) ∧
    (push_all (fun _ t => t) tm_55_session (scsi_cmds 50 4)).1.tm = tm_55_session.tm ∧
    (push_all (fun _ t => t) tm_55_session (scsi_cmds 50 4)).1.exp_cmd_sn = 54 ∧
    push_written (push_all (fun _ t => t) tm_55_session (scsi_cmds 50 4)).2 = [] ∧
    (push_all (fun _ t => t) tm_55_session (scsi_cmds 50 5)).1.tm =
      { tm_active := 0, tm_sn := 55, tm_rsp := none } ∧
    (push_all (fun _ t => t) tm_55_session (scsi_cmds 50 5)).1.exp_cmd_sn = 55 ∧
    (push_written (push_all (fun _ t => t) tm_55_session (scsi_cmds 50 5)).2).map
      (fun r => (r.itt, r.req_cmd_sn)) = [(9, 55)] := by
  refine ⟨?_, ?_, by decide, by decide, by decide, by decide, by decide, by decide⟩
  · intro h
    unfold push_exec_one iscsi_check_send_delayed_tm_resp iscsi_is_delay_tm_resp
    simp only [hrsp, h, hact, true_and, if_true, Bool.false_eq_true, if_false,
      List.singleton_append]
  · intro h
    unfold push_exec_one iscsi_check_send_delayed_tm_resp iscsi_is_delay_tm_resp
    simp only [hrsp, h, hact, true_and, if_true, List.nil_append]

/-- The command `54` releases the response to the function with CmdSN `55`;
the command `53` does not. -/
theorem push_releases_delayed_tm_rsp_witness :
    (push_exec_one (fun _ t => t) (mk_req ISCSI_OP_SCSI_CMD 54) 54 tm_55_session.tm).2.1 =
      { tm_active := 0, tm_sn := 55, tm_rsp := none } ∧
    (push_exec_one (fun _ t => t) (mk_req ISCSI_OP_SCSI_CMD 53) 53 tm_55_session.tm).2.1 =
      tm_55_session.tm := by
  have h := (push_releases_delayed_tm_rsp (fun _ t => t) (mk_req ISCSI_OP_SCSI_CMD 54) 54
    tm_55_session.tm _ rfl (by decide)).1 (by decide)
  have h2 := (push_releases_delayed_tm_rsp (fun _ t => t) (mk_req ISCSI_OP_SCSI_CMD 53)
    53 tm_55_session.tm _ rfl (by decide)).2.1 (by decide)
  rw [h, h2]
  exact ⟨rfl, rfl⟩
/-! ## Task management: commands that arrive while a function is active -/

/-- The loop of `iscsi_push_cmnd` marks the command it is about to execute
exactly when a function is active and the CmdSN after the command's own,
`cmd_sn + 1`, is before `tm_sn`. -/
theorem push_exec_one_marks_iff (exec : iscsi_cmnd → tm_state → tm_state) (cmnd : iscsi_cmnd)
    (cmd_sn : Nat) (tm : tm_state) (hna : cmnd.aborted = false) :
    (executed_cmnds (push_exec_one exec cmnd cmd_sn tm).2.2).map (fun c => c.aborted) =
      [decide (tm.tm_active > 0 ∧ before (add32 cmd_sn 1) tm.tm_sn = true)] := by
  have hev : ∀ (c : iscsi_cmnd) (pre : tm_state × List push_event)
      (_ : pre.2 = [] ∨ ∃ rsp, pre.2 = [push_event.init_write rsp]),
      (executed_cmnds (pre.2 ++ [push_event.exec exec_site.in_order c])).map (fun c => c.aborted) =
        [c.aborted] := by
    intro c pre hpre
    rcases hpre with h | ⟨rsp, h⟩ <;> rw [h] <;> rfl
  have hchk : ∀ (e : Nat) (t : tm_state),
      (iscsi_check_send_delayed_tm_resp e t).2 = [] ∨
        ∃ rsp, (iscsi_check_send_delayed_tm_resp e t).2 = [push_event.init_write rsp] := by
    intro e t
    unfold iscsi_check_send_delayed_tm_resp
    cases t.tm_rsp with
    | none => exact Or.inl rfl
    | some rsp =>
      simp only []
      split_ifs
      · exact Or.inl rfl
      · exact Or.inr ⟨rsp, rfl⟩
  unfold push_exec_one
  simp only []
  rw [hev]
  · by_cases h : tm.tm_active > 0 ∧ before (add32 cmd_sn 1) tm.tm_sn = true
    · rw [if_pos h]
      simp [h, cmnd_abort_mark]
    · rw [if_neg h]
      simp [h, hna]
  · split_ifs
    · exact hchk _ _
    · exact Or.inl rfl

/-- C25: while the function with CmdSN `55`, received at ExpCmdSN `50`, is
active, `iscsi_push_cmnd` marks the commands `50`, `51`, `52` and `53` as they
arrive, but not the command `54`: the loop compares the CmdSN after the
command's own (`55`) with `tm_sn`. The command `54` is executed without the
`ABORTED` bit, in the call that releases the response of the function; the
same command already on the command list when an ABORT TASK SET with CmdSN `55`
is executed is marked by `task_set_abort`. -/
theorem push_cmnd_last_before_tm_sn_not_aborted :
    (executed_cmnds (push_all (fun _ t => t) tm_55_session (scsi_cmds 50 5)).2).map
        (fun c => (c.pdu.sn, c.aborted)) =
      [(50, true), (51, true), (52, true), (53, true), (54, false)] ∧
    before 54 tm_55_session.tm.tm_sn = true ∧
    (iscsi_push_cmnd (fun _ t => t)
        { exp_cmd_sn := 54, tm := { tm_active := 1, tm_sn := 55 } }
        (mk_req ISCSI_OP_SCSI_CMD 54)).2 =
      [.exec .in_order (mk_req ISCSI_OP_SCSI_CMD 54)] ∧
    (task_set_abort
        (fun a => if a = 0 then tm_req ISCSI_FUNCTION_ABORT_TASK_SET 9 ISCSI_RESERVED_TAG 0 55 0 true
          else mk_req ISCSI_OP_SCSI_CMD 54) [1, 0] 0 1).aborted = true := by
  refine ⟨by decide, by decide, by decide, by decide⟩
/-! ## Task management: `execute_task_management` -/

/-- The writes among task-management events, over an append. -/
theorem tm_written_append (a b : List tm_event) :
    tm_written (a ++ b) = tm_written a ++ tm_written b := by
  unfold tm_written
  exact List.filterMap_append _ _ _

/-- The forwarded functions among task-management events, over an append. -/
theorem tm_forwarded_append (a b : List tm_event) :
    tm_forwarded (a ++ b) = tm_forwarded a ++ tm_forwarded b := by
  unfold tm_forwarded
  exact List.filterMap_append _ _ _

/-- The events of the RTT check and the `switch` of `execute_task_management`
hold no write. -/
theorem execute_task_management_switch_written (cmnds : Nat → iscsi_cmnd) (cmd_list : List Nat)
    (req : Nat) (scst_rc : Int) :
    tm_written (execute_task_management_switch cmnds cmd_list req scst_rc).2.2.2 = [] := by
  unfold execute_task_management_switch
  simp only []
  split_ifs <;> rfl

/-- The events of `iscsi_send_task_mgmt_resp`, the session it leaves and the
balance of `tm_active`: it returns whenever no response is queued and a
function is active. -/
theorem send_task_mgmt_resp_total (session : iscsi_session) (req : iscsi_cmnd) (status : Nat)
    (hrsp : session.tm.tm_rsp = none) (hact : 0 < session.tm.tm_active) :
    ∃ sess1 evs, iscsi_send_task_mgmt_resp session req status = some (sess1, evs) ∧
      sess1.tm.tm_sn = session.tm.tm_sn ∧
      ((tm_written evs = [task_mgmt_rsp req status] ∧ sess1.tm.tm_rsp = none ∧
          sess1.tm.tm_active = session.tm.tm_active - 1 ∧
          before session.exp_cmd_sn req.pdu.sn = false) ∨
        (tm_written evs = [] ∧ sess1.tm.tm_rsp = some (task_mgmt_rsp req status) ∧
          sess1.tm.tm_active = session.tm.tm_active ∧
          before session.exp_cmd_sn req.pdu.sn = true)) ∧
      tm_forwarded evs = [] := by
  have hsn : (task_mgmt_rsp req status).req_cmd_sn = req.pdu.sn := rfl
  unfold iscsi_send_task_mgmt_resp iscsi_is_delay_tm_resp
  simp only [hsn, hrsp, ne_eq, not_true_eq_false, if_false]
  by_cases hb : before session.exp_cmd_sn req.pdu.sn = true
  · rw [if_pos hb]
    exact ⟨_, _, rfl, rfl, Or.inr ⟨rfl, rfl, rfl, hb⟩, rfl⟩
  · rw [if_neg hb, if_neg (by omega)]
    exact ⟨_, _, rfl, rfl, Or.inl ⟨rfl, rfl, rfl, by simpa using hb⟩, rfl⟩

/-- C26: when a task-management request is executed while a delayed response
is queued in `tm_rsp` (and counted in `tm_active`), the head of
`execute_task_management` releases the queued response with
`rsp_cmnd_release`, clears `tm_rsp` and leaves `tm_active` at its value before
the request: one increment for the new function, one decrement for the dropped
response. The whole of `execute_task_management` then returns; its first event
is the release of the queued response, the only response it may write or
queue is the one built for the new request, and `tm_active` ends at its value
before the request less the number of responses written in the call. -/
theorem execute_task_management_drops_queued_rsp (session : iscsi_session)
    (cmnds : Nat → iscsi_cmnd) (cmd_list : List Nat) (req : Nat) (scst_rc : Int)
    (old : tm_response) (hq : session.tm.tm_rsp = some old) (hact : 0 < session.tm.tm_active) :
    execute_task_management_start session.tm (cmnds req).pdu.sn =
      some ({ tm_active := session.tm.tm_active, tm_sn := (cmnds req).pdu.sn, tm_rsp := none },
        [.rsp_cmnd_release old]) ∧
    ∃ sess1 cmnds1 rest,
      execute_task_management session cmnds cmd_list req scst_rc =
        some (sess1, cmnds1, .rsp_cmnd_release old :: rest) ∧
      sess1.tm.tm_sn = (cmnds req).pdu.sn ∧
      ((tm_written rest = [] ∧ sess1.tm.tm_rsp = none) ∨
        (∃ status, tm_written rest = [] ∧
          sess1.tm.tm_rsp = some (task_mgmt_rsp (cmnds1 req) status)) ∨
        (∃ status, tm_written rest = [task_mgmt_rsp (cmnds1 req) status] ∧
          sess1.tm.tm_rsp = none)) ∧
      sess1.tm.tm_active + (tm_written rest).length = session.tm.tm_active := by
  have hstart : execute_task_management_start session.tm (cmnds req).pdu.sn =
      some ({ tm_active := session.tm.tm_active, tm_sn := (cmnds req).pdu.sn, tm_rsp := none },
        [.rsp_cmnd_release old]) := by
    unfold execute_task_management_start
    simp only [hq]
    rw [if_neg (by omega)]
    simp
  refine ⟨hstart, ?_⟩
  unfold execute_task_management
  rw [hstart]
  simp only []
  have hsw := execute_task_management_switch_written cmnds cmd_list req scst_rc
  generalize execute_task_management_switch cmnds cmd_list req scst_rc = sw at hsw
  by_cases hrc : sw.2.1 = 0
  · rw [if_neg (by simpa using hrc)]
    refine ⟨_, _, sw.2.2.2, rfl, rfl, Or.inl ⟨hsw, rfl⟩, ?_⟩
    rw [hsw]
    simp
  · rw [if_pos hrc]
    obtain ⟨sess1, evs, hsend, htmsn, hcases, _⟩ := send_task_mgmt_resp_total
      { session with tm :=
          { tm_active := session.tm.tm_active, tm_sn := (cmnds req).pdu.sn, tm_rsp := none } }
      (sw.1 req) sw.2.2.1 rfl hact
    rw [hsend]
    have happ : tm_written (sw.2.2.2 ++ evs) = tm_written evs := by
      rw [tm_written_append, hsw]
      rfl
    refine ⟨sess1, sw.1, sw.2.2.2 ++ evs, rfl, htmsn, ?_, ?_⟩
    · rcases hcases with ⟨hw, hr, _, _⟩ | ⟨hw, hr, _, _⟩
      · exact Or.inr (Or.inr ⟨sw.2.2.1, by rw [happ, hw], hr⟩)
      · exact Or.inr (Or.inl ⟨sw.2.2.1, by rw [happ, hw], hr⟩)
    · rcases hcases with ⟨hw, _, ha, _⟩ | ⟨hw, _, ha, _⟩
      · rw [happ, hw, ha]
        simp
      · rw [happ, hw, ha]
        simp

/-- A CLEAR ACA with CmdSN `56` executed while the response to the function
with CmdSN `55` is queued: the queued response is released, and with the
function forwarded to the SCSI mid-layer `tm_active` stays `1`. -/
theorem execute_task_management_drops_queued_rsp_witness :
    execute_task_management_start tm_55_session.tm 56 =
      some ({ tm_active := 1, tm_sn := 56, tm_rsp := none },
        [.rsp_cmnd_release (task_mgmt_rsp (tm_req ISCSI_FUNCTION_ABORT_TASK_SET 9
          ISCSI_RESERVED_TAG 0 55 0 true) ISCSI_RESPONSE_FUNCTION_COMPLETE)]) :=
  (execute_task_management_drops_queued_rsp tm_55_session
    (abort_task_store (tm_req ISCSI_FUNCTION_CLEAR_ACA 10 ISCSI_RESERVED_TAG 1 56 0 true)) [1, 0] 0 0
    _ rfl (by decide)).1
/-- The RTT check and the `switch` of `execute_task_management` for a TASK
REASSIGN: nothing is changed or forwarded, `rc` is `-1`, and the status is
`ALLEGIANCE_REASSIGNMENT_UNSUPPORTED` only when the RTT is the reserved tag. -/
theorem execute_task_management_switch_reassign (cmnds : Nat → iscsi_cmnd) (cmd_list : List Nat)
    (req : Nat) (scst_rc : Int)
    (hfn : (cmnds req).pdu.function &&& ISCSI_FUNCTION_MASK = ISCSI_FUNCTION_TASK_REASSIGN) :
    execute_task_management_switch cmnds cmd_list req scst_rc =
      (cmnds, -1,
        if (cmnds req).pdu.rtt = ISCSI_RESERVED_TAG then
          ISCSI_RESPONSE_ALLEGIANCE_REASSIGNMENT_UNSUPPORTED
        else ISCSI_RESPONSE_FUNCTION_REJECTED, []) := by
  unfold execute_task_management_switch
  simp only [hfn]
  by_cases hrtt : (cmnds req).pdu.rtt = ISCSI_RESERVED_TAG
  · rw [if_neg (by simp [hrtt]), if_pos hrtt]
    simp [ISCSI_FUNCTION_TASK_REASSIGN, ISCSI_FUNCTION_ABORT_TASK, ISCSI_FUNCTION_ABORT_TASK_SET,
      ISCSI_FUNCTION_CLEAR_TASK_SET, ISCSI_FUNCTION_CLEAR_ACA, ISCSI_FUNCTION_TARGET_COLD_RESET,
      ISCSI_FUNCTION_TARGET_WARM_RESET, ISCSI_FUNCTION_LOGICAL_UNIT_RESET]
  · rw [if_pos ⟨by decide, hrtt⟩, if_neg hrtt]

/-- C28, evaluated at a failing input: a TASK REASSIGN with CmdSN `55` whose
Referenced Task Tag is `7`, the ITT of a command on the connection, executed
at ExpCmdSN `56`, is answered with response code `255` (`FUNCTION_REJECTED`),
not `ALLEGIANCE_REASSIGNMENT_UNSUPPORTED`; nothing is forwarded to the SCSI
mid-layer. The check of the Referenced Task Tag that precedes the `switch`
exempts only ABORT TASK, so the `case ISCSI_FUNCTION_TASK_REASSIGN` of the
`switch` is not reached for a request that names the task to reassign. -/
theorem execute_task_management_reassign_with_rtt_rejected :
    (execute_task_management { exp_cmd_sn := 56 }
        (abort_task_store (tm_req ISCSI_FUNCTION_TASK_REASSIGN 9 7 1 55 0 false)) [1, 0] 0 0).map
        (fun r => ((tm_written r.2.2).map (fun rsp => rsp.response), tm_forwarded r.2.2)) =
      some ([ISCSI_RESPONSE_FUNCTION_REJECTED], []) ∧
    ISCSI_RESPONSE_FUNCTION_REJECTED ≠ ISCSI_RESPONSE_ALLEGIANCE_REASSIGNMENT_UNSUPPORTED := by
  refine ⟨by decide, by decide⟩

/-- The function `execute_task_management` for a TASK REASSIGN: the request
is answered inside `execute_task_management` and is never forwarded to the
SCSI mid-layer; the response code is `ALLEGIANCE_REASSIGNMENT_UNSUPPORTED` when the Referenced
Task Tag is the reserved tag `0xffffffff` and `FUNCTION_REJECTED` for any
other Referenced Task Tag. The response is written at once when ExpCmdSN is
not before the request's CmdSN and queued in `tm_rsp` otherwise. -/
theorem execute_task_management_reassign (session : iscsi_session) (cmnds : Nat → iscsi_cmnd)
    (cmd_list : List Nat) (req : Nat) (scst_rc : Int)
    (hfn : (cmnds req).pdu.function &&& ISCSI_FUNCTION_MASK = ISCSI_FUNCTION_TASK_REASSIGN)
    (hact : 0 ≤ session.tm.tm_active)
    (hq : session.tm.tm_rsp ≠ none → 0 < session.tm.tm_active) :
    ∃ sess1 evs,
      execute_task_management session cmnds cmd_list req scst_rc = some (sess1, cmnds, evs) ∧
      tm_forwarded evs = [] ∧
      ((tm_written evs =
            [task_mgmt_rsp (cmnds req)
              (if (cmnds req).pdu.rtt = ISCSI_RESERVED_TAG then
                ISCSI_RESPONSE_ALLEGIANCE_REASSIGNMENT_UNSUPPORTED
              else ISCSI_RESPONSE_FUNCTION_REJECTED)] ∧
          sess1.tm.tm_rsp = none ∧ before session.exp_cmd_sn (cmnds req).pdu.sn = false) ∨
        (tm_written evs = [] ∧
          sess1.tm.tm_rsp =
            some (task_mgmt_rsp (cmnds req)
              (if (cmnds req).pdu.rtt = ISCSI_RESERVED_TAG then
                ISCSI_RESPONSE_ALLEGIANCE_REASSIGNMENT_UNSUPPORTED
              else ISCSI_RESPONSE_FUNCTION_REJECTED)) ∧
          before session.exp_cmd_sn (cmnds req).pdu.sn = true)) := by
  have hsw := execute_task_management_switch_reassign cmnds cmd_list req scst_rc hfn
  obtain ⟨tm1, evs0, hstart, hrsp1, hact1, hw0, hf0⟩ :
      ∃ tm1 evs0, execute_task_management_start session.tm (cmnds req).pdu.sn = some (tm1, evs0) ∧
        tm1.tm_rsp = none ∧ 0 < tm1.tm_active ∧ tm_written evs0 = [] ∧ tm_forwarded evs0 = [] := by
    unfold execute_task_management_start
    cases hr : session.tm.tm_rsp with
    | none =>
      simp only [hr]
      exact ⟨_, _, rfl, rfl, by show 0 < session.tm.tm_active + 1; omega, rfl, rfl⟩
    | some old =>
      have hpos := hq (by simp [hr])
      simp only [hr]
      rw [if_neg (by omega)]
      exact ⟨_, _, rfl, rfl, by show 0 < session.tm.tm_active + 1 - 1; omega, rfl, rfl⟩
  unfold execute_task_management
  rw [hstart, hsw]
  simp only []
  rw [if_pos (by decide)]
  obtain ⟨sess1, evs, hsend, _, hcases, hfw⟩ := send_task_mgmt_resp_total
    { session with tm := tm1 } (cmnds req)
    (if (cmnds req).pdu.rtt = ISCSI_RESERVED_TAG then
      ISCSI_RESPONSE_ALLEGIANCE_REASSIGNMENT_UNSUPPORTED
    else ISCSI_RESPONSE_FUNCTION_REJECTED) hrsp1 hact1
  rw [hsend]
  refine ⟨sess1, evs0 ++ [] ++ evs, rfl, ?_, ?_⟩
  · rw [tm_forwarded_append, tm_forwarded_append, hf0, hfw]
    rfl
  · have happ : tm_written (evs0 ++ [] ++ evs) = tm_written evs := by
      rw [tm_written_append, tm_written_append, hw0]
      rfl
    rw [happ]
    rcases hcases with ⟨hw, hr, _, hb⟩ | ⟨hw, hr, _, hb⟩
    · exact Or.inl ⟨hw, hr, hb⟩
    · exact Or.inr ⟨hw, hr, hb⟩

/-- A TASK REASSIGN with the reserved tag as Referenced Task Tag is answered
`ALLEGIANCE_REASSIGNMENT_UNSUPPORTED` and not forwarded. -/
theorem execute_task_management_reassign_witness :
    (execute_task_management { exp_cmd_sn := 56 }
        (abort_task_store (tm_req ISCSI_FUNCTION_TASK_REASSIGN 9 ISCSI_RESERVED_TAG 1 55 0 false))
        [1, 0] 0 0).map
      (fun r => (tm_forwarded r.2.2, (tm_written r.2.2).map (fun rsp => rsp.response))) =
      some ([], [ISCSI_RESPONSE_ALLEGIANCE_REASSIGNMENT_UNSUPPORTED]) := by
  obtain ⟨sess1, evs, h, hf, hc⟩ := execute_task_management_reassign { exp_cmd_sn := 56 }
    (abort_task_store (tm_req ISCSI_FUNCTION_TASK_REASSIGN 9 ISCSI_RESERVED_TAG 1 55 0 false))
    [1, 0] 0 0 (by decide) (by decide) (by decide)
  rw [h]
  rcases hc with ⟨hw, _, _⟩ | ⟨_, _, hb⟩
  · simp only [Option.map_some', hf, hw]
    rfl
  · exact absurd hb (by decide)
/-! ## The TM clone of an aborted command pushed out of order -/

/-- C27, counterexample: the aborted command with CmdSN `12` pushed at
ExpCmdSN `10` is itself handed to `iscsi_cmnd_exec` in that call; its clone,
which differs from it, is not executed but put on the pending list. The clone
is the command of `cmnd_alloc` (`target_task_tag = ISCSI_RESERVED_TAG`,
`ref_cnt = 1`) with the PDU of the original and the `ABORTED` bit. -/
theorem push_aborted_executes_original :
    (iscsi_push_cmnd (fun _ t => t) { exp_cmd_sn := 10 } aborted_cmd_12).2 =
      [.exec .aborted_original aborted_cmd_12] ∧
    (iscsi_push_cmnd (fun _ t => t) { exp_cmd_sn := 10 } aborted_cmd_12).1.pending_list =
      [{ tm_clone_of aborted_cmd_12 with pending := true }] ∧
    tm_clone_of aborted_cmd_12 ≠ aborted_cmd_12 ∧
    tm_clone_of aborted_cmd_12 ∉
      executed_cmnds (iscsi_push_cmnd (fun _ t => t) { exp_cmd_sn := 10 } aborted_cmd_12).2 ∧
    (tm_clone_of aborted_cmd_12).pdu = aborted_cmd_12.pdu ∧
    (tm_clone_of aborted_cmd_12).aborted = true ∧
    (tm_clone_of aborted_cmd_12).target_task_tag = ISCSI_RESERVED_TAG ∧
    (tm_clone_of aborted_cmd_12).ref_cnt = 1 ∧
    (tm_clone_of aborted_cmd_12).has_scst_cmd = false := by
  refine ⟨by decide, by decide, by decide, by decide, rfl, rfl, rfl, rfl, rfl⟩

/-- C27, amended: when a non-immediate command with CmdSN after ExpCmdSN,
already marked `ABORTED`, is pushed, `iscsi_push_cmnd` creates a clone that
carries the PDU of the original and the `ABORTED` bit (and nothing else of the
original: it is the command `cmnd_alloc` returns, with `target_task_tag =
ISCSI_RESERVED_TAG` and `ref_cnt = 1`), hands the original to
`iscsi_cmnd_exec` at once, and puts the clone in its place on the pending
list, with `pending` set, at the position of its CmdSN; ExpCmdSN is not
changed. -/
theorem push_aborted_clones_and_executes_original (exec : iscsi_cmnd → tm_state → tm_state)
    (session : iscsi_session) (cmnd : iscsi_cmnd) (himm : is_immediate cmnd = false)
    (hafter : cmnd.pdu.sn ≠ session.exp_cmd_sn ∧ before cmnd.pdu.sn session.exp_cmd_sn = false)
    (hab : cmnd.aborted = true) :
    iscsi_push_cmnd exec session cmnd =
      ({ session with
          tm := exec cmnd session.tm,
          pending_list := pending_insert cmnd.pdu.sn
            { pdu := cmnd.pdu, aborted := true, pending := true,
              target_task_tag := ISCSI_RESERVED_TAG, ref_cnt := 1 } session.pending_list },
        [.exec .aborted_original cmnd]) ∧
    (iscsi_push_cmnd exec session cmnd).1.exp_cmd_sn = session.exp_cmd_sn := by
  have h : iscsi_push_cmnd exec session cmnd =
      ({ session with
          tm := exec cmnd session.tm,
          pending_list := pending_insert cmnd.pdu.sn
            { pdu := cmnd.pdu, aborted := true, pending := true,
              target_task_tag := ISCSI_RESERVED_TAG, ref_cnt := 1 } session.pending_list },
        [.exec .aborted_original cmnd]) := by
    unfold iscsi_push_cmnd
    simp only [himm, Bool.false_eq_true, if_false]
    rw [if_neg hafter.1]
    simp only [hafter.2, Bool.false_eq_true, if_false, hab, if_true]
    rfl
  exact ⟨h, by rw [h]⟩

/-- The aborted command `12` pushed at ExpCmdSN `10` is executed at once; its
clone is executed in CmdSN order after the commands `10` and `11`. -/
theorem push_aborted_clones_and_executes_original_witness :
    (iscsi_push_cmnd (fun _ t => t) { exp_cmd_sn := 10 } aborted_cmd_12).2 =
      [.exec .aborted_original aborted_cmd_12] ∧
    executed_cmnds (push_all (fun _ t => t) { exp_cmd_sn := 10 }
        (aborted_cmd_12 :: scsi_cmds 10 2)).2 =
      [aborted_cmd_12, mk_req ISCSI_OP_SCSI_CMD 10, mk_req ISCSI_OP_SCSI_CMD 11,
        tm_clone_of aborted_cmd_12] := by
  have h := (push_aborted_clones_and_executes_original (fun _ t => t) { exp_cmd_sn := 10 }
    aborted_cmd_12 (by decide) ⟨by decide, by decide⟩ rfl).1
  rw [h]
  exact ⟨rfl, by decide⟩

/-! ## A stale CmdSN at the start of the reception -/

/-- One pass of the loop of `send_r2t` keeps the PDU of the request. -/
theorem send_r2t_body_pdu (burst : Nat) (req : iscsi_cmnd) (offset : Nat) :
    (send_r2t_body burst req offset).1.pdu = req.pdu := rfl

/-- C30: when `iscsi_xmit_response` is called (in thread context) for a
request whose `ABORTED` bit is set, or whose SCSI command the mid-layer
reports as aborted, it sets the delivery status to
`SCST_CMD_DELIVERY_ABORTED`, puts no Data-In or SCSI Response PDU on the write
list, releases the request with `req_cmnd_release_force` and returns
`SCST_TGT_RES_SUCCESS`; the request carries the `ABORTED` bit afterwards. -/
theorem xmit_response_aborted (sess : iscsi_sess_params) (req : iscsi_cmnd) (cmd : scst_cmd)
    (hat : cmd.atomic = false) (hab : req.aborted = true ∨ cmd.aborted = true) :
    iscsi_xmit_response sess req cmd =
      some (.SCST_TGT_RES_SUCCESS, { req with aborted := true },
        [.set_delivery_status_aborted, .release_force { req with aborted := true }]) ∧
    (iscsi_xmit_response sess req cmd).map (fun r => queued_pdus r.2.2) = some [] := by
  have hreq1 : (if cmd.aborted = true then { req with aborted := true } else req) =
      ({ req with aborted := true } : iscsi_cmnd) := by
    by_cases hc : cmd.aborted = true
    · rw [if_pos hc]
    · rw [if_neg hc]
      rcases hab with h | h
      · cases req
        simp only at h
        subst h
        rfl
      · exact absurd h hc
  have h : iscsi_xmit_response sess req cmd =
      some (.SCST_TGT_RES_SUCCESS, { req with aborted := true },
        [.set_delivery_status_aborted, .release_force { req with aborted := true }]) := by
    unfold iscsi_xmit_response
    simp only [hat, Bool.false_eq_true, if_false, hreq1, if_true]
  exact ⟨h, by rw [h]; rfl⟩

/-- A read command marked `ABORTED` whose response of 500 bytes is ready: no
PDU is queued. -/
theorem xmit_response_aborted_witness :
    (iscsi_xmit_response xmit_8192 { read_cmd 7 512 with aborted := true }
        { is_send_status := true, resp_data_len := 500 }).map
      (fun r => (r.1, queued_pdus r.2.2)) = some (.SCST_TGT_RES_SUCCESS, []) := by
  rw [(xmit_response_aborted xmit_8192 { read_cmd 7 512 with aborted := true }
    { is_send_status := true, resp_data_len := 500 } rfl (Or.inl rfl)).1]
  rfl

/-! ## Marking a command aborted -/

/-- No jiffies value is later than itself. -/
theorem time_after_self (bits t : Nat) : time_after bits (t % 2 ^ bits) (t % 2 ^ bits) = false := by
  have hM : 0 < 2 ^ bits := Nat.two_pow_pos _
  have hlt : t % 2 ^ bits < 2 ^ bits := Nat.mod_lt _ hM
  have hsub : ulong_sub bits (t % 2 ^ bits) (t % 2 ^ bits) = 0 := by
    unfold ulong_sub
    rw [Nat.mod_mod, Nat.add_sub_cancel' (Nat.le_of_lt hlt), Nat.mod_self]
  unfold time_after
  rw [hsub]
  unfold to_long
  have hpos : 0 < 2 ^ (bits - 1) := Nat.two_pow_pos _
  simp [hpos]

/-- C31: `__cmnd_abort` sets the `ABORTED` bit of the command and leaves the
`PRELIM_COMPLETED` bit (and all other fields) as they are, sets
`conn_tm_active` on the connection, and leaves the response timer pending with
an expiry that is not later than `jiffies + ISCSI_TM_DATA_WAIT_TIMEOUT +
ISCSI_ADD_SCHED_TIME`: a timer that is pending with an expiry not later than
that time is not touched, and otherwise the timer is armed for exactly that
time. -/
theorem cmnd_abort_marks_and_arms_timer (bits tm_data_wait_timeout add_sched_time jiffies : Nat)
    (cmnd : iscsi_cmnd) (conn : conn_tm) :
    (__cmnd_abort bits tm_data_wait_timeout add_sched_time jiffies cmnd conn).1 =
      { cmnd with aborted := true } ∧
    (__cmnd_abort bits tm_data_wait_timeout add_sched_time jiffies cmnd conn).1.prelim_completed =
      cmnd.prelim_completed ∧
    (__cmnd_abort bits tm_data_wait_timeout add_sched_time jiffies cmnd
      conn).2.conn_tm_active = 1 ∧
    (__cmnd_abort bits tm_data_wait_timeout add_sched_time jiffies cmnd
      conn).2.rsp_timer.pending = true ∧
    time_after bits
      (__cmnd_abort bits tm_data_wait_timeout add_sched_time jiffies cmnd
        conn).2.rsp_timer.expires
      ((jiffies + tm_data_wait_timeout + add_sched_time) % 2 ^ bits) = false ∧
    (conn.rsp_timer.pending = true ∧
        time_after bits conn.rsp_timer.expires
          ((jiffies + tm_data_wait_timeout + add_sched_time) % 2 ^ bits) = false →
      (__cmnd_abort bits tm_data_wait_timeout add_sched_time jiffies cmnd conn).2.rsp_timer =
        conn.rsp_timer) ∧
    (¬ (conn.rsp_timer.pending = true ∧
        time_after bits conn.rsp_timer.expires
          ((jiffies + tm_data_wait_timeout + add_sched_time) % 2 ^ bits) = false) →
      (__cmnd_abort bits tm_data_wait_timeout add_sched_time jiffies cmnd conn).2.rsp_timer =
        { pending := true,
          expires := (jiffies + tm_data_wait_timeout + add_sched_time) % 2 ^ bits }) := by
  have hself := time_after_self bits (jiffies + tm_data_wait_timeout + add_sched_time)
  unfold __cmnd_abort
  dsimp only
  by_cases hp : conn.rsp_timer.pending = true ∧
      time_after bits conn.rsp_timer.expires
        ((jiffies + tm_data_wait_timeout + add_sched_time) % 2 ^ bits) = false
  · rw [if_neg (by simp [hp.1, hp.2])]
    exact ⟨rfl, rfl, rfl, hp.1, hp.2, fun _ => rfl, fun h => absurd hp h⟩
  · rw [if_pos (by
      by_cases h1 : conn.rsp_timer.pending = true
      · have h2 : time_after bits conn.rsp_timer.expires
            ((jiffies + tm_data_wait_timeout + add_sched_time) % 2 ^ bits) = true := by
          by_contra hc
          exact hp ⟨h1, by simpa using hc⟩
        simp [h2]
      · simp [h1])]
    exact ⟨rfl, rfl, rfl, rfl, hself, fun h => absurd h hp, fun _ => rfl⟩

/-- With 64-bit jiffies at `1000` and timeouts of `50` and `10` ticks: a timer
pending for `1030` is left alone, and a timer that is not pending is armed for
`1060`. -/
theorem cmnd_abort_marks_and_arms_timer_witness :
    (__cmnd_abort 64 50 10 1000 {}
        { rsp_timer := { pending := true, expires := 1030 } }).2.rsp_timer =
      { pending := true, expires := 1030 } ∧
    (__cmnd_abort 64 50 10 1000 {} {}).2.rsp_timer = { pending := true, expires := 1060 } :=
  ⟨(cmnd_abort_marks_and_arms_timer 64 50 10 1000 {}
      { rsp_timer := { pending := true, expires := 1030 } }).2.2.2.2.2.1 ⟨rfl, by decide⟩,
   (cmnd_abort_marks_and_arms_timer 64 50 10 1000 {} {}).2.2.2.2.2.2 (by decide)⟩

/-- A timer pending for `5000` is pulled in to `1060`. -/
theorem cmnd_abort_pulls_timer_in :
    (__cmnd_abort 64 50 10 1000 {} { rsp_timer := { pending := true, expires := 5000 } }).2 =
      { conn_tm_active := 1, rsp_timer := { pending := true, expires := 1060 } } := by
  decide

/-! ## ABORT TASK SET and CLEAR TASK SET -/

/-- Marking a command twice is marking it once. -/
theorem cmnd_abort_mark_idem (c : iscsi_cmnd) :
    cmnd_abort_mark (cmnd_abort_mark c) = cmnd_abort_mark c := rfl

/-- One pass of `task_set_abort` over a command list, started from a store in
which every command is as in `cmnds` or marked and the request is untouched:
the commands of the list other than the request, with the LUN of the request
and a CmdSN for which `before(req.cmd_sn, cmd_sn) || req.cmd_sn == cmd_sn`
fails, are marked; the others are as before. -/
theorem task_set_abort_pass (cmnds : Nat → iscsi_cmnd) (req : Nat) :
    ∀ (cmd_list : List Nat) (m : Nat → iscsi_cmnd),
      m req = cmnds req →
      (∀ a, m a = cmnds a ∨ m a = cmnd_abort_mark (cmnds a)) →
      task_set_abort m cmd_list req req = cmnds req ∧
      (∀ a, task_set_abort m cmd_list req a = cmnds a ∨
        task_set_abort m cmd_list req a = cmnd_abort_mark (cmnds a)) ∧
      (∀ a, (a ∈ cmd_list ∧ a ≠ req ∧ (cmnds req).pdu.lun = (cmnds a).pdu.lun ∧
          ¬ (before (cmnds req).pdu.sn (cmnds a).pdu.sn = true ∨
            (cmnds req).pdu.sn = (cmnds a).pdu.sn) →
          task_set_abort m cmd_list req a = cmnd_abort_mark (cmnds a)) ∧
        (¬ (a ∈ cmd_list ∧ a ≠ req ∧ (cmnds req).pdu.lun = (cmnds a).pdu.lun ∧
          ¬ (before (cmnds req).pdu.sn (cmnds a).pdu.sn = true ∨
            (cmnds req).pdu.sn = (cmnds a).pdu.sn)) →
          task_set_abort m cmd_list req a = m a)) := by
  intro cmd_list
  induction cmd_list with
  | nil =>
    intro m hreq hinv
    refine ⟨hreq, hinv, fun a => ⟨fun h => absurd h.1 (List.not_mem_nil a), fun _ => rfl⟩⟩
  | cons x rest ih =>
    intro m hreq hinv
    have hpdu : ∀ a, (m a).pdu = (cmnds a).pdu := by
      intro a
      rcases hinv a with h | h
      · rw [h]
      · rw [h]
        rfl
    have hmark : ∀ a, cmnd_abort_mark (m a) = cmnd_abort_mark (cmnds a) := by
      intro a
      rcases hinv a with h | h
      · rw [h]
      · rw [h]
        rfl
    have hstep : task_set_abort m (x :: rest) req =
        task_set_abort
          (if x = req then m
            else if (m req).pdu.lun ≠ (m x).pdu.lun then m
            else if before (m req).pdu.sn (m x).pdu.sn = true ∨ (m req).pdu.sn = (m x).pdu.sn
              then m
            else Function.update m x (cmnd_abort_mark (m x))) rest req := rfl
    rw [hstep, hpdu req, hpdu x, hmark x]
    by_cases hP : x ≠ req ∧ (cmnds req).pdu.lun = (cmnds x).pdu.lun ∧
        ¬ (before (cmnds req).pdu.sn (cmnds x).pdu.sn = true ∨
          (cmnds req).pdu.sn = (cmnds x).pdu.sn)
    · rw [if_neg hP.1, if_neg (by simpa using hP.2.1), if_neg hP.2.2]
      have hreq1 : Function.update m x (cmnd_abort_mark (cmnds x)) req = cmnds req := by
        rw [Function.update_noteq (Ne.symm hP.1)]
        exact hreq
      have hinv1 : ∀ a, Function.update m x (cmnd_abort_mark (cmnds x)) a = cmnds a ∨
          Function.update m x (cmnd_abort_mark (cmnds x)) a = cmnd_abort_mark (cmnds a) := by
        intro a
        by_cases hax : a = x
        · subst hax
          rw [Function.update_same]
          exact Or.inr rfl
        · rw [Function.update_noteq hax]
          exact hinv a
      obtain ⟨h1, h2, h3⟩ := ih _ hreq1 hinv1
      refine ⟨h1, h2, fun a => ⟨fun ha => ?_, fun ha => ?_⟩⟩
      · by_cases hin : a ∈ rest
        · exact (h3 a).1 ⟨hin, ha.2⟩
        · have hax : a = x := by
            rcases List.mem_cons.mp ha.1 with h | h
            · exact h
            · exact absurd h hin
          rw [(h3 a).2 (fun h => hin h.1), hax, Function.update_same]
      · have hax : a ≠ x := by
          intro h
          subst h
          exact ha ⟨List.mem_cons_self _ _, hP⟩
        rw [(h3 a).2 (fun h => ha ⟨List.mem_cons_of_mem _ h.1, h.2⟩),
          Function.update_noteq hax]
    · have hm : (if x = req then m
            else if (cmnds req).pdu.lun ≠ (cmnds x).pdu.lun then m
            else if before (cmnds req).pdu.sn (cmnds x).pdu.sn = true ∨
                (cmnds req).pdu.sn = (cmnds x).pdu.sn
              then m
            else Function.update m x (cmnd_abort_mark (cmnds x))) = m := by
        split_ifs with h1 h2 h3
        · rfl
        · rfl
        · rfl
        · exact absurd ⟨h1, not_not.mp h2, h3⟩ hP
      rw [hm]
      obtain ⟨h1, h2, h3⟩ := ih m hreq hinv
      refine ⟨h1, h2, fun a => ⟨fun ha => ?_, fun ha => ?_⟩⟩
      · have hin : a ∈ rest := by
          rcases List.mem_cons.mp ha.1 with h | h
          · subst h
            exact absurd ha.2 hP
          · exact h
        exact (h3 a).1 ⟨hin, ha.2⟩
      · exact (h3 a).2 (fun h => ha ⟨List.mem_cons_of_mem _ h.1, h.2⟩)

/-- The passes of `task_set_abort` over the connections of a session, started
from a store in which every command is as in `cmnds` or marked. -/
theorem task_set_abort_session_pass (cmnds : Nat → iscsi_cmnd) (req : Nat) :
    ∀ (conn_list : List (List Nat)) (m : Nat → iscsi_cmnd),
      m req = cmnds req →
      (∀ a, m a = cmnds a ∨ m a = cmnd_abort_mark (cmnds a)) →
      ∀ a, ((∃ cmd_list ∈ conn_list, a ∈ cmd_list) ∧ a ≠ req ∧
          (cmnds req).pdu.lun = (cmnds a).pdu.lun ∧
          ¬ (before (cmnds req).pdu.sn (cmnds a).pdu.sn = true ∨
            (cmnds req).pdu.sn = (cmnds a).pdu.sn) →
          task_set_abort_session m conn_list req a = cmnd_abort_mark (cmnds a)) ∧
        (¬ ((∃ cmd_list ∈ conn_list, a ∈ cmd_list) ∧ a ≠ req ∧
          (cmnds req).pdu.lun = (cmnds a).pdu.lun ∧
          ¬ (before (cmnds req).pdu.sn (cmnds a).pdu.sn = true ∨
            (cmnds req).pdu.sn = (cmnds a).pdu.sn)) →
          task_set_abort_session m conn_list req a = m a) := by
  intro conn_list
  induction conn_list with
  | nil =>
    intro m _ _ a
    refine ⟨fun h => ?_, fun _ => rfl⟩
    obtain ⟨⟨cl, hcl, _⟩, _⟩ := h
    exact absurd hcl (List.not_mem_nil cl)
  | cons cl rest ih =>
    intro m hreq hinv a
    obtain ⟨h1, h2, h3⟩ := task_set_abort_pass cmnds req cl m hreq hinv
    have hstep : task_set_abort_session m (cl :: rest) req =
        task_set_abort_session (task_set_abort m cl req) rest req := rfl
    rw [hstep]
    have hih := ih (task_set_abort m cl req) h1 h2 a
    refine ⟨fun ha => ?_, fun ha => ?_⟩
    · by_cases hin : ∃ cmd_list ∈ rest, a ∈ cmd_list
      · exact hih.1 ⟨hin, ha.2⟩
      · have hacl : a ∈ cl := by
          obtain ⟨⟨c, hc, hac⟩, _⟩ := ha
          rcases List.mem_cons.mp hc with h | h
          · rw [← h]
            exact hac
          · exact absurd ⟨c, h, hac⟩ hin
        rw [hih.2 (fun h => hin h.1)]
        exact (h3 a).1 ⟨hacl, ha.2⟩
    · rw [hih.2 (fun h => ha ⟨by
        obtain ⟨c, hc, hac⟩ := h.1
        exact ⟨c, List.mem_cons_of_mem _ hc, hac⟩, h.2⟩)]
      exact (h3 a).2 (fun h => ha ⟨⟨cl, List.mem_cons_self _ _, h.1⟩, h.2⟩)

/-- C32: `task_set_abort` (ABORT TASK SET, CLEAR TASK SET) marks exactly the
commands on the command lists of the session's connections, other than the
request itself, whose LUN is the LUN of the request and whose CmdSN is
strictly before the CmdSN of the request, `(s32)(CmdSN - cmd_sn) > 0`: such a
command gets the `ABORTED` bit and is otherwise unchanged, and every other
command is as it was. -/
theorem task_set_abort_marks_exactly (cmnds : Nat → iscsi_cmnd) (conn_list : List (List Nat))
    (req a : Nat) (hreq : (cmnds req).pdu.sn < 2 ^ 32) (ha : (cmnds a).pdu.sn < 2 ^ 32) :
    ((∃ cmd_list ∈ conn_list, a ∈ cmd_list) ∧ a ≠ req ∧
        (cmnds a).pdu.lun = (cmnds req).pdu.lun ∧
        0 < to_s32 (sub32 (cmnds req).pdu.sn (cmnds a).pdu.sn) →
      task_set_abort_session cmnds conn_list req a = cmnd_abort_mark (cmnds a)) ∧
    (¬ ((∃ cmd_list ∈ conn_list, a ∈ cmd_list) ∧ a ≠ req ∧
        (cmnds a).pdu.lun = (cmnds req).pdu.lun ∧
        0 < to_s32 (sub32 (cmnds req).pdu.sn (cmnds a).pdu.sn)) →
      task_set_abort_session cmnds conn_list req a = cmnds a) := by
  have h := task_set_abort_session_pass cmnds req conn_list cmnds rfl (fun a => Or.inl rfl) a
  have hsn := not_before_or_eq_iff _ _ hreq ha
  constructor
  · rintro ⟨hin, hne, hlun, hafter⟩
    exact h.1 ⟨hin, hne, hlun.symm, hsn.mpr hafter⟩
  · intro hno
    apply h.2
    rintro ⟨hin, hne, hlun, hnb⟩
    exact hno ⟨hin, hne, hlun.symm, hsn.mp hnb⟩

/-- An ABORT TASK SET with CmdSN `55` for LUN `1` marks the commands `50` and
`54` of LUN `1` on the two connections, and neither the command of LUN `2` nor
the command with CmdSN `55`. -/
theorem task_set_abort_marks_exactly_witness :
    (task_set_abort_session task_set_store [[0, 1, 2], [3, 4]] 0 1).aborted = true ∧
    (task_set_abort_session task_set_store [[0, 1, 2], [3, 4]] 0 4).aborted = true ∧
    task_set_abort_session task_set_store [[0, 1, 2], [3, 4]] 0 2 = task_set_store 2 ∧
    task_set_abort_session task_set_store [[0, 1, 2], [3, 4]] 0 3 = task_set_store 3 := by
  have h1 := (task_set_abort_marks_exactly task_set_store [[0, 1, 2], [3, 4]] 0 1 (by decide)
    (by decide)).1 ⟨⟨[0, 1, 2], by decide, by decide⟩, by decide, by decide, by decide⟩
  have h4 := (task_set_abort_marks_exactly task_set_store [[0, 1, 2], [3, 4]] 0 4 (by decide)
    (by decide)).1 ⟨⟨[3, 4], by decide, by decide⟩, by decide, by decide, by decide⟩
  have h2 := (task_set_abort_marks_exactly task_set_store [[0, 1, 2], [3, 4]] 0 2 (by decide)
    (by decide)).2 (fun h => absurd h.2.2.1 (by decide))
  have h3 := (task_set_abort_marks_exactly task_set_store [[0, 1, 2], [3, 4]] 0 3 (by decide)
    (by decide)).2 (fun h => absurd h.2.2.2 (by decide))
  rw [h1, h4]
  exact ⟨rfl, rfl, h2, h3⟩

/-! ## Order of the pending list -/

/-- The list `pending_insert` builds, for a command inside the window of
`2 ^ 31` serial numbers that starts at `base` and a queue that is in
non-decreasing order inside that window: the queue is split in two, the new
command in between; no command of the first part is after the new one, every
command of the second part is. -/
theorem pending_insert_split (base : Nat) (x : iscsi_cmnd)
    (hx : sub32 x.pdu.sn base < 2 ^ 31) :
    ∀ l : List iscsi_cmnd,
      l.Pairwise (fun a b => sub32 a.pdu.sn base ≤ sub32 b.pdu.sn base) →
      (∀ p ∈ l, sub32 p.pdu.sn base < 2 ^ 31) →
      ∃ l1 l2 : List iscsi_cmnd,
        l = l1 ++ l2 ∧ pending_insert x.pdu.sn x l = l1 ++ x :: l2 ∧
        (∀ t ∈ l1, before x.pdu.sn t.pdu.sn = false) ∧
        (∀ t ∈ l2, before x.pdu.sn t.pdu.sn = true) := by
  intro l
  induction l with
  | nil =>
    intro _ _
    exact ⟨[], [], rfl, rfl, fun t ht => absurd ht (List.not_mem_nil t),
      fun t ht => absurd ht (List.not_mem_nil t)⟩
  | cons tmp rest ih =>
    intro hs hl
    have htmp := hl tmp (List.mem_cons_self _ _)
    rw [List.pairwise_cons] at hs
    unfold pending_insert
    by_cases hb : before x.pdu.sn tmp.pdu.sn = true
    · rw [if_pos hb]
      have hlt := (before_iff_offset_lt _ _ base hx htmp).mp hb
      refine ⟨[], tmp :: rest, rfl, rfl, fun t ht => absurd ht (List.not_mem_nil t), ?_⟩
      intro t ht
      rcases List.mem_cons.mp ht with rfl | ht
      · exact hb
      · exact (before_iff_offset_lt _ _ base hx (hl t (List.mem_cons_of_mem _ ht))).mpr
          (lt_of_lt_of_le hlt (hs.1 t ht))
    · rw [if_neg hb]
      obtain ⟨l1, l2, h1, h2, h3, h4⟩ := ih hs.2 (fun p hp => hl p (List.mem_cons_of_mem _ hp))
      refine ⟨tmp :: l1, l2, by rw [h1]; rfl, by rw [h2]; rfl, ?_, h4⟩
      intro t ht
      rcases List.mem_cons.mp ht with rfl | ht
      · simpa using hb
      · exact h3 t ht

/-- The function `pending_insert` keeps a queue inside the window at `base` in
non-decreasing order. -/
theorem pending_insert_sorted_le (base : Nat) (x : iscsi_cmnd)
    (hx : sub32 x.pdu.sn base < 2 ^ 31) (l : List iscsi_cmnd)
    (hs : l.Pairwise (fun a b => sub32 a.pdu.sn base ≤ sub32 b.pdu.sn base))
    (hl : ∀ p ∈ l, sub32 p.pdu.sn base < 2 ^ 31) :
    (pending_insert x.pdu.sn x l).Pairwise
        (fun a b => sub32 a.pdu.sn base ≤ sub32 b.pdu.sn base) ∧
    ∀ p ∈ pending_insert x.pdu.sn x l, sub32 p.pdu.sn base < 2 ^ 31 := by
  obtain ⟨l1, l2, h1, h2, h3, h4⟩ := pending_insert_split base x hx l hs hl
  rw [h2]
  rw [h1] at hs hl
  obtain ⟨hs1, hs2, hs12⟩ := List.pairwise_append.mp hs
  refine ⟨?_, ?_⟩
  · rw [List.pairwise_append, List.pairwise_cons]
    refine ⟨hs1, ⟨?_, hs2⟩, ?_⟩
    · intro t ht
      exact le_of_lt ((before_iff_offset_lt _ _ base hx
        (hl t (List.mem_append_right _ ht))).mp (h4 t ht))
    · intro a ha b hb
      rcases List.mem_cons.mp hb with rfl | hb
      · have hna := h3 a ha
        have hoa := hl a (List.mem_append_left _ ha)
        by_contra hlt
        have := (before_iff_offset_lt _ _ base hx hoa).mpr (by omega)
        rw [hna] at this
        exact Bool.false_ne_true this
      · exact hs12 a ha b hb
  · intro p hp
    rcases List.mem_append.mp hp with hp | hp
    · exact hl p (List.mem_append_left _ hp)
    · rcases List.mem_cons.mp hp with rfl | hp
      · exact hx
      · exact hl p (List.mem_append_right _ hp)

/-- The loop of `iscsi_push_cmnd` takes commands from the head of the queue:
what it leaves is a suffix. -/
theorem push_drain_suffix (exec : iscsi_cmnd → tm_state → tm_state) :
    ∀ (pending : List iscsi_cmnd) (cmnd : iscsi_cmnd) (cmd_sn : Nat) (tm : tm_state),
      ∃ taken : List iscsi_cmnd,
        pending = taken ++ (push_drain exec pending cmnd cmd_sn tm).2.1 := by
  intro pending
  induction pending with
  | nil =>
    intro cmnd cmd_sn tm
    exact ⟨[], rfl⟩
  | cons next rest ih =>
    intro cmnd cmd_sn tm
    by_cases h : next.pdu.sn = add32 cmd_sn 1
    · rw [push_drain_cons_eq exec next rest cmnd cmd_sn tm h]
      obtain ⟨taken, ht⟩ := ih { next with pending := false } (add32 cmd_sn 1)
        (push_exec_one exec cmnd cmd_sn tm).2.1
      exact ⟨next :: taken, by rw [List.cons_append, ← ht]⟩
    · rw [push_drain_cons_ne exec next rest cmnd cmd_sn tm h]
      exact ⟨[], rfl⟩

/-- One call of `iscsi_push_cmnd` with a command inside the window at `base`
keeps the queue inside the window and in non-decreasing order. -/
theorem push_cmnd_window (exec : iscsi_cmnd → tm_state → tm_state) (base : Nat)
    (s : iscsi_session) (c : iscsi_cmnd)
    (hs : s.pending_list.Pairwise (fun a b => sub32 a.pdu.sn base ≤ sub32 b.pdu.sn base))
    (hl : ∀ p ∈ s.pending_list, sub32 p.pdu.sn base < 2 ^ 31)
    (hc : sub32 c.pdu.sn base < 2 ^ 31) :
    (iscsi_push_cmnd exec s c).1.pending_list.Pairwise
        (fun a b => sub32 a.pdu.sn base ≤ sub32 b.pdu.sn base) ∧
    ∀ p ∈ (iscsi_push_cmnd exec s c).1.pending_list, sub32 p.pdu.sn base < 2 ^ 31 := by
  unfold iscsi_push_cmnd
  by_cases himm : is_immediate c = true
  · rw [if_pos himm]
    exact ⟨hs, hl⟩
  · rw [if_neg himm]
    dsimp only
    by_cases heq : c.pdu.sn = s.exp_cmd_sn
    · rw [if_pos heq]
      obtain ⟨taken, ht⟩ := push_drain_suffix exec s.pending_list c c.pdu.sn s.tm
      show (push_drain exec s.pending_list c c.pdu.sn s.tm).2.1.Pairwise _ ∧
        ∀ p ∈ (push_drain exec s.pending_list c c.pdu.sn s.tm).2.1, _
      rw [ht] at hs hl
      exact ⟨(List.pairwise_append.mp hs).2.1, fun p hp => hl p (List.mem_append_right _ hp)⟩
    · rw [if_neg heq]
      by_cases hb : before c.pdu.sn s.exp_cmd_sn = true
      · rw [if_pos hb]
        exact ⟨hs, hl⟩
      · rw [if_neg hb]
        by_cases hab : c.aborted = true
        · rw [if_pos hab]
          exact pending_insert_sorted_le base { tm_clone_of c with pending := true } hc _ hs hl
        · rw [if_neg hab]
          exact pending_insert_sorted_le base { c with pending := true } hc _ hs hl

/-- A sequence of `iscsi_push_cmnd` calls with commands inside the window at
`base` keeps the queue inside the window and in non-decreasing order. -/
theorem push_all_window (exec : iscsi_cmnd → tm_state → tm_state) (base : Nat)
    (cmds : List iscsi_cmnd) :
    ∀ s : iscsi_session,
      s.pending_list.Pairwise (fun a b => sub32 a.pdu.sn base ≤ sub32 b.pdu.sn base) →
      (∀ p ∈ s.pending_list, sub32 p.pdu.sn base < 2 ^ 31) →
      (∀ c ∈ cmds, sub32 c.pdu.sn base < 2 ^ 31) →
      (push_all exec s cmds).1.pending_list.Pairwise
          (fun a b => sub32 a.pdu.sn base ≤ sub32 b.pdu.sn base) ∧
      ∀ p ∈ (push_all exec s cmds).1.pending_list, sub32 p.pdu.sn base < 2 ^ 31 := by
  induction cmds with
  | nil =>
    intro s hs hl _
    exact ⟨hs, hl⟩
  | cons c rest ih =>
    intro s hs hl hc
    have h1 := push_cmnd_window exec base s c hs hl (hc c (List.mem_cons_self _ _))
    exact ih (iscsi_push_cmnd exec s c).1 h1.1 h1.2
      (fun x hx => hc x (List.mem_cons_of_mem _ hx))

/-- Claim C33, counterexample: the CmdSNs 12, 12, 10, 11, 13, `2 ^ 31 + 13`,
16 pushed at ExpCmdSN 10 (non-immediate SCSI commands, empty queue at the
start). The duplicate 12 stays queued when ExpCmdSN passes it; `2 ^ 31 + 13`
is not before ExpCmdSN 14 and is before 12, so it is queued in front of it;
16 is before `2 ^ 31 + 13` and is queued in front of both. The queue ends as
16, `2 ^ 31 + 13`, 12: the command 12 is strictly before 16 and still comes
after it, and the newly queued 16 was not placed after the queued 12, whose
CmdSN is not after its own. -/
theorem push_pending_out_of_order :
    (push_all (fun _ t => t) { exp_cmd_sn := 10 }
      [mk_req 1 12, mk_req 1 12, mk_req 1 10, mk_req 1 11, mk_req 1 13,
        mk_req 1 2147483661]).1.pending_list.map (fun p => p.pdu.sn) = [2147483661, 12] ∧
    (push_all (fun _ t => t) { exp_cmd_sn := 10 }
      [mk_req 1 12, mk_req 1 12, mk_req 1 10, mk_req 1 11, mk_req 1 13,
        mk_req 1 2147483661, mk_req 1 16]).1.pending_list.map (fun p => p.pdu.sn) =
      [16, 2147483661, 12] ∧
    before 12 16 = true ∧ before 16 12 = false := by
  decide

/-- Claim C33, amended: starting from an empty `pending_list`, for commands
whose CmdSNs all lie in the window of `2 ^ 31` serial numbers that starts at
the initial ExpCmdSN (any commands: immediate, aborted, with repeated CmdSNs),
after every `iscsi_push_cmnd` call (after the first `n` calls, for every `n`)
`pending_list` is in non-decreasing CmdSN order: no command is before one that
precedes it in the list. When the next command `c` is queued (not immediate,
its CmdSN neither equal to nor before ExpCmdSN), the new list is the old one
with the queued entry (the command itself or its TM clone, `pending` set)
put in: every command in front of it has a CmdSN that is not after the new
one, every command behind it has a CmdSN after the new one. -/
theorem push_all_pending_sorted (exec : iscsi_cmnd → tm_state → tm_state)
    (s : iscsi_session) (cmds : List iscsi_cmnd) (c : iscsi_cmnd) (n : Nat)
    (hpend : s.pending_list = [])
    (hwin : ∀ x ∈ cmds, sub32 x.pdu.sn s.exp_cmd_sn < 2 ^ 31)
    (hc : sub32 c.pdu.sn s.exp_cmd_sn < 2 ^ 31) :
    (push_all exec s (cmds.take n)).1.pending_list.Pairwise
        (fun a b => before b.pdu.sn a.pdu.sn = false) ∧
    (is_immediate c = false →
      c.pdu.sn ≠ (push_all exec s (cmds.take n)).1.exp_cmd_sn →
      before c.pdu.sn (push_all exec s (cmds.take n)).1.exp_cmd_sn = false →
      ∃ (l1 l2 : List iscsi_cmnd) (q : iscsi_cmnd),
        (push_all exec s (cmds.take n)).1.pending_list = l1 ++ l2 ∧
        (iscsi_push_cmnd exec (push_all exec s (cmds.take n)).1 c).1.pending_list =
          l1 ++ q :: l2 ∧
        q.pdu = c.pdu ∧ q.pending = true ∧
        (∀ t ∈ l1, before c.pdu.sn t.pdu.sn = false) ∧
        (∀ t ∈ l2, before c.pdu.sn t.pdu.sn = true)) := by
  have hinv := push_all_window exec s.exp_cmd_sn (cmds.take n) s
    (by rw [hpend]; exact List.Pairwise.nil)
    (by rw [hpend]; intro p hp; exact absurd hp (List.not_mem_nil p))
    (fun x hx => hwin x (List.mem_of_mem_take hx))
  refine ⟨?_, ?_⟩
  · refine hinv.1.imp_of_mem ?_
    intro a b ha hb hab
    rw [before_eq_false_iff, sub32_of_offsets _ _ s.exp_cmd_sn hab]
    have := hinv.2 b hb
    omega
  · intro himm hne hnb
    unfold iscsi_push_cmnd
    rw [if_neg (by simp [himm])]
    dsimp only
    rw [if_neg hne, if_neg (by simp [hnb])]
    by_cases hab : c.aborted = true
    · rw [if_pos hab]
      obtain ⟨l1, l2, h1, h2, h3, h4⟩ := pending_insert_split s.exp_cmd_sn
        { tm_clone_of c with pending := true } hc _ hinv.1 hinv.2
      exact ⟨l1, l2, _, h1, h2, rfl, rfl, h3, h4⟩
    · rw [if_neg hab]
      obtain ⟨l1, l2, h1, h2, h3, h4⟩ := pending_insert_split s.exp_cmd_sn
        { c with pending := true } hc _ hinv.1 hinv.2
      exact ⟨l1, l2, _, h1, h2, rfl, rfl, h3, h4⟩

/-- Claim C33 (amended) at a concrete input: the CmdSNs 12, 12, 9 pushed at
ExpCmdSN 7, then 10. -/
theorem push_all_pending_sorted_witness :
    (push_all (fun _ t => t) { exp_cmd_sn := 7 }
        ([mk_req 1 12, mk_req 1 12, mk_req 1 9].take 3)).1.pending_list.Pairwise
      (fun a b => before b.pdu.sn a.pdu.sn = false) ∧
    (push_all (fun _ t => t) { exp_cmd_sn := 7 }
        ([mk_req 1 12, mk_req 1 12, mk_req 1 9].take 3)).1.pending_list.map
      (fun p => p.pdu.sn) = [9, 12, 12] :=
  ⟨(push_all_pending_sorted (fun _ t => t) { exp_cmd_sn := 7 }
    [mk_req 1 12, mk_req 1 12, mk_req 1 9] (mk_req 1 10) 3 rfl (by decide) (by decide)).1,
    by decide⟩

/-! ## The read size of a command -/

theorem ahs_step_bounds (h : iscsi_ahs_hdr) :
    4 ≤ ahs_step h ∧ ahs_step h ≤ 65540 ∧ ahs_step h % 4 = 0 ∧
    3 + h.ahslength % 2 ^ 16 ≤ ahs_step h ∧ ahs_step h < 3 + h.ahslength % 2 ^ 16 + 4 ∧
    ahs_step h = (3 + h.ahslength % 2 ^ 16 + 3) - (3 + h.ahslength % 2 ^ 16 + 3) % 4 := by
  unfold ahs_step
  have := Nat.mod_lt h.ahslength (show 0 < 2 ^ 16 by norm_num)
  omega

theorem ahs_offset_mono (ahs : Nat → iscsi_ahs_hdr) (k : Nat) :
    ∀ m, k ≤ m → ahs_offset ahs k ≤ ahs_offset ahs m := by
  intro m hm
  induction m with
  | zero =>
    have : k = 0 := by omega
    rw [this]
  | succ m ih =>
    rcases Nat.eq_or_lt_of_le hm with h | h
    · rw [h]
    · have := ih (by omega)
      have hs := (ahs_step_bounds (ahs (ahs_offset ahs m))).1
      show ahs_offset ahs k ≤ ahs_offset ahs m + ahs_step (ahs (ahs_offset ahs m))
      omega

/-- The loop of `cmnd_read_size`, entered at the `k`-th header of the chain
with enough fuel, returns; the value is the `read_length` of the first
read-length header among the headers it visits (the `k`-th, and every later
one that starts before `ahssize`), and `-1` when there is none. -/
theorem cmnd_read_size_loop_spec (rlength_type : Nat) (ahs : Nat → iscsi_ahs_hdr)
    (ahssize : Nat) (hsz : ahssize + 65540 < 2 ^ 32) :
    ∀ (fuel k : Nat), ahs_offset ahs k ≤ ahssize → ahssize < ahs_offset ahs k + 4 * fuel →
      ∃ r : Int,
        cmnd_read_size_loop rlength_type ahs ahssize fuel (ahs_offset ahs k)
          (ahs_offset ahs k) = some r ∧
        (∀ m, k ≤ m → (m = k ∨ ahs_offset ahs m < ahssize) →
          (ahs (ahs_offset ahs m)).ahstype = rlength_type →
          (∀ j, k ≤ j → j < m → (ahs (ahs_offset ahs j)).ahstype ≠ rlength_type) →
          r = to_s32 (ahs (ahs_offset ahs m)).read_length) ∧
        ((∀ m, k ≤ m → (m = k ∨ ahs_offset ahs m < ahssize) →
          (ahs (ahs_offset ahs m)).ahstype ≠ rlength_type) → r = -1) := by
  intro fuel
  induction fuel with
  | zero =>
    intro k hk hf
    omega
  | succ fuel ih =>
    intro k hk hf
    unfold cmnd_read_size_loop
    by_cases ht : (ahs (ahs_offset ahs k)).ahstype = rlength_type
    · dsimp only
      rw [if_pos ht]
      refine ⟨_, rfl, ?_, ?_⟩
      · intro m hm _ _ hfirst
        rcases Nat.eq_or_lt_of_le hm with h | h
        · rw [h]
        · exact absurd ht (hfirst k (le_refl _) h)
      · intro hnone
        exact absurd ht (hnone k (le_refl _) (Or.inl rfl))
    · dsimp only
      rw [if_neg ht]
      have hb := ahs_step_bounds (ahs (ahs_offset ahs k))
      have hstep : 3 + (ahs (ahs_offset ahs k)).ahslength % 2 ^ 16 + 3 -
          (3 + (ahs (ahs_offset ahs k)).ahslength % 2 ^ 16 + 3) % 4 =
            ahs_step (ahs (ahs_offset ahs k)) := hb.2.2.2.2.2.symm
      rw [hstep]
      have hnext : ahs_offset ahs k + ahs_step (ahs (ahs_offset ahs k)) =
          ahs_offset ahs (k + 1) := rfl
      rw [hnext]
      have hwrap : ahs_offset ahs (k + 1) % U32_MOD = ahs_offset ahs (k + 1) := by
        apply Nat.mod_eq_of_lt
        rw [← hnext]
        unfold U32_MOD
        omega
      rw [hwrap]
      by_cases hlt : ahs_offset ahs (k + 1) < ahssize
      · rw [if_pos hlt]
        obtain ⟨r, hr, h1, h2⟩ := ih (k + 1) (le_of_lt hlt) (by rw [← hnext]; omega)
        refine ⟨r, hr, ?_, ?_⟩
        · intro m hm hvis htype hfirst
          rcases Nat.eq_or_lt_of_le hm with h | h
          · rw [← h] at htype
            exact absurd htype ht
          · refine h1 m h ?_ htype (fun j hj hjm => hfirst j (by omega) hjm)
            rcases hvis with hv | hv
            · omega
            · exact Or.inr hv
        · intro hnone
          refine h2 (fun m hm hvis => hnone m (by omega) ?_)
          rcases hvis with hv | hv
          · rw [hv]
            exact Or.inr hlt
          · exact Or.inr hv
      · rw [if_neg hlt]
        refine ⟨_, rfl, ?_, fun _ => rfl⟩
        intro m hm hvis htype _
        rcases Nat.eq_or_lt_of_le hm with h | h
        · rw [← h] at htype
          exact absurd htype ht
        · rcases hvis with hv | hv
          · omega
          · have := ahs_offset_mono ahs (k + 1) m h
            omega

/-- The function `cmnd_read_size` on a command without an AHS buffer agrees
with its form that takes the read length of the AHS as an argument. -/
theorem cmnd_read_size_ahs_none (rlength_type : Nat) (cmnd : iscsi_cmnd) (ahssize fuel : Nat) :
    cmnd_read_size_ahs rlength_type cmnd Option.none ahssize fuel =
      some (cmnd_read_size cmnd Option.none) := by
  unfold cmnd_read_size_ahs cmnd_read_size
  split_ifs <;> rfl

/-- C34: `cmnd_read_size` returns for every command, AHS buffer and `ahssize`
(the walk ends within `ahssize / 4 + 1` rounds; `ahssize` is four times a
byte, and any value up to `2 ^ 32 - 65541` will do): `0` without the READ
flag; the header's `data_length` (as `int`) for a read-only command; for a
bidirectional command `-1` when there is no AHS, and otherwise the
`read_length` of the first read-length header among the headers of the chain
that the walk visits (the first one, and each later one that starts before
`ahssize`; the `k`-th header is `ahs_step` after the one before, which is
`3 + ahslength` rounded up to a multiple of 4), or `-1` when none of them has
that type. -/
theorem cmnd_read_size_ahs_spec (rlength_type : Nat) (cmnd : iscsi_cmnd)
    (ahs : Option (Nat → iscsi_ahs_hdr)) (ahssize fuel : Nat)
    (hsz : ahssize + 65540 < 2 ^ 32) (hfuel : ahssize / 4 + 1 ≤ fuel) :
    ∃ r : Int,
      cmnd_read_size_ahs rlength_type cmnd ahs ahssize fuel = some r ∧
      (has_flag cmnd.pdu.flags ISCSI_CMD_READ = false → r = 0) ∧
      (has_flag cmnd.pdu.flags ISCSI_CMD_READ = true →
        has_flag cmnd.pdu.flags ISCSI_CMD_WRITE = false → r = to_s32 cmnd.pdu.data_length) ∧
      (has_flag cmnd.pdu.flags ISCSI_CMD_READ = true →
        has_flag cmnd.pdu.flags ISCSI_CMD_WRITE = true → ahs = Option.none → r = -1) ∧
      (has_flag cmnd.pdu.flags ISCSI_CMD_READ = true →
        has_flag cmnd.pdu.flags ISCSI_CMD_WRITE = true →
        ∀ buf, ahs = some buf →
          (∀ m, (m = 0 ∨ ahs_offset buf m < ahssize) →
            (buf (ahs_offset buf m)).ahstype = rlength_type →
            (∀ j, j < m → (buf (ahs_offset buf j)).ahstype ≠ rlength_type) →
            r = to_s32 (buf (ahs_offset buf m)).read_length) ∧
          ((∀ m, (m = 0 ∨ ahs_offset buf m < ahssize) →
            (buf (ahs_offset buf m)).ahstype ≠ rlength_type) → r = -1)) ∧
      (∀ h : iscsi_ahs_hdr, ahs_step h % 4 = 0 ∧ 3 + h.ahslength % 2 ^ 16 ≤ ahs_step h ∧
        ahs_step h < 3 + h.ahslength % 2 ^ 16 + 4) := by
  have hsteps : ∀ h : iscsi_ahs_hdr, ahs_step h % 4 = 0 ∧
      3 + h.ahslength % 2 ^ 16 ≤ ahs_step h ∧ ahs_step h < 3 + h.ahslength % 2 ^ 16 + 4 :=
    fun h => ⟨(ahs_step_bounds h).2.2.1, (ahs_step_bounds h).2.2.2.1,
      (ahs_step_bounds h).2.2.2.2.1⟩
  unfold cmnd_read_size_ahs
  by_cases hr : has_flag cmnd.pdu.flags ISCSI_CMD_READ = true
  · rw [if_pos hr]
    by_cases hw : has_flag cmnd.pdu.flags ISCSI_CMD_WRITE = true
    · rw [if_neg (by simp [hw])]
      rcases ahs with _ | buf
      · refine ⟨-1, rfl, ?_, ?_, fun _ _ _ => rfl, ?_, hsteps⟩
        · intro h
          rw [hr] at h
          exact absurd h (by decide)
        · intro _ h
          rw [hw] at h
          exact absurd h (by decide)
        · intro _ _ buf hbuf
          exact absurd hbuf (by simp)
      · obtain ⟨r, hres, h1, h2⟩ := cmnd_read_size_loop_spec rlength_type buf ahssize hsz
          fuel 0 (Nat.zero_le _) (by show ahssize < 0 + 4 * fuel; omega)
        refine ⟨r, hres, ?_, ?_, ?_, ?_, hsteps⟩
        · intro h
          rw [hr] at h
          exact absurd h (by decide)
        · intro _ h
          rw [hw] at h
          exact absurd h (by decide)
        · intro _ _ h
          exact absurd h (by simp)
        · intro _ _ buf2 hbuf
          have hb : buf = buf2 := Option.some.inj hbuf
          rw [← hb]
          exact ⟨fun m hvis ht hfirst =>
              h1 m (Nat.zero_le _) hvis ht (fun j _ hj => hfirst j hj),
            fun hnone => h2 (fun m _ hvis => hnone m hvis)⟩
    · rw [if_pos (by simp [hw])]
      refine ⟨_, rfl, ?_, fun _ _ => rfl, ?_, ?_, hsteps⟩
      · intro h
        rw [hr] at h
        exact absurd h (by decide)
      · intro _ h
        exact absurd h hw
      · intro _ h
        exact absurd h hw
  · rw [if_neg hr]
    exact ⟨0, rfl, fun _ => rfl, fun h => absurd h hr, fun h => absurd h hr,
      fun h => absurd h hr, hsteps⟩

/-- C34 at a concrete input: a bidirectional command whose AHS buffer of 16
bytes holds an extended-CDB header and then, 8 bytes on, a read-length header
with `read_length = 4096`; the result is 4096. -/
theorem cmnd_read_size_ahs_spec_witness :
    (16 : Nat) + 65540 < 2 ^ 32 ∧ 16 / 4 + 1 ≤ 5 ∧ ahs_offset bidi_ahs 1 = 8 ∧
    cmnd_read_size_ahs 2 { pdu := { flags := ISCSI_CMD_READ ||| ISCSI_CMD_WRITE } }
      (some bidi_ahs) 16 5 = some 4096 := by
  refine ⟨by decide, by decide, by decide, ?_⟩
  obtain ⟨r, hres, _, _, _, h4, _⟩ := cmnd_read_size_ahs_spec 2
    { pdu := { flags := ISCSI_CMD_READ ||| ISCSI_CMD_WRITE } } (some bidi_ahs) 16 5
    (by decide) (by decide)
  have hr := (h4 (by decide) (by decide) bidi_ahs rfl).1 1 (Or.inr (by decide)) (by decide)
    (by
      intro j hj
      have hj0 : j = 0 := by omega
      rw [hj0]
      decide)
  rw [hres, hr]
  decide

/-! ## Data-In chains: numbering and tiling -/

/-- The DataSN, buffer offset and data length of the last PDU of the chain. -/
theorem send_data_rsp_last_slice (req : iscsi_cmnd) (status : Nat) (send_status : Bool)
    (offset sn size : Nat) :
    (send_data_rsp_last req status send_status offset sn size).opcode = ISCSI_OP_SCSI_DATA_IN ∧
    (send_data_rsp_last req status send_status offset sn size).data_sn = sn ∧
    (send_data_rsp_last req status send_status offset sn size).buffer_offset = offset ∧
    (send_data_rsp_last req status send_status offset sn size).datasize = size ∧
    (send_data_rsp_last req status send_status offset sn size).bufflen = req.bufflen := by
  unfold send_data_rsp_last
  dsimp only
  split_ifs <;> exact ⟨rfl, rfl, rfl, rfl, rfl⟩

/-- The number of PDUs `(size - 1) / L + 1` is `max(1, ceil(size / L))`. -/
theorem pred_div_succ_eq_max (size L : Nat) (hL : 0 < L) :
    (size - 1) / L + 1 = max 1 ((size + L - 1) / L) := by
  rcases Nat.eq_zero_or_pos size with h | h
  · subst h
    have : (0 + L - 1) / L = 0 := Nat.div_eq_of_lt (by omega)
    rw [this]
    simp
  · have h1 : size + L - 1 = size - 1 + L := by omega
    rw [h1, Nat.add_div_right _ hL]
    exact (max_eq_right (Nat.succ_le_succ (Nat.zero_le _))).symm

/-- C37: for `L = max_xmit_data_length > 0`, `send_data_rsp` returns after
`max(1, ceil(size / L))` Data-In PDUs, where `size = min(read_size, bufflen)`;
the PDU number `i` has DataSN `i`, buffer offset `i * L` and data length
`min(L, size - i * L)`, so the PDUs cover `[0, size)` contiguously and in order
(each but the last is followed by the PDU at `buffer_offset + data length`,
and the last ends at `size`), and every PDU satisfies `buffer_offset <= bufflen`
and `buffer_offset + data length <= bufflen`, the assertions of
`cmnd_tx_start`. -/
theorem send_data_rsp_tiles (sess : iscsi_sess_params) (req : iscsi_cmnd) (status : Nat)
    (send_status : Bool) (hL : 0 < sess.max_xmit_data_length)
    (hsize : min req.read_size req.bufflen < 2 ^ 32) :
    ∃ chain, send_data_rsp sess req status send_status = some chain ∧
      chain.length =
        max 1 ((min req.read_size req.bufflen + sess.max_xmit_data_length - 1) /
          sess.max_xmit_data_length) ∧
      chain.map (fun p => (p.data_sn, p.buffer_offset, p.datasize)) =
        (List.range chain.length).map (fun i =>
          (i, i * sess.max_xmit_data_length,
            min sess.max_xmit_data_length
              (min req.read_size req.bufflen - i * sess.max_xmit_data_length))) ∧
      (chain.map (fun p => p.datasize)).sum = min req.read_size req.bufflen ∧
      (∀ i, i + 1 < chain.length →
        i * sess.max_xmit_data_length +
            min sess.max_xmit_data_length
              (min req.read_size req.bufflen - i * sess.max_xmit_data_length) =
          (i + 1) * sess.max_xmit_data_length) ∧
      (chain.length - 1) * sess.max_xmit_data_length +
          min sess.max_xmit_data_length
            (min req.read_size req.bufflen - (chain.length - 1) * sess.max_xmit_data_length) =
        min req.read_size req.bufflen ∧
      ∀ p ∈ chain, p.opcode = ISCSI_OP_SCSI_DATA_IN ∧ p.bufflen = req.bufflen ∧
        p.buffer_offset ≤ p.bufflen ∧ p.buffer_offset + p.datasize ≤ p.bufflen := by
  have hspec := send_data_rsp_spec sess req status send_status hL hsize
  have hle : min req.read_size req.bufflen ≤ req.bufflen := Nat.min_le_right _ _
  generalize min req.read_size req.bufflen = size at *
  generalize sess.max_xmit_data_length = L at *
  have hlast := send_data_rsp_last_slice req status send_status ((size - 1) / L * L)
    ((size - 1) / L) (size - (size - 1) / L * L)
  have hkL : (size - 1) / L * L ≤ size - 1 := Nat.div_mul_le_self _ _
  have hk1 : size - 1 < ((size - 1) / L + 1) * L := by
    have := Nat.lt_div_mul_add (a := size - 1) hL
    rw [Nat.add_mul, one_mul]
    exact this
  have hfull : ∀ i, i < (size - 1) / L → (i + 1) * L ≤ size - 1 ∧ min L (size - i * L) = L := by
    intro i hi
    have h1 : (i + 1) * L ≤ (size - 1) / L * L := Nat.mul_le_mul_right L hi
    have h2 : (i + 1) * L = i * L + L := by rw [Nat.add_mul, one_mul]
    refine ⟨by omega, ?_⟩
    rw [Nat.min_def]
    split_ifs <;> omega
  have hlastmin : min L (size - (size - 1) / L * L) = size - (size - 1) / L * L := by
    rw [Nat.add_mul, one_mul] at hk1
    rw [Nat.min_def]
    split_ifs <;> omega
  have hlen : ((List.range ((size - 1) / L)).map (fun i => data_in_rsp req (i * L) i L) ++
      [send_data_rsp_last req status send_status ((size - 1) / L * L) ((size - 1) / L)
        (size - (size - 1) / L * L)]).length = (size - 1) / L + 1 := by
    simp
  refine ⟨_, hspec, ?_, ?_, ?_, ?_, ?_, ?_⟩
  · rw [hlen]
    exact pred_div_succ_eq_max size L hL
  · rw [hlen, List.range_succ, List.map_append, List.map_append, List.map_map]
    congr 1
    · apply List.map_congr_left
      intro i hi
      rw [List.mem_range] at hi
      show (i, i * L, L) = (i, i * L, min L (size - i * L))
      rw [(hfull i hi).2]
    · simp only [List.map_cons, List.map_nil, hlast.2.1, hlast.2.2.1, hlast.2.2.2.1, hlastmin]
  · rw [List.map_append, List.map_map, List.sum_append]
    have hconst : (List.range ((size - 1) / L)).map
        ((fun p => p.datasize) ∘ fun i => data_in_rsp req (i * L) i L) =
        List.replicate ((size - 1) / L) L := by
      rw [List.eq_replicate_iff]
      refine ⟨by simp, ?_⟩
      intro b hb
      obtain ⟨i, _, hi⟩ := List.mem_map.mp hb
      rw [← hi]
      rfl
    rw [hconst, List.sum_replicate]
    simp only [List.map_cons, List.map_nil, List.sum_cons, List.sum_nil, hlast.2.2.2.1,
      smul_eq_mul]
    omega
  · intro i hi
    rw [hlen] at hi
    rw [(hfull i (by omega)).2, Nat.add_mul, one_mul]
  · rw [hlen, Nat.add_sub_cancel, hlastmin]
    omega
  · intro p hp
    rcases List.mem_append.mp hp with hp | hp
    · obtain ⟨i, hi, hpi⟩ := List.mem_map.mp hp
      rw [List.mem_range] at hi
      rw [← hpi]
      have := (hfull i hi).1
      have h2 : (i + 1) * L = i * L + L := by rw [Nat.add_mul, one_mul]
      refine ⟨rfl, rfl, ?_, ?_⟩
      · show i * L ≤ req.bufflen
        omega
      · show i * L + L ≤ req.bufflen
        omega
    · rw [List.mem_singleton] at hp
      rw [hp]
      refine ⟨hlast.1, hlast.2.2.2.2, ?_, ?_⟩
      · rw [hlast.2.2.1, hlast.2.2.2.2]
        omega
      · rw [hlast.2.2.1, hlast.2.2.2.1, hlast.2.2.2.2]
        omega

/-- A read of 20000 bytes with 8192-byte PDUs: three PDUs at the offsets 0,
8192 and 16384 with 8192, 8192 and 3616 bytes. -/
theorem send_data_rsp_tiles_witness :
    ∃ chain, send_data_rsp xmit_8192 { read_cmd 7 20000 with bufflen := 20000 } 0 true =
        some chain ∧
      chain.length = 3 ∧
      chain.map (fun p => (p.data_sn, p.buffer_offset, p.datasize)) =
        [(0, 0, 8192), (1, 8192, 8192), (2, 16384, 3616)] := by
  obtain ⟨chain, h, hlen, hmap, _⟩ := send_data_rsp_tiles xmit_8192
    { read_cmd 7 20000 with bufflen := 20000 } 0 true (by decide) (by decide)
  have hl3 : chain.length = 3 := by
    rw [hlen]
    decide
  refine ⟨chain, h, hl3, ?_⟩
  rw [hmap, hl3]
  decide

/-! ## The three shapes of a response -/

/-- The function `iscsi_set_resid` writes only the flags and the residual
counts: the opcode and the status of the response are kept. -/
theorem iscsi_set_resid_opcode (req : iscsi_cmnd) (in_bufflen : Nat) (rsp : iscsi_rsp)
    (bufflen_set : Bool) :
    (iscsi_set_resid req in_bufflen rsp bufflen_set).opcode = rsp.opcode ∧
    (iscsi_set_resid req in_bufflen rsp bufflen_set).cmd_status = rsp.cmd_status := by
  have h1 : ∀ (r : Option (Nat × Nat)) (x : iscsi_rsp),
      (match r with
        | some (flag, count) => { x with flags := x.flags ||| flag, residual_count := count }
        | none => x).opcode = x.opcode ∧
      (match r with
        | some (flag, count) => { x with flags := x.flags ||| flag, residual_count := count }
        | none => x).cmd_status = x.cmd_status := by
    intro r x
    rcases r with _ | ⟨f, c⟩ <;> exact ⟨rfl, rfl⟩
  have h2 : ∀ (r : Option (Nat × Nat)) (x : iscsi_rsp),
      (match r with
        | some (flag, count) => { x with flags := x.flags ||| flag, bi_residual_count := count }
        | none => x).opcode = x.opcode ∧
      (match r with
        | some (flag, count) => { x with flags := x.flags ||| flag, bi_residual_count := count }
        | none => x).cmd_status = x.cmd_status := by
    intro r x
    rcases r with _ | ⟨f, c⟩ <;> exact ⟨rfl, rfl⟩
  unfold iscsi_set_resid
  by_cases hb : (has_flag req.pdu.flags ISCSI_CMD_READ && has_flag req.pdu.flags ISCSI_CMD_WRITE)
      = true
  · rw [if_pos hb]
    dsimp only
    exact ⟨(h2 _ _).1.trans (h1 _ _).1, (h2 _ _).2.trans (h1 _ _).2⟩
  · rw [if_neg hb]
    dsimp only
    exact h1 _ _

/-- The SCSI Response built by `create_status_rsp` has the opcode `SCSI_RSP`
and carries the status. -/
theorem create_status_rsp_opcode (req : iscsi_cmnd) (in_bufflen status : Nat)
    (sense : Option Nat) (bufflen_set : Bool) :
    (create_status_rsp req in_bufflen status sense bufflen_set).opcode = ISCSI_OP_SCSI_RSP ∧
    (create_status_rsp req in_bufflen status sense bufflen_set).cmd_status = status % 256 := by
  unfold create_status_rsp
  exact iscsi_set_resid_opcode _ _ _ _

/-- C35: for a request that is not aborted, with status to send, called in
thread context, `iscsi_xmit_response` queues (a) one SCSI Response and nothing
else when the response data length is 0; (b) the Data-In chain of
`send_data_rsp(req, status, 1)`, whose last PDU carries the STATUS flag and
the status while no earlier PDU carries a flag, and no SCSI Response, when the
data length is not 0, the status is not CHECK CONDITION and the command is not
bidirectional; (c) the Data-In chain of `send_data_rsp(req, 0, 0)`, in which
no PDU carries a flag, followed by one SCSI Response with the status, in every
other case. -/
theorem xmit_response_three_shapes (sess : iscsi_sess_params) (req : iscsi_cmnd) (cmd : scst_cmd)
    (hL : 0 < sess.max_xmit_data_length) (hat : cmd.atomic = false)
    (hab : cmd.aborted = false) (hra : req.aborted = false)
    (hss : cmd.is_send_status = true) (hrs : req.read_size < 2 ^ 32)
    (hlen : cmd.resp_data_len < 2 ^ 32) :
    (cmd.resp_data_len = 0 →
      (iscsi_xmit_response sess req cmd).map (fun r => queued_pdus r.2.2) =
        some [create_status_rsp { req with bufflen := cmd.resp_data_len } cmd.in_bufflen
          cmd.status cmd.sense false] ∧
      (create_status_rsp { req with bufflen := cmd.resp_data_len } cmd.in_bufflen
          cmd.status cmd.sense false).opcode = ISCSI_OP_SCSI_RSP) ∧
    (cmd.resp_data_len ≠ 0 →
      (cmd.status ≠ SAM_STAT_CHECK_CONDITION ∧
        req.pdu.flags &&& (ISCSI_CMD_WRITE ||| ISCSI_CMD_READ) ≠
          (ISCSI_CMD_WRITE ||| ISCSI_CMD_READ)) →
      ∃ chain last,
        send_data_rsp sess { req with bufflen := cmd.resp_data_len } cmd.status true =
          some (chain ++ [last]) ∧
        (iscsi_xmit_response sess req cmd).map (fun r => queued_pdus r.2.2) =
          some (chain ++ [last]) ∧
        (∀ p ∈ chain, p.opcode = ISCSI_OP_SCSI_DATA_IN ∧ p.flags = 0) ∧
        last.opcode = ISCSI_OP_SCSI_DATA_IN ∧
        has_flag last.flags ISCSI_FLG_FINAL = true ∧
        has_flag last.flags ISCSI_FLG_STATUS = true ∧
        last.cmd_status = cmd.status % 256) ∧
    (cmd.resp_data_len ≠ 0 →
      ¬ (cmd.status ≠ SAM_STAT_CHECK_CONDITION ∧
        req.pdu.flags &&& (ISCSI_CMD_WRITE ||| ISCSI_CMD_READ) ≠
          (ISCSI_CMD_WRITE ||| ISCSI_CMD_READ)) →
      ∃ chain,
        send_data_rsp sess { req with bufflen := cmd.resp_data_len } 0 false = some chain ∧
        (iscsi_xmit_response sess req cmd).map (fun r => queued_pdus r.2.2) =
          some (chain ++
            [create_status_rsp { req with bufflen := cmd.resp_data_len } cmd.in_bufflen
              cmd.status cmd.sense true]) ∧
        (∀ p ∈ chain, p.opcode = ISCSI_OP_SCSI_DATA_IN ∧ p.flags = 0) ∧
        (create_status_rsp { req with bufflen := cmd.resp_data_len } cmd.in_bufflen
          cmd.status cmd.sense true).opcode = ISCSI_OP_SCSI_RSP ∧
        (create_status_rsp { req with bufflen := cmd.resp_data_len } cmd.in_bufflen
          cmd.status cmd.sense true).cmd_status = cmd.status % 256) := by
  have hsz : min ({ req with bufflen := cmd.resp_data_len } : iscsi_cmnd).read_size
      ({ req with bufflen := cmd.resp_data_len } : iscsi_cmnd).bufflen < 2 ^ 32 :=
    lt_of_le_of_lt (Nat.min_le_left _ _) hrs
  have hchain : ∀ p ∈ (List.range
      ((min ({ req with bufflen := cmd.resp_data_len } : iscsi_cmnd).read_size
        ({ req with bufflen := cmd.resp_data_len } : iscsi_cmnd).bufflen - 1) /
          sess.max_xmit_data_length)).map
      (fun i => data_in_rsp { req with bufflen := cmd.resp_data_len }
        (i * sess.max_xmit_data_length) i sess.max_xmit_data_length),
      p.opcode = ISCSI_OP_SCSI_DATA_IN ∧ p.flags = 0 := by
    intro p hp
    obtain ⟨i, _, hi⟩ := List.mem_map.mp hp
    rw [← hi]
    exact ⟨rfl, rfl⟩
  have hx : iscsi_xmit_response sess req cmd =
      (let req2 : iscsi_cmnd := { req with bufflen := cmd.resp_data_len }
       let pre : List xmit_event :=
         if req.prelim_completed then [.check_convert_sense] else []
       if req2.bufflen ≠ 0 then
        if cmd.status ≠ SAM_STAT_CHECK_CONDITION ∧
            req2.pdu.flags &&& (ISCSI_CMD_WRITE ||| ISCSI_CMD_READ) ≠
              (ISCSI_CMD_WRITE ||| ISCSI_CMD_READ) then
          (send_data_rsp sess req2 cmd.status cmd.is_send_status).map
            (fun pdus => (.SCST_TGT_RES_SUCCESS, req2, pre ++ [.init_write pdus, .release req2]))
        else
          (send_data_rsp sess req2 0 false).map
            (fun pdus => (.SCST_TGT_RES_SUCCESS, req2,
              pre ++ [.init_write pdus] ++
                (if cmd.is_send_status then
                  [.init_write [create_status_rsp req2 cmd.in_bufflen cmd.status cmd.sense true]]
                else []) ++ [.release req2]))
       else
        some (.SCST_TGT_RES_SUCCESS, req2,
          pre ++ [.init_write [create_status_rsp req2 cmd.in_bufflen cmd.status cmd.sense false],
            .release req2])) := by
    unfold iscsi_xmit_response
    simp only [hat, hab, hra, hss, Bool.false_eq_true, if_false, if_true, and_false,
      Bool.true_eq_false]
  have hq1 : ∀ (pre : List xmit_event) (pdus : List iscsi_rsp) (r : iscsi_cmnd),
      (pre = [] ∨ pre = [.check_convert_sense]) →
      queued_pdus (pre ++ [.init_write pdus, .release r]) = pdus := by
    intro pre pdus r hpre
    rcases hpre with h | h <;> rw [h] <;> simp [queued_pdus]
  have hq2 : ∀ (pre : List xmit_event) (pdus : List iscsi_rsp) (rsp : iscsi_rsp) (r : iscsi_cmnd),
      (pre = [] ∨ pre = [.check_convert_sense]) →
      queued_pdus (pre ++ [.init_write pdus] ++ [.init_write [rsp]] ++ [.release r]) =
        pdus ++ [rsp] := by
    intro pre pdus rsp r hpre
    rcases hpre with h | h <;> rw [h] <;> simp [queued_pdus]
  have hpre : (if req.prelim_completed = true then [xmit_event.check_convert_sense] else []) = [] ∨
      (if req.prelim_completed = true then [xmit_event.check_convert_sense] else []) =
        [.check_convert_sense] := by
    split_ifs
    · exact Or.inr rfl
    · exact Or.inl rfl
  refine ⟨fun h0 => ?_, fun hne hcond => ?_, fun hne hcond => ?_⟩
  · refine ⟨?_, (create_status_rsp_opcode _ _ _ _ _).1⟩
    rw [hx]
    dsimp only
    rw [if_neg (by simp [h0])]
    simp only [Option.map_some']
    rw [hq1 _ _ _ hpre]
  · have hspec := send_data_rsp_spec sess { req with bufflen := cmd.resp_data_len } cmd.status
      true hL hsz
    have hlast := send_data_rsp_last_slice { req with bufflen := cmd.resp_data_len } cmd.status
      true
      ((min ({ req with bufflen := cmd.resp_data_len } : iscsi_cmnd).read_size
        ({ req with bufflen := cmd.resp_data_len } : iscsi_cmnd).bufflen - 1) /
          sess.max_xmit_data_length * sess.max_xmit_data_length)
      ((min ({ req with bufflen := cmd.resp_data_len } : iscsi_cmnd).read_size
        ({ req with bufflen := cmd.resp_data_len } : iscsi_cmnd).bufflen - 1) /
          sess.max_xmit_data_length)
      (min ({ req with bufflen := cmd.resp_data_len } : iscsi_cmnd).read_size
        ({ req with bufflen := cmd.resp_data_len } : iscsi_cmnd).bufflen -
        (min ({ req with bufflen := cmd.resp_data_len } : iscsi_cmnd).read_size
          ({ req with bufflen := cmd.resp_data_len } : iscsi_cmnd).bufflen - 1) /
            sess.max_xmit_data_length * sess.max_xmit_data_length)
    have hflags := send_data_rsp_last_flags { req with bufflen := cmd.resp_data_len } cmd.status
      ((min ({ req with bufflen := cmd.resp_data_len } : iscsi_cmnd).read_size
        ({ req with bufflen := cmd.resp_data_len } : iscsi_cmnd).bufflen - 1) /
          sess.max_xmit_data_length * sess.max_xmit_data_length)
      ((min ({ req with bufflen := cmd.resp_data_len } : iscsi_cmnd).read_size
        ({ req with bufflen := cmd.resp_data_len } : iscsi_cmnd).bufflen - 1) /
          sess.max_xmit_data_length)
      (min ({ req with bufflen := cmd.resp_data_len } : iscsi_cmnd).read_size
        ({ req with bufflen := cmd.resp_data_len } : iscsi_cmnd).bufflen -
        (min ({ req with bufflen := cmd.resp_data_len } : iscsi_cmnd).read_size
          ({ req with bufflen := cmd.resp_data_len } : iscsi_cmnd).bufflen - 1) /
            sess.max_xmit_data_length * sess.max_xmit_data_length) hrs hlen
    refine ⟨_, _, hspec, ?_, hchain, hlast.1, hflags.1, hflags.2.1, hflags.2.2.1⟩
    rw [hx]
    dsimp only
    rw [if_pos hne, if_pos hcond, hss, hspec]
    simp only [Option.map_some']
    rw [hq1 _ _ _ hpre]
  · have hspec := send_data_rsp_spec sess { req with bufflen := cmd.resp_data_len } 0 false hL hsz
    refine ⟨_, hspec, ?_, ?_, (create_status_rsp_opcode _ _ _ _ _).1,
      (create_status_rsp_opcode _ _ _ _ _).2⟩
    · rw [hx]
      dsimp only
      rw [if_pos hne, if_neg hcond, hspec]
      simp only [Option.map_some', hss, if_true]
      rw [hq2 _ _ _ _ hpre]
    · intro p hp
      rcases List.mem_append.mp hp with hp | hp
      · exact hchain p hp
      · rw [List.mem_singleton] at hp
        rw [hp]
        exact ⟨rfl, rfl⟩

/-- A read command whose response has no data and status GOOD gets one SCSI
Response; with 500 bytes of data and status GOOD it gets one Data-In PDU that
carries the status. -/
theorem xmit_response_three_shapes_witness :
    (iscsi_xmit_response xmit_8192 (read_cmd 1 512) { is_send_status := true }).map
        (fun r => (queued_pdus r.2.2).map (fun p => p.opcode)) = some [ISCSI_OP_SCSI_RSP] ∧
    ∃ chain last,
      (iscsi_xmit_response xmit_8192 (read_cmd 1 512)
          { is_send_status := true, resp_data_len := 500 }).map
        (fun r => queued_pdus r.2.2) = some (chain ++ [last]) ∧
      has_flag last.flags ISCSI_FLG_STATUS = true := by
  have h := xmit_response_three_shapes xmit_8192 (read_cmd 1 512) { is_send_status := true }
    (by decide) rfl rfl rfl rfl (by decide) (by decide)
  have h2 := xmit_response_three_shapes xmit_8192 (read_cmd 1 512)
    { is_send_status := true, resp_data_len := 500 } (by decide) rfl rfl rfl rfl (by decide)
    (by decide)
  constructor
  · have ha := h.1 rfl
    rw [Option.map_eq_some'] at ha ⊢
    obtain ⟨⟨r, hr, hq⟩, hop⟩ := ha
    refine ⟨r, hr, ?_⟩
    rw [hq]
    simp only [List.map_cons, List.map_nil, hop]
  · obtain ⟨chain, last, _, hq, _, _, _, hst, _⟩ := h2.2.1 (by decide) ⟨by decide, by decide⟩
    exact ⟨chain, last, hq, hst⟩

/-! ## The R2T counters of an accepted write -/

/-- The function `cmnd_insert_data_wait_hash` leaves the R2T counters of the
command and the negotiated parameters of the session as they are. -/
theorem insert_data_wait_hash_keeps_r2t (session : iscsi_session) (cmnd : iscsi_cmnd) :
    (cmnd_insert_data_wait_hash session cmnd).2.1.r2t_len_to_receive = cmnd.r2t_len_to_receive ∧
    (cmnd_insert_data_wait_hash session cmnd).2.1.outstanding_r2t = cmnd.outstanding_r2t ∧
    (cmnd_insert_data_wait_hash session cmnd).1.sess_params = session.sess_params := by
  unfold cmnd_insert_data_wait_hash
  by_cases hh : cmnd.hashed = true
  · rw [if_pos hh]
    exact ⟨rfl, rfl, rfl⟩
  · rw [if_neg hh]
    dsimp only
    by_cases hitt : cmnd.pdu.itt = ISCSI_RESERVED_TAG
    · rw [if_pos hitt]
      exact ⟨rfl, rfl, rfl⟩
    · rw [if_neg hitt]
      cases cmnd_find_data_wait_hash (get_next_ttt session).2 cmnd.pdu.itt with
      | none => exact ⟨rfl, rfl, rfl⟩
      | some x => exact ⟨rfl, rfl, rfl⟩

/-- One pass of the loop of `send_r2t` keeps `r2t_len_to_receive` and does not
raise `r2t_len_to_send`. -/
theorem send_r2t_body_len (burst : Nat) (req : iscsi_cmnd) (offset : Nat) :
    (send_r2t_body burst req offset).1.r2t_len_to_receive = req.r2t_len_to_receive ∧
    (send_r2t_body burst req offset).1.r2t_len_to_send ≤ req.r2t_len_to_send := by
  unfold send_r2t_body
  dsimp only
  refine ⟨rfl, ?_⟩
  split_ifs
  · exact Nat.sub_le _ _
  · exact Nat.zero_le _

/-- The loop of `send_r2t` keeps `r2t_len_to_receive` and does not raise
`r2t_len_to_send`. -/
theorem send_r2t_loop_len (m burst : Nat) (fuel : Nat) (req : iscsi_cmnd) (offset : Nat) :
    (send_r2t_loop m burst fuel req offset).1.r2t_len_to_receive = req.r2t_len_to_receive ∧
    (send_r2t_loop m burst fuel req offset).1.r2t_len_to_send ≤ req.r2t_len_to_send := by
  induction fuel generalizing req offset with
  | zero => exact send_r2t_body_len burst req offset
  | succ n ih =>
    have hb := send_r2t_body_len burst req offset
    unfold send_r2t_loop
    dsimp only
    split_ifs
    · have h := ih (send_r2t_body burst req offset).1 (send_r2t_body burst req offset).2.1
      exact ⟨h.1.trans hb.1, le_trans h.2 hb.2⟩
    · exact hb

/-- The function `send_r2t` keeps `r2t_len_to_receive` and does not raise
`r2t_len_to_send`. -/
theorem send_r2t_len (sess : iscsi_sess_params) (req : iscsi_cmnd) :
    (send_r2t sess req).1.r2t_len_to_receive = req.r2t_len_to_receive ∧
    (send_r2t sess req).1.r2t_len_to_send ≤ req.r2t_len_to_send := by
  unfold send_r2t
  split_ifs
  · exact ⟨rfl, le_refl _⟩
  · exact send_r2t_loop_len _ _ _ _ _

theorem ite_pair_mid {α β γ : Type} (D P : Prop) [Decidable D] [Decidable P] (a : α) (X R : β)
    (c1 c2 c3 : γ) :
    (if D then (if P then (a, X, c1) else (a, R, c2)) else (a, R, c3)).2.1 =
      if D ∧ P then X else R := by
  by_cases hd : D
  · by_cases hp : P
    · rw [if_pos hd, if_pos hp, if_pos ⟨hd, hp⟩]
    · rw [if_pos hd, if_neg hp, if_neg (fun h => hp h.2)]
  · rw [if_neg hd, if_neg (fun h => hd h.1)]

theorem ite_pair_mid_prop {α β γ : Type} (D P : Prop) [Decidable D] [Decidable P] (a : α)
    (X R : β) (c1 c2 c3 : γ) (Q : β → Prop) (hX : Q X) (hR : Q R) :
    Q (if D then (if P then (a, X, c1) else (a, R, c2)) else (a, R, c3)).2.1 := by
  rw [ite_pair_mid]
  split_ifs
  · exact hX
  · exact hR

/-- The assignments of `cmnd_rx_continue` in `u32` arithmetic: for every write
command that `cmnd_rx_continue` accepts (not preliminarily completed, the
three checks of the negotiated parameters passed, inserted into the data-wait
hash), they give the request `req_set` with `r2t_len_to_receive = sub32
data_length datasize`, the difference modulo `2 ^ 32` (the difference itself
only when the immediate data does not exceed `data_length`, see
`sub32_of_le`); without the FINAL bit `outstanding_r2t = 1` and `r2t_len_to_send =
r2t_len_to_receive - min(first_burst_length - datasize, r2t_len_to_receive)`;
with the FINAL bit `r2t_len_to_send = r2t_len_to_receive` and
`outstanding_r2t` untouched; in both cases `r2t_len_to_send <=
r2t_len_to_receive`. The request returned is `req_set`, or, when immediate
data is being received and R2Ts are still to be sent, what `send_r2t` makes
of `req_set`; it also has that `r2t_len_to_receive` and `r2t_len_to_send <=
r2t_len_to_receive`. -/
theorem cmnd_rx_continue_sets_r2t_len (session : iscsi_session) (req : iscsi_cmnd)
    (dir : scst_data_direction) (scst_prelim_completed : Bool) (prepare_res : Int)
    (hpc : scst_prelim_completed = false) (hfl : prelim_compl_flags_set req = false)
    (hw : dir.is_write = true)
    (h1 : (session.sess_params.initial_r2t && !has_final req.pdu) = false)
    (h2 : (!session.sess_params.immediate_data && decide (req.pdu.datasize ≠ 0)) = false)
    (h3 : req.pdu.datasize ≤ session.sess_params.first_burst_length)
    (hins : (cmnd_insert_data_wait_hash session
      { req with r2t_len_to_receive := sub32 req.pdu.data_length req.pdu.datasize }).2.2 = 0) :
    ∃ req_set : iscsi_cmnd,
      req_set.r2t_len_to_receive = sub32 req.pdu.data_length req.pdu.datasize ∧
      (has_final req.pdu = false →
        req_set.outstanding_r2t = 1 ∧
        req_set.r2t_len_to_send =
          sub32 req.pdu.data_length req.pdu.datasize -
            min (sub32 session.sess_params.first_burst_length req.pdu.datasize)
              (sub32 req.pdu.data_length req.pdu.datasize)) ∧
      (has_final req.pdu = true →
        req_set.r2t_len_to_send = sub32 req.pdu.data_length req.pdu.datasize ∧
        req_set.outstanding_r2t = req.outstanding_r2t) ∧
      req_set.r2t_len_to_send ≤ req_set.r2t_len_to_receive ∧
      (cmnd_rx_continue session req dir scst_prelim_completed prepare_res).2.1 =
        (if req.pdu.datasize ≠ 0 ∧ prepare_res = 0 ∧ req_set.r2t_len_to_send ≠ 0 then
          (send_r2t session.sess_params req_set).1
        else req_set) ∧
      (cmnd_rx_continue session req dir scst_prelim_completed prepare_res).2.1.r2t_len_to_receive =
        sub32 req.pdu.data_length req.pdu.datasize ∧
      (cmnd_rx_continue session req dir scst_prelim_completed prepare_res).2.1.r2t_len_to_send ≤
        (cmnd_rx_continue session req dir scst_prelim_completed
          prepare_res).2.1.r2t_len_to_receive := by
  have hk := insert_data_wait_hash_keeps_r2t session
    { req with r2t_len_to_receive := sub32 req.pdu.data_length req.pdu.datasize }
  have hkp := (insert_data_wait_hash_keeps session
    { req with r2t_len_to_receive := sub32 req.pdu.data_length req.pdu.datasize }).1
  have hstart : (cmnd_rx_continue session req dir scst_prelim_completed prepare_res) =
      (let ins := cmnd_insert_data_wait_hash session
          { req with r2t_len_to_receive := sub32 req.pdu.data_length req.pdu.datasize }
       let req2 := ins.2.1
       let req3 := if (!has_final req.pdu) = true then
            { req2 with
                outstanding_r2t := 1,
                r2t_len_to_send := req2.r2t_len_to_receive -
                  min (sub32 session.sess_params.first_burst_length req2.pdu.datasize)
                    req2.r2t_len_to_receive }
          else { req2 with r2t_len_to_send := req2.r2t_len_to_receive }
       let req4 := { req3 with on_write_timeout_list := true }
       if req4.pdu.datasize ≠ 0 then
          if prepare_res = 0 ∧ req4.r2t_len_to_send ≠ 0 then
            ((ins.1, (send_r2t ins.1.sess_params req4).1, prepare_res,
              prepare_recv_events prepare_res ++
                r2t_events (send_r2t ins.1.sess_params req4).2) :
                iscsi_session × iscsi_cmnd × Int × List rx_event)
          else (ins.1, req4, prepare_res, prepare_recv_events prepare_res)
        else (ins.1, req4, 0, [])) := by
    unfold cmnd_rx_continue
    rw [if_neg (by simp [hpc, hfl]), if_pos hw]
    dsimp only
    rw [if_neg (by rw [h1]; decide), if_neg (by rw [h2]; decide), if_neg (by omega),
      if_neg (by rw [hins]; decide)]
  rw [hstart]
  clear hstart hins
  generalize cmnd_insert_data_wait_hash session
    { req with r2t_len_to_receive := sub32 req.pdu.data_length req.pdu.datasize } = ins
    at hk hkp
  obtain ⟨hk1, hk2, hk3⟩ := hk
  have hk1 : ins.2.1.r2t_len_to_receive = sub32 req.pdu.data_length req.pdu.datasize := hk1
  have hk2 : ins.2.1.outstanding_r2t = req.outstanding_r2t := hk2
  have hkp : ins.2.1.pdu = req.pdu := hkp
  dsimp only
  rw [hk3]
  by_cases hf : has_final req.pdu = true
  · have hnf : ¬ (!has_final req.pdu) = true := by simp [hf]
    rw [if_neg hnf]
    refine ⟨{ ins.2.1 with
        r2t_len_to_send := ins.2.1.r2t_len_to_receive,
        on_write_timeout_list := true }, hk1, fun h => ?_, fun _ => ⟨hk1, hk2⟩,
      le_refl _, ?_, ?_, ?_⟩
    · rw [hf] at h
      exact absurd h (by decide)
    · rw [show req.pdu.datasize = ins.2.1.pdu.datasize from by rw [hkp]]
      apply ite_pair_mid
    · refine ite_pair_mid_prop _ _ _ _ _ _ _ _
        (fun c : iscsi_cmnd => c.r2t_len_to_receive = sub32 req.pdu.data_length req.pdu.datasize)
        ?_ ?_
      · beta_reduce
        exact ((send_r2t_len _ _).1).trans hk1
      · exact hk1
    · refine ite_pair_mid_prop _ _ _ _ _ _ _ _
        (fun c : iscsi_cmnd => c.r2t_len_to_send ≤ c.r2t_len_to_receive) ?_ ?_
      · beta_reduce
        rw [(send_r2t_len _ _).1]
        exact le_trans (send_r2t_len _ _).2 (le_refl _)
      · exact le_refl _
  · have hnf : (!has_final req.pdu) = true := by simpa using hf
    rw [if_pos hnf]
    refine ⟨{ ins.2.1 with
        outstanding_r2t := 1,
        r2t_len_to_send := ins.2.1.r2t_len_to_receive -
          min (sub32 session.sess_params.first_burst_length ins.2.1.pdu.datasize)
            ins.2.1.r2t_len_to_receive,
        on_write_timeout_list := true }, hk1, fun _ => ⟨rfl, ?_⟩,
      fun h => absurd h hf, Nat.sub_le _ _, ?_, ?_, ?_⟩
    · show ins.2.1.r2t_len_to_receive -
          min (sub32 session.sess_params.first_burst_length ins.2.1.pdu.datasize)
            ins.2.1.r2t_len_to_receive = _
      rw [hk1, hkp]
    · rw [show req.pdu.datasize = ins.2.1.pdu.datasize from by rw [hkp]]
      apply ite_pair_mid
    · refine ite_pair_mid_prop _ _ _ _ _ _ _ _
        (fun c : iscsi_cmnd => c.r2t_len_to_receive = sub32 req.pdu.data_length req.pdu.datasize)
        ?_ ?_
      · beta_reduce
        exact ((send_r2t_len _ _).1).trans hk1
      · exact hk1
    · refine ite_pair_mid_prop _ _ _ _ _ _ _ _
        (fun c : iscsi_cmnd => c.r2t_len_to_send ≤ c.r2t_len_to_receive) ?_ ?_
      · beta_reduce
        rw [(send_r2t_len _ _).1]
        exact le_trans (send_r2t_len _ _).2 (Nat.sub_le _ _)
      · exact Nat.sub_le _ _

/-- The assignments of `cmnd_rx_continue` at a concrete input: a 100-byte
write without the FINAL bit that carries 20 bytes of immediate data, on a
session with `immediate_data` and `first_burst_length = 65536`. -/
theorem cmnd_rx_continue_sets_r2t_len_witness :
    prelim_compl_flags_set (write_cmd_unsolicited 1 100 20) = false ∧
    (write_cmd_unsolicited 1 100 20).pdu.datasize ≤
      immediate_data_session.sess_params.first_burst_length ∧
    ∃ req_set : iscsi_cmnd,
      req_set.r2t_len_to_receive = sub32 (write_cmd_unsolicited 1 100 20).pdu.data_length
        (write_cmd_unsolicited 1 100 20).pdu.datasize ∧
      (has_final (write_cmd_unsolicited 1 100 20).pdu = false →
        req_set.outstanding_r2t = 1 ∧
        req_set.r2t_len_to_send =
          sub32 (write_cmd_unsolicited 1 100 20).pdu.data_length
              (write_cmd_unsolicited 1 100 20).pdu.datasize -
            min (sub32 immediate_data_session.sess_params.first_burst_length
                (write_cmd_unsolicited 1 100 20).pdu.datasize)
              (sub32 (write_cmd_unsolicited 1 100 20).pdu.data_length
                (write_cmd_unsolicited 1 100 20).pdu.datasize)) ∧
      (has_final (write_cmd_unsolicited 1 100 20).pdu = true →
        req_set.r2t_len_to_send = sub32 (write_cmd_unsolicited 1 100 20).pdu.data_length
          (write_cmd_unsolicited 1 100 20).pdu.datasize ∧
        req_set.outstanding_r2t = (write_cmd_unsolicited 1 100 20).outstanding_r2t) ∧
      req_set.r2t_len_to_send ≤ req_set.r2t_len_to_receive ∧
      (cmnd_rx_continue immediate_data_session (write_cmd_unsolicited 1 100 20)
          .write false 0).2.1 =
        (if (write_cmd_unsolicited 1 100 20).pdu.datasize ≠ 0 ∧ (0 : Int) = 0 ∧
            req_set.r2t_len_to_send ≠ 0 then
          (send_r2t immediate_data_session.sess_params req_set).1
        else req_set) ∧
      (cmnd_rx_continue immediate_data_session (write_cmd_unsolicited 1 100 20)
          .write false 0).2.1.r2t_len_to_receive =
        sub32 (write_cmd_unsolicited 1 100 20).pdu.data_length
          (write_cmd_unsolicited 1 100 20).pdu.datasize ∧
      (cmnd_rx_continue immediate_data_session (write_cmd_unsolicited 1 100 20)
          .write false 0).2.1.r2t_len_to_send ≤
        (cmnd_rx_continue immediate_data_session (write_cmd_unsolicited 1 100 20)
          .write false 0).2.1.r2t_len_to_receive :=
  ⟨by decide, by decide,
    cmnd_rx_continue_sets_r2t_len immediate_data_session (write_cmd_unsolicited 1 100 20)
      .write false 0 rfl (by decide) rfl (by decide) (by decide) (by decide) (by decide)⟩

/-- The `u32` subtraction is the difference when nothing wraps. -/
theorem sub32_of_le (a b : Nat) (ha : a < 2 ^ 32) (hb : b ≤ a) : sub32 a b = a - b := by
  unfold sub32 U32_MOD
  omega

/-- C36, evaluated at a failing input: a write command with the FINAL bit,
expected data transfer length 50 and 100 bytes of immediate data, on a session
with `immediate_data` and `first_burst_length = 65536`. None of the three
checks of `cmnd_rx_continue` rejects it and it is accepted: result `0`, the
connection not marked closed, the command not preliminarily completed and
inserted into the data-wait hash. The assignment `r2t_len_to_receive =
data_length - datasize` wraps: the value is `2 ^ 32 - 50 = 4294967246`, which
is not the difference `50 - 100`, neither as an integer nor cut off at zero,
and `r2t_len_to_send` is set from it, so that an R2T for 8192 bytes at offset
100 is sent for a command that has no data left to send. -/
theorem cmnd_rx_continue_r2t_len_wraps_past_data_length :
    (immediate_data_session.sess_params.initial_r2t &&
      !has_final (write_cmd_immediate 1 50 100).pdu) = false ∧
    (!immediate_data_session.sess_params.immediate_data &&
      decide ((write_cmd_immediate 1 50 100).pdu.datasize ≠ 0)) = false ∧
    (write_cmd_immediate 1 50 100).pdu.datasize ≤
      immediate_data_session.sess_params.first_burst_length ∧
    (cmnd_rx_continue immediate_data_session (write_cmd_immediate 1 50 100)
      .write false 0).2.2.1 = 0 ∧
    conn_closed (cmnd_rx_continue immediate_data_session (write_cmd_immediate 1 50 100)
      .write false 0).2.2.2 = false ∧
    (cmnd_rx_continue immediate_data_session (write_cmd_immediate 1 50 100)
      .write false 0).2.1.hashed = true ∧
    (cmnd_rx_continue immediate_data_session (write_cmd_immediate 1 50 100)
      .write false 0).2.1.prelim_completed = false ∧
    (cmnd_rx_continue immediate_data_session (write_cmd_immediate 1 50 100)
      .write false 0).2.1.r2t_len_to_receive = 4294967246 ∧
    (((cmnd_rx_continue immediate_data_session (write_cmd_immediate 1 50 100)
      .write false 0).2.1.r2t_len_to_receive : Nat) : Int) ≠
      (((write_cmd_immediate 1 50 100).pdu.data_length : Nat) : Int) -
        (((write_cmd_immediate 1 50 100).pdu.datasize : Nat) : Int) ∧
    (cmnd_rx_continue immediate_data_session (write_cmd_immediate 1 50 100)
      .write false 0).2.1.r2t_len_to_receive ≠
      (write_cmd_immediate 1 50 100).pdu.data_length -
        (write_cmd_immediate 1 50 100).pdu.datasize ∧
    (emitted_r2ts (cmnd_rx_continue immediate_data_session (write_cmd_immediate 1 50 100)
      .write false 0).2.2.2).map (fun h => (h.buffer_offset, h.data_length)) =
      [(100, 8192)] := by
  refine ⟨by decide, by decide, by decide, by decide, by decide, by decide, by decide, by decide,
    by decide, by decide, by decide⟩

/-! ## ABORT TASK for an immediate command -/

/-- C39: `cmnd_abort` never marks an immediate target command: whenever the
command that the Referenced Task Tag identifies on the connection has the
`IMMEDIATE` bit, the result is `-1` with `ISCSI_RESPONSE_UNKNOWN_TASK` (the
guard: RefCmdSN is not before CmdSN) or with
`ISCSI_RESPONSE_FUNCTION_REJECTED` (RefCmdSN is before CmdSN, so it differs
from CmdSN, or the LUNs differ), and no command is changed. -/
theorem cmnd_abort_immediate_target (cmnds : Nat → iscsi_cmnd) (cmd_list : List Nat)
    (req status cmnd : Nat)
    (hfound : cmnd_find_itt_get cmnds cmd_list (cmnds req).pdu.rtt = some cmnd)
    (himm : is_immediate (cmnds cmnd) = true) :
    (before (cmnds req).pdu.ref_cmd_sn (cmnds req).pdu.sn = false →
      cmnd_abort cmnds cmd_list req status = (cmnds, -1, ISCSI_RESPONSE_UNKNOWN_TASK)) ∧
    (before (cmnds req).pdu.ref_cmd_sn (cmnds req).pdu.sn = true →
      cmnd_abort cmnds cmd_list req status = (cmnds, -1, ISCSI_RESPONSE_FUNCTION_REJECTED)) ∧
    (cmnd_abort cmnds cmd_list req status).1 = cmnds ∧
    (cmnd_abort cmnds cmd_list req status).2.1 = -1 := by
  have h1 : before (cmnds req).pdu.ref_cmd_sn (cmnds req).pdu.sn = false →
      cmnd_abort cmnds cmd_list req status = (cmnds, -1, ISCSI_RESPONSE_UNKNOWN_TASK) := by
    intro hb
    unfold cmnd_abort
    simp only [hb, Bool.not_false, if_true]
  have h2 : before (cmnds req).pdu.ref_cmd_sn (cmnds req).pdu.sn = true →
      cmnd_abort cmnds cmd_list req status = (cmnds, -1, ISCSI_RESPONSE_FUNCTION_REJECTED) := by
    intro hb
    have hne : (cmnds req).pdu.ref_cmd_sn ≠ (cmnds req).pdu.sn := by
      intro he
      rw [he, before_irrefl] at hb
      exact Bool.false_ne_true hb
    unfold cmnd_abort
    simp only [hb, hfound, Bool.not_true, Bool.false_eq_true, if_false]
    split_ifs <;> first | rfl | (exfalso; tauto)
  refine ⟨h1, h2, ?_, ?_⟩
  · cases hb : before (cmnds req).pdu.ref_cmd_sn (cmnds req).pdu.sn
    · rw [h1 hb]
    · rw [h2 hb]
  · cases hb : before (cmnds req).pdu.ref_cmd_sn (cmnds req).pdu.sn
    · rw [h1 hb]
    · rw [h2 hb]

/-- An ABORT TASK for the immediate command with ITT `7`: with RefCmdSN equal
to its CmdSN `55` it is answered `UNKNOWN_TASK`, with RefCmdSN `50` it is
answered `FUNCTION_REJECTED`. -/
theorem cmnd_abort_immediate_target_witness :
    cmnd_abort (immediate_target_store (tm_req ISCSI_FUNCTION_ABORT_TASK 9 7 1 55 55 true)) [1, 0] 0
        ISCSI_RESPONSE_FUNCTION_REJECTED =
      (immediate_target_store (tm_req ISCSI_FUNCTION_ABORT_TASK 9 7 1 55 55 true), -1,
        ISCSI_RESPONSE_UNKNOWN_TASK) ∧
    cmnd_abort (immediate_target_store (tm_req ISCSI_FUNCTION_ABORT_TASK 9 7 1 55 50 true)) [1, 0] 0
        ISCSI_RESPONSE_FUNCTION_REJECTED =
      (immediate_target_store (tm_req ISCSI_FUNCTION_ABORT_TASK 9 7 1 55 50 true), -1,
        ISCSI_RESPONSE_FUNCTION_REJECTED) :=
  ⟨(cmnd_abort_immediate_target _ [1, 0] 0 _ 1 (by decide) (by decide)).1 (by decide),
   (cmnd_abort_immediate_target _ [1, 0] 0 _ 1 (by decide) (by decide)).2.1 (by decide)⟩

/-! ## Queued commands and ExpCmdSN -/

theorem add32_zero_of_lt (a : Nat) (h : a < 2 ^ 32) : add32 a 0 = a := by
  unfold add32 U32_MOD
  omega

theorem sub32_add32_right (p e j : Nat) (hj : j ≤ sub32 p e) :
    sub32 p (add32 e j) = sub32 p e - j := by
  unfold sub32 add32 U32_MOD at *
  omega

theorem sub32_pos_of_ne (a b : Nat) (ha : a < 2 ^ 32) (hb : b < 2 ^ 32) (h : a ≠ b) :
    0 < sub32 a b := by
  unfold sub32 U32_MOD
  omega

theorem sub32_left_inj (a b e : Nat) (ha : a < 2 ^ 32) (hb : b < 2 ^ 32)
    (h : sub32 a e = sub32 b e) : a = b := by
  unfold sub32 U32_MOD at h
  omega

theorem before_of_offset (p e : Nat) (hpos : 0 < sub32 p e) (hwin : sub32 p e < 2 ^ 31) :
    before e p = true := by
  rw [before_iff]
  unfold sub32 U32_MOD at *
  omega

/-- One call of `iscsi_push_cmnd` with a non-immediate command whose CmdSN has
not been pushed before keeps `pend_ok`. -/
theorem push_cmnd_pend_ok (exec : iscsi_cmnd → tm_state → tm_state) (s : iscsi_session)
    (done : List Nat) (c : iscsi_cmnd) (hinv : pend_ok s done)
    (himm : is_immediate c = false) (hsn : c.pdu.sn < 2 ^ 32) (hnew : c.pdu.sn ∉ done) :
    pend_ok (iscsi_push_cmnd exec s c).1 (done ++ [c.pdu.sn]) := by
  obtain ⟨hexp, hrng, hsorted⟩ := hinv
  have hins : ∀ q : iscsi_cmnd, q.pdu.sn = c.pdu.sn → c.pdu.sn ≠ s.exp_cmd_sn →
      ¬ before c.pdu.sn s.exp_cmd_sn = true →
      pend_ok { s with pending_list := pending_insert c.pdu.sn q s.pending_list }
        (done ++ [c.pdu.sn]) := by
    intro q hq hne hnb
    have hoff : sub32 q.pdu.sn s.exp_cmd_sn < 2 ^ 31 := by
      rw [hq]
      exact (before_eq_false_iff _ _).mp (by simpa using hnb)
    refine ⟨hexp, ?_, ?_⟩
    · intro p hp
      rcases (mem_pending_insert _ _ _ _).mp hp with rfl | hp
      · refine ⟨by rw [hq]; exact hsn, ?_, hoff, ?_⟩
        · rw [hq]
          exact sub32_pos_of_ne _ _ hsn hexp hne
        · rw [hq]
          exact List.mem_append_right _ (List.mem_singleton_self _)
      · obtain ⟨h1, h2, h3, h4⟩ := hrng p hp
        exact ⟨h1, h2, h3, List.mem_append_left _ h4⟩
    · have := pending_insert_sorted s.exp_cmd_sn q hoff s.pending_list hsorted
        (fun p hp => ⟨(hrng p hp).2.2.1, fun h => hnew (by
          have hpq : p.pdu.sn = q.pdu.sn :=
            sub32_left_inj _ _ _ (hrng p hp).1 (by rw [hq]; exact hsn) h
          rw [← hq, ← hpq]
          exact (hrng p hp).2.2.2)⟩)
      rw [hq] at this
      exact this
  unfold iscsi_push_cmnd
  rw [if_neg (by simp [himm])]
  dsimp only
  by_cases heq : c.pdu.sn = s.exp_cmd_sn
  · rw [if_pos heq]
    rw [← heq] at hrng hsorted hexp
    obtain ⟨taken, ht1, _, ht3, ht4, _, _, ht7⟩ :=
      push_drain_inv exec c.pdu.sn s.pending_list c 0 s.tm (by norm_num)
        (fun p hp => ⟨(hrng p hp).1, (hrng p hp).2.1, (hrng p hp).2.2.1⟩) hsorted
    rw [add32_zero_of_lt _ hexp] at ht1 ht3 ht7
    have hsub : ∀ p ∈ (push_drain exec s.pending_list c c.pdu.sn s.tm).2.1,
        p ∈ s.pending_list := by
      intro p hp
      rw [ht1]
      exact List.mem_append_right _ hp
    have hoff : ∀ p ∈ (push_drain exec s.pending_list c c.pdu.sn s.tm).2.1,
        sub32 p.pdu.sn (push_drain exec s.pending_list c c.pdu.sn s.tm).1 =
          sub32 p.pdu.sn c.pdu.sn - (0 + 1 + taken.length) := by
      intro p hp
      rw [ht3]
      exact sub32_add32_right _ _ _ (le_of_lt (ht7 p hp))
    refine ⟨?_, ?_, ?_⟩
    · show (push_drain exec s.pending_list c c.pdu.sn s.tm).1 < 2 ^ 32
      rw [ht3]
      exact add32_lt _ _
    · intro p hp
      have hp : p ∈ (push_drain exec s.pending_list c c.pdu.sn s.tm).2.1 := hp
      obtain ⟨h1, _, h3, h4⟩ := hrng p (hsub p hp)
      have h7 := ht7 p hp
      refine ⟨h1, ?_, ?_, List.mem_append_left _ h4⟩
      · show 0 < sub32 p.pdu.sn (push_drain exec s.pending_list c c.pdu.sn s.tm).1
        rw [hoff p hp]
        omega
      · show sub32 p.pdu.sn (push_drain exec s.pending_list c c.pdu.sn s.tm).1 < 2 ^ 31
        rw [hoff p hp]
        omega
    · show (push_drain exec s.pending_list c c.pdu.sn s.tm).2.1.Pairwise
        (fun a b => sub32 a.pdu.sn (push_drain exec s.pending_list c c.pdu.sn s.tm).1 <
          sub32 b.pdu.sn (push_drain exec s.pending_list c c.pdu.sn s.tm).1)
      have hsuf : (push_drain exec s.pending_list c c.pdu.sn s.tm).2.1.Pairwise
          (fun a b => sub32 a.pdu.sn c.pdu.sn < sub32 b.pdu.sn c.pdu.sn) := by
        rw [ht1] at hsorted
        exact (List.pairwise_append.mp hsorted).2.1
      refine hsuf.imp_of_mem ?_
      intro a b ha hb hab
      have h7a := ht7 a ha
      rw [hoff a ha, hoff b hb]
      omega
  · rw [if_neg heq]
    by_cases hb : before c.pdu.sn s.exp_cmd_sn = true
    · rw [if_pos hb]
      exact ⟨hexp, fun p hp => ⟨(hrng p hp).1, (hrng p hp).2.1, (hrng p hp).2.2.1,
        List.mem_append_left _ (hrng p hp).2.2.2⟩, hsorted⟩
    · rw [if_neg hb]
      by_cases hab : c.aborted = true
      · rw [if_pos hab]
        have h := hins { tm_clone_of c with pending := true } rfl heq hb
        exact h
      · rw [if_neg hab]
        exact hins { c with pending := true } rfl heq hb

/-- A sequence of `iscsi_push_cmnd` calls with non-immediate commands of
pairwise distinct CmdSNs, none pushed before, keeps `pend_ok`. -/
theorem push_all_pend_ok (exec : iscsi_cmnd → tm_state → tm_state) (cmds : List iscsi_cmnd) :
    ∀ (s : iscsi_session) (done : List Nat),
      pend_ok s done →
      (∀ c ∈ cmds, is_immediate c = false ∧ c.pdu.sn < 2 ^ 32) →
      cmds.Pairwise (fun a b => a.pdu.sn ≠ b.pdu.sn) →
      (∀ c ∈ cmds, c.pdu.sn ∉ done) →
      pend_ok (push_all exec s cmds).1 (done ++ cmds.map (fun c => c.pdu.sn)) := by
  induction cmds with
  | nil =>
    intro s done hinv _ _ _
    simpa [push_all] using hinv
  | cons c rest ih =>
    intro s done hinv hc hd hnew
    have hc0 := hc c (List.mem_cons_self _ _)
    rw [List.pairwise_cons] at hd
    have h1 := push_cmnd_pend_ok exec s done c hinv hc0.1 hc0.2
      (hnew c (List.mem_cons_self _ _))
    have h2 := ih (iscsi_push_cmnd exec s c).1 (done ++ [c.pdu.sn]) h1
      (fun x hx => hc x (List.mem_cons_of_mem _ hx)) hd.2
      (by
        intro x hx hmem
        rcases List.mem_append.mp hmem with hq | hq
        · exact hnew x (List.mem_cons_of_mem _ hx) hq
        · exact hd.1 x hx (List.mem_singleton.mp hq).symm)
    have hst : (push_all exec s (c :: rest)).1 =
        (push_all exec (iscsi_push_cmnd exec s c).1 rest).1 := rfl
    rw [hst, List.map_cons]
    simpa [List.append_assoc] using h2

/-- Claim C40, counterexample: the CmdSNs 12, 12, 10, 11 pushed at ExpCmdSN 10
(non-immediate SCSI commands, empty queue at the start). The second command
with CmdSN 12 is queued behind the first; when 10 and 11 have arrived the loop
takes the first 12 and stops at the second, so the queue is left holding a
command with CmdSN 12 while ExpCmdSN is 13: the queued CmdSN is before
ExpCmdSN, not after it. -/
theorem push_duplicate_cmd_sn_left_behind :
    ((push_all (fun _ t => t) { exp_cmd_sn := 10 }
      [mk_req 1 12, mk_req 1 12, mk_req 1 10, mk_req 1 11]).1.pending_list.map
        (fun p => p.pdu.sn) = [12]) ∧
    (push_all (fun _ t => t) { exp_cmd_sn := 10 }
      [mk_req 1 12, mk_req 1 12, mk_req 1 10, mk_req 1 11]).1.exp_cmd_sn = 13 ∧
    before 13 12 = false ∧ before 12 13 = true ∧
    (executed_cmnds (push_all (fun _ t => t) { exp_cmd_sn := 10 }
      [mk_req 1 12, mk_req 1 12, mk_req 1 10, mk_req 1 11]).2).map (fun p => p.pdu.sn) =
        [10, 11, 12] := by
  decide

/-- Claim C40, amended: starting from an empty `pending_list`, for every
sequence of non-immediate commands with pairwise distinct CmdSNs pushed through
`iscsi_push_cmnd`, after each call (after the first `n` calls, for every `n`)
every command on `pending_list` has a CmdSN strictly after the session's
ExpCmdSN: `before(exp_cmd_sn, cmd_sn)` holds and the two differ. -/
theorem push_all_pending_after_exp_cmd_sn (exec : iscsi_cmnd → tm_state → tm_state)
    (s : iscsi_session) (cmds : List iscsi_cmnd) (n : Nat) (hexp : s.exp_cmd_sn < 2 ^ 32)
    (hpend : s.pending_list = [])
    (hcmds : ∀ c ∈ cmds, is_immediate c = false ∧ c.pdu.sn < 2 ^ 32)
    (hdist : cmds.Pairwise (fun a b => a.pdu.sn ≠ b.pdu.sn)) :
    ∀ p ∈ (push_all exec s (cmds.take n)).1.pending_list,
      before (push_all exec s (cmds.take n)).1.exp_cmd_sn p.pdu.sn = true ∧
      p.pdu.sn ≠ (push_all exec s (cmds.take n)).1.exp_cmd_sn ∧
      0 < to_s32 (sub32 p.pdu.sn (push_all exec s (cmds.take n)).1.exp_cmd_sn) := by
  have h0 : pend_ok s [] := by
    refine ⟨hexp, ?_, ?_⟩
    · rw [hpend]
      intro p hp
      exact absurd hp (List.not_mem_nil p)
    · rw [hpend]
      exact List.Pairwise.nil
  have hinv := push_all_pend_ok exec (cmds.take n) s [] h0
    (fun c hc => hcmds c (List.mem_of_mem_take hc))
    (hdist.sublist (List.take_sublist n cmds))
    (fun _ _ h => absurd h (List.not_mem_nil _))
  intro p hp
  obtain ⟨_, h2, h3, _⟩ := hinv.2.1 p hp
  refine ⟨before_of_offset _ _ h2 h3, ?_, ?_⟩
  · intro heq
    rw [heq] at h2
    have : sub32 (push_all exec s (cmds.take n)).1.exp_cmd_sn
        (push_all exec s (cmds.take n)).1.exp_cmd_sn = 0 := by
      unfold sub32 U32_MOD
      omega
    omega
  · rw [to_s32_of_lt _ h3]
    exact_mod_cast h2

/-- Claim C40 (amended) at a concrete input: after the pushes 9, 7 at
ExpCmdSN 7 the queued command 9 is after ExpCmdSN 8. -/
theorem push_all_pending_after_exp_cmd_sn_witness :
    before (push_all (fun _ t => t) { exp_cmd_sn := 7 }
        ([mk_req 1 9, mk_req 1 7].take 2)).1.exp_cmd_sn 9 = true ∧
    9 ≠ (push_all (fun _ t => t) { exp_cmd_sn := 7 }
        ([mk_req 1 9, mk_req 1 7].take 2)).1.exp_cmd_sn ∧
    0 < to_s32 (sub32 9 (push_all (fun _ t => t) { exp_cmd_sn := 7 }
        ([mk_req 1 9, mk_req 1 7].take 2)).1.exp_cmd_sn) :=
  push_all_pending_after_exp_cmd_sn (fun _ t => t) { exp_cmd_sn := 7 }
    [mk_req 1 9, mk_req 1 7] 2 (by decide) rfl (by decide) (by decide)
    { mk_req 1 9 with pending := true } (by decide)

/-! ## The single slot for a delayed task-management response -/

/-- Claim C38, evaluated at two failing interleavings on a session with
ExpCmdSN 50. First: two immediate ABORT TASK SET requests with CmdSN 55 are
executed one after the other and both are forwarded to the SCSI mid-layer
(`tm_active = 2`, nothing queued); the first completion finds
`before(ExpCmdSN, CmdSN)` and leaves its response in `tm_rsp`; the second
completion enters `iscsi_send_task_mgmt_resp` with `tm_rsp` set, and the
assertion `sBUG_ON(sess->tm_rsp != NULL)` fires. Second: the first request is
forwarded, a TASK REASSIGN request is answered at once and its response is
delayed in `tm_rsp`; the completion of the first function then meets the same
assertion. -/
theorem tm_rsp_assertion_fires :
    ((tm_run [0, 1] ({ exp_cmd_sn := 50 }, two_tm_store ISCSI_FUNCTION_ABORT_TASK_SET)
        [.request 0 0, .request 1 0, .done .SCST_ABORT_TASK_SET 0 .SUCCESS]).map
      (fun r => (r.1.1.tm, tm_forwarded r.2, tm_written r.2))) =
      some ({ tm_active := 2, tm_sn := 55,
              tm_rsp := some (task_mgmt_rsp (two_tm_store ISCSI_FUNCTION_ABORT_TASK_SET 0)
                ISCSI_RESPONSE_FUNCTION_COMPLETE) },
            [.SCST_ABORT_TASK_SET, .SCST_ABORT_TASK_SET], []) ∧
    iscsi_task_mgmt_fn_done
      { exp_cmd_sn := 50,
        tm := { tm_active := 2, tm_sn := 55,
                tm_rsp := some (task_mgmt_rsp (two_tm_store ISCSI_FUNCTION_ABORT_TASK_SET 0)
                  ISCSI_RESPONSE_FUNCTION_COMPLETE) } }
      .SCST_ABORT_TASK_SET (two_tm_store ISCSI_FUNCTION_ABORT_TASK_SET 1) .SUCCESS =
        Option.none ∧
    (tm_run [0, 1] ({ exp_cmd_sn := 50 }, two_tm_store ISCSI_FUNCTION_ABORT_TASK_SET)
        [.request 0 0, .request 1 0, .done .SCST_ABORT_TASK_SET 0 .SUCCESS,
          .done .SCST_ABORT_TASK_SET 1 .SUCCESS]).isNone = true ∧
    ((tm_run [0, 1] ({ exp_cmd_sn := 50 }, two_tm_store ISCSI_FUNCTION_TASK_REASSIGN)
        [.request 0 0, .request 1 0]).map
      (fun r => (r.1.1.tm, tm_forwarded r.2, tm_written r.2))) =
      some ({ tm_active := 2, tm_sn := 55,
              tm_rsp := some (task_mgmt_rsp (two_tm_store ISCSI_FUNCTION_TASK_REASSIGN 1)
                ISCSI_RESPONSE_ALLEGIANCE_REASSIGNMENT_UNSUPPORTED) },
            [.SCST_ABORT_TASK_SET], []) ∧
    (tm_run [0, 1] ({ exp_cmd_sn := 50 }, two_tm_store ISCSI_FUNCTION_TASK_REASSIGN)
        [.request 0 0, .request 1 0, .done .SCST_ABORT_TASK_SET 0 .SUCCESS]).isNone = true := by
  refine ⟨by decide, by decide, by decide, by decide, by decide⟩

end IscsiScst
